import Mathlib

/-! CG-DX12-3D-GAME: collision, weapon, camera, enemies, pools and barrels

A shallow embedding of `Assessment2/Collision.h` (`AABB`, `CollisionInfo`,
`CollisionSystem`, the bounding-volume catalog), of the `GunAnimationController`,
`AnimalData` and `EnemyController` of `Assessment2/Controller.h`, of
`Assessment2/Camera.h`, of `BulletSystem::checkHit` of `Assessment2/Model.h` and of
the entity pools, the barrel handling, the melee swing, the ground detection and the
saving and loading of the pools of `Assessment2/Game.cpp`, followed by the properties
proved about them.

Conventions of the embedding:

* a C++ `float` is modelled as an exact rational number (`ℚ`): comparisons,
  `std::min` and `std::max` are exact on floats, while `+`, `-`, `*` and `/`
  are idealised (no rounding, no NaN, no infinities);
* where a property depends on the rounding of float results, the function is given a
  second time in the namespace `Rounded`, with a rounding `fl : ℚ → ℚ` applied to the
  result of every float operation and to every float literal that binary32 does not
  hold exactly: `Binary32.round` is the rounding of the machine (IEEE 754 binary32,
  round to nearest, ties to even, every operation rounded once), and `fl = id` gives
  back the exact reading;
* a C++ `int` is modelled as an `Int`; every value the weapon code computes
  from a state inside its ammo bounds stays far inside the 32-bit range;
* a method that mutates its object is a function returning the new object.
-/

/-! ## Maths.h / Collision.h -/

/-- Modelled from the spec: the `Vec3` of `Maths.h` (a header that is not part
of the sources at hand), a 3D point with components `x`, `y`, `z` and the
component-wise `+`, `-` and scalar `*` that `Collision.h` uses. -/
structure Vec3 where
  x : ℚ
  y : ℚ
  z : ℚ
deriving DecidableEq, Repr

namespace Vec3

/-- Component-wise `operator+`. -/
def add (a b : Vec3) : Vec3 := ⟨a.x + b.x, a.y + b.y, a.z + b.z⟩

/-- Component-wise `operator-`. -/
def sub (a b : Vec3) : Vec3 := ⟨a.x - b.x, a.y - b.y, a.z - b.z⟩

/-- Scaling by a scalar, `operator*(float)`. -/
def scale (a : Vec3) (k : ℚ) : Vec3 := ⟨a.x * k, a.y * k, a.z * k⟩

end Vec3

/-- The three coordinate axes. -/
inductive Axis where
  | x
  | y
  | z
deriving DecidableEq, Repr

/-- The component of a vector on an axis. -/
def Vec3.get (v : Vec3) : Axis → ℚ
  | Axis.x => v.x
  | Axis.y => v.y
  | Axis.z => v.z

/-- The negative or positive unit vector of an axis. -/
def Axis.unit (a : Axis) (negative : Bool) : Vec3 :=
  match a with
  | Axis.x => if negative then ⟨-1, 0, 0⟩ else ⟨1, 0, 0⟩
  | Axis.y => if negative then ⟨0, -1, 0⟩ else ⟨0, 1, 0⟩
  | Axis.z => if negative then ⟨0, 0, -1⟩ else ⟨0, 0, 1⟩

/-- `struct AABB { Vec3 min; Vec3 max; }`. -/
structure AABB where
  min : Vec3
  max : Vec3
deriving DecidableEq, Repr

namespace AABB

/-- `AABB::transform(position)`: the box moved by `position`. -/
def transform (b : AABB) (position : Vec3) : AABB :=
  ⟨b.min.add position, b.max.add position⟩

/-- `AABB::fromCenterExtent(center, halfExtent)`. -/
def fromCenterExtent (center halfExtent : Vec3) : AABB :=
  ⟨center.sub halfExtent, center.add halfExtent⟩

/-- A valid (non-empty) box: `min ≤ max` on each axis (spec, data model). -/
def Valid (b : AABB) : Prop :=
  b.min.x ≤ b.max.x ∧ b.min.y ≤ b.max.y ∧ b.min.z ≤ b.max.z

instance (b : AABB) : Decidable b.Valid := by
  unfold Valid; infer_instance

end AABB

/-- `struct CollisionInfo { bool collided; Vec3 normal; float depth; }`. -/
structure CollisionInfo where
  collided : Bool
  normal : Vec3
  depth : ℚ
deriving DecidableEq, Repr

/-- The per-axis penetration of the spec,
`p_axis = min(A.max, B.max) - max(A.min, B.min)`. -/
def penetration (a : Axis) (one two : AABB) : ℚ :=
  min (one.max.get a) (two.max.get a) - max (one.min.get a) (two.min.get a)

/-- The tie-break order of the spec for the resolution axis: x if `px < py`
and `px < pz`; otherwise y if `py < pz`; otherwise z. -/
def leastAxis (px py pz : ℚ) : Axis :=
  if px < py ∧ px < pz then Axis.x else if py < pz then Axis.y else Axis.z

/-- Neither box's extent on axis `a` is nested in the other's: `one` ends no later
than `two` when it starts strictly before it, and `two` ends no later than `one`
when it starts no later than `one`. -/
def NotNested (a : Axis) (one two : AABB) : Prop :=
  (one.min.get a < two.min.get a → one.max.get a ≤ two.max.get a) ∧
  (two.min.get a ≤ one.min.get a → two.max.get a ≤ one.max.get a)

instance (a : Axis) (one two : AABB) : Decidable (NotNested a one two) := by
  unfold NotNested; infer_instance

namespace CollisionSystem

/-- `CollisionSystem::checkAABB(one, two)` (Collision.h, lines 121-144). -/
def checkAABB (one two : AABB) : CollisionInfo :=
  let px := min one.max.x two.max.x - max one.min.x two.min.x
  let py := min one.max.y two.max.y - max one.min.y two.min.y
  let pz := min one.max.z two.max.z - max one.min.z two.min.z
  if px > 0 ∧ py > 0 ∧ pz > 0 then
    if px < py ∧ px < pz then
      { collided := true
        depth := px
        normal := if one.min.x < two.min.x then ⟨-1, 0, 0⟩ else ⟨1, 0, 0⟩ }
    else if py < pz then
      { collided := true
        depth := py
        normal := if one.min.y < two.min.y then ⟨0, -1, 0⟩ else ⟨0, 1, 0⟩ }
    else
      { collided := true
        depth := pz
        normal := if one.min.z < two.min.z then ⟨0, 0, -1⟩ else ⟨0, 0, 1⟩ }
  else
    { collided := false, normal := ⟨0, 0, 0⟩, depth := 0 }

/-- `CollisionSystem::resolveCollision(position, info)` (lines 146-150); the
new value of the `position` reference. -/
def resolveCollision (position : Vec3) (info : CollisionInfo) : Vec3 :=
  if info.collided then position.add (info.normal.scale info.depth) else position

/-- One axis block of `rayIntersectsAABB` (the source repeats it for x, y and
z, lines 158-178, 180-200, 202-222): `none` is `return false`, otherwise the
updated `(tmin, tmax)`. This is the exact reading (the reciprocal, the products and the
threshold are not rounded); `Rounded.CollisionSystem.slab` has the rounding. -/
def slab (o d bmin bmax : ℚ) (t : ℚ × ℚ) : Option (ℚ × ℚ) :=
  if |d| < 1 / 10000 then
    if o < bmin ∨ o > bmax then none else some t
  else
    let invD := 1 / d
    let t1 := (bmin - o) * invD
    let t2 := (bmax - o) * invD
    let lo := if t1 > t2 then t2 else t1
    let hi := if t1 > t2 then t1 else t2
    let tmin := max t.1 lo
    let tmax := min t.2 hi
    if tmin > tmax then none else some (tmin, tmax)

/-- `CollisionSystem::rayIntersectsAABB(rayOrigin, rayDir, box, maxDist)`
(lines 153-225). -/
def rayIntersectsAABB (rayOrigin rayDir : Vec3) (box : AABB) (maxDist : ℚ) : Bool :=
  match slab rayOrigin.x rayDir.x box.min.x box.max.x (0, maxDist) with
  | none => false
  | some tx =>
    match slab rayOrigin.y rayDir.y box.min.y box.max.y tx with
    | none => false
    | some ty =>
      match slab rayOrigin.z rayDir.z box.min.z box.max.z ty with
      | none => false
      | some _ => true

/-- The default value of the `maxDist` parameter, `1000.0f`. -/
def defaultMaxDist : ℚ := 1000

end CollisionSystem

/-! ## Controller.h: the weapon state machine -/

/-- `enum class GunAnimState`. -/
inductive GunAnimState where
  | IDLE
  | WALK
  | RUN
  | FIRE
  | DRYFIRE
  | RELOAD
  | EMPTY_RELOAD
  | MELEE
deriving DecidableEq, Repr

/-- What one call of `GunAnimationController::update(dt, keys, mouseButtons)` reads
from outside the controller: `dt`, the entries of `keys` it looks at (`keys['R']`,
`keys['W']`, `keys['A']`, `keys['S']`, `keys['D']`, `keys[VK_SHIFT]`),
`mouseButtons[0]` (fire) and `mouseButtons[2]` (melee), and the answer of
`instance->animationFinished()`. `AnimationInstance` lives in `Animation.h`, which is
not part of the sources at hand, so its answer is an input of the step; the instance
is not touched between the two places where `update` asks (lines 316 and 336), so one
value serves both. -/
structure GunInput where
  dt : ℚ
  keyR : Bool
  keyW : Bool
  keyA : Bool
  keyS : Bool
  keyD : Bool
  keyShift : Bool
  mouseLeft : Bool
  mouseRight : Bool
  animationFinished : Bool
deriving DecidableEq, Repr

/-- `class GunAnimationController`: its data members, without the animation name
strings (they only select which clip plays). `hasInstance` stands for
`instance != nullptr`. -/
structure GunAnimationController where
  hasInstance : Bool
  currentState : GunAnimState
  initialized : Bool
  magazineCapacity : Int
  currentMagazine : Int
  reserveAmmo : Int
  maxReserveAmmo : Int
  fireInterval : ℚ
  fireTimer : ℚ
  bulletDamage : Int
  meleeDamage : Int
  firedThisFrame : Bool
  meleedThisFrame : Bool
  reloadedThisFrame : Bool
  dryfiredThisFrame : Bool
  meleeCooldown : ℚ
  meleeCooldownTimer : ℚ
  canMelee : Bool
  prevKeyR : Bool
  prevMouseRight : Bool
  isSprinting : Bool
deriving DecidableEq, Repr

namespace GunAnimationController

open GunAnimState

/-- The default member initialisers of the class (lines 115-151, 207). -/
def new : GunAnimationController :=
  { hasInstance := false
    currentState := IDLE
    initialized := false
    magazineCapacity := 31
    currentMagazine := 31
    reserveAmmo := 186
    maxReserveAmmo := 186
    fireInterval := 1 / 5
    fireTimer := 0
    bulletDamage := 30
    meleeDamage := 10
    firedThisFrame := false
    meleedThisFrame := false
    reloadedThisFrame := false
    dryfiredThisFrame := false
    meleeCooldown := 1
    meleeCooldownTimer := 0
    canMelee := true
    prevKeyR := false
    prevMouseRight := false
    isSprinting := false }

/-- `getMagazine()`. -/
def getMagazine (s : GunAnimationController) : Int := s.currentMagazine

/-- `getReserve()`. -/
def getReserve (s : GunAnimationController) : Int := s.reserveAmmo

/-- `hasFired()`. -/
def hasFired (s : GunAnimationController) : Bool := s.firedThisFrame

/-- `hasMeleed()`. -/
def hasMeleed (s : GunAnimationController) : Bool := s.meleedThisFrame

/-- `hasReloaded()`. -/
def hasReloaded (s : GunAnimationController) : Bool := s.reloadedThisFrame

/-- `hasDryfired()`. -/
def hasDryfired (s : GunAnimationController) : Bool := s.dryfiredThisFrame

/-- `performReload()` (lines 191-204). -/
def performReload (s : GunAnimationController) : GunAnimationController :=
  if s.reserveAmmo ≤ 0 then s
  else
    let needed := if s.currentMagazine = 0 then s.magazineCapacity - 1
      else s.magazineCapacity - s.currentMagazine
    let toLoad := if s.reserveAmmo ≥ needed then needed else s.reserveAmmo
    { s with currentMagazine := s.currentMagazine + toLoad, reserveAmmo := s.reserveAmmo - toLoad }

/-- `addReserve(amount)` (lines 220-225): the returned amount and the new object. -/
def addReserve (s : GunAnimationController) (amount : Int) : Int × GunAnimationController :=
  let space := s.maxReserveAmmo - s.reserveAmmo
  let toAdd := if amount > space then space else amount
  (toAdd, { s with reserveAmmo := s.reserveAmmo + toAdd })

/-- `setAmmo(mag, res)` (lines 228-231). -/
def setAmmo (s : GunAnimationController) (mag res : Int) : GunAnimationController :=
  { s with currentMagazine := mag, reserveAmmo := res }

/-- `init(_instance)` (lines 233-280). `instanceNonNull` is `_instance != nullptr`
and `hasAnimations` is `instance->animation && !instance->animation->animations.empty()`. -/
def init (s : GunAnimationController) (instanceNonNull hasAnimations : Bool) :
    GunAnimationController :=
  { s with
    hasInstance := instanceNonNull
    currentState := IDLE
    initialized := instanceNonNull && hasAnimations
    isSprinting := false
    prevKeyR := false
    prevMouseRight := false
    currentMagazine := 31
    reserveAmmo := 186
    fireTimer := 0 }

/-- `reset()` (lines 282-290). -/
def reset (s : GunAnimationController) : GunAnimationController :=
  { s with currentMagazine := 31, reserveAmmo := 186, fireTimer := 0, currentState := IDLE }

/-- The movement state selected from the keys; the source writes this three-way
choice out at lines 349-355, 362-368 and 386-392. -/
def movementState (inp : GunInput) : GunAnimState :=
  if inp.keyShift && inp.keyW then RUN
  else if inp.keyW || inp.keyA || inp.keyS || inp.keyD then WALK
  else IDLE

/-- Lines 296-318 of `update`: the pulse flags are cleared, the timers advance, the
previous key states are stored, and a reload whose animation has finished is
performed. -/
def updateBegin (s : GunAnimationController) (inp : GunInput) : GunAnimationController :=
  let s1 := { s with
    firedThisFrame := false
    meleedThisFrame := false
    reloadedThisFrame := false
    dryfiredThisFrame := false
    fireTimer := s.fireTimer + inp.dt }
  let s2 :=
    if !s1.canMelee then
      let s1a := { s1 with meleeCooldownTimer := s1.meleeCooldownTimer + inp.dt }
      if s1a.meleeCooldownTimer ≥ s1a.meleeCooldown then { s1a with canMelee := true } else s1a
    else s1
  let s3 := { s2 with prevKeyR := inp.keyR, prevMouseRight := inp.mouseRight }
  if (s3.currentState = RELOAD ∨ s3.currentState = EMPTY_RELOAD) ∧ inp.animationFinished then
    performReload s3
  else s3

/-- Lines 320-408 of `update`: the `if` / `else if` chain (reload, melee, animation
finished, automatic fire). -/
def updateDecide (s : GunAnimationController) (inp : GunInput)
    (rJustPressed rightMouseJustPressed : Bool) : GunAnimationController :=
  if rJustPressed ∧ s.reserveAmmo > 0 ∧ s.currentMagazine < s.magazineCapacity then
    { s with
      currentState := if s.currentMagazine = 0 then EMPTY_RELOAD else RELOAD
      reloadedThisFrame := true }
  else if rightMouseJustPressed ∧ s.canMelee then
    { s with currentState := MELEE, meleedThisFrame := true, canMelee := false,
             meleeCooldownTimer := 0 }
  else if inp.animationFinished then
    if s.currentState = MELEE ∨ s.currentState = RELOAD ∨ s.currentState = EMPTY_RELOAD then
      if inp.mouseLeft ∧ s.currentMagazine > 0 then
        { s with currentState := FIRE, currentMagazine := s.currentMagazine - 1, fireTimer := 0,
                 firedThisFrame := true }
      else { s with currentState := movementState inp }
    else if s.currentState = MELEE then
      { s with currentState := movementState inp }
    else if s.currentState = FIRE ∨ s.currentState = DRYFIRE then
      if inp.mouseLeft ∧ s.currentMagazine > 0 then
        { s with currentState := FIRE, currentMagazine := s.currentMagazine - 1, fireTimer := 0,
                 firedThisFrame := true }
      else if inp.mouseLeft ∧ s.currentMagazine = 0 then
        { s with currentState := DRYFIRE, dryfiredThisFrame := true }
      else { s with currentState := movementState inp }
    else if s.currentState = IDLE ∨ s.currentState = WALK ∨ s.currentState = RUN then s
    else s
  else if s.currentState = FIRE ∧ inp.mouseLeft then
    if s.fireTimer ≥ s.fireInterval ∧ s.currentMagazine > 0 then
      { s with currentMagazine := s.currentMagazine - 1, fireTimer := 0, firedThisFrame := true }
    else s
  else s

/-- Lines 410-422 of `update`: starting to fire from IDLE / WALK / RUN. -/
def updateStartFire (s : GunAnimationController) (inp : GunInput) : GunAnimationController :=
  if (s.currentState = IDLE ∨ s.currentState = WALK ∨ s.currentState = RUN) ∧ inp.mouseLeft then
    if s.currentMagazine > 0 then
      { s with currentState := FIRE, currentMagazine := s.currentMagazine - 1, fireTimer := 0,
               firedThisFrame := true }
    else { s with currentState := DRYFIRE, dryfiredThisFrame := true }
  else s

/-- Lines 424-445 of `update`: the movement state follows the keys while fire is not
held, and `isSprinting` is set. -/
def updateMovement (s : GunAnimationController) (inp : GunInput) : GunAnimationController :=
  let s1 :=
    if (s.currentState = IDLE ∨ s.currentState = WALK ∨ s.currentState = RUN)
        ∧ ¬ inp.mouseLeft then
      { s with currentState := movementState inp }
    else s
  { s1 with isSprinting := decide (s1.currentState = RUN) }

/-- `update(dt, keys, mouseButtons)` (lines 292-448). -/
def update (s : GunAnimationController) (inp : GunInput) : GunAnimationController :=
  if !s.hasInstance || !s.initialized then s
  else
    let rJustPressed := inp.keyR && !s.prevKeyR
    let rightMouseJustPressed := inp.mouseRight && !s.prevMouseRight
    updateMovement
      (updateStartFire (updateDecide (updateBegin s inp) inp rJustPressed rightMouseJustPressed)
        inp)
      inp

/-- A sequence of `update` calls, one per frame. -/
def run (s : GunAnimationController) : List GunInput → GunAnimationController
  | [] => s
  | inp :: rest => run (update s inp) rest

/-- The controller is initialised: `update` passes its guard `!instance || !initialized`. -/
def Live (s : GunAnimationController) : Prop := s.hasInstance = true ∧ s.initialized = true

instance (s : GunAnimationController) : Decidable s.Live := by
  unfold Live; infer_instance

/-- The update completes a reload: it starts in RELOAD or EMPTY_RELOAD with the
animation finished (the guard of line 316). -/
def completesReload (s : GunAnimationController) (inp : GunInput) : Bool :=
  (s.currentState = RELOAD ∨ s.currentState = EMPTY_RELOAD) ∧ inp.animationFinished

/-- The rounds that `performReload` moves into the magazine in this update (0 when
the update completes no reload). -/
def roundsLoaded (s : GunAnimationController) (inp : GunInput) : Int :=
  if s.Live ∧ completesReload s inp then (performReload s).currentMagazine - s.currentMagazine
  else 0

/-- The number of updates of a run after which `hasFired()` is true. -/
def firedCount (s : GunAnimationController) : List GunInput → Nat
  | [] => 0
  | inp :: rest => (if (update s inp).hasFired then 1 else 0) + firedCount (update s inp) rest

/-- No update of the run completes a reload. -/
def noReload (s : GunAnimationController) : List GunInput → Bool
  | [] => true
  | inp :: rest => !completesReload s inp && noReload (update s inp) rest

/-- No update of the run starts a melee (`hasMeleed()` stays false). -/
def noMelee (s : GunAnimationController) : List GunInput → Bool
  | [] => true
  | inp :: rest => !(update s inp).hasMeleed && noMelee (update s inp) rest

/-- The calls of the public interface that change the ammo counters during play. -/
inductive GunCall where
  | update (inp : GunInput)
  | addReserve (amount : Int)
  | reset
  | init (instanceNonNull hasAnimations : Bool)
deriving DecidableEq, Repr

/-- The object after one call. -/
def call (s : GunAnimationController) : GunCall → GunAnimationController
  | GunCall.update inp => update s inp
  | GunCall.addReserve amount => (addReserve s amount).2
  | GunCall.reset => reset s
  | GunCall.init a b => init s a b

/-- The object after a sequence of calls. -/
def runCalls (s : GunAnimationController) : List GunCall → GunAnimationController
  | [] => s
  | c :: rest => runCalls (call s c) rest

/-- An `addReserve` call has a non-negative amount (the other calls always pass). -/
def GunCall.nonNegative : GunCall → Bool
  | GunCall.addReserve amount => decide (0 ≤ amount)
  | _ => true

/-- Nothing pressed, animation still running, a frame of 1/60 s. -/
def idleInput : GunInput :=
  { dt := 1 / 60, keyR := false, keyW := false, keyA := false, keyS := false, keyD := false,
    keyShift := false, mouseLeft := false, mouseRight := false, animationFinished := false }

/-- Fire held, animation still running. -/
def fireInput : GunInput := { idleInput with mouseLeft := true }

/-- Fire held, animation finished. -/
def fireFinishedInput : GunInput := { idleInput with mouseLeft := true, animationFinished := true }

/-- Reload key held, animation still running. -/
def reloadInput : GunInput := { idleInput with keyR := true }

/-- Reload key held, animation finished. -/
def reloadFinishedInput : GunInput := { idleInput with keyR := true, animationFinished := true }

/-- Nothing pressed, animation finished. -/
def finishedInput : GunInput := { idleInput with animationFinished := true }

/-- Thirty-one shots: fire is pressed once and then held while the fire animation
finishes thirty times. -/
def thirtyOneShots : List GunInput := fireInput :: List.replicate 30 fireFinishedInput

/-- The weapon after thirty-one shots from the initial state and one more fire attempt
at the end of the fire animation. -/
def emptiedGun : GunAnimationController :=
  run (init new true true) (thirtyOneShots ++ [fireFinishedInput])

/-- The ammo counters are inside their bounds, for the capacities of the class. -/
def AmmoBounds (s : GunAnimationController) : Prop :=
  0 ≤ s.currentMagazine ∧ s.currentMagazine ≤ s.magazineCapacity ∧
  0 ≤ s.reserveAmmo ∧ s.reserveAmmo ≤ s.maxReserveAmmo

instance (s : GunAnimationController) : Decidable s.AmmoBounds := by
  unfold AmmoBounds; infer_instance

/-- The rounds loaded over a run. -/
def loadedTotal (s : GunAnimationController) : List GunInput → Int
  | [] => 0
  | inp :: rest => roundsLoaded s inp + loadedTotal (update s inp) rest

end GunAnimationController

/-! ## Maths.h and `<cmath>`: functions taken as parameters -/

/-- Modelled from the spec: the functions of `<cmath>` (`sinf`, `cosf`, `atan2f`,
`sqrtf`) and of `Maths.h` (`Vec3::length`, `Vec3::normalize`, `Dot`, `Cross`) that the
sources call; `Maths.h` is not part of the sources at hand and none of them has an
exact rational value in general, so the model takes them as parameters and the
properties hold for every choice of them (unless a theorem states an assumption). -/
structure MathOps where
  sinf : ℚ → ℚ
  cosf : ℚ → ℚ
  atan2f : ℚ → ℚ → ℚ
  sqrtf : ℚ → ℚ
  length : Vec3 → ℚ
  normalize : Vec3 → Vec3
  dot : Vec3 → Vec3 → ℚ
  cross : Vec3 → Vec3 → Vec3

namespace MathOps

/-- A concrete choice of the parameters for evaluating the model: the taxicab length
and the scaling by its inverse (exact on vectors along one axis), the usual dot and
cross products, and an enemy or camera always facing along `+z` (`sin = 0`,
`cos = 1`, `atan2 = 0`). -/
def sample : MathOps :=
  { sinf := fun _ => 0
    cosf := fun _ => 1
    atan2f := fun _ _ => 0
    sqrtf := fun q => q
    length := fun v => |v.x| + |v.y| + |v.z|
    normalize := fun v => v.scale (1 / (|v.x| + |v.y| + |v.z|))
    dot := fun a b => a.x * b.x + a.y * b.y + a.z * b.z
    cross := fun a b =>
      ⟨a.y * b.z - a.z * b.y, a.z * b.x - a.x * b.z, a.x * b.y - a.y * b.x⟩ }

/-- The two vector functions used for horizontal movement stay in the horizontal
plane: normalising a vector with `y = 0` gives `y = 0`, and so does the cross product
of the up vector `(0, 1, 0)` with a vector with `y = 0`. -/
def Planar (m : MathOps) : Prop :=
  (∀ v : Vec3, v.y = 0 → (m.normalize v).y = 0) ∧
  (∀ v : Vec3, v.y = 0 → (m.cross ⟨0, 1, 0⟩ v).y = 0)

end MathOps

/-! ## Collision.h: the bounding-volume catalog -/

/-- `struct ModelBounds { float halfExtentX, halfExtentY, halfExtentZ; }`. -/
structure ModelBounds where
  halfExtentX : ℚ
  halfExtentY : ℚ
  halfExtentZ : ℚ
deriving DecidableEq, Repr

/-- `ModelBounds::toVec3()`. -/
def ModelBounds.toVec3 (b : ModelBounds) : Vec3 := ⟨b.halfExtentX, b.halfExtentY, b.halfExtentZ⟩

/-- `StaticModelBounds` (Collision.h, lines 32-69); `find` is `List.lookup`. -/
def StaticModelBounds : List (String × ModelBounds) :=
  [ ("Wall_003", ⟨2.0, 3.0, 0.1⟩),
    ("Wall_020", ⟨2.0, 3.0, 0.1⟩),
    ("acacia_003", ⟨0.75, 2.65, 0.81⟩),
    ("acacia_006", ⟨0.81, 3.32, 0.83⟩),
    ("barracks_001", ⟨8.5, 3.12, 17.73⟩),
    ("barrel_003", ⟨0.31, 0.43, 0.31⟩),
    ("barrier_001", ⟨1.16, 0.39, 0.47⟩),
    ("barrier_002", ⟨2.51, 0.12, 0.47⟩),
    ("barrier_003", ⟨2.19, 0.48, 0.21⟩),
    ("barrier_004", ⟨0.65, 0.66, 0.65⟩),
    ("box_003", ⟨0.71, 0.39, 0.47⟩),
    ("box_004", ⟨0.78, 0.34, 0.34⟩),
    ("box_020", ⟨0.72, 0.66, 0.72⟩),
    ("box_023", ⟨0.72, 0.66, 0.72⟩),
    ("building_001", ⟨8.94, 2.28, 3.54⟩),
    ("cactus_005", ⟨0.40, 0.91, 0.43⟩),
    ("cart_001", ⟨0.59, 0.42, 1.02⟩),
    ("coil_001", ⟨0.66, 0.86, 0.86⟩),
    ("construction_001", ⟨0.95, 0.52, 0.86⟩),
    ("container_004", ⟨1.26, 1.35, 3.15⟩),
    ("deadwood_007", ⟨1.05, 0.49, 0.87⟩),
    ("generator_002", ⟨0.87, 0.71, 1.49⟩),
    ("grass_003", ⟨0.51, 0.29, 0.52⟩),
    ("ground_005", ⟨4.88, 0.64, 4.56⟩),
    ("ground_007", ⟨6.83, 0.28, 6.33⟩),
    ("hangar_001", ⟨14.07, 5.72, 16.41⟩),
    ("helicopter_platform_001", ⟨5.27, 0.81, 6.15⟩),
    ("log_001", ⟨1.97, 0.78, 0.94⟩),
    ("machine_gun_005", ⟨0.45, 0.41, 0.76⟩),
    ("mortar_001", ⟨0.35, 0.56, 0.62⟩),
    ("obstacle_001", ⟨6.47, 0.50, 1.09⟩),
    ("protection_001", ⟨0.55, 0.17, 0.55⟩),
    ("rock_003", ⟨2.11, 1.32, 1.73⟩),
    ("stone_017", ⟨0.10, 0.06, 0.09⟩),
    ("table_001", ⟨1.00, 0.40, 0.58⟩),
    ("tree_017", ⟨0.77, 3.13, 0.82⟩) ]

/-- `AnimatedModelBounds` (lines 72-77). -/
def AnimatedModelBounds : List (String × ModelBounds) :=
  [ ("Bull-dark", ⟨1.08, 0.74, 1.13⟩),
    ("Duck-mixed", ⟨0.23, 0.32, 0.31⟩),
    ("Goat-01", ⟨0.55, 0.65, 0.68⟩),
    ("Pig", ⟨0.67, 0.45, 0.85⟩) ]

/-- `StaticModelOffsets` (lines 80-82). -/
def StaticModelOffsets : List (String × Vec3) :=
  [ ("helicopter_platform_001", ⟨0.0, 0.0, 1.5⟩) ]

/-- `getStaticModelAABB(modelName, position)` (lines 84-99). This is the exact reading
(the sums and differences are not rounded); `Rounded.getStaticModelAABB` has the
rounding. -/
def getStaticModelAABB (modelName : String) (position : Vec3) : AABB :=
  match StaticModelBounds.lookup modelName with
  | some b =>
    let extent := b.toVec3
    let center := position.add ⟨0, extent.y, 0⟩
    let center :=
      match StaticModelOffsets.lookup modelName with
      | some off => center.add off
      | none => center
    AABB.fromCenterExtent center extent
  | none => AABB.fromCenterExtent (position.add ⟨0, 1.0, 0⟩) ⟨0.5, 1.0, 0.5⟩

/-- `getAnimatedModelAABB(modelName, position)` (lines 101-111). This is the exact
reading (the sums and differences are not rounded); `Rounded.getAnimatedModelAABB` has
the rounding. -/
def getAnimatedModelAABB (modelName : String) (position : Vec3) : AABB :=
  match AnimatedModelBounds.lookup modelName with
  | some b =>
    let extent := b.toVec3
    let center := position.add ⟨0, extent.y, 0⟩
    AABB.fromCenterExtent center extent
  | none => AABB.fromCenterExtent (position.add ⟨0, 1.0, 0⟩) ⟨0.5, 1.0, 0.5⟩

/-- The y component of the optional centre offset of a static model (0 without one). -/
def staticOffsetY (modelName : String) : ℚ :=
  match StaticModelOffsets.lookup modelName with
  | some off => off.y
  | none => 0

/-! ## Camera.h: the player controller -/

/-- What one call of `Camera::update(window, dt, isSprinting)` reads: the window size,
the mouse position in the window, the keys it looks at (`keys['W']`, `keys['S']`,
`keys['D']`, `keys['A']`, `keys[VK_SPACE]`), `dt` and `isSprinting`. -/
structure CameraInput where
  width : Int
  height : Int
  mouseX : Int
  mouseY : Int
  keyW : Bool
  keyS : Bool
  keyD : Bool
  keyA : Bool
  keySpace : Bool
  dt : ℚ
  isSprinting : Bool
deriving DecidableEq, Repr

/-- `class Camera`: its data members (the `const float` members are the constants
below). -/
structure Camera where
  position : Vec3
  yaw : ℚ
  pitch : ℚ
  speed : ℚ
  sensitivity : ℚ
  firstFrame : Bool
  velocityY : ℚ
  isJumping : Bool
  jumpedThisFrame : Bool
  startedSprintingThisFrame : Bool
  wasSprinting : Bool
  currentGroundY : ℚ
deriving DecidableEq, Repr

namespace Camera

/-- `const float gravity = 20.0f`. -/
def gravity : ℚ := 20.0

/-- `const float jumpHeight = 1.5f`. -/
def jumpHeight : ℚ := 1.5

/-- `const float defaultGroundY = 1.8f`. -/
def defaultGroundY : ℚ := 1.8

/-- The constructor `Camera()` with the default member initialisers (lines 16-33). -/
def new : Camera :=
  { position := ⟨0.0, 1.8, -5.0⟩
    yaw := 0.0
    pitch := 0.0
    speed := 10.0
    sensitivity := 0.002
    firstFrame := true
    velocityY := 0.0
    isJumping := false
    jumpedThisFrame := false
    startedSprintingThisFrame := false
    wasSprinting := false
    currentGroundY := 1.8 }

/-- `setGroundHeight(groundY)`. -/
def setGroundHeight (c : Camera) (groundY : ℚ) : Camera := { c with currentGroundY := groundY }

/-- `hasJumped()`. -/
def hasJumped (c : Camera) : Bool := c.jumpedThisFrame

/-- `hasStartedSprinting()`. -/
def hasStartedSprinting (c : Camera) : Bool := c.startedSprintingThisFrame

/-- Lines 63-75 of `update`: yaw and pitch follow the mouse, pitch is clamped. -/
def updateLook (c : Camera) (inp : CameraInput) : Camera :=
  let cx := Int.tdiv inp.width 2
  let cy := Int.tdiv inp.height 2
  let dx : ℚ := ((inp.mouseX - cx : Int) : ℚ)
  let dy : ℚ := ((inp.mouseY - cy : Int) : ℚ)
  let c1 := { c with yaw := c.yaw + dx * c.sensitivity, pitch := c.pitch - dy * c.sensitivity }
  let c2 := if c1.pitch > 1.5 then { c1 with pitch := 1.5 } else c1
  if c2.pitch < -1.5 then { c2 with pitch := -1.5 } else c2

/-- Lines 81-98 of `update`: planar movement along the yaw-derived basis. -/
def updateMove (m : MathOps) (c : Camera) (inp : CameraInput) : Camera :=
  let forward := m.normalize ⟨m.sinf c.yaw, 0, m.cosf c.yaw⟩
  let right := m.normalize (m.cross ⟨0, 1, 0⟩ forward)
  let currentSpeed := if inp.isSprinting then c.speed * 2.0 else c.speed
  let p1 := if inp.keyW then c.position.add ((forward.scale currentSpeed).scale inp.dt)
    else c.position
  let p2 := if inp.keyS then p1.sub ((forward.scale c.speed).scale inp.dt) else p1
  let p3 := if inp.keyD then p2.add ((right.scale c.speed).scale inp.dt) else p2
  let p4 := if inp.keyA then p3.sub ((right.scale c.speed).scale inp.dt) else p3
  { c with position := p4 }

/-- Lines 100-106 of `update`: the jump is started only on the ground. -/
def updateJump (m : MathOps) (c : Camera) (inp : CameraInput) : Camera :=
  let c1 := { c with jumpedThisFrame := false }
  if inp.keySpace ∧ ¬ c1.isJumping ∧ c1.position.y ≤ c1.currentGroundY + 0.1 then
    { c1 with velocityY := m.sqrtf (2.0 * gravity * jumpHeight), isJumping := true,
              jumpedThisFrame := true }
  else c1

/-- Lines 108-112 of `update`: the sprint-start pulse. -/
def updateSprint (c : Camera) (inp : CameraInput) : Camera :=
  let c1 := { c with startedSprintingThisFrame := false }
  let c2 := if inp.isSprinting ∧ ¬ c1.wasSprinting then
      { c1 with startedSprintingThisFrame := true } else c1
  { c2 with wasSprinting := inp.isSprinting }

/-- Lines 114-121 of `update`: gravity integration and clamping to the ground. -/
def updateGravity (c : Camera) (inp : CameraInput) : Camera :=
  let c1 := { c with velocityY := c.velocityY - gravity * inp.dt }
  let c2 := { c1 with position := { c1.position with y := c1.position.y + c1.velocityY * inp.dt } }
  if c2.position.y ≤ c2.currentGroundY then
    { c2 with position := { c2.position with y := c2.currentGroundY }, velocityY := 0.0,
              isJumping := false }
  else c2

/-- Lines 123-127 of `update`: the fail-safe below `y = -10`. -/
def updateFailSafe (c : Camera) : Camera :=
  if c.position.y < -10.0 then
    { c with position := { c.position with y := defaultGroundY }, velocityY := 0.0,
             isJumping := false }
  else c

/-- `Camera::update(window, dt, isSprinting)` (lines 51-128). On the first frame the
cursor is recentred and nothing else happens. -/
def update (m : MathOps) (c : Camera) (inp : CameraInput) : Camera :=
  if c.firstFrame then { c with firstFrame := false }
  else
    updateFailSafe
      (updateGravity (updateSprint (updateJump m (updateMove m (updateLook c inp) inp) inp) inp)
        inp)

/-- The camera just before the vertical integration of an update (after looking,
moving and the jump decision). -/
def beforeVertical (m : MathOps) (c : Camera) (inp : CameraInput) : Camera :=
  updateSprint (updateJump m (updateMove m (updateLook c inp) inp) inp) inp

/-- A frame of 1/60 s in a 1024 x 768 window with the mouse at the centre and no key
pressed. -/
def idleInput : CameraInput :=
  { width := 1024, height := 768, mouseX := 512, mouseY := 384, keyW := false, keyS := false,
    keyD := false, keyA := false, keySpace := false, dt := 1 / 60, isSprinting := false }

end Camera

/-! ## Controller.h: animals and the enemy AI -/

/-- `struct AnimalData` (Controller.h, lines 22-55). -/
structure AnimalData where
  health : Int
  maxHealth : Int
  attackDamage : Int
  attackInterval : ℚ
  attackTimer : ℚ
  moveSpeed : ℚ
  isAlive : Bool
deriving DecidableEq, Repr

namespace AnimalData

/-- The constructor `AnimalData(hp, dmg, atkInterval, speed)` (lines 31-32). -/
def create (hp dmg : Int) (atkInterval speed : ℚ) : AnimalData :=
  { health := hp, maxHealth := hp, attackDamage := dmg, attackInterval := atkInterval,
    attackTimer := 0.0, moveSpeed := speed, isAlive := true }

/-- The constructor with its default arguments, `AnimalData()`. -/
def new : AnimalData := create 100 10 2.0 10.0

/-- `AnimalData::takeDamage(dmg)` (lines 34-40). -/
def takeDamage (a : AnimalData) (dmg : Int) : AnimalData :=
  let a1 := { a with health := a.health - dmg }
  if a1.health ≤ 0 then { a1 with health := 0, isAlive := false } else a1

/-- `AnimalData::update(dt)` (lines 42-46). -/
def update (a : AnimalData) (dt : ℚ) : AnimalData :=
  if a.isAlive then { a with attackTimer := a.attackTimer + dt } else a

/-- `AnimalData::canAttack()` (lines 48-54): the answer and the new object. -/
def canAttack (a : AnimalData) : Bool × AnimalData :=
  if a.attackTimer ≥ a.attackInterval then (true, { a with attackTimer := 0.0 }) else (false, a)

end AnimalData

/-- `enum class EnemyState`. -/
inductive EnemyState where
  | IDLE
  | ENTERING
  | CHASE
  | TURN_LEFT
  | TURN_RIGHT
  | ATTACK
  | HIT_REACT
  | DEATH
  | REMOVED
deriving DecidableEq, Repr

/-- `class EnemyController`: its data members, without the animation name strings and
the `const float` members (the constants below). `hasInstance` stands for
`instance != nullptr` and `hasData` for `data != nullptr`; `data` is the `AnimalData`
the pointer refers to (the slot of the data pool that belongs to this controller). -/
structure EnemyController where
  hasInstance : Bool
  hasData : Bool
  data : AnimalData
  currentState : EnemyState
  initialized : Bool
  isDuck : Bool
  deathTimer : ℚ
  hitReactTimer : ℚ
  attackTimer : ℚ
  hasDealtDamage : Bool
  lastPosition : Vec3
  stuckTimer : ℚ
  avoidanceTimer : ℚ
  avoidanceDir : Int
  isAvoiding : Bool
  directionLocked : Bool
  avoidanceAttempts : Int
  avoidanceStartPos : Vec3
  totalAvoidanceTime : ℚ
  velocityY : ℚ
  isJumping : Bool
  entryTarget : Vec3
  hasEntryTarget : Bool
  position : Vec3
  yaw : ℚ
  shouldRemove : Bool
deriving DecidableEq, Repr

/-- What one call of `EnemyController::update` reads from outside the controller: `dt`,
the player position, the `staticColliders` pointer (`none` for `nullptr`), the model
name, and the answer of `instance->animationFinished()` (asked at most once per call,
after the animation has been advanced; `AnimationInstance` is not part of the sources
at hand). -/
structure EnemyInput where
  dt : ℚ
  playerPos : Vec3
  staticColliders : Option (List AABB)
  modelName : String
  animationFinished : Bool
deriving DecidableEq, Repr

/-- The outcome of one call of `EnemyController::update`: the new object, the value of
the reference parameter `playerDamageOut` after the call, and the returned flag. -/
structure EnemyUpdate where
  ctrl : EnemyController
  playerDamageOut : Int
  alive : Bool
deriving DecidableEq, Repr

namespace EnemyController

open EnemyState

/-- `const float attackHitTime = 0.5f`. -/
def attackHitTime : ℚ := 0.5

/-- `const float stuckThreshold = 0.25f`. -/
def stuckThreshold : ℚ := 0.25

/-- `const float avoidanceDuration = 1.2f`. -/
def avoidanceDuration : ℚ := 1.2

/-- `const float circlingJumpThreshold = 3.0f`. -/
def circlingJumpThreshold : ℚ := 3.0

/-- `const float circlingRadius = 5.0f`. -/
def circlingRadius : ℚ := 5.0

/-- `const float gravity = 15.0f`. -/
def gravity : ℚ := 15.0

/-- `const float jumpForce = 8.0f`. -/
def jumpForce : ℚ := 8.0

/-- `const float defaultGroundY = 0.0f`. -/
def defaultGroundY : ℚ := 0.0

/-- `const float heightTolerance = 1.0f`. -/
def heightTolerance : ℚ := 1.0

/-- `const float playerEyeHeight = 1.5f`. -/
def playerEyeHeight : ℚ := 1.5

/-- `const float entryReachDist = 3.0f`. -/
def entryReachDist : ℚ := 3.0

/-- The fixed death duration of the DEATH branch of `update` (`deathTimer >= 1.0f`). -/
def deathDuration : ℚ := 1.0

/-- The default member initialisers of the class (lines 466-529); a default-constructed
`Vec3` is taken to be the zero vector. -/
def new : EnemyController :=
  { hasInstance := false
    hasData := false
    data := AnimalData.new
    currentState := IDLE
    initialized := false
    isDuck := false
    deathTimer := 0.0
    hitReactTimer := 0.0
    attackTimer := 0.0
    hasDealtDamage := false
    lastPosition := ⟨0, 0, 0⟩
    stuckTimer := 0.0
    avoidanceTimer := 0.0
    avoidanceDir := 1
    isAvoiding := false
    directionLocked := false
    avoidanceAttempts := 0
    avoidanceStartPos := ⟨0, 0, 0⟩
    totalAvoidanceTime := 0.0
    velocityY := 0.0
    isJumping := false
    entryTarget := ⟨0, 0, 0⟩
    hasEntryTarget := false
    position := ⟨0, 0, 0⟩
    yaw := 0.0
    shouldRemove := false }

/-- `init(_instance, _data, startPos, _isDuck, _entryTarget)` (lines 531-579).
`instanceNonNull` is `_instance != nullptr`; `data` is the object `_data` points to
(`none` for `nullptr`). -/
def init (s : EnemyController) (instanceNonNull : Bool) (data : Option AnimalData)
    (startPos : Vec3) (isDuck : Bool) (entryTarget : Vec3) : EnemyController :=
  let hasEntry : Bool := decide (entryTarget.x ≠ 0 ∨ entryTarget.z ≠ 0)
  { s with
    hasInstance := instanceNonNull
    hasData := data.isSome
    data := data.getD s.data
    position := startPos
    lastPosition := startPos
    isDuck := isDuck
    entryTarget := entryTarget
    hasEntryTarget := hasEntry
    currentState := if hasEntry then ENTERING else CHASE
    initialized := true
    shouldRemove := false
    stuckTimer := 0.0
    avoidanceTimer := 0.0
    isAvoiding := false
    velocityY := 0.0
    isJumping := false }

/-- `isAlive()` (line 848). -/
def isAlive (s : EnemyController) : Bool := s.hasData && s.data.isAlive

/-- `getHealth()` (line 849). -/
def getHealth (s : EnemyController) : Int := if s.hasData then s.data.health else 0

/-- `getState()` (line 850). -/
def getState (s : EnemyController) : EnemyState := s.currentState

/-- `takeDamage(damage, knockbackDir)` (lines 581-601). -/
def takeDamage (m : MathOps) (s : EnemyController) (damage : Int) (knockbackDir : Vec3) :
    EnemyController :=
  if !s.hasData || !s.data.isAlive || s.currentState = DEATH then s
  else
    let s1 := { s with data := s.data.takeDamage damage }
    if s1.data.health ≤ 0 then
      { s1 with currentState := DEATH, deathTimer := 0.0 }
    else
      let s2 := { s1 with currentState := HIT_REACT, hitReactTimer := 0.0 }
      let kb : Vec3 := { knockbackDir with y := 0 }
      if m.length kb > 0.01 then
        { s2 with position := s2.position.add ((m.normalize kb).scale 3.0) }
      else s2

end EnemyController
namespace EnemyController

open EnemyState CollisionSystem

/-- The first `while` loop of `getAngleToTarget` (lines 519-520). -/
def wrapDown (a : ℚ) : ℚ :=
  if 3.14159 < a then wrapDown (a - 6.28318) else a
termination_by (⌈a⌉).toNat
decreasing_by
  have h1 : ⌈a - 6.28318⌉ ≤ ⌈a⌉ - 1 := by
    apply Int.ceil_le.mpr
    have := Int.le_ceil a
    push_cast
    linarith
  have h2 : 0 < ⌈a⌉ := Int.ceil_pos.mpr (by linarith)
  omega

/-- The second `while` loop of `getAngleToTarget` (lines 521-522). -/
def wrapUp (a : ℚ) : ℚ :=
  if a < -3.14159 then wrapUp (a + 6.28318) else a
termination_by (⌈-a⌉).toNat
decreasing_by
  have h1 : ⌈-(a + 6.28318)⌉ ≤ ⌈-a⌉ - 1 := by
    apply Int.ceil_le.mpr
    have := Int.le_ceil (-a)
    push_cast
    linarith
  have h2 : 0 < ⌈-a⌉ := Int.ceil_pos.mpr (by linarith)
  omega

/-- `getAngleToTarget(myPos, targetPos, myYaw)` (lines 514-524). -/
def getAngleToTarget (m : MathOps) (myPos targetPos : Vec3) (myYaw : ℚ) : ℚ :=
  let toTarget : Vec3 := { targetPos.sub myPos with y := 0 }
  let targetAngle := m.atan2f toTarget.x toTarget.z
  let angleDiff := targetAngle - myYaw
  wrapUp (wrapDown angleDiff)

/-- The locals that `update` computes from the position at the start of the call
(lines 615-621). -/
structure View where
  distToPlayer : ℚ
  heightDiff : ℚ
  angleDiff : ℚ
  sameHeight : Bool

/-- Lines 615-621 of `update`. -/
def view (m : MathOps) (s : EnemyController) (inp : EnemyInput) : View :=
  let toPlayer := inp.playerPos.sub s.position
  let playerFeetY := inp.playerPos.y - playerEyeHeight
  let heightDiff := playerFeetY - s.position.y
  let toPlayer : Vec3 := { toPlayer with y := 0 }
  { distToPlayer := m.length toPlayer
    heightDiff := heightDiff
    angleDiff := getAngleToTarget m s.position inp.playerPos s.yaw
    sameHeight := decide (|heightDiff| < heightTolerance) }

/-- Lines 624-636 of `update`: the ground height under the enemy. -/
def groundHeight (position : Vec3) (staticColliders : Option (List AABB)) : ℚ :=
  match staticColliders with
  | none => defaultGroundY
  | some walls =>
    walls.foldl
      (fun g wall =>
        if position.x ≥ wall.min.x ∧ position.x ≤ wall.max.x ∧
            position.z ≥ wall.min.z ∧ position.z ≤ wall.max.z then
          if position.y ≥ wall.max.y - 0.5 then
            if wall.max.y > g then wall.max.y else g
          else g
        else g)
      defaultGroundY

/-- Lines 639-647 of `update`: gravity and landing. -/
def updatePhysics (s : EnemyController) (inp : EnemyInput) (currentGroundY : ℚ) :
    EnemyController :=
  if s.isJumping ∨ s.position.y > currentGroundY then
    let s1 := { s with velocityY := s.velocityY - gravity * inp.dt }
    let s2 := { s1 with
      position := { s1.position with y := s1.position.y + s1.velocityY * inp.dt } }
    if s2.position.y ≤ currentGroundY then
      { s2 with position := { s2.position with y := currentGroundY }, velocityY := 0.0,
                isJumping := false }
    else s2
  else s

/-- The body of the loop of `resolveStaticCollisions` (lines 856-865) on the pair
`(position, enemyAABB)`. -/
def resolveStep (m : MathOps) (modelName : String) (acc : Vec3 × AABB) (wall : AABB) :
    Vec3 × AABB :=
  let info := checkAABB acc.2 wall
  if info.collided then
    let info := { info with normal := { info.normal with y := 0 } }
    if m.length info.normal > 0.01 then
      let p := resolveCollision acc.1 info
      (p, getAnimatedModelAABB modelName p)
    else acc
  else acc

/-- `resolveStaticCollisions(colliders, modelName)` (lines 853-866). -/
def resolveStaticCollisions (m : MathOps) (s : EnemyController) (colliders : List AABB)
    (modelName : String) : EnemyController :=
  { s with
    position :=
      (colliders.foldl (resolveStep m modelName)
        (s.position, getAnimatedModelAABB modelName s.position)).1 }

/-- The guarded call `if (staticColliders && !staticColliders->empty())
resolveStaticCollisions(...)` (lines 728-730 and 763-765). -/
def resolveIfAny (m : MathOps) (s : EnemyController) (inp : EnemyInput) : EnemyController :=
  match inp.staticColliders with
  | none => s
  | some walls => if walls.isEmpty then s else resolveStaticCollisions m s walls inp.modelName

/-- ENTERING (lines 657-678). -/
def updateEntering (m : MathOps) (s : EnemyController) (inp : EnemyInput) : EnemyController :=
  let toTarget : Vec3 := { s.entryTarget.sub s.position with y := 0 }
  let distToTarget := m.length toTarget
  if distToTarget < entryReachDist then
    { s with currentState := CHASE, hasEntryTarget := false }
  else
    let angleDiff := getAngleToTarget m s.position s.entryTarget s.yaw
    let s1 := { s with yaw := s.yaw + angleDiff }
    let forward : Vec3 := ⟨m.sinf s1.yaw, 0, m.cosf s1.yaw⟩
    let s2 := { s1 with
      position := s1.position.add ((forward.scale s1.data.moveSpeed).scale inp.dt) }
    { s2 with lastPosition := s2.position }

/-- CHASE, stuck detection (lines 681-715). -/
def chaseStuck (m : MathOps) (s : EnemyController) (inp : EnemyInput) : EnemyController :=
  let posDelta : Vec3 := { s.position.sub s.lastPosition with y := 0 }
  let moveDistance := m.length posDelta
  let expectedMove := s.data.moveSpeed * inp.dt * 0.4
  if moveDistance < expectedMove then
    let s1 := { s with stuckTimer := s.stuckTimer + inp.dt }
    if s1.stuckTimer > stuckThreshold then
      if !s1.isAvoiding then
        let s2 := { s1 with isAvoiding := true, avoidanceTimer := 0.0,
                            avoidanceStartPos := s1.position }
        if !s2.directionLocked then
          let toPlayerDir := inp.playerPos.sub s2.position
          let rightDir : Vec3 := ⟨m.cosf s2.yaw, 0, -(m.sinf s2.yaw)⟩
          { s2 with
            avoidanceDir := if m.dot toPlayerDir rightDir > 0 then -1 else 1
            directionLocked := true
            avoidanceAttempts := 0 }
        else s2
      else
        let s2 := { s1 with avoidanceAttempts := s1.avoidanceAttempts + 1 }
        let s3 :=
          if s2.avoidanceAttempts > 3 then
            { s2 with avoidanceDir := -s2.avoidanceDir, avoidanceAttempts := 0 }
          else s2
        { s3 with stuckTimer := 0.0 }
    else s1
  else
    let s1 := { s with stuckTimer := 0.0 }
    if !s1.isAvoiding then { s1 with directionLocked := false, avoidanceAttempts := 0 } else s1

/-- CHASE, movement (lines 717-766). -/
def chaseMove (m : MathOps) (s : EnemyController) (inp : EnemyInput) (v : View) :
    EnemyController :=
  let s0 := { s with lastPosition := s.position }
  if s0.isAvoiding then
    let s1 := { s0 with avoidanceTimer := s0.avoidanceTimer + inp.dt,
                        yaw := s0.yaw + v.angleDiff * 0.2 }
    let forward : Vec3 := ⟨m.sinf s1.yaw, 0, m.cosf s1.yaw⟩
    let sideDir : Vec3 := ⟨m.cosf s1.yaw, 0, -(m.sinf s1.yaw)⟩
    let moveDir :=
      m.normalize ((forward.scale 0.5).add ((sideDir.scale (s1.avoidanceDir : ℚ)).scale 0.7))
    let s2 := { s1 with
      position := s1.position.add ((moveDir.scale s1.data.moveSpeed).scale inp.dt) }
    let s3 := resolveIfAny m s2 inp
    let s4 :=
      if s3.avoidanceTimer > avoidanceDuration then
        { s3 with isAvoiding := false, stuckTimer := 0.0,
                  totalAvoidanceTime := s3.totalAvoidanceTime + s3.avoidanceTimer }
      else s3
    let fromStart : Vec3 := { s4.position.sub s4.avoidanceStartPos with y := 0 }
    let distFromStart := m.length fromStart
    if s4.totalAvoidanceTime > circlingJumpThreshold ∧ distFromStart < circlingRadius ∧
        ¬ s4.isJumping then
      let s5 := { s4 with isJumping := true, velocityY := jumpForce }
      let jumpDir : Vec3 := { inp.playerPos.sub s5.position with y := 0 }
      let s6 :=
        if m.length jumpDir > 0.01 then
          { s5 with position := s5.position.add ((m.normalize jumpDir).scale 2.0) }
        else s5
      { s6 with totalAvoidanceTime := 0.0, isAvoiding := false, directionLocked := false }
    else s4
  else
    let s1 := { s0 with yaw := s0.yaw + v.angleDiff }
    let forward : Vec3 := ⟨m.sinf s1.yaw, 0, m.cosf s1.yaw⟩
    let s2 := { s1 with
      position := s1.position.add ((forward.scale s1.data.moveSpeed).scale inp.dt) }
    resolveIfAny m s2 inp

/-- CHASE, the switch to ATTACK and the jump towards a higher player (lines 772-789). -/
def chaseFinish (m : MathOps) (s : EnemyController) (inp : EnemyInput) (v : View) :
    EnemyController :=
  let s1 :=
    if v.distToPlayer < 2.0 ∧ v.sameHeight then
      { s with currentState := ATTACK
               data := { s.data with attackTimer := s.data.attackInterval }
               isAvoiding := false
               stuckTimer := 0.0 }
    else s
  if ¬ s1.isJumping ∧ v.distToPlayer < 8.0 ∧ v.heightDiff > 0.5 ∧ s1.isAvoiding then
    let s2 := { s1 with isJumping := true, velocityY := jumpForce }
    let jumpDir : Vec3 := { inp.playerPos.sub s2.position with y := 0 }
    if m.length jumpDir > 0.01 then
      { s2 with position := s2.position.add ((m.normalize jumpDir).scale 1.0) }
    else s2
  else s1

/-- ATTACK (lines 797-821): the new object and the new value of `playerDamageOut`. -/
def updateAttack (s : EnemyController) (inp : EnemyInput) (v : View) (damageOut : Int) :
    EnemyController × Int :=
  let s1 := { s with attackTimer := s.attackTimer + inp.dt }
  if !v.sameHeight then
    ({ s1 with currentState := CHASE, attackTimer := 0.0, hasDealtDamage := false }, damageOut)
  else
    let r : EnemyController × Int :=
      if ¬ s1.hasDealtDamage ∧ s1.attackTimer ≥ attackHitTime then
        ({ s1 with hasDealtDamage := true },
          if v.distToPlayer < 2.5 ∧ v.sameHeight then s1.data.attackDamage else damageOut)
      else (s1, damageOut)
    if inp.animationFinished then
      let s3 := { r.1 with attackTimer := 0.0, hasDealtDamage := false }
      (if v.distToPlayer > 2.5 then { s3 with currentState := CHASE } else s3, r.2)
    else r

/-- HIT_REACT (lines 823-830). This is the exact reading (the sum `hitReactTimer += dt`
is not rounded); `Rounded.EnemyController.updateHitReact` has the rounding. -/
def updateHitReact (s : EnemyController) (inp : EnemyInput) : EnemyController :=
  let s1 := { s with hitReactTimer := s.hitReactTimer + inp.dt }
  if inp.animationFinished ∨ s1.hitReactTimer > 1.0 then { s1 with currentState := CHASE }
  else s1

/-- DEATH (lines 832-839). This is the exact reading (the sum `deathTimer += dt` is not
rounded); `Rounded.EnemyController.updateDeath` has the rounding. -/
def updateDeath (s : EnemyController) (inp : EnemyInput) : EnemyController :=
  let s1 := { s with deathTimer := s.deathTimer + inp.dt }
  if s1.deathTimer ≥ 1.0 then { s1 with currentState := REMOVED, shouldRemove := true }
  else s1

/-- The `switch (currentState)` of `update` (lines 649-843): the new object and the new
value of `playerDamageOut` (which line 608 has set to 0). -/
def updateState (m : MathOps) (s : EnemyController) (inp : EnemyInput) (v : View) :
    EnemyController × Int :=
  match s.currentState with
  | IDLE => ({ s with currentState := CHASE }, 0)
  | ENTERING => (updateEntering m s inp, 0)
  | CHASE => (chaseFinish m (chaseMove m (chaseStuck m s inp) inp v) inp v, 0)
  | TURN_LEFT => ({ s with currentState := CHASE }, 0)
  | TURN_RIGHT => ({ s with currentState := CHASE }, 0)
  | ATTACK => updateAttack s inp v 0
  | HIT_REACT => (updateHitReact s inp, 0)
  | DEATH => (updateDeath s inp, 0)
  | REMOVED => (s, 0)

/-- `update(dt, playerPos, playerDamageOut, staticColliders, modelName)` (lines
603-846); `playerDamageOut` is the value of the reference parameter before the call. -/
def update (m : MathOps) (s : EnemyController) (inp : EnemyInput) (playerDamageOut : Int) :
    EnemyUpdate :=
  if !s.hasInstance || !s.hasData || !s.initialized then
    { ctrl := s, playerDamageOut := playerDamageOut, alive := false }
  else if s.currentState = REMOVED then
    { ctrl := { s with shouldRemove := true }, playerDamageOut := 0, alive := false }
  else
    let v := view m s inp
    let currentGroundY := groundHeight s.position inp.staticColliders
    let s1 := updatePhysics s inp currentGroundY
    let r := updateState m s1 inp v
    { ctrl := r.1, playerDamageOut := r.2, alive := r.1.data.isAlive }

/-- The second object has the life data and the pointers of the first: same `isAlive`,
same health, same `instance`, `data` and `initialized`. -/
def SameLife (a b : EnemyController) : Prop :=
  b.data.isAlive = a.data.isAlive ∧ b.data.health = a.data.health ∧
  b.hasData = a.hasData ∧ b.hasInstance = a.hasInstance ∧ b.initialized = a.initialized

/-- A run of `update` calls, one per frame, keeping the object. -/
def run (m : MathOps) (s : EnemyController) : List EnemyInput → EnemyController
  | [] => s
  | inp :: rest => run m (update m s inp 0).ctrl rest

/-- The time accumulated over a list of frames. -/
def dtSum (inps : List EnemyInput) : ℚ := (inps.map (fun i => i.dt)).sum

/-- The calls that act on an enemy during play. -/
inductive Call where
  | update (inp : EnemyInput)
  | takeDamage (damage : Int) (knockbackDir : Vec3)
deriving DecidableEq, Repr

/-- The object after one call. -/
def call (m : MathOps) (s : EnemyController) : Call → EnemyController
  | Call.update inp => (update m s inp 0).ctrl
  | Call.takeDamage damage knockbackDir => takeDamage m s damage knockbackDir

/-- The object after a sequence of calls. -/
def runCalls (m : MathOps) (s : EnemyController) : List Call → EnemyController
  | [] => s
  | c :: rest => runCalls m (call m s c) rest

/-- A goat as `spawnEnemy` creates it (70 health), standing at the origin without an
entry target. -/
def sampleGoat : EnemyController :=
  init new true (some (AnimalData.create 70 10 3.0 8.0)) ⟨0, 0, 0⟩ false ⟨0, 0, 0⟩

/-- A frame of half a second with the player 10 units away and no colliders. -/
def halfSecond : EnemyInput :=
  { dt := 1 / 2, playerPos := ⟨0, 1.5, 10⟩, staticColliders := none, modelName := "Goat-01",
    animationFinished := false }

/-- The controller passes the guard of `update`: `instance`, `data` and `initialized`
are all set. -/
def Live (s : EnemyController) : Prop :=
  s.hasInstance = true ∧ s.hasData = true ∧ s.initialized = true

instance (s : EnemyController) : Decidable s.Live := by
  unfold Live; infer_instance

end EnemyController

/-! ## Model.h: bullet hits -/

/-- `enum class HitResult { NONE, HIT, KILL }` (Model.h, line 123). -/
inductive HitResult where
  | NONE
  | HIT
  | KILL
deriving DecidableEq, Repr

namespace BulletSystem

open CollisionSystem

/-- The bullet misses this enemy: it is flagged `shouldRemove` (the `continue` of line 498)
or the ray does not intersect its collider. -/
def missed (rayOrigin rayDir : Vec3) (e : EnemyController) (c : AABB) : Bool :=
  e.shouldRemove || !rayIntersectsAABB rayOrigin rayDir c 1000.0

/-- The `for` loop of `checkHit` (Model.h, lines 497-513) over the enemies that are left
and their colliders: the result and the enemies after the call. The source reads
`colliders[j]` for every `j < enemies.size()`; running out of colliders is outside what
its callers do and ends the walk here. -/
def checkHitLoop (m : MathOps) (rayOrigin rayDir : Vec3) (damage : Int) :
    List EnemyController → List AABB → HitResult × List EnemyController
  | [], _ => (HitResult.NONE, [])
  | e :: es, [] => (HitResult.NONE, e :: es)
  | e :: es, c :: cs =>
    if e.shouldRemove then
      ((checkHitLoop m rayOrigin rayDir damage es cs).1,
        e :: (checkHitLoop m rayOrigin rayDir damage es cs).2)
    else if rayIntersectsAABB rayOrigin rayDir c 1000.0 then
      let noKnockback : Vec3 := ⟨0, 0, 0⟩
      let healthBefore := e.getHealth
      let e1 := e.takeDamage m damage noKnockback
      let healthAfter := e1.getHealth
      (if healthBefore > 0 ∧ healthAfter ≤ 0 then HitResult.KILL else HitResult.HIT, e1 :: es)
    else
      ((checkHitLoop m rayOrigin rayDir damage es cs).1,
        e :: (checkHitLoop m rayOrigin rayDir damage es cs).2)

/-- `BulletSystem::checkHit(rayOrigin, rayDir, enemies, colliders, sceneColliders, damage)`
(Model.h, lines 492-516): the result and the enemies after the call. -/
def checkHit (m : MathOps) (rayOrigin rayDir : Vec3) (enemies : List EnemyController)
    (colliders : List AABB) (_sceneColliders : List AABB) (damage : Int) :
    HitResult × List EnemyController :=
  checkHitLoop m rayOrigin (m.normalize rayDir) damage enemies colliders

end BulletSystem

/-! ## Game.cpp: the entity pools and the explosive barrels -/

/-- The pools of one species in `Game.cpp` (lines 248-265, 279): positions, AI
controllers, active flags and the next free slot. The data pool of the species is not a
separate field: slot `i` of the data pool is the object the `data` pointer of AI slot
`i` refers to, so it is held as `aiPool[i].data`; likewise the animation instance pool
is seen only through `hasInstance`. -/
structure SpeciesPool where
  posPool : List Vec3
  aiPool : List EnemyController
  activePool : List Bool
  nextIdx : Int
deriving DecidableEq, Repr

/-- The four species pools: goats, pigs, bulls and ducks. -/
structure EnemyPools where
  goat : SpeciesPool
  pig : SpeciesPool
  bull : SpeciesPool
  duck : SpeciesPool
deriving DecidableEq, Repr

/-- `const int MAX_ENEMIES = 50` (Game.cpp, line 200). -/
def MAX_ENEMIES : Int := 50

namespace SpeciesPool

/-- The data pool of the species: slot `i` is the `AnimalData` of AI slot `i`. -/
def dataPool (p : SpeciesPool) : List AnimalData := p.aiPool.map (fun ai => ai.data)

/-- The pools as constructed (lines 248-265): `MAX_ENEMIES` default-constructed slots,
none active, next slot 0. -/
def new : SpeciesPool :=
  { posPool := List.replicate 50 ⟨0, 0, 0⟩
    aiPool := List.replicate 50 EnemyController.new
    activePool := List.replicate 50 false
    nextIdx := 0 }

/-- The body of one branch of `spawnEnemy` (for ducks, lines 284-288): slot `nextIdx` is
filled and `nextIdx` is incremented. `stats` is the `AnimalData` written to the data
pool slot. -/
def spawn (p : SpeciesPool) (stats : AnimalData) (pos : Vec3) (isDuck : Bool)
    (entryTarget : Vec3) : SpeciesPool :=
  let idx := p.nextIdx.toNat
  { posPool := p.posPool.set idx pos
    aiPool := p.aiPool.set idx
      ((p.aiPool.getD idx EnemyController.new).init true (some stats) pos isDuck entryTarget)
    activePool := p.activePool.set idx true
    nextIdx := p.nextIdx + 1 }

end SpeciesPool

namespace EnemyPools

/-- All pools as constructed. -/
def new : EnemyPools :=
  { goat := SpeciesPool.new, pig := SpeciesPool.new, bull := SpeciesPool.new,
    duck := SpeciesPool.new }

/-- The lambda `spawnEnemy(type, pos, entryTarget)` (Game.cpp, lines 282-308). -/
def spawnEnemy (pools : EnemyPools) (type : String) (pos entryTarget : Vec3) : EnemyPools :=
  if type = "duck" ∧ pools.duck.nextIdx < MAX_ENEMIES then
    { pools with duck := pools.duck.spawn (AnimalData.create 40 5 2.0 10.0) pos true entryTarget }
  else if type = "goat" ∧ pools.goat.nextIdx < MAX_ENEMIES then
    { pools with goat := pools.goat.spawn (AnimalData.create 70 10 3.0 8.0) pos false entryTarget }
  else if type = "pig" ∧ pools.pig.nextIdx < MAX_ENEMIES then
    { pools with pig := pools.pig.spawn (AnimalData.create 130 10 4.0 6.0) pos false entryTarget }
  else if type = "bull" ∧ pools.bull.nextIdx < MAX_ENEMIES then
    { pools with
      bull := pools.bull.spawn (AnimalData.create 100 20 3.5 7.5) pos false entryTarget }
  else pools

/-- The next-slot index of the species a type name stands for (`none` for an unknown
name). -/
def nextIdxOf (pools : EnemyPools) (type : String) : Option Int :=
  if type = "duck" then some pools.duck.nextIdx
  else if type = "goat" then some pools.goat.nextIdx
  else if type = "pig" then some pools.pig.nextIdx
  else if type = "bull" then some pools.bull.nextIdx
  else none

/-- All four next-slot indices are at most the capacity. -/
def IndicesInRange (pools : EnemyPools) : Prop :=
  pools.goat.nextIdx ≤ MAX_ENEMIES ∧ pools.pig.nextIdx ≤ MAX_ENEMIES ∧
  pools.bull.nextIdx ≤ MAX_ENEMIES ∧ pools.duck.nextIdx ≤ MAX_ENEMIES

instance (pools : EnemyPools) : Decidable pools.IndicesInRange := by
  unfold IndicesInRange; infer_instance

end EnemyPools

/-- Slot `i` of a species pool holds the same position, AI (with its data) and active
flag in both pools. -/
def SpeciesPool.SameSlot (p q : SpeciesPool) (i : Nat) : Prop :=
  q.posPool[i]? = p.posPool[i]? ∧ q.aiPool[i]? = p.aiPool[i]? ∧
  q.activePool[i]? = p.activePool[i]?

/-- Slot `i` is the same in all four species of both pools. -/
def EnemyPools.SameSlot (p q : EnemyPools) (i : Nat) : Prop :=
  p.goat.SameSlot q.goat i ∧ p.pig.SameSlot q.pig i ∧ p.bull.SameSlot q.bull i ∧
  p.duck.SameSlot q.duck i

/-! ## Game.cpp: explosive barrels -/

/-- `struct ExplosiveBarrel` (Game.cpp, lines 316-321). -/
structure ExplosiveBarrel where
  position : Vec3
  health : Int
  isActive : Bool
  collider : AABB
deriving DecidableEq, Repr

/-- `enum class TaskMode { NONE, TASK_1, TASK_2 }` (Game.cpp, line 29). -/
inductive TaskMode where
  | NONE
  | TASK_1
  | TASK_2
deriving DecidableEq, Repr

/-- The variables of `WinMain` that the barrel handling reads and writes besides the
barrels themselves: the entity pools, the camera position, the player health, the kill
counter and the task progress. -/
structure Arena where
  pools : EnemyPools
  cameraPosition : Vec3
  playerHealth : Int
  killCount : Int
  killTarget : Int
  currentTask : TaskMode
  taskProgress : ℚ
deriving DecidableEq, Repr

/-- The two flags of an explosion, `explosionKill` and `explosionHit`. -/
structure SplashFlags where
  explosionKill : Bool
  explosionHit : Bool
deriving DecidableEq, Repr

namespace Barrels

/-- `const float explosionRadius = 5.0f` (lines 1148 and 1321). -/
def explosionRadius : ℚ := 5.0

/-- `const int explosionDamage = 60` (lines 1149 and 1322). -/
def explosionDamage : Int := 60

/-- The lambda `damageEnemy(ai, pos, isDuck)` of the shot handling (lines 1151-1165); the
melee handling has the same lambda as `damageEnemyMelee` (lines 1324-1337). -/
def damageEnemy (m : MathOps) (barrelPos : Vec3) (ai : EnemyController) (pos : Vec3)
    (f : SplashFlags) : EnemyController × SplashFlags :=
  if ai.shouldRemove then (ai, f)
  else
    let toEnemy : Vec3 := { pos.sub barrelPos with y := 0 }
    let dist := m.length toEnemy
    if dist < explosionRadius then
      let wasAlive := ai.isAlive
      let ai1 := ai.takeDamage m explosionDamage (m.normalize toEnemy)
      let f1 := { f with explosionHit := true }
      (ai1, if wasAlive ∧ ¬ ai1.isAlive then { f1 with explosionKill := true } else f1)
    else (ai, f)

/-- One iteration of `for (int i = 0; i < nextIdx; i++) if (activePool[i])
damageEnemy(aiPool[i], posPool[i], ...)` (lines 1167-1170) on the AI pool and the
flags. -/
def splashStep (m : MathOps) (barrelPos : Vec3) (p : SpeciesPool)
    (acc : List EnemyController × SplashFlags) (i : Nat) : List EnemyController × SplashFlags :=
  if p.activePool.getD i false then
    let r := damageEnemy m barrelPos (acc.1.getD i EnemyController.new)
      (p.posPool.getD i ⟨0, 0, 0⟩) acc.2
    (acc.1.set i r.1, r.2)
  else acc

/-- The loop over one species (lines 1167-1170, and likewise 1171-1182). -/
def splashSpecies (m : MathOps) (barrelPos : Vec3) (p : SpeciesPool) (f : SplashFlags) :
    SpeciesPool × SplashFlags :=
  let r := (List.range p.nextIdx.toNat).foldl (splashStep m barrelPos p) (p.aiPool, f)
  ({ p with aiPool := r.1 }, r.2)

/-- The destruction of a barrel (lines 1144-1215 for a shot, 1318-1382 for a melee hit):
splash damage to the four species in the order goat, pig, bull, duck, damage and
knockback for the player, and the kill counter. -/
def explode (m : MathOps) (a : Arena) (barrelPos : Vec3) : Arena :=
  let f0 : SplashFlags := { explosionKill := false, explosionHit := false }
  let g := splashSpecies m barrelPos a.pools.goat f0
  let p := splashSpecies m barrelPos a.pools.pig g.2
  let b := splashSpecies m barrelPos a.pools.bull p.2
  let d := splashSpecies m barrelPos a.pools.duck b.2
  let a1 : Arena := { a with pools := { goat := g.1, pig := p.1, bull := b.1, duck := d.1 } }
  let toPlayer : Vec3 := { a1.cameraPosition.sub barrelPos with y := 0 }
  let playerDist := m.length toPlayer
  let a2 : Arena :=
    if playerDist < explosionRadius then
      { a1 with playerHealth := a1.playerHealth - 15,
                cameraPosition := a1.cameraPosition.add ((m.normalize toPlayer).scale 2.0) }
    else a1
  if d.2.explosionKill then
    let a3 : Arena := { a2 with killCount := a2.killCount + 1 }
    if a3.currentTask = TaskMode.TASK_1 then
      let a4 : Arena := { a3 with taskProgress := (a3.killCount : ℚ) / 40.0 }
      if a4.taskProgress > 1.0 then { a4 with taskProgress := 1.0 } else a4
    else a3
  else a2

/-- One pass of the axis loop of the barrel ray test (lines 1106-1134): `none` is
`hit = false`, otherwise the updated `(tMin, tMax)`. This is the exact reading (the
differences and quotients are not rounded); `Rounded.Barrels.barrelSlab` has the
rounding. -/
def barrelSlab (origin dir minB maxB : ℚ) (t : ℚ × ℚ) : Option (ℚ × ℚ) :=
  if |dir| < 0.0001 then
    if origin < minB ∨ origin > maxB then none else some t
  else
    let t1 := (minB - origin) / dir
    let t2 := (maxB - origin) / dir
    let lo := if t1 > t2 then t2 else t1
    let hi := if t1 > t2 then t1 else t2
    let tMin := if lo > t.1 then lo else t.1
    let tMax := if hi < t.2 then hi else t.2
    if tMin > tMax then none else some (tMin, tMax)

/-- The ray test of the barrel shot handling (lines 1101-1136): the slab loop followed
by `hit && tMin > 0 && tMin < 100.0f`. -/
def barrelRayHit (rayOrigin rayDir : Vec3) (box : AABB) : Bool :=
  match barrelSlab rayOrigin.x rayDir.x box.min.x box.max.x (0.0, 1000.0) with
  | none => false
  | some tx =>
    match barrelSlab rayOrigin.y rayDir.y box.min.y box.max.y tx with
    | none => false
    | some ty =>
      match barrelSlab rayOrigin.z rayDir.z box.min.z box.max.z ty with
      | none => false
      | some tz => decide (tz.1 > 0 ∧ tz.1 < 100.0)

/-- The melee test of the barrel melee handling (lines 1306-1311): the barrel is closer
than 4 and within the cone `dot > 0.5` of the forward direction. -/
def barrelMeleeHit (m : MathOps) (cameraPosition forward : Vec3) (b : ExplosiveBarrel) : Bool :=
  let toBarrel := b.position.sub cameraPosition
  let dist := m.length toBarrel
  if dist < 4.0 then
    let toBarrel := m.normalize toBarrel
    let dot := m.dot forward toBarrel
    decide (dot > 0.5)
  else false

/-- What both handlers do to the first active barrel that passes their test (lines
1137-1217 and 1312-1384): the barrel loses `damage` health and, at health 0 or below,
becomes inactive and explodes. -/
def hitBarrel (m : MathOps) (damage : Int) (a : Arena) (b : ExplosiveBarrel) :
    ExplosiveBarrel × Arena :=
  let b1 : ExplosiveBarrel := { b with health := b.health - damage }
  if b1.health ≤ 0 then ({ b1 with isActive := false }, explode m a b1.position) else (b1, a)

/-- The loop over the barrels after a shot (lines 1096-1219): inactive barrels are
skipped, and the first active barrel that the ray hits is damaged, after which the
loop is left (`break`). -/
def shootBarrels (m : MathOps) (forward : Vec3) (damage : Int) (a : Arena) :
    List ExplosiveBarrel → List ExplosiveBarrel × Arena
  | [] => ([], a)
  | b :: bs =>
    if !b.isActive then
      (b :: (shootBarrels m forward damage a bs).1, (shootBarrels m forward damage a bs).2)
    else if barrelRayHit a.cameraPosition forward b.collider then
      ((hitBarrel m damage a b).1 :: bs, (hitBarrel m damage a b).2)
    else
      (b :: (shootBarrels m forward damage a bs).1, (shootBarrels m forward damage a bs).2)

/-- The loop over the barrels after a melee swing (lines 1302-1387), with the same
shape as the loop after a shot. -/
def meleeBarrels (m : MathOps) (forward : Vec3) (damage : Int) (a : Arena) :
    List ExplosiveBarrel → List ExplosiveBarrel × Arena
  | [] => ([], a)
  | b :: bs =>
    if !b.isActive then
      (b :: (meleeBarrels m forward damage a bs).1, (meleeBarrels m forward damage a bs).2)
    else if barrelMeleeHit m a.cameraPosition forward b then
      ((hitBarrel m damage a b).1 :: bs, (hitBarrel m damage a b).2)
    else
      (b :: (meleeBarrels m forward damage a bs).1, (meleeBarrels m forward damage a bs).2)

/-- Specification of the splash, to compare with `explode`: the enemy of a pool slot
after the splash of a barrel at `barrelPos`. It takes
`takeDamage(60, ...)` when its slot is in use (`i < nextIdx`, active flag set), it is
not flagged `shouldRemove` and its pool position is horizontally closer than 5. -/
def splashed (m : MathOps) (barrelPos : Vec3) (p : SpeciesPool) (i : Nat)
    (old : EnemyController) : EnemyController :=
  if (i : Int) < p.nextIdx ∧ p.activePool.getD i false = true ∧ old.shouldRemove = false ∧
      m.length { (p.posPool.getD i ⟨0, 0, 0⟩).sub barrelPos with y := 0 } < 5 then
    old.takeDamage m 60 (m.normalize { (p.posPool.getD i ⟨0, 0, 0⟩).sub barrelPos with y := 0 })
  else old

/-- A barrel for evaluation: health 60, active, in the box around the origin. -/
def sampleBarrel : ExplosiveBarrel :=
  { position := ⟨0, 0, 0⟩, health := 60, isActive := true,
    collider := ⟨⟨-1, 0, -1⟩, ⟨1, 2, 1⟩⟩ }

/-- A state for evaluation: the player 5 units in front of the sample barrel and one
goat spawned beside the barrel. -/
def sampleArena : Arena :=
  { pools := EnemyPools.new.spawnEnemy "goat" ⟨1, 0, 1⟩ ⟨0, 0, 0⟩
    cameraPosition := ⟨0, 1, -5⟩
    playerHealth := 100
    killCount := 0
    killTarget := 9999
    currentTask := TaskMode.NONE
    taskProgress := 0 }

end Barrels

/-! ## Collision.h: the interval of the ray test; Game.cpp: ground detection -/

namespace CollisionSystem

/-- The values of `(tmin, tmax)` with which `rayIntersectsAABB` reaches its final
`return true` (lines 155-224), `none` when one of the three axis blocks returns
false. -/
def rayInterval (rayOrigin rayDir : Vec3) (box : AABB) (maxDist : ℚ) : Option (ℚ × ℚ) :=
  match slab rayOrigin.x rayDir.x box.min.x box.max.x (0, maxDist) with
  | none => none
  | some tx =>
    match slab rayOrigin.y rayDir.y box.min.y box.max.y tx with
    | none => none
    | some ty => slab rayOrigin.z rayDir.z box.min.z box.max.z ty

end CollisionSystem

namespace Camera

/-- The body of the ground detection loop of `WinMain` (Game.cpp, lines 899-908) on the
running `groundHeight`. -/
def groundStep (playerFeetPos : Vec3) (groundHeight : ℚ) (wall : AABB) : ℚ :=
  if playerFeetPos.x ≥ wall.min.x ∧ playerFeetPos.x ≤ wall.max.x ∧
      playerFeetPos.z ≥ wall.min.z ∧ playerFeetPos.z ≤ wall.max.z then
    if playerFeetPos.y ≥ wall.max.y - 0.5 then
      let surfaceHeight := wall.max.y + 1.5
      if surfaceHeight > groundHeight then surfaceHeight else groundHeight
    else groundHeight
  else groundHeight

/-- The ground detection of `WinMain` (Game.cpp, lines 896-908): the value of
`groundHeight` after the loop over the scene colliders, starting from
`camera.defaultGroundY`. -/
def detectGroundHeight (playerFeetPos : Vec3) (sceneColliders : List AABB) : ℚ :=
  sceneColliders.foldl (groundStep playerFeetPos) defaultGroundY

/-- Lines 896-909 of Game.cpp: the detection followed by
`camera.setGroundHeight(groundHeight)`. -/
def pushGroundHeight (c : Camera) (playerFeetPos : Vec3) (sceneColliders : List AABB) :
    Camera :=
  c.setGroundHeight (detectGroundHeight playerFeetPos sceneColliders)

/-- The condition under which the ground detection looks at a box (lines 900-901): the
feet are inside its X/Z extent and its top is at most 0.5 above the feet. -/
def StandsOver (playerFeetPos : Vec3) (wall : AABB) : Prop :=
  (playerFeetPos.x ≥ wall.min.x ∧ playerFeetPos.x ≤ wall.max.x ∧
    playerFeetPos.z ≥ wall.min.z ∧ playerFeetPos.z ≤ wall.max.z) ∧
  playerFeetPos.y ≥ wall.max.y - 0.5

instance (playerFeetPos : Vec3) (wall : AABB) : Decidable (StandsOver playerFeetPos wall) := by
  unfold StandsOver; infer_instance

end Camera

/-! ## Enemy AI: failed attempts, sample frames and sample states -/

namespace EnemyController

open EnemyState

end EnemyController

namespace EnemyController

open EnemyState

/-- A frame of a tenth of a second with the player one unit in front of the origin, at
the height of an enemy on the ground, and no colliders. -/
def nearFrame : EnemyInput :=
  { dt := 1 / 10, playerPos := ⟨0, 1.5, 1⟩, staticColliders := none, modelName := "Goat-01",
    animationFinished := false }

/-- The goat after its first frame next to the player: it has stepped 0.8 forward and
entered ATTACK. -/
def goatAttacking : EnemyController :=
  { sampleGoat with
    currentState := ATTACK
    data := { sampleGoat.data with attackTimer := 3 }
    position := ⟨0, 0, 4 / 5⟩ }

/-- The attacking goat 0.4 s into its attack cycle. -/
def goatMidAttack : EnemyController := { goatAttacking with attackTimer := 2 / 5 }

/-- The goat hit for 10 damage in the middle of its attack: HIT_REACT with health 60. -/
def goatHit : EnemyController :=
  { goatMidAttack with data := { goatMidAttack.data with health := 60 }, currentState := HIT_REACT }

/-- The hit goat back in CHASE when its reaction animation has finished. -/
def goatRecovered : EnemyController :=
  { goatHit with hitReactTimer := 1 / 10, currentState := CHASE }

/-- The recovered goat after the frame in which it enters ATTACK again. -/
def goatReattacking : EnemyController :=
  { goatRecovered with
    currentState := ATTACK
    lastPosition := ⟨0, 0, 4 / 5⟩
    position := ⟨0, 0, 8 / 5⟩ }

/-- An attack that is interrupted: the goat enters ATTACK, attacks for 0.4 s, is hit for
10 damage, and recovers. -/
def interruptedAttack : List Call :=
  [Call.update nearFrame, Call.update { nearFrame with dt := 2 / 5 },
    Call.takeDamage 10 ⟨0, 0, 0⟩, Call.update { nearFrame with animationFinished := true }]

/-- A used controller: a goat that attacked for half a second, dealt its damage and was
then killed. -/
def veteran : EnemyController :=
  runCalls MathOps.sample sampleGoat
    [Call.update nearFrame, Call.update { nearFrame with dt := 1 / 2 },
      Call.takeDamage 80 ⟨0, 0, 0⟩]

end EnemyController

namespace EnemyController

open EnemyState

/-- The attacking goat after half a second of attack: it has dealt its damage. -/
def goatDealt : EnemyController :=
  { goatAttacking with attackTimer := 1 / 2, hasDealtDamage := true }

/-- The goat that has dealt its damage, killed by damage 80. -/
def goatDealtKilled : EnemyController :=
  { goatDealt with
    data := { goatDealt.data with health := 0, isAlive := false }
    currentState := DEATH }

/-- The used controller after `init` with the arguments of a goat spawn at the origin:
the attack timer and the damage flag of its previous life are still there. -/
def reusedGoat : EnemyController :=
  { sampleGoat with attackTimer := 1 / 2, hasDealtDamage := true }

end EnemyController

/-! ## Game.cpp: saving and loading the entity pools -/

/-- The line of one entity slot in `load.txt` (written by lines 761-780 of Game.cpp, read
by lines 573-644): the active flag, the position, the health and the removal flag. -/
structure SavedEnemy where
  active : Int
  x : ℚ
  y : ℚ
  z : ℚ
  hp : Int
  removed : Int
deriving DecidableEq, Repr

namespace SpeciesPool

/-- The line that the save code writes for slot `i` (lines 762-764). `text` maps a float
to the value that its printed text reads back as (the stream prints a float with a
limited number of digits); integers are printed exactly. -/
def saveSlot (text : ℚ → ℚ) (p : SpeciesPool) (i : Nat) : SavedEnemy :=
  { active := if p.activePool.getD i false then 1 else 0
    x := text (p.posPool.getD i ⟨0, 0, 0⟩).x
    y := text (p.posPool.getD i ⟨0, 0, 0⟩).y
    z := text (p.posPool.getD i ⟨0, 0, 0⟩).z
    hp := (p.aiPool.getD i EnemyController.new).data.health
    removed := if (p.aiPool.getD i EnemyController.new).shouldRemove then 1 else 0 }

/-- The lines that the save code writes for one species (lines 761-765): one line per
slot below the next index. -/
def save (text : ℚ → ℚ) (p : SpeciesPool) : List SavedEnemy :=
  (List.range p.nextIdx.toNat).map (saveSlot text p)

/-- The body of the load loop of one species (lines 574-589) for slot `i` and its line:
`stats` is the `AnimalData` the species is constructed with (`AnimalData(70, 10, 3.0f,
8.0f)` for goats). The data pool slot is the `data` of the controller of the slot. -/
def loadSlot (stats : AnimalData) (isDuck : Bool) (p : SpeciesPool) (i : Nat)
    (r : SavedEnemy) : SpeciesPool :=
  let pos : Vec3 := ⟨r.x, r.y, r.z⟩
  let data : AnimalData := { stats with health := r.hp }
  let ai : EnemyController := { p.aiPool.getD i EnemyController.new with data := data }
  let p1 : SpeciesPool := { p with posPool := p.posPool.set i pos, aiPool := p.aiPool.set i ai }
  if r.removed = 1 then
    { p1 with activePool := p1.activePool.set i false
              aiPool := p1.aiPool.set i { ai with shouldRemove := true } }
  else if r.active = 1 then
    { p1 with activePool := p1.activePool.set i true
              aiPool := p1.aiPool.set i (ai.init true (some data) pos isDuck ⟨0, 0, 0⟩) }
  else
    { p1 with activePool := p1.activePool.set i false }

/-- The walk of the load loop over the lines of a species, slot `i` first. -/
def loadLines (stats : AnimalData) (isDuck : Bool) :
    SpeciesPool → Nat → List SavedEnemy → SpeciesPool
  | p, _, [] => p
  | p, i, r :: rest => loadLines stats isDuck (loadSlot stats isDuck p i r) (i + 1) rest

/-- Loading one species (lines 562-590): the next index is read, the active flags of all
`MAX_ENEMIES` slots are cleared, and one line is read per slot below the next index. -/
def load (stats : AnimalData) (isDuck : Bool) (p : SpeciesPool) (nextIdx : Int)
    (lines : List SavedEnemy) : SpeciesPool :=
  let p1 : SpeciesPool :=
    { p with nextIdx := nextIdx
             activePool := (List.range MAX_ENEMIES.toNat).foldl (fun l i => l.set i false)
               p.activePool }
  loadLines stats isDuck p1 0 (lines.take nextIdx.toNat)

/-- A goat pool whose slot 0 holds a goat that is dying: spawned beside the barrel, then
killed by damage 80 (health 0, not alive, state DEATH, not yet flagged for removal). -/
def dyingPool : SpeciesPool :=
  { (SpeciesPool.new.spawn (AnimalData.create 70 10 3.0 8.0) ⟨1, 0, 1⟩ false ⟨0, 0, 0⟩) with
    aiPool :=
      (SpeciesPool.new.spawn (AnimalData.create 70 10 3.0 8.0) ⟨1, 0, 1⟩ false
        ⟨0, 0, 0⟩).aiPool.set 0
        (EnemyController.takeDamage MathOps.sample
          ((SpeciesPool.new.spawn (AnimalData.create 70 10 3.0 8.0) ⟨1, 0, 1⟩ false
            ⟨0, 0, 0⟩).aiPool.getD 0 EnemyController.new) 80 ⟨0, 0, 0⟩) }

end SpeciesPool

/-! ## Game.cpp: melee swings at enemies, and kills per event -/

/-- The two flags of a melee swing, `meleeHit` and `meleeKill` (Game.cpp, lines
1240-1241). -/
structure MeleeFlags where
  meleeHit : Bool
  meleeKill : Bool
deriving DecidableEq, Repr

namespace Melee

/-- The lambda `handleMelee(enemy, enemyPos)` (lines 1243-1261) on the enemy and the
flags. -/
def handleMelee (m : MathOps) (cameraPosition forward : Vec3) (damage : Int)
    (enemy : EnemyController) (enemyPos : Vec3) (f : MeleeFlags) :
    EnemyController × MeleeFlags :=
  if enemy.shouldRemove then (enemy, f)
  else
    let toEnemy := enemyPos.sub cameraPosition
    let dist := m.length toEnemy
    if dist < 4.0 then
      let toEnemy := m.normalize toEnemy
      let dot := m.dot forward toEnemy
      if dot > 0.5 then
        let wasAlive := enemy.isAlive
        let enemy1 := enemy.takeDamage m damage forward
        let f1 := { f with meleeHit := true }
        (enemy1, if wasAlive ∧ ¬ enemy1.isAlive then { f1 with meleeKill := true } else f1)
      else (enemy, f)
    else (enemy, f)

/-- One iteration of `for (int i = 0; i < nextIdx; i++) if (activePool[i])
handleMelee(aiPool[i], posPool[i])` (lines 1263-1266). -/
def meleeStep (m : MathOps) (cameraPosition forward : Vec3) (damage : Int) (p : SpeciesPool)
    (acc : List EnemyController × MeleeFlags) (i : Nat) : List EnemyController × MeleeFlags :=
  if p.activePool.getD i false then
    let r := handleMelee m cameraPosition forward damage (acc.1.getD i EnemyController.new)
      (p.posPool.getD i ⟨0, 0, 0⟩) acc.2
    (acc.1.set i r.1, r.2)
  else acc

/-- The loop over one species (lines 1263-1266, and likewise 1267-1278). -/
def meleeSpecies (m : MathOps) (cameraPosition forward : Vec3) (damage : Int)
    (p : SpeciesPool) (f : MeleeFlags) : SpeciesPool × MeleeFlags :=
  let r := (List.range p.nextIdx.toNat).foldl (meleeStep m cameraPosition forward damage p)
    (p.aiPool, f)
  ({ p with aiPool := r.1 }, r.2)

/-- The four species loops of a melee swing (lines 1263-1278), in the order goat, pig,
bull, duck, from both flags false. -/
def meleeAll (m : MathOps) (cameraPosition forward : Vec3) (damage : Int)
    (pools : EnemyPools) : EnemyPools × MeleeFlags :=
  let f0 : MeleeFlags := { meleeHit := false, meleeKill := false }
  let g := meleeSpecies m cameraPosition forward damage pools.goat f0
  let p := meleeSpecies m cameraPosition forward damage pools.pig g.2
  let b := meleeSpecies m cameraPosition forward damage pools.bull p.2
  let d := meleeSpecies m cameraPosition forward damage pools.duck b.2
  ({ goat := g.1, pig := p.1, bull := b.1, duck := d.1 }, d.2)

/-- The melee swing at the enemies (lines 1238-1299): the four species loops and then
the kill counter. -/
def meleeEnemies (m : MathOps) (a : Arena) (forward : Vec3) (damage : Int) : Arena :=
  let d := meleeAll m a.cameraPosition forward damage a.pools
  let a1 : Arena := { a with pools := d.1 }
  if d.2.meleeKill then
    let a3 : Arena := { a1 with killCount := a1.killCount + 1 }
    if a3.currentTask = TaskMode.TASK_1 then
      let a4 : Arena := { a3 with taskProgress := (a3.killCount : ℚ) / 40.0 }
      if a4.taskProgress > 1.0 then { a4 with taskProgress := 1.0 } else a4
    else a3
  else a1

end Melee

/-- The four species loops of an explosion (lines 1167-1182), as `Barrels.explode` runs
them: goat, pig, bull, duck, from both flags false. -/
def Barrels.splashAll (m : MathOps) (barrelPos : Vec3) (pools : EnemyPools) :
    EnemyPools × SplashFlags :=
  let f0 : SplashFlags := { explosionKill := false, explosionHit := false }
  let g := Barrels.splashSpecies m barrelPos pools.goat f0
  let p := Barrels.splashSpecies m barrelPos pools.pig g.2
  let b := Barrels.splashSpecies m barrelPos pools.bull p.2
  let d := Barrels.splashSpecies m barrelPos pools.duck b.2
  ({ goat := g.1, pig := p.1, bull := b.1, duck := d.1 }, d.2)

/-- The number of enemies of a species that an event killed: the slots whose enemy was
alive before the event and is not alive after it. -/
def SpeciesPool.kills (before after : SpeciesPool) : Nat :=
  (before.aiPool.zip after.aiPool).countP (fun s => s.1.isAlive && !s.2.isAlive)

/-- The number of enemies that an event killed, over the four species. -/
def EnemyPools.kills (before after : EnemyPools) : Nat :=
  before.goat.kills after.goat + before.pig.kills after.pig + before.bull.kills after.bull +
    before.duck.kills after.duck

/-! ## Rounded float arithmetic

The functions whose result depends on the rounding of a float operation, a second
time with the rounding explicit. -/

namespace Binary32

/-- The power `2^e` for an integer exponent. -/
def pow2 (e : Int) : ℚ :=
  if 0 ≤ e then ((2 ^ e.toNat : Nat) : ℚ) else 1 / ((2 ^ (-e).toNat : Nat) : ℚ)

/-- The number of binary digits of `n`, by halving at most `fuel` times. -/
def bitsAux : Nat → Nat → Nat
  | 0, _ => 0
  | fuel + 1, n => if n = 0 then 0 else bitsAux fuel (n / 2) + 1

/-- The number of binary digits of `n` (0 for 0). -/
def bits (n : Nat) : Nat := bitsAux n n

/-- The binary exponent of a rational other than 0: the `e` with `2^e ≤ |q| < 2^(e+1)`,
found from the bit lengths of the numerator and the denominator. -/
def exponent (q : ℚ) : Int :=
  if pow2 ((bits q.num.natAbs : Int) - (bits q.den : Int)) ≤ |q|
  then (bits q.num.natAbs : Int) - (bits q.den : Int)
  else (bits q.num.natAbs : Int) - (bits q.den : Int) - 1

/-- Rounding to the nearest integer, a tie to the even one. -/
def roundEven (k : ℚ) : Int :=
  if k - (⌊k⌋ : ℚ) < 1 / 2 then ⌊k⌋
  else if 1 / 2 < k - (⌊k⌋ : ℚ) then ⌊k⌋ + 1
  else if ⌊k⌋ % 2 = 0 then ⌊k⌋ else ⌊k⌋ + 1

/-- The spacing of the binary32 values around `q`: `2^(e - 23)` for the exponent `e` of
`q` (a significand of 24 bits), and `2^-149` for the subnormal numbers below `2^-126`. -/
def ulp (q : ℚ) : ℚ := pow2 (max (exponent q) (-126) - 23)

/-- The binary32 value nearest to `q`, a tie to the value with the even significand:
the rounding of IEEE 754 that an x64 build applies to the result of every `float`
operation and to every `float` literal. Overflow to infinity is not modelled (no value
of this development comes near `2^128`). -/
def round (q : ℚ) : ℚ :=
  if q = 0 then 0 else (roundEven (q / ulp q) : ℚ) * ulp q

end Binary32

namespace Rounded

/-- The `operator+` of `Vec3` with each component sum rounded by `fl`. -/
def Vec3.add (fl : ℚ → ℚ) (a b : Vec3) : Vec3 := ⟨fl (a.x + b.x), fl (a.y + b.y), fl (a.z + b.z)⟩

/-- The `operator-` of `Vec3` with each component difference rounded by `fl`. -/
def Vec3.sub (fl : ℚ → ℚ) (a b : Vec3) : Vec3 := ⟨fl (a.x - b.x), fl (a.y - b.y), fl (a.z - b.z)⟩

/-- `AABB::fromCenterExtent(center, halfExtent)` (Collision.h, lines 20-22). -/
def AABB.fromCenterExtent (fl : ℚ → ℚ) (center halfExtent : Vec3) : AABB :=
  ⟨Vec3.sub fl center halfExtent, Vec3.add fl center halfExtent⟩

/-- `ModelBounds::toVec3()` (line 28) on a catalog entry: the three half-extents are
`float` literals such as `0.43f`, whose value is the rounded decimal. -/
def ModelBounds.toVec3 (fl : ℚ → ℚ) (b : ModelBounds) : Vec3 :=
  ⟨fl b.halfExtentX, fl b.halfExtentY, fl b.halfExtentZ⟩

/-- `getStaticModelAABB(modelName, position)` (lines 84-99) with every float result
rounded by `fl`; the literals 0, 0.5, 1.0 and 1.5 are binary32 values as they stand. -/
def getStaticModelAABB (fl : ℚ → ℚ) (modelName : String) (position : Vec3) : AABB :=
  match StaticModelBounds.lookup modelName with
  | some b =>
    let extent := ModelBounds.toVec3 fl b
    let center := Vec3.add fl position ⟨0, extent.y, 0⟩
    let center := match StaticModelOffsets.lookup modelName with
      | some off => Vec3.add fl center off
      | none => center
    AABB.fromCenterExtent fl center extent
  | none => AABB.fromCenterExtent fl (Vec3.add fl position ⟨0, 1.0, 0⟩) ⟨0.5, 1.0, 0.5⟩

/-- `getAnimatedModelAABB(modelName, position)` (lines 101-111) with every float result
rounded by `fl`. -/
def getAnimatedModelAABB (fl : ℚ → ℚ) (modelName : String) (position : Vec3) : AABB :=
  match AnimatedModelBounds.lookup modelName with
  | some b =>
    let extent := ModelBounds.toVec3 fl b
    let center := Vec3.add fl position ⟨0, extent.y, 0⟩
    AABB.fromCenterExtent fl center extent
  | none => AABB.fromCenterExtent fl (Vec3.add fl position ⟨0, 1.0, 0⟩) ⟨0.5, 1.0, 0.5⟩

namespace CollisionSystem

/-- The two parameters of a non-parallel axis block of `rayIntersectsAABB` (Collision.h,
lines 163-171): the rounded reciprocal `invD = 1.0f / rayDir`, the rounded products
`t1 = (box.min - rayOrigin) * invD` and `t2 = (box.max - rayOrigin) * invD` of the
rounded differences, and the swap that puts the smaller one first. -/
def axisParams (fl : ℚ → ℚ) (o d bmin bmax : ℚ) : ℚ × ℚ :=
  let invD := fl (1 / d)
  let t1 := fl (fl (bmin - o) * invD)
  let t2 := fl (fl (bmax - o) * invD)
  if t1 > t2 then (t2, t1) else (t1, t2)

/-- One axis block of `rayIntersectsAABB` (lines 159-178) with every float result rounded
by `fl`: `none` is the early `return false`, otherwise the updated `(tmin, tmax)`. The
threshold `0.0001f` is the rounded decimal. -/
def slab (fl : ℚ → ℚ) (o d bmin bmax : ℚ) (t : ℚ × ℚ) : Option (ℚ × ℚ) :=
  if |d| < fl 0.0001 then
    if o < bmin ∨ o > bmax then none else some t
  else
    let p := axisParams fl o d bmin bmax
    let tmin := max t.1 p.1
    let tmax := min t.2 p.2
    if tmin > tmax then none else some (tmin, tmax)

/-- The parameters `s` that one axis block of the rounded ray test lets through: on an
axis taken as parallel every parameter when the origin is inside the slab and none
otherwise, and on any other axis the parameters between the two computed values of
`axisParams`. -/
def Passes (fl : ℚ → ℚ) (o d bmin bmax s : ℚ) : Prop :=
  if |d| < fl 0.0001 then bmin ≤ o ∧ o ≤ bmax
  else (axisParams fl o d bmin bmax).1 ≤ s ∧ s ≤ (axisParams fl o d bmin bmax).2

instance (fl : ℚ → ℚ) (o d bmin bmax s : ℚ) : Decidable (Passes fl o d bmin bmax s) := by
  unfold Passes; infer_instance

/-- The values of `(tmin, tmax)` with which `rayIntersectsAABB` reaches its final
`return true` (lines 155-224), `none` when one of the three axis blocks returns
false. -/
def rayInterval (fl : ℚ → ℚ) (rayOrigin rayDir : Vec3) (box : AABB) (maxDist : ℚ) :
    Option (ℚ × ℚ) :=
  match slab fl rayOrigin.x rayDir.x box.min.x box.max.x (0, maxDist) with
  | none => none
  | some tx =>
    match slab fl rayOrigin.y rayDir.y box.min.y box.max.y tx with
    | none => none
    | some ty => slab fl rayOrigin.z rayDir.z box.min.z box.max.z ty

/-- `rayIntersectsAABB(rayOrigin, rayDir, box, maxDist)` (lines 153-225) with every float
result rounded by `fl`. -/
def rayIntersectsAABB (fl : ℚ → ℚ) (rayOrigin rayDir : Vec3) (box : AABB) (maxDist : ℚ) :
    Bool :=
  match slab fl rayOrigin.x rayDir.x box.min.x box.max.x (0, maxDist) with
  | none => false
  | some tx =>
    match slab fl rayOrigin.y rayDir.y box.min.y box.max.y tx with
    | none => false
    | some ty =>
      match slab fl rayOrigin.z rayDir.z box.min.z box.max.z ty with
      | none => false
      | some _ => true

end CollisionSystem

namespace Barrels

/-- One pass of the axis loop of the barrel ray test (Game.cpp, lines 1106-1134) with
every float result rounded by `fl`: the loop divides the rounded differences by the
direction component, `t1 = (minB - origin) / dir` and `t2 = (maxB - origin) / dir`. -/
def barrelSlab (fl : ℚ → ℚ) (origin dir minB maxB : ℚ) (t : ℚ × ℚ) : Option (ℚ × ℚ) :=
  if |dir| < fl 0.0001 then
    if origin < minB ∨ origin > maxB then none else some t
  else
    let t1 := fl (fl (minB - origin) / dir)
    let t2 := fl (fl (maxB - origin) / dir)
    let lo := if t1 > t2 then t2 else t1
    let hi := if t1 > t2 then t1 else t2
    let tMin := if lo > t.1 then lo else t.1
    let tMax := if hi < t.2 then hi else t.2
    if tMin > tMax then none else some (tMin, tMax)

/-- The ray test of the barrel shot handling (lines 1101-1136) with every float result
rounded by `fl`: the slab loop followed by `hit && tMin > 0 && tMin < 100.0f`. -/
def barrelRayHit (fl : ℚ → ℚ) (rayOrigin rayDir : Vec3) (box : AABB) : Bool :=
  match barrelSlab fl rayOrigin.x rayDir.x box.min.x box.max.x (0.0, 1000.0) with
  | none => false
  | some tx =>
    match barrelSlab fl rayOrigin.y rayDir.y box.min.y box.max.y tx with
    | none => false
    | some ty =>
      match barrelSlab fl rayOrigin.z rayDir.z box.min.z box.max.z ty with
      | none => false
      | some tz => decide (tz.1 > 0 ∧ tz.1 < 100.0)

end Barrels

namespace EnemyController

open EnemyState

/-- HIT_REACT (Controller.h, lines 823-830) with the sum `hitReactTimer += dt` rounded
by `fl`. -/
def updateHitReact (fl : ℚ → ℚ) (s : EnemyController) (inp : EnemyInput) : EnemyController :=
  let s1 := { s with hitReactTimer := fl (s.hitReactTimer + inp.dt) }
  if inp.animationFinished ∨ s1.hitReactTimer > 1.0 then { s1 with currentState := CHASE }
  else s1

/-- DEATH (lines 832-839) with the sum `deathTimer += dt` rounded by `fl`. -/
def updateDeath (fl : ℚ → ℚ) (s : EnemyController) (inp : EnemyInput) : EnemyController :=
  let s1 := { s with deathTimer := fl (s.deathTimer + inp.dt) }
  if s1.deathTimer ≥ 1.0 then { s1 with currentState := REMOVED, shouldRemove := true }
  else s1

/-- The `switch (currentState)` of `update` (lines 649-843) with the two timers of
HIT_REACT and DEATH rounded by `fl`; the branches of the other states, which do not
touch these timers, are the ones of the exact reading. -/
def updateState (fl : ℚ → ℚ) (m : MathOps) (s : EnemyController) (inp : EnemyInput)
    (v : EnemyController.View) : EnemyController × Int :=
  match s.currentState with
  | HIT_REACT => (updateHitReact fl s inp, 0)
  | DEATH => (updateDeath fl s inp, 0)
  | _ => s.updateState m inp v

/-- `update(dt, playerPos, playerDamageOut, staticColliders, modelName)` (lines 603-846)
with the two timers of HIT_REACT and DEATH rounded by `fl`. -/
def update (fl : ℚ → ℚ) (m : MathOps) (s : EnemyController) (inp : EnemyInput)
    (playerDamageOut : Int) : EnemyUpdate :=
  if !s.hasInstance || !s.hasData || !s.initialized then
    { ctrl := s, playerDamageOut := playerDamageOut, alive := false }
  else if s.currentState = REMOVED then
    { ctrl := { s with shouldRemove := true }, playerDamageOut := 0, alive := false }
  else
    let v := s.view m inp
    let currentGroundY := EnemyController.groundHeight s.position inp.staticColliders
    let s1 := s.updatePhysics inp currentGroundY
    let r := updateState fl m s1 inp v
    { ctrl := r.1, playerDamageOut := r.2, alive := r.1.data.isAlive }

/-- A run of `update` calls, one per frame, keeping the object. -/
def run (fl : ℚ → ℚ) (m : MathOps) (s : EnemyController) : List EnemyInput → EnemyController
  | [] => s
  | inp :: rest => run fl m (update fl m s inp 0).ctrl rest

/-- The value of a timer that starts at `t` and takes `timer += dt` once per frame, each
sum rounded by `fl`. -/
def timer (fl : ℚ → ℚ) (t : ℚ) : List EnemyInput → ℚ
  | [] => t
  | inp :: rest => timer fl (fl (t + inp.dt)) rest

/-- A frame of a sixtieth of a second (the binary32 value nearest to 1/60) with the
player 10 units away, no colliders and the animation still running. -/
def sixtieth : EnemyInput := { EnemyController.halfSecond with dt := Binary32.round (1 / 60) }

end EnemyController

end Rounded

/-! ## Game.cpp: a state with two enemies in reach -/

namespace Barrels

/-- A state for evaluation in Task 1: two ducks (40 health each) spawned left and right
in front of the player, both within the splash radius of a barrel at the origin and
within melee reach of the player; no kill counted yet. -/
def twoDucks : Arena :=
  { pools := (EnemyPools.new.spawnEnemy "duck" ⟨1, 0, 1⟩ ⟨0, 0, 0⟩).spawnEnemy "duck"
      ⟨-1, 0, 1⟩ ⟨0, 0, 0⟩
    cameraPosition := ⟨0, 0, -1⟩
    playerHealth := 100
    killCount := 0
    killTarget := 9999
    currentTask := TaskMode.TASK_1
    taskProgress := 0 }

end Barrels

/-! ## Collision engine: properties -/

section CollisionProofs

open CollisionSystem

/-- The body of `checkAABB` written with the spec's per-axis penetrations. -/
theorem checkAABB_eq (A B : AABB) :
    checkAABB A B =
      if 0 < penetration Axis.x A B ∧ 0 < penetration Axis.y A B ∧ 0 < penetration Axis.z A B then
        { collided := true
          normal :=
            let a := leastAxis (penetration Axis.x A B) (penetration Axis.y A B)
              (penetration Axis.z A B)
            a.unit (decide (A.min.get a < B.min.get a))
          depth := penetration (leastAxis (penetration Axis.x A B) (penetration Axis.y A B)
              (penetration Axis.z A B)) A B }
      else { collided := false, normal := ⟨0, 0, 0⟩, depth := 0 } := by
  unfold checkAABB leastAxis
  simp only [penetration, Vec3.get, gt_iff_lt]
  split_ifs <;> simp [Axis.unit, Vec3.get, penetration, *]

/-- Every component of a unit vector off its own axis is zero, and the component on
its axis is `-1` or `1` according to the sign flag. -/
theorem Axis.unit_get (a b : Axis) (n : Bool) :
    (a.unit n).get b = if b = a then (if n then -1 else 1) else 0 := by
  cases a <;> cases b <;> cases n <;> simp [Axis.unit, Vec3.get]

/-- The collision flag of `checkAABB` in terms of the spec's penetrations. -/
theorem checkAABB_collided_pos (A B : AABB) :
    (checkAABB A B).collided = true ↔
      0 < penetration Axis.x A B ∧ 0 < penetration Axis.y A B ∧ 0 < penetration Axis.z A B := by
  rw [checkAABB_eq]
  split_ifs with h
  · simp [h]
  · simp [h]

/-- C1: `checkAABB(A,B).collided` holds exactly when the three per-axis penetrations
`min(A.max,B.max) - max(A.min,B.min)` are all strictly positive; a pair with some
penetration equal to 0 (boxes touching on a face) does not collide. -/
theorem checkAABB_collided_iff (A B : AABB) :
    ((checkAABB A B).collided = true ↔
      0 < penetration Axis.x A B ∧ 0 < penetration Axis.y A B ∧ 0 < penetration Axis.z A B) ∧
    (∀ a : Axis, penetration a A B = 0 → (checkAABB A B).collided = false) := by
  have key := checkAABB_collided_pos A B
  refine ⟨key, ?_⟩
  intro a ha
  cases hc : (checkAABB A B).collided with
  | false => rfl
  | true =>
    obtain ⟨hx, hy, hz⟩ := key.mp hc
    cases a
    · exact absurd ha (ne_of_gt hx)
    · exact absurd ha (ne_of_gt hy)
    · exact absurd ha (ne_of_gt hz)

/-- C1, at a concrete input: two unit boxes sharing the face `x = 1` have
x-penetration 0 and do not collide. -/
theorem checkAABB_collided_iff_witness :
    penetration Axis.x ⟨⟨0, 0, 0⟩, ⟨1, 1, 1⟩⟩ ⟨⟨1, 0, 0⟩, ⟨2, 1, 1⟩⟩ = 0 ∧
    (checkAABB ⟨⟨0, 0, 0⟩, ⟨1, 1, 1⟩⟩ ⟨⟨1, 0, 0⟩, ⟨2, 1, 1⟩⟩).collided = false :=
  ⟨by norm_num [penetration, Vec3.get],
   (checkAABB_collided_iff ⟨⟨0, 0, 0⟩, ⟨1, 1, 1⟩⟩ ⟨⟨1, 0, 0⟩, ⟨2, 1, 1⟩⟩).2 Axis.x
     (by norm_num [penetration, Vec3.get])⟩

/-- The axis chosen by the tie-break carries the least of three penetrations. -/
theorem leastAxis_min (A B : AABB) :
    penetration (leastAxis (penetration Axis.x A B) (penetration Axis.y A B)
        (penetration Axis.z A B)) A B
      = min (penetration Axis.x A B) (min (penetration Axis.y A B) (penetration Axis.z A B)) := by
  generalize hx : penetration Axis.x A B = px
  generalize hy : penetration Axis.y A B = py
  generalize hz : penetration Axis.z A B = pz
  unfold leastAxis
  split_ifs with h1 h2
  · rw [hx, min_eq_left (le_min h1.1.le h1.2.le)]
  · have h3 : py ≤ px := by
      by_contra hlt
      push_neg at hlt
      exact h1 ⟨hlt, lt_trans hlt h2⟩
    rw [hy, min_eq_left h2.le, min_eq_right h3]
  · push_neg at h2
    have h3 : pz ≤ px := by
      by_contra hlt
      push_neg at hlt
      exact h1 ⟨lt_of_lt_of_le hlt h2, hlt⟩
    rw [hz, min_eq_right h2, min_eq_right h3]

/-- C2: on a colliding pair the depth returned by `checkAABB` is the minimum of the
three per-axis penetrations (ties included); on a non-colliding pair the depth is 0
and the normal is the zero vector. -/
theorem checkAABB_depth_min (A B : AABB) :
    ((checkAABB A B).collided = true →
      (checkAABB A B).depth
        = min (penetration Axis.x A B) (min (penetration Axis.y A B) (penetration Axis.z A B))) ∧
    ((checkAABB A B).collided = false →
      (checkAABB A B).depth = 0 ∧ (checkAABB A B).normal = ⟨0, 0, 0⟩) := by
  rw [checkAABB_eq]
  split_ifs with h
  · exact ⟨fun _ => leastAxis_min A B, fun hc => by simp at hc⟩
  · exact ⟨fun hc => by simp at hc, fun _ => ⟨rfl, rfl⟩⟩

/-- C2, at concrete inputs: a pair tied on all three axes (depth 1) and a disjoint
pair (depth 0, zero normal). -/
theorem checkAABB_depth_min_witness :
    (checkAABB ⟨⟨0, 0, 0⟩, ⟨2, 2, 2⟩⟩ ⟨⟨1, 1, 1⟩, ⟨3, 3, 3⟩⟩).depth
      = min (penetration Axis.x ⟨⟨0, 0, 0⟩, ⟨2, 2, 2⟩⟩ ⟨⟨1, 1, 1⟩, ⟨3, 3, 3⟩⟩)
          (min (penetration Axis.y ⟨⟨0, 0, 0⟩, ⟨2, 2, 2⟩⟩ ⟨⟨1, 1, 1⟩, ⟨3, 3, 3⟩⟩)
            (penetration Axis.z ⟨⟨0, 0, 0⟩, ⟨2, 2, 2⟩⟩ ⟨⟨1, 1, 1⟩, ⟨3, 3, 3⟩⟩)) ∧
    ((checkAABB ⟨⟨0, 0, 0⟩, ⟨1, 1, 1⟩⟩ ⟨⟨5, 0, 0⟩, ⟨6, 1, 1⟩⟩).depth = 0 ∧
      (checkAABB ⟨⟨0, 0, 0⟩, ⟨1, 1, 1⟩⟩ ⟨⟨5, 0, 0⟩, ⟨6, 1, 1⟩⟩).normal = ⟨0, 0, 0⟩) :=
  ⟨(checkAABB_depth_min ⟨⟨0, 0, 0⟩, ⟨2, 2, 2⟩⟩ ⟨⟨1, 1, 1⟩, ⟨3, 3, 3⟩⟩).1
      (by norm_num [checkAABB]),
   (checkAABB_depth_min ⟨⟨0, 0, 0⟩, ⟨1, 1, 1⟩⟩ ⟨⟨5, 0, 0⟩, ⟨6, 1, 1⟩⟩).2
      (by norm_num [checkAABB])⟩

/-- C3: on a colliding pair the resolution axis is the one given by the tie-break
(x if `px < py` and `px < pz`, else y if `py < pz`, else z): the normal is `+1` or
`-1` on that axis and 0 on the two others, and the depth is that axis's penetration.
The unit boxes `[0,0,0]-[1,1,1]` and `[0.5,0,0]-[1.5,1,1]` collide on axis x with
depth 0.5. -/
theorem checkAABB_axis_tiebreak :
    (∀ A B : AABB, (checkAABB A B).collided = true →
      ((checkAABB A B).normal.get (leastAxis (penetration Axis.x A B) (penetration Axis.y A B)
            (penetration Axis.z A B)) = 1 ∨
        (checkAABB A B).normal.get (leastAxis (penetration Axis.x A B) (penetration Axis.y A B)
            (penetration Axis.z A B)) = -1) ∧
      (∀ a : Axis, a ≠ leastAxis (penetration Axis.x A B) (penetration Axis.y A B)
            (penetration Axis.z A B) → (checkAABB A B).normal.get a = 0) ∧
      (checkAABB A B).depth
        = penetration (leastAxis (penetration Axis.x A B) (penetration Axis.y A B)
            (penetration Axis.z A B)) A B) ∧
    (checkAABB ⟨⟨0, 0, 0⟩, ⟨1, 1, 1⟩⟩ ⟨⟨1 / 2, 0, 0⟩, ⟨3 / 2, 1, 1⟩⟩
        = { collided := true, normal := ⟨-1, 0, 0⟩, depth := 1 / 2 } ∧
      leastAxis (penetration Axis.x ⟨⟨0, 0, 0⟩, ⟨1, 1, 1⟩⟩ ⟨⟨1 / 2, 0, 0⟩, ⟨3 / 2, 1, 1⟩⟩)
        (penetration Axis.y ⟨⟨0, 0, 0⟩, ⟨1, 1, 1⟩⟩ ⟨⟨1 / 2, 0, 0⟩, ⟨3 / 2, 1, 1⟩⟩)
        (penetration Axis.z ⟨⟨0, 0, 0⟩, ⟨1, 1, 1⟩⟩ ⟨⟨1 / 2, 0, 0⟩, ⟨3 / 2, 1, 1⟩⟩) = Axis.x) := by
  refine ⟨?_, by norm_num [checkAABB], by norm_num [leastAxis, penetration, Vec3.get]⟩
  intro A B
  rw [checkAABB_eq]
  split_ifs with h
  · intro _
    refine ⟨?_, ?_, rfl⟩
    · simp only [Axis.unit_get]
      by_cases hlt : A.min.get (leastAxis (penetration Axis.x A B) (penetration Axis.y A B)
          (penetration Axis.z A B)) < B.min.get (leastAxis (penetration Axis.x A B)
          (penetration Axis.y A B) (penetration Axis.z A B))
      · right; simp [hlt]
      · left; simp [hlt]
    · intro a ha
      simp only [Axis.unit_get]
      simp [ha]
  · intro hc
    simp at hc

/-- C3, at the spec's scenario: the general statement applied to the unit boxes
`[0,0,0]-[1,1,1]` and `[0.5,0,0]-[1.5,1,1]`. -/
theorem checkAABB_axis_tiebreak_witness :
    (checkAABB ⟨⟨0, 0, 0⟩, ⟨1, 1, 1⟩⟩ ⟨⟨1 / 2, 0, 0⟩, ⟨3 / 2, 1, 1⟩⟩).collided = true ∧
    (checkAABB ⟨⟨0, 0, 0⟩, ⟨1, 1, 1⟩⟩ ⟨⟨1 / 2, 0, 0⟩, ⟨3 / 2, 1, 1⟩⟩).depth
      = penetration (leastAxis
          (penetration Axis.x ⟨⟨0, 0, 0⟩, ⟨1, 1, 1⟩⟩ ⟨⟨1 / 2, 0, 0⟩, ⟨3 / 2, 1, 1⟩⟩)
          (penetration Axis.y ⟨⟨0, 0, 0⟩, ⟨1, 1, 1⟩⟩ ⟨⟨1 / 2, 0, 0⟩, ⟨3 / 2, 1, 1⟩⟩)
          (penetration Axis.z ⟨⟨0, 0, 0⟩, ⟨1, 1, 1⟩⟩ ⟨⟨1 / 2, 0, 0⟩, ⟨3 / 2, 1, 1⟩⟩))
          ⟨⟨0, 0, 0⟩, ⟨1, 1, 1⟩⟩ ⟨⟨1 / 2, 0, 0⟩, ⟨3 / 2, 1, 1⟩⟩ :=
  ⟨by norm_num [checkAABB],
   (checkAABB_axis_tiebreak.1 ⟨⟨0, 0, 0⟩, ⟨1, 1, 1⟩⟩ ⟨⟨1 / 2, 0, 0⟩, ⟨3 / 2, 1, 1⟩⟩
      (by norm_num [checkAABB])).2.2⟩

/-- C5: on a colliding pair the normal of `checkAABB(one, two)` is, on the resolution
axis, the negative unit direction when `one.min` is strictly smaller than `two.min`
on that axis, and the positive unit direction otherwise (equal mins included). -/
theorem checkAABB_normal_direction (one two : AABB)
    (h : (checkAABB one two).collided = true) :
    (one.min.get (leastAxis (penetration Axis.x one two) (penetration Axis.y one two)
          (penetration Axis.z one two))
        < two.min.get (leastAxis (penetration Axis.x one two) (penetration Axis.y one two)
          (penetration Axis.z one two)) →
      (checkAABB one two).normal
          = (leastAxis (penetration Axis.x one two) (penetration Axis.y one two)
              (penetration Axis.z one two)).unit true ∧
        (checkAABB one two).normal.get (leastAxis (penetration Axis.x one two)
          (penetration Axis.y one two) (penetration Axis.z one two)) = -1) ∧
    (two.min.get (leastAxis (penetration Axis.x one two) (penetration Axis.y one two)
          (penetration Axis.z one two))
        ≤ one.min.get (leastAxis (penetration Axis.x one two) (penetration Axis.y one two)
          (penetration Axis.z one two)) →
      (checkAABB one two).normal
          = (leastAxis (penetration Axis.x one two) (penetration Axis.y one two)
              (penetration Axis.z one two)).unit false ∧
        (checkAABB one two).normal.get (leastAxis (penetration Axis.x one two)
          (penetration Axis.y one two) (penetration Axis.z one two)) = 1) := by
  revert h
  rw [checkAABB_eq]
  split_ifs with hp
  · intro _
    constructor
    · intro hlt
      simp [hlt, Axis.unit_get]
    · intro hle
      simp [not_lt.mpr hle, Axis.unit_get]
  · intro hc
    simp at hc

/-- C5, at a concrete input: the caller's box starts left of the other box on x, so
the normal is `(-1, 0, 0)`. -/
theorem checkAABB_normal_direction_witness :
    (checkAABB ⟨⟨0, 0, 0⟩, ⟨1, 1, 1⟩⟩ ⟨⟨1 / 2, 0, 0⟩, ⟨3 / 2, 1, 1⟩⟩).collided = true ∧
    (checkAABB ⟨⟨0, 0, 0⟩, ⟨1, 1, 1⟩⟩ ⟨⟨1 / 2, 0, 0⟩, ⟨3 / 2, 1, 1⟩⟩).normal.get
      (leastAxis (penetration Axis.x ⟨⟨0, 0, 0⟩, ⟨1, 1, 1⟩⟩ ⟨⟨1 / 2, 0, 0⟩, ⟨3 / 2, 1, 1⟩⟩)
        (penetration Axis.y ⟨⟨0, 0, 0⟩, ⟨1, 1, 1⟩⟩ ⟨⟨1 / 2, 0, 0⟩, ⟨3 / 2, 1, 1⟩⟩)
        (penetration Axis.z ⟨⟨0, 0, 0⟩, ⟨1, 1, 1⟩⟩ ⟨⟨1 / 2, 0, 0⟩, ⟨3 / 2, 1, 1⟩⟩)) = -1 :=
  ⟨by norm_num [checkAABB],
   ((checkAABB_normal_direction ⟨⟨0, 0, 0⟩, ⟨1, 1, 1⟩⟩ ⟨⟨1 / 2, 0, 0⟩, ⟨3 / 2, 1, 1⟩⟩
      (by norm_num [checkAABB])).1
      (by norm_num [leastAxis, penetration, Vec3.get])).2⟩

/-- One axis block keeps the interval `[0, tmax]` with `0 ≤ tmax` when the origin is
strictly inside the slab. -/
theorem slab_of_inside (o d bmin bmax : ℚ) (t : ℚ × ℚ) (h1 : bmin < o) (h2 : o < bmax)
    (ht1 : t.1 = 0) (ht2 : 0 ≤ t.2) :
    ∃ r : ℚ × ℚ, slab o d bmin bmax t = some r ∧ r.1 = 0 ∧ 0 ≤ r.2 := by
  unfold slab
  by_cases hd : |d| < 1 / 10000
  · rw [if_pos hd, if_neg (by push_neg; exact ⟨h1.le, h2.le⟩)]
    exact ⟨t, rfl, ht1, ht2⟩
  · rw [if_neg hd]
    have hd0 : d ≠ 0 := by
      intro h0
      apply hd
      rw [h0, abs_zero]
      norm_num
    have key : ∀ lo hi : ℚ, lo ≤ 0 → 0 ≤ hi →
        ∃ r : ℚ × ℚ, (if max t.1 lo > min t.2 hi then none else some (max t.1 lo, min t.2 hi))
          = some r ∧ r.1 = 0 ∧ 0 ≤ r.2 := by
      intro lo hi hlo hhi
      have hmax : max t.1 lo = 0 := by rw [ht1]; exact max_eq_left hlo
      have hmin : 0 ≤ min t.2 hi := le_min ht2 hhi
      refine ⟨(max t.1 lo, min t.2 hi), ?_, hmax, hmin⟩
      rw [if_neg]
      rw [hmax]
      exact not_lt.mpr hmin
    rcases lt_or_gt_of_ne hd0 with hneg | hpos
    · have hinv : 1 / d < 0 := one_div_neg.mpr hneg
      have ha : 0 < (bmin - o) * (1 / d) := mul_pos_of_neg_of_neg (by linarith) hinv
      have hb : (bmax - o) * (1 / d) < 0 := mul_neg_of_pos_of_neg (by linarith) hinv
      have hgt : (bmin - o) * (1 / d) > (bmax - o) * (1 / d) := lt_trans hb ha
      simp only [if_pos hgt]
      exact key _ _ hb.le ha.le
    · have hinv : 0 < 1 / d := one_div_pos.mpr hpos
      have ha : (bmin - o) * (1 / d) < 0 := mul_neg_of_neg_of_pos (by linarith) hinv
      have hb : 0 < (bmax - o) * (1 / d) := mul_pos (by linarith) hinv
      have hgt : ¬ (bmin - o) * (1 / d) > (bmax - o) * (1 / d) := not_lt.mpr (lt_trans ha hb).le
      simp only [if_neg hgt]
      exact key _ _ ha.le hb.le

/-- C6: for every box, every ray origin strictly inside it (`min < origin < max` on
each axis), every direction (the zero vector and near-zero components included) and
every `maxDist ≥ 0`, `rayIntersectsAABB` returns true; in particular with the default
`maxDist = 1000`. -/
theorem rayIntersectsAABB_origin_inside (rayOrigin rayDir : Vec3) (box : AABB)
    (hx : box.min.x < rayOrigin.x ∧ rayOrigin.x < box.max.x)
    (hy : box.min.y < rayOrigin.y ∧ rayOrigin.y < box.max.y)
    (hz : box.min.z < rayOrigin.z ∧ rayOrigin.z < box.max.z) :
    (∀ maxDist : ℚ, 0 ≤ maxDist → rayIntersectsAABB rayOrigin rayDir box maxDist = true) ∧
    rayIntersectsAABB rayOrigin rayDir box defaultMaxDist = true := by
  have main : ∀ maxDist : ℚ, 0 ≤ maxDist →
      rayIntersectsAABB rayOrigin rayDir box maxDist = true := by
    intro maxDist hm
    unfold rayIntersectsAABB
    obtain ⟨tx, hsx, hx1, hx2⟩ :=
      slab_of_inside rayOrigin.x rayDir.x box.min.x box.max.x (0, maxDist) hx.1 hx.2 rfl hm
    obtain ⟨ty, hsy, hy1, hy2⟩ :=
      slab_of_inside rayOrigin.y rayDir.y box.min.y box.max.y tx hy.1 hy.2 hx1 hx2
    obtain ⟨tz, hsz, _, _⟩ :=
      slab_of_inside rayOrigin.z rayDir.z box.min.z box.max.z ty hz.1 hz.2 hy1 hy2
    simp only [hsx, hsy, hsz]
  exact ⟨main, main defaultMaxDist (by norm_num [defaultMaxDist])⟩

/-- C6, at a concrete input: the centre of the unit box with the zero direction. -/
theorem rayIntersectsAABB_origin_inside_witness :
    rayIntersectsAABB ⟨1 / 2, 1 / 2, 1 / 2⟩ ⟨0, 0, 0⟩ ⟨⟨0, 0, 0⟩, ⟨1, 1, 1⟩⟩ 0 = true ∧
    rayIntersectsAABB ⟨1 / 2, 1 / 2, 1 / 2⟩ ⟨0, 0, 0⟩ ⟨⟨0, 0, 0⟩, ⟨1, 1, 1⟩⟩ defaultMaxDist
      = true :=
  ⟨(rayIntersectsAABB_origin_inside ⟨1 / 2, 1 / 2, 1 / 2⟩ ⟨0, 0, 0⟩ ⟨⟨0, 0, 0⟩, ⟨1, 1, 1⟩⟩
      (by norm_num) (by norm_num) (by norm_num)).1 0 (le_refl 0),
   (rayIntersectsAABB_origin_inside ⟨1 / 2, 1 / 2, 1 / 2⟩ ⟨0, 0, 0⟩ ⟨⟨0, 0, 0⟩, ⟨1, 1, 1⟩⟩
      (by norm_num) (by norm_num) (by norm_num)).2⟩

/-- Components of a sum. -/
theorem Vec3.get_add (u v : Vec3) (a : Axis) : (u.add v).get a = u.get a + v.get a := by
  cases a <;> rfl

/-- Components of a scaled vector. -/
theorem Vec3.get_scale (u : Vec3) (k : ℚ) (a : Axis) : (u.scale k).get a = u.get a * k := by
  cases a <;> rfl

/-- The push of `resolveCollision` on one axis: intervals `[a, a2]` (the caller) and
`[b, b2]` with positive penetration; after the push the penetration is at most 0
exactly when neither interval is nested in the other, and then it is 0. -/
theorem push_axis (a a2 b b2 : ℚ) (hp : 0 < min a2 b2 - max a b) :
    (min (a2 + (if a < b then -1 else 1) * (min a2 b2 - max a b)) b2
        - max (a + (if a < b then -1 else 1) * (min a2 b2 - max a b)) b ≤ 0
      ↔ (a < b → a2 ≤ b2) ∧ (b ≤ a → b2 ≤ a2)) ∧
    ((a < b → a2 ≤ b2) ∧ (b ≤ a → b2 ≤ a2) →
      min (a2 + (if a < b then -1 else 1) * (min a2 b2 - max a b)) b2
        - max (a + (if a < b then -1 else 1) * (min a2 b2 - max a b)) b = 0) := by
  rcases lt_or_le a b with h | h <;> rcases le_or_lt a2 b2 with h2 | h2
  · rw [if_pos h, min_eq_left h2, max_eq_right h.le] at *
    have e1 : min (a2 + -1 * (a2 - b)) b2 = b := by
      rw [min_eq_left (by linarith)]; ring
    have e2 : max (a + -1 * (a2 - b)) b = b := max_eq_right (by linarith)
    rw [e1, e2]
    simp only [sub_self, le_refl, true_iff, implies_true, and_true]
    exact ⟨fun _ => h2, fun hba => absurd h (not_lt.mpr hba)⟩
  · rw [if_pos h, min_eq_right h2.le, max_eq_right h.le] at *
    have e2 : max (a + -1 * (b2 - b)) b = b := max_eq_right (by linarith)
    have e3 : b < min (a2 + -1 * (b2 - b)) b2 := lt_min (by linarith) (by linarith)
    rw [e2]
    constructor
    · constructor
      · intro hle; linarith
      · intro hc; exact absurd (hc.1 h) (not_le.mpr h2)
    · intro hc; exact absurd (hc.1 h) (not_le.mpr h2)
  · rcases eq_or_lt_of_le h2 with heq | hlt
    · subst heq
      rw [if_neg (not_lt.mpr h), min_self, max_eq_left h] at *
      have e1 : min (a2 + 1 * (a2 - a)) a2 = a2 := min_eq_right (by linarith)
      have e2 : max (a + 1 * (a2 - a)) b = a2 := by
        rw [max_eq_left (by linarith)]; ring
      rw [e1, e2]
      simp
    · rw [if_neg (not_lt.mpr h), min_eq_left h2, max_eq_left h] at *
      have e1 : max (a + 1 * (a2 - a)) b = a2 := by
        rw [max_eq_left (by linarith)]; ring
      have e3 : a2 < min (a2 + 1 * (a2 - a)) b2 := lt_min (by linarith) hlt
      rw [e1]
      constructor
      · constructor
        · intro hle; linarith
        · intro hc; exact absurd (hc.2 h) (not_le.mpr hlt)
      · intro hc; exact absurd (hc.2 h) (not_le.mpr hlt)
  · rw [if_neg (not_lt.mpr h), min_eq_right h2.le, max_eq_left h] at *
    have e1 : min (a2 + 1 * (b2 - a)) b2 = b2 := min_eq_right (by linarith)
    have e2 : max (a + 1 * (b2 - a)) b = b2 := by
      rw [max_eq_left (by linarith)]; ring
    rw [e1, e2]
    simp only [sub_self, le_refl, true_iff, implies_true, and_true]
    exact ⟨fun hab => absurd hab (not_lt.mpr h), fun _ => h2.le⟩

/-- C4 as stated fails: the caller's box `[0,10]³` (local box `[-5,5]³` at position
`(5,5,5)`) and the box `[4,5] × [0,10] × [0,10]` are valid and collide with resolution
axis x (depth 1, normal `(-1,0,0)`); after one `resolveCollision` the rebuilt box
`[-1,9] × [0,10]²` still overlaps the other box by 1 on the x axis. -/
theorem resolveCollision_nested_counterexample :
    (AABB.transform ⟨⟨-5, -5, -5⟩, ⟨5, 5, 5⟩⟩ ⟨5, 5, 5⟩).Valid ∧
    AABB.Valid ⟨⟨4, 0, 0⟩, ⟨5, 10, 10⟩⟩ ∧
    checkAABB (AABB.transform ⟨⟨-5, -5, -5⟩, ⟨5, 5, 5⟩⟩ ⟨5, 5, 5⟩) ⟨⟨4, 0, 0⟩, ⟨5, 10, 10⟩⟩
      = { collided := true, normal := ⟨-1, 0, 0⟩, depth := 1 } ∧
    resolveCollision ⟨5, 5, 5⟩
        (checkAABB (AABB.transform ⟨⟨-5, -5, -5⟩, ⟨5, 5, 5⟩⟩ ⟨5, 5, 5⟩)
          ⟨⟨4, 0, 0⟩, ⟨5, 10, 10⟩⟩) = ⟨4, 5, 5⟩ ∧
    ¬ penetration Axis.x
        (AABB.transform ⟨⟨-5, -5, -5⟩, ⟨5, 5, 5⟩⟩
          (resolveCollision ⟨5, 5, 5⟩
            (checkAABB (AABB.transform ⟨⟨-5, -5, -5⟩, ⟨5, 5, 5⟩⟩ ⟨5, 5, 5⟩)
              ⟨⟨4, 0, 0⟩, ⟨5, 10, 10⟩⟩)))
        ⟨⟨4, 0, 0⟩, ⟨5, 10, 10⟩⟩ ≤ 0 := by
  have hc : checkAABB (AABB.transform ⟨⟨-5, -5, -5⟩, ⟨5, 5, 5⟩⟩ ⟨5, 5, 5⟩)
      ⟨⟨4, 0, 0⟩, ⟨5, 10, 10⟩⟩ = { collided := true, normal := ⟨-1, 0, 0⟩, depth := 1 } := by
    norm_num [checkAABB, AABB.transform, Vec3.add]
  refine ⟨?_, ?_, hc, ?_, ?_⟩
  · norm_num [AABB.Valid, AABB.transform, Vec3.add]
  · norm_num [AABB.Valid]
  · rw [hc]
    norm_num [resolveCollision, Vec3.add, Vec3.scale]
  · rw [hc]
    norm_num [resolveCollision, penetration, AABB.transform, Vec3.add, Vec3.scale, Vec3.get]

/-- C4, amended: for every colliding pair of the caller's box `A` (local box `L` at
position `p`) and `B`, and the resolved axis (the axis on which the normal is not 0),
one `resolveCollision` followed by rebuilding `A` at the new position leaves a
penetration of at most 0 on that axis exactly when neither box's extent on that axis
is nested in the other's (`A.max ≤ B.max` if `A.min < B.min`, and `B.max ≤ A.max`
if `B.min ≤ A.min`), and the penetration left is then exactly 0. -/
theorem resolveCollision_clears_axis (L : AABB) (p : Vec3) (B : AABB) (ax : Axis)
    (hc : (checkAABB (L.transform p) B).collided = true)
    (hax : (checkAABB (L.transform p) B).normal.get ax ≠ 0) :
    (penetration ax (L.transform (resolveCollision p (checkAABB (L.transform p) B))) B ≤ 0
      ↔ NotNested ax (L.transform p) B) ∧
    (NotNested ax (L.transform p) B →
      penetration ax (L.transform (resolveCollision p (checkAABB (L.transform p) B))) B = 0) := by
  have hpos := (checkAABB_collided_pos (L.transform p) B).mp hc
  have hres : resolveCollision p (checkAABB (L.transform p) B)
      = p.add ((checkAABB (L.transform p) B).normal.scale (checkAABB (L.transform p) B).depth) := by
    unfold resolveCollision
    rw [if_pos hc]
  rw [hres]
  rw [checkAABB_eq, if_pos hpos] at hax ⊢
  simp only [Axis.unit_get] at hax
  have hax2 : ax = leastAxis (penetration Axis.x (L.transform p) B)
      (penetration Axis.y (L.transform p) B) (penetration Axis.z (L.transform p) B) := by
    by_contra hne
    exact hax (if_neg hne)
  rw [← hax2]
  have hp : 0 < penetration ax (L.transform p) B := by
    cases ax
    · exact hpos.1
    · exact hpos.2.1
    · exact hpos.2.2
  have key := push_axis ((L.transform p).min.get ax) ((L.transform p).max.get ax)
    (B.min.get ax) (B.max.get ax) hp
  have hmin : (L.transform (p.add ((ax.unit (decide ((L.transform p).min.get ax < B.min.get ax))).scale
        (penetration ax (L.transform p) B)))).min.get ax
      = (L.transform p).min.get ax
        + (if (L.transform p).min.get ax < B.min.get ax then -1 else 1)
          * (min ((L.transform p).max.get ax) (B.max.get ax)
            - max ((L.transform p).min.get ax) (B.min.get ax)) := by
    simp only [AABB.transform, Vec3.get_add, Vec3.get_scale, Axis.unit_get, penetration,
      if_true, decide_eq_true_eq]
    ring
  have hmax : (L.transform (p.add ((ax.unit (decide ((L.transform p).min.get ax < B.min.get ax))).scale
        (penetration ax (L.transform p) B)))).max.get ax
      = (L.transform p).max.get ax
        + (if (L.transform p).min.get ax < B.min.get ax then -1 else 1)
          * (min ((L.transform p).max.get ax) (B.max.get ax)
            - max ((L.transform p).min.get ax) (B.min.get ax)) := by
    simp only [AABB.transform, Vec3.get_add, Vec3.get_scale, Axis.unit_get, penetration,
      if_true, decide_eq_true_eq]
    ring
  unfold NotNested
  simp only []
  rw [penetration, hmin, hmax]
  exact key

/-- C4 amended, at a concrete input: the unit box at the origin against the unit box
shifted by 0.5 on x is not nested on x, and one push leaves penetration 0 there. -/
theorem resolveCollision_clears_axis_witness :
    penetration Axis.x
      (AABB.transform ⟨⟨0, 0, 0⟩, ⟨1, 1, 1⟩⟩
        (resolveCollision ⟨0, 0, 0⟩
          (checkAABB (AABB.transform ⟨⟨0, 0, 0⟩, ⟨1, 1, 1⟩⟩ ⟨0, 0, 0⟩)
            ⟨⟨1 / 2, 0, 0⟩, ⟨3 / 2, 1, 1⟩⟩)))
      ⟨⟨1 / 2, 0, 0⟩, ⟨3 / 2, 1, 1⟩⟩ = 0 :=
  (resolveCollision_clears_axis ⟨⟨0, 0, 0⟩, ⟨1, 1, 1⟩⟩ ⟨0, 0, 0⟩ ⟨⟨1 / 2, 0, 0⟩, ⟨3 / 2, 1, 1⟩⟩
    Axis.x
    (by norm_num [checkAABB, AABB.transform, Vec3.add])
    (by norm_num [checkAABB, AABB.transform, Vec3.add, Vec3.get])).2
    (by norm_num [NotNested, AABB.transform, Vec3.add, Vec3.get])

end CollisionProofs

/-! ## Weapon state machine: properties -/

namespace GunAnimationController

open GunAnimState

/-- What `performReload` leaves alone. -/
theorem performReload_frame (s : GunAnimationController) :
    (performReload s).currentState = s.currentState ∧
    (performReload s).magazineCapacity = s.magazineCapacity ∧
    (performReload s).maxReserveAmmo = s.maxReserveAmmo ∧
    (performReload s).hasInstance = s.hasInstance ∧
    (performReload s).initialized = s.initialized ∧
    (performReload s).firedThisFrame = s.firedThisFrame ∧
    (performReload s).dryfiredThisFrame = s.dryfiredThisFrame ∧
    (performReload s).meleedThisFrame = s.meleedThisFrame ∧
    (performReload s).reloadedThisFrame = s.reloadedThisFrame ∧
    (performReload s).prevKeyR = s.prevKeyR ∧
    (performReload s).prevMouseRight = s.prevMouseRight ∧
    (performReload s).canMelee = s.canMelee := by
  unfold performReload
  split_ifs <;> simp

/-- The state at decision time (after lines 296-318). -/
theorem updateBegin_spec (s : GunAnimationController) (inp : GunInput) :
    (updateBegin s inp).currentState = s.currentState ∧
    (updateBegin s inp).magazineCapacity = s.magazineCapacity ∧
    (updateBegin s inp).maxReserveAmmo = s.maxReserveAmmo ∧
    (updateBegin s inp).hasInstance = s.hasInstance ∧
    (updateBegin s inp).initialized = s.initialized ∧
    (updateBegin s inp).firedThisFrame = false ∧
    (updateBegin s inp).dryfiredThisFrame = false ∧
    (updateBegin s inp).meleedThisFrame = false ∧
    (updateBegin s inp).reloadedThisFrame = false ∧
    (updateBegin s inp).prevKeyR = inp.keyR ∧
    (updateBegin s inp).prevMouseRight = inp.mouseRight ∧
    (updateBegin s inp).currentMagazine
      = (if completesReload s inp then (performReload s).currentMagazine
          else s.currentMagazine) ∧
    (updateBegin s inp).reserveAmmo
      = (if completesReload s inp then (performReload s).reserveAmmo else s.reserveAmmo) := by
  unfold updateBegin completesReload
  simp only [decide_eq_true_eq]
  by_cases hc : (s.currentState = RELOAD ∨ s.currentState = EMPTY_RELOAD) ∧
      inp.animationFinished = true
  · simp only [if_pos hc]
    unfold performReload
    simp only []
    split_ifs <;> simp
  · simp only [if_neg hc]
    split_ifs <;> simp

/-- What the decision chain leaves alone. -/
theorem updateDecide_frame (s : GunAnimationController) (inp : GunInput) (rj rm : Bool) :
    (updateDecide s inp rj rm).reserveAmmo = s.reserveAmmo ∧
    (updateDecide s inp rj rm).magazineCapacity = s.magazineCapacity ∧
    (updateDecide s inp rj rm).maxReserveAmmo = s.maxReserveAmmo ∧
    (updateDecide s inp rj rm).hasInstance = s.hasInstance ∧
    (updateDecide s inp rj rm).initialized = s.initialized ∧
    (updateDecide s inp rj rm).prevKeyR = s.prevKeyR ∧
    (updateDecide s inp rj rm).prevMouseRight = s.prevMouseRight := by
  unfold updateDecide
  split_ifs <;> simp

/-- The decision chain fires at most one round, and only into state FIRE. -/
theorem updateDecide_fire (s : GunAnimationController) (inp : GunInput) (rj rm : Bool)
    (h : s.firedThisFrame = false) :
    ((updateDecide s inp rj rm).firedThisFrame = true ∧
      (updateDecide s inp rj rm).currentMagazine = s.currentMagazine - 1 ∧
      (updateDecide s inp rj rm).currentState = FIRE ∧ 0 < s.currentMagazine) ∨
    ((updateDecide s inp rj rm).firedThisFrame = false ∧
      (updateDecide s inp rj rm).currentMagazine = s.currentMagazine) := by
  unfold updateDecide
  split_ifs <;> simp_all

/-- What starting to fire leaves alone. -/
theorem updateStartFire_frame (s : GunAnimationController) (inp : GunInput) :
    (updateStartFire s inp).reserveAmmo = s.reserveAmmo ∧
    (updateStartFire s inp).magazineCapacity = s.magazineCapacity ∧
    (updateStartFire s inp).maxReserveAmmo = s.maxReserveAmmo ∧
    (updateStartFire s inp).hasInstance = s.hasInstance ∧
    (updateStartFire s inp).initialized = s.initialized ∧
    (updateStartFire s inp).prevKeyR = s.prevKeyR ∧
    (updateStartFire s inp).prevMouseRight = s.prevMouseRight ∧
    (updateStartFire s inp).meleedThisFrame = s.meleedThisFrame ∧
    (updateStartFire s inp).reloadedThisFrame = s.reloadedThisFrame := by
  unfold updateStartFire
  split_ifs <;> simp

/-- Starting to fire from a movement state consumes one round when the magazine is
not empty; in every other case the magazine and the fired flag are unchanged. -/
theorem updateStartFire_fire (s : GunAnimationController) (inp : GunInput) :
    ((s.currentState = IDLE ∨ s.currentState = WALK ∨ s.currentState = RUN) ∧
      0 < s.currentMagazine ∧
      (updateStartFire s inp).firedThisFrame = true ∧
      (updateStartFire s inp).currentMagazine = s.currentMagazine - 1 ∧
      (updateStartFire s inp).currentState = FIRE) ∨
    ((updateStartFire s inp).firedThisFrame = s.firedThisFrame ∧
      (updateStartFire s inp).currentMagazine = s.currentMagazine) := by
  unfold updateStartFire
  split_ifs with h1 h2
  · left; exact ⟨h1.1, h2, rfl, rfl, rfl⟩
  · right; exact ⟨rfl, rfl⟩
  · right; exact ⟨rfl, rfl⟩

/-- What the movement relaxation leaves alone. -/
theorem updateMovement_frame (s : GunAnimationController) (inp : GunInput) :
    (updateMovement s inp).currentMagazine = s.currentMagazine ∧
    (updateMovement s inp).reserveAmmo = s.reserveAmmo ∧
    (updateMovement s inp).magazineCapacity = s.magazineCapacity ∧
    (updateMovement s inp).maxReserveAmmo = s.maxReserveAmmo ∧
    (updateMovement s inp).hasInstance = s.hasInstance ∧
    (updateMovement s inp).initialized = s.initialized ∧
    (updateMovement s inp).firedThisFrame = s.firedThisFrame ∧
    (updateMovement s inp).dryfiredThisFrame = s.dryfiredThisFrame ∧
    (updateMovement s inp).meleedThisFrame = s.meleedThisFrame ∧
    (updateMovement s inp).reloadedThisFrame = s.reloadedThisFrame ∧
    (updateMovement s inp).prevKeyR = s.prevKeyR ∧
    (updateMovement s inp).prevMouseRight = s.prevMouseRight := by
  unfold updateMovement
  simp only []
  split_ifs <;> simp

/-- The update of an initialised controller is the composition of its four parts. -/
theorem update_of_live (s : GunAnimationController) (inp : GunInput) (h : s.Live) :
    update s inp
      = updateMovement
          (updateStartFire
            (updateDecide (updateBegin s inp) inp (inp.keyR && !s.prevKeyR)
              (inp.mouseRight && !s.prevMouseRight)) inp) inp := by
  unfold update
  rw [h.1, h.2]
  rfl

/-- The update of a controller that is not initialised changes nothing. -/
theorem update_of_not_live (s : GunAnimationController) (inp : GunInput) (h : ¬ s.Live) :
    update s inp = s := by
  unfold update
  unfold Live at h
  rw [if_pos]
  cases h1 : s.hasInstance <;> cases h2 : s.initialized <;> simp_all

/-- An update keeps the controller initialised, and keeps its two capacities. -/
theorem update_frame (s : GunAnimationController) (inp : GunInput) :
    ((update s inp).Live ↔ s.Live) ∧
    (update s inp).magazineCapacity = s.magazineCapacity ∧
    (update s inp).maxReserveAmmo = s.maxReserveAmmo := by
  by_cases h : s.Live
  · rw [update_of_live s inp h]
    have hm := updateMovement_frame (updateStartFire
      (updateDecide (updateBegin s inp) inp (inp.keyR && !s.prevKeyR)
        (inp.mouseRight && !s.prevMouseRight)) inp) inp
    have hs := updateStartFire_frame
      (updateDecide (updateBegin s inp) inp (inp.keyR && !s.prevKeyR)
        (inp.mouseRight && !s.prevMouseRight)) inp
    have hd := updateDecide_frame (updateBegin s inp) inp (inp.keyR && !s.prevKeyR)
      (inp.mouseRight && !s.prevMouseRight)
    have hb := updateBegin_spec s inp
    refine ⟨?_, ?_, ?_⟩
    · unfold Live
      rw [hm.2.2.2.2.1, hm.2.2.2.2.2.1, hs.2.2.2.1, hs.2.2.2.2.1, hd.2.2.2.1, hd.2.2.2.2.1,
        hb.2.2.2.1, hb.2.2.2.2.1]
    · rw [hm.2.2.1, hs.2.1, hd.2.1, hb.2.1]
    · rw [hm.2.2.2.1, hs.2.2.1, hd.2.2.1, hb.2.2.1]
  · rw [update_of_not_live s inp h]
    exact ⟨Iff.rfl, rfl, rfl⟩

/-- One update of an initialised controller changes the magazine by the rounds loaded
minus the round fired. -/
theorem update_magazine (s : GunAnimationController) (inp : GunInput) (h : s.Live) :
    (update s inp).currentMagazine
      = s.currentMagazine + roundsLoaded s inp - (if (update s inp).hasFired then 1 else 0) := by
  rw [update_of_live s inp h]
  unfold hasFired
  have hb := updateBegin_spec s inp
  have hd := updateDecide_fire (updateBegin s inp) inp (inp.keyR && !s.prevKeyR)
    (inp.mouseRight && !s.prevMouseRight) hb.2.2.2.2.2.1
  have hs := updateStartFire_fire (updateDecide (updateBegin s inp) inp (inp.keyR && !s.prevKeyR)
    (inp.mouseRight && !s.prevMouseRight)) inp
  have hm := updateMovement_frame (updateStartFire
    (updateDecide (updateBegin s inp) inp (inp.keyR && !s.prevKeyR)
      (inp.mouseRight && !s.prevMouseRight)) inp) inp
  rw [hm.1, hm.2.2.2.2.2.2.1]
  have hload : (updateBegin s inp).currentMagazine = s.currentMagazine + roundsLoaded s inp := by
    rw [hb.2.2.2.2.2.2.2.2.2.2.2.1]
    unfold roundsLoaded
    by_cases hc : completesReload s inp = true
    · rw [if_pos hc, if_pos ⟨h, hc⟩]; ring
    · rw [if_neg hc, if_neg (fun hh => hc hh.2)]; ring
  rw [← hload]
  rcases hd with ⟨hf, hmag, hst, _⟩ | ⟨hf, hmag⟩
  · rcases hs with ⟨hmv, _⟩ | ⟨hf2, hmag2⟩
    · rw [hst] at hmv
      simp at hmv
    · rw [hmag2, hmag, hf2, hf]
      simp
  · rcases hs with ⟨_, _, hf2, hmag2, _⟩ | ⟨hf2, hmag2⟩
    · rw [hmag2, hmag, hf2]
      simp
    · rw [hmag2, hmag, hf2, hf]
      simp

/-- A run of updates keeps the controller initialised. -/
theorem update_live (s : GunAnimationController) (inp : GunInput) (h : s.Live) :
    (update s inp).Live :=
  (update_frame s inp).1.mpr h

/-- Over a run the magazine changes by the rounds loaded minus the rounds fired. -/
theorem run_magazine (inps : List GunInput) :
    ∀ s : GunAnimationController, s.Live →
      (run s inps).currentMagazine
        = s.currentMagazine + loadedTotal s inps - (firedCount s inps : Int) := by
  induction inps with
  | nil =>
    intro s _
    simp [run, loadedTotal, firedCount]
  | cons inp rest ih =>
    intro s h
    have h1 := update_magazine s inp h
    have h2 := ih (update s inp) (update_live s inp h)
    simp only [run, loadedTotal, firedCount]
    rw [h2, h1]
    by_cases hf : (update s inp).hasFired = true
    · simp only [hf, if_true]
      push_cast
      ring
    · simp only [hf]
      push_cast
      ring

/-- A run without a completed reload loads nothing. -/
theorem loadedTotal_of_noReload (inps : List GunInput) :
    ∀ s : GunAnimationController, noReload s inps = true → loadedTotal s inps = 0 := by
  induction inps with
  | nil =>
    intro s _
    rfl
  | cons inp rest ih =>
    intro s h
    simp only [noReload, Bool.and_eq_true, Bool.not_eq_true'] at h
    obtain ⟨h1, h2⟩ := h
    simp only [loadedTotal, ih (update s inp) h2, add_zero]
    unfold roundsLoaded
    rw [if_neg]
    intro hh
    rw [h1] at hh
    exact Bool.false_ne_true hh.2

/-- C7: in every update of an initialised controller the magazine after the update is
the magazine before, plus the rounds loaded by a reload completing in this update,
minus 1 if `hasFired()` is true afterwards and minus 0 otherwise; so at most one round
is consumed per update, and one is consumed exactly when `hasFired()` is true. Over a
run of updates the magazine is the start value plus the rounds loaded minus the number
of updates that fired; starting from a full magazine, a run in which no reload
completes and `N` rounds are fired leaves `capacity - N`. -/
theorem update_magazine_accounting (s : GunAnimationController) (h : s.Live) :
    (∀ inp : GunInput,
      (update s inp).getMagazine
        = s.getMagazine + roundsLoaded s inp - (if (update s inp).hasFired then 1 else 0)) ∧
    (∀ inp : GunInput, s.getMagazine + roundsLoaded s inp - 1 ≤ (update s inp).getMagazine) ∧
    (∀ inps : List GunInput,
      (run s inps).getMagazine
        = s.getMagazine + loadedTotal s inps - (firedCount s inps : Int)) ∧
    (∀ inps : List GunInput, s.getMagazine = s.magazineCapacity → noReload s inps = true →
      (run s inps).getMagazine = s.magazineCapacity - (firedCount s inps : Int)) := by
  unfold getMagazine
  refine ⟨fun inp => update_magazine s inp h, ?_, fun inps => run_magazine inps s h, ?_⟩
  · intro inp
    rw [update_magazine s inp h]
    split_ifs <;> omega
  · intro inps hfull hno
    rw [run_magazine inps s h, loadedTotal_of_noReload inps s hno, hfull]
    ring

/-- The movement state chosen from the keys is IDLE, WALK or RUN. -/
theorem movementState_cases (inp : GunInput) :
    movementState inp = IDLE ∨ movementState inp = WALK ∨ movementState inp = RUN := by
  unfold movementState
  split_ifs <;> simp

/-- The decision chain on an empty magazine: nothing is fired; with fire held, no
reload start and no melee start, a movement state is kept, a finished MELEE falls back
to a movement state, and a finished FIRE or DRYFIRE becomes DRYFIRE. -/
theorem updateDecide_empty (s : GunAnimationController) (inp : GunInput) (rj rm : Bool)
    (hmag : s.currentMagazine = 0) (hf : s.firedThisFrame = false) :
    (updateDecide s inp rj rm).currentMagazine = 0 ∧
    (updateDecide s inp rj rm).firedThisFrame = false ∧
    (inp.mouseLeft = true →
      ¬ (rj = true ∧ 0 < s.reserveAmmo ∧ s.currentMagazine < s.magazineCapacity) →
      rm = false →
      ((s.currentState = IDLE ∨ s.currentState = WALK ∨ s.currentState = RUN) ∨
        ((s.currentState = FIRE ∨ s.currentState = DRYFIRE ∨ s.currentState = MELEE) ∧
          inp.animationFinished = true)) →
      (((updateDecide s inp rj rm).currentState = IDLE ∨
          (updateDecide s inp rj rm).currentState = WALK ∨
          (updateDecide s inp rj rm).currentState = RUN) ∨
        ((updateDecide s inp rj rm).currentState = DRYFIRE ∧
          (updateDecide s inp rj rm).dryfiredThisFrame = true))) := by
  have hmv := movementState_cases inp
  unfold updateDecide
  split_ifs <;> simp_all

/-- Starting to fire on an empty magazine: nothing is fired; with fire held a movement
state becomes DRYFIRE. -/
theorem updateStartFire_empty (s : GunAnimationController) (inp : GunInput)
    (hmag : s.currentMagazine = 0) :
    (updateStartFire s inp).currentMagazine = 0 ∧
    (updateStartFire s inp).firedThisFrame = s.firedThisFrame ∧
    (inp.mouseLeft = true →
      ((s.currentState = IDLE ∨ s.currentState = WALK ∨ s.currentState = RUN) ∨
        (s.currentState = DRYFIRE ∧ s.dryfiredThisFrame = true)) →
      (updateStartFire s inp).currentState = DRYFIRE ∧
        (updateStartFire s inp).dryfiredThisFrame = true) := by
  unfold updateStartFire
  split_ifs with h1 h2
  · omega
  · simp [hmag]
  · refine ⟨hmag, rfl, ?_⟩
    intro hfire hst
    rcases hst with hmv | hdry
    · exact absurd ⟨hmv, hfire⟩ h1
    · exact hdry

/-- The movement relaxation keeps DRYFIRE. -/
theorem updateMovement_dryfire (s : GunAnimationController) (inp : GunInput)
    (h : s.currentState = DRYFIRE) : (updateMovement s inp).currentState = DRYFIRE := by
  unfold updateMovement
  simp [h]

/-- C8: for every update of an initialised controller that starts with magazine 0 and
does not complete a reload, the magazine stays 0, the reserve is unchanged and
`hasFired()` is false; if moreover fire is held, the reload key is not newly pressed
in a way that can start a reload, the melee button is not newly pressed, and the
weapon is in IDLE, WALK or RUN (or in FIRE, DRYFIRE or MELEE with its animation
finished), then the state after the update is DRYFIRE and `hasDryfired()` is true. -/
theorem update_empty_magazine (s : GunAnimationController) (inp : GunInput) (h : s.Live)
    (hmag : s.getMagazine = 0) (hnc : completesReload s inp = false) :
    ((update s inp).getMagazine = 0 ∧ (update s inp).getReserve = s.getReserve ∧
      (update s inp).hasFired = false) ∧
    (inp.mouseLeft = true →
      ¬ ((inp.keyR = true ∧ s.prevKeyR = false) ∧ 0 < s.getReserve ∧
          s.getMagazine < s.magazineCapacity) →
      ¬ (inp.mouseRight = true ∧ s.prevMouseRight = false) →
      ((s.currentState = IDLE ∨ s.currentState = WALK ∨ s.currentState = RUN) ∨
        ((s.currentState = FIRE ∨ s.currentState = DRYFIRE ∨ s.currentState = MELEE) ∧
          inp.animationFinished = true)) →
      (update s inp).currentState = DRYFIRE ∧ (update s inp).hasDryfired = true) := by
  unfold getMagazine at hmag
  unfold getMagazine getReserve hasFired hasDryfired
  rw [update_of_live s inp h]
  have hb := updateBegin_spec s inp
  have hbmag : (updateBegin s inp).currentMagazine = 0 := by
    rw [hb.2.2.2.2.2.2.2.2.2.2.2.1, hnc]
    simpa using hmag
  have hbres : (updateBegin s inp).reserveAmmo = s.reserveAmmo := by
    rw [hb.2.2.2.2.2.2.2.2.2.2.2.2, hnc]
    simp
  have hd := updateDecide_empty (updateBegin s inp) inp (inp.keyR && !s.prevKeyR)
    (inp.mouseRight && !s.prevMouseRight) hbmag hb.2.2.2.2.2.1
  have hdf := updateDecide_frame (updateBegin s inp) inp (inp.keyR && !s.prevKeyR)
    (inp.mouseRight && !s.prevMouseRight)
  have hs := updateStartFire_empty (updateDecide (updateBegin s inp) inp (inp.keyR && !s.prevKeyR)
    (inp.mouseRight && !s.prevMouseRight)) inp hd.1
  have hsf := updateStartFire_frame (updateDecide (updateBegin s inp) inp (inp.keyR && !s.prevKeyR)
    (inp.mouseRight && !s.prevMouseRight)) inp
  have hm := updateMovement_frame (updateStartFire
    (updateDecide (updateBegin s inp) inp (inp.keyR && !s.prevKeyR)
      (inp.mouseRight && !s.prevMouseRight)) inp) inp
  refine ⟨⟨?_, ?_, ?_⟩, ?_⟩
  · rw [hm.1, hs.1]
  · rw [hm.2.1, hsf.1, hdf.1, hbres]
  · rw [hm.2.2.2.2.2.2.1, hs.2.1, hd.2.1]
  · intro hfire hnr hnm hst
    have hrm : (inp.mouseRight && !s.prevMouseRight) = false := by
      cases h1 : inp.mouseRight <;> cases h2 : s.prevMouseRight <;> simp_all
    have hnr2 : ¬ ((inp.keyR && !s.prevKeyR) = true ∧ 0 < (updateBegin s inp).reserveAmmo ∧
        (updateBegin s inp).currentMagazine < (updateBegin s inp).magazineCapacity) := by
      rw [hbres, hbmag, hb.2.1]
      intro hh
      apply hnr
      rw [hmag]
      refine ⟨?_, hh.2.1, hh.2.2⟩
      have := hh.1
      cases h1 : inp.keyR <;> cases h2 : s.prevKeyR <;> simp_all
    have hst2 : ((updateBegin s inp).currentState = IDLE ∨ (updateBegin s inp).currentState = WALK ∨
          (updateBegin s inp).currentState = RUN) ∨
        (((updateBegin s inp).currentState = FIRE ∨ (updateBegin s inp).currentState = DRYFIRE ∨
          (updateBegin s inp).currentState = MELEE) ∧ inp.animationFinished = true) := by
      rw [hb.1]
      exact hst
    have h3 := hs.2.2 hfire (hd.2.2 hfire hnr2 hrm hst2)
    rw [hm.2.2.2.2.2.2.2.1]
    exact ⟨updateMovement_dryfire _ inp h3.1, h3.2⟩

/-- C7, at a concrete run: from the initial state (31 rounds), fire is held for three
updates and released for one; no reload completes, three rounds are fired, and the
magazine holds 28. -/
theorem update_magazine_accounting_witness :
    (init new true true).Live ∧
    firedCount (init new true true) [fireInput, fireFinishedInput, fireFinishedInput, idleInput]
      = 3 ∧
    (run (init new true true)
        [fireInput, fireFinishedInput, fireFinishedInput, idleInput]).getMagazine
      = (init new true true).magazineCapacity
        - (firedCount (init new true true)
            [fireInput, fireFinishedInput, fireFinishedInput, idleInput] : Int) :=
  ⟨by decide, by decide,
   (update_magazine_accounting (init new true true) (by decide)).2.2.2
    [fireInput, fireFinishedInput, fireFinishedInput, idleInput] (by decide) (by decide)⟩

/-- C8, at a concrete input: an initialised weapon in IDLE with an empty magazine and
fire held goes to DRYFIRE, keeps its 186 reserve rounds and fires nothing. -/
theorem update_empty_magazine_witness :
    (update (setAmmo (init new true true) 0 186) fireInput).getMagazine = 0 ∧
    (update (setAmmo (init new true true) 0 186) fireInput).getReserve = 186 ∧
    (update (setAmmo (init new true true) 0 186) fireInput).hasFired = false ∧
    (update (setAmmo (init new true true) 0 186) fireInput).currentState = DRYFIRE ∧
    (update (setAmmo (init new true true) 0 186) fireInput).hasDryfired = true :=
  ⟨(update_empty_magazine (setAmmo (init new true true) 0 186) fireInput (by decide) (by decide)
      (by decide)).1.1,
   (update_empty_magazine (setAmmo (init new true true) 0 186) fireInput (by decide) (by decide)
      (by decide)).1.2.1,
   (update_empty_magazine (setAmmo (init new true true) 0 186) fireInput (by decide) (by decide)
      (by decide)).1.2.2,
   ((update_empty_magazine (setAmmo (init new true true) 0 186) fireInput (by decide) (by decide)
      (by decide)).2 (by decide) (by decide) (by decide) (by decide)).1,
   ((update_empty_magazine (setAmmo (init new true true) 0 186) fireInput (by decide) (by decide)
      (by decide)).2 (by decide) (by decide) (by decide) (by decide)).2⟩

/-- With a capacity of at least 1, `performReload` keeps the ammo counters inside
their bounds. -/
theorem performReload_bounds (s : GunAnimationController) (hcap : 1 ≤ s.magazineCapacity)
    (h : s.AmmoBounds) : (performReload s).AmmoBounds := by
  unfold AmmoBounds at *
  unfold performReload
  split_ifs <;> first | exact h | (dsimp only; omega)

/-- An update keeps the ammo counters inside their bounds. -/
theorem update_bounds (s : GunAnimationController) (inp : GunInput)
    (hcap : 1 ≤ s.magazineCapacity) (h : s.AmmoBounds) : (update s inp).AmmoBounds := by
  by_cases hl : s.Live
  · rw [update_of_live s inp hl]
    have hb := updateBegin_spec s inp
    have hpr := performReload_bounds s hcap h
    have hpf := performReload_frame s
    have hbb : (updateBegin s inp).AmmoBounds := by
      unfold AmmoBounds at *
      rw [hb.2.2.2.2.2.2.2.2.2.2.2.1, hb.2.2.2.2.2.2.2.2.2.2.2.2, hb.2.1, hb.2.2.1]
      rw [hpf.2.1, hpf.2.2.1] at hpr
      split_ifs
      · exact hpr
      · exact h
    have hd := updateDecide_fire (updateBegin s inp) inp (inp.keyR && !s.prevKeyR)
      (inp.mouseRight && !s.prevMouseRight) hb.2.2.2.2.2.1
    have hdf := updateDecide_frame (updateBegin s inp) inp (inp.keyR && !s.prevKeyR)
      (inp.mouseRight && !s.prevMouseRight)
    have hs := updateStartFire_fire (updateDecide (updateBegin s inp) inp (inp.keyR && !s.prevKeyR)
      (inp.mouseRight && !s.prevMouseRight)) inp
    have hsf := updateStartFire_frame (updateDecide (updateBegin s inp) inp
      (inp.keyR && !s.prevKeyR) (inp.mouseRight && !s.prevMouseRight)) inp
    have hm := updateMovement_frame (updateStartFire
      (updateDecide (updateBegin s inp) inp (inp.keyR && !s.prevKeyR)
        (inp.mouseRight && !s.prevMouseRight)) inp) inp
    unfold AmmoBounds at *
    rw [hm.1, hm.2.1, hm.2.2.1, hm.2.2.2.1, hsf.1, hsf.2.1, hsf.2.2.1, hdf.1, hdf.2.1, hdf.2.2.1]
    rcases hd with ⟨_, hmag, _, hpos⟩ | ⟨_, hmag⟩ <;>
      rcases hs with ⟨_, hpos2, _, hmag2, _⟩ | ⟨_, hmag2⟩ <;> omega
  · rw [update_of_not_live s inp hl]
    exact h

/-- Every call keeps the capacities of the class and the ammo bounds. -/
theorem call_bounds (s : GunAnimationController) (c : GunCall) (hc : c.nonNegative = true)
    (hcap : s.magazineCapacity = 31) (hres : s.maxReserveAmmo = 186) (h : s.AmmoBounds) :
    (call s c).magazineCapacity = 31 ∧ (call s c).maxReserveAmmo = 186 ∧
      (call s c).AmmoBounds := by
  cases c with
  | update inp =>
    have hf := update_frame s inp
    exact ⟨by rw [call, hf.2.1, hcap], by rw [call, hf.2.2, hres],
      update_bounds s inp (by omega) h⟩
  | addReserve amount =>
    simp only [GunCall.nonNegative, decide_eq_true_eq] at hc
    unfold AmmoBounds at *
    simp only [call, addReserve]
    refine ⟨hcap, hres, h.1, h.2.1, ?_, ?_⟩ <;> split_ifs <;> omega
  | reset =>
    unfold AmmoBounds
    simp only [call, reset]
    refine ⟨hcap, hres, ?_⟩
    omega
  | init a b =>
    unfold AmmoBounds
    simp only [call, init]
    refine ⟨hcap, hres, ?_⟩
    omega

/-- Every sequence of calls keeps the capacities of the class and the ammo bounds. -/
theorem runCalls_bounds (calls : List GunCall) :
    ∀ s : GunAnimationController, (∀ c ∈ calls, c.nonNegative = true) →
      s.magazineCapacity = 31 → s.maxReserveAmmo = 186 → s.AmmoBounds →
      (runCalls s calls).AmmoBounds := by
  induction calls with
  | nil =>
    intro s _ _ _ h
    exact h
  | cons c rest ih =>
    intro s hall hcap hres h
    have hc := call_bounds s c (hall c (List.mem_cons_self c rest)) hcap hres h
    exact ih (call s c) (fun d hd => hall d (List.mem_cons_of_mem c hd)) hc.1 hc.2.1 hc.2.2

/-- C10: starting from the `init()` or `reset()` state (magazine 31, reserve 186),
after any sequence of `update` calls (any inputs, any `dt`, any animation-finished
pattern), `addReserve` calls with non-negative amounts, and further `reset` and `init`
calls, `0 ≤ magazine ≤ magazineCapacity` and `0 ≤ reserve ≤ maxReserveAmmo`; and
`addReserve(amount)` returns `min(amount, maxReserve - reserve)`, which is exactly the
amount by which the reserve grew. -/
theorem ammo_invariant :
    (∀ (a b : Bool) (calls : List GunCall), (∀ c ∈ calls, c.nonNegative = true) →
      0 ≤ (runCalls (init new a b) calls).getMagazine ∧
      (runCalls (init new a b) calls).getMagazine
        ≤ (runCalls (init new a b) calls).magazineCapacity ∧
      0 ≤ (runCalls (init new a b) calls).getReserve ∧
      (runCalls (init new a b) calls).getReserve
        ≤ (runCalls (init new a b) calls).maxReserveAmmo) ∧
    (∀ calls : List GunCall, (∀ c ∈ calls, c.nonNegative = true) →
      0 ≤ (runCalls (reset new) calls).getMagazine ∧
      (runCalls (reset new) calls).getMagazine ≤ (runCalls (reset new) calls).magazineCapacity ∧
      0 ≤ (runCalls (reset new) calls).getReserve ∧
      (runCalls (reset new) calls).getReserve ≤ (runCalls (reset new) calls).maxReserveAmmo) ∧
    (∀ (s : GunAnimationController) (amount : Int),
      (addReserve s amount).1 = min amount (s.maxReserveAmmo - s.getReserve) ∧
      (addReserve s amount).2.getReserve - s.getReserve = (addReserve s amount).1) := by
  refine ⟨?_, ?_, ?_⟩
  · intro a b calls hall
    exact runCalls_bounds calls (init new a b) hall rfl rfl
      (by cases a <;> cases b <;> decide)
  · intro calls hall
    exact runCalls_bounds calls (reset new) hall rfl rfl (by decide)
  · intro s amount
    unfold addReserve getReserve
    simp only []
    constructor
    · split_ifs with hgt
      · exact (min_eq_right (le_of_lt hgt)).symm
      · exact (min_eq_left (not_lt.mp hgt)).symm
    · ring

/-- C10, at a concrete sequence: a shot, a pickup of 93 rounds (none fits, the reserve
is full), a reload key press and the end of the reload animation. -/
theorem ammo_invariant_witness :
    0 ≤ (runCalls (init new true true)
          [GunCall.update fireInput, GunCall.addReserve 93, GunCall.update reloadInput,
            GunCall.update finishedInput]).getMagazine ∧
    (runCalls (init new true true)
          [GunCall.update fireInput, GunCall.addReserve 93, GunCall.update reloadInput,
            GunCall.update finishedInput]).getMagazine
      ≤ (runCalls (init new true true)
          [GunCall.update fireInput, GunCall.addReserve 93, GunCall.update reloadInput,
            GunCall.update finishedInput]).magazineCapacity ∧
    0 ≤ (runCalls (init new true true)
          [GunCall.update fireInput, GunCall.addReserve 93, GunCall.update reloadInput,
            GunCall.update finishedInput]).getReserve ∧
    (runCalls (init new true true)
          [GunCall.update fireInput, GunCall.addReserve 93, GunCall.update reloadInput,
            GunCall.update finishedInput]).getReserve
      ≤ (runCalls (init new true true)
          [GunCall.update fireInput, GunCall.addReserve 93, GunCall.update reloadInput,
            GunCall.update finishedInput]).maxReserveAmmo :=
  ammo_invariant.1 true true
    [GunCall.update fireInput, GunCall.addReserve 93, GunCall.update reloadInput,
      GunCall.update finishedInput] (by decide)

/-- Entering the empty reload: with the reload key newly pressed, an empty magazine and
a non-empty reserve at decision time, the chain selects EMPTY_RELOAD and leaves the
ammo alone. -/
theorem updateDecide_enter_empty (s : GunAnimationController) (inp : GunInput) (rm : Bool)
    (hmag : s.currentMagazine = 0) (hres : 0 < s.reserveAmmo) (hcap : 0 < s.magazineCapacity) :
    (updateDecide s inp true rm).currentState = EMPTY_RELOAD ∧
    (updateDecide s inp true rm).currentMagazine = 0 := by
  unfold updateDecide
  rw [if_pos ⟨rfl, hres, by omega⟩]
  simp [hmag]

/-- During the empty reload (animation still running) the chain either starts a melee
or stays in EMPTY_RELOAD with the magazine empty. -/
theorem updateDecide_reloading (s : GunAnimationController) (inp : GunInput) (rj rm : Bool)
    (hst : s.currentState = EMPTY_RELOAD) (hmag : s.currentMagazine = 0)
    (hfin : inp.animationFinished = false) (hm : s.meleedThisFrame = false) :
    (updateDecide s inp rj rm).meleedThisFrame = true ∨
    ((updateDecide s inp rj rm).currentState = EMPTY_RELOAD ∧
      (updateDecide s inp rj rm).currentMagazine = 0) := by
  unfold updateDecide
  split_ifs <;> simp_all

/-- Without fire held the chain does not touch the magazine. -/
theorem updateDecide_no_fire (s : GunAnimationController) (inp : GunInput) (rj rm : Bool)
    (h : inp.mouseLeft = false) :
    (updateDecide s inp rj rm).currentMagazine = s.currentMagazine := by
  unfold updateDecide
  split_ifs <;> simp_all

/-- Outside the movement states, and without fire held, starting to fire does nothing. -/
theorem updateStartFire_skip (s : GunAnimationController) (inp : GunInput)
    (h : inp.mouseLeft = false ∨ s.currentState = EMPTY_RELOAD) :
    updateStartFire s inp = s := by
  unfold updateStartFire
  rw [if_neg]
  rintro ⟨hmv, hfire⟩
  rcases h with h | h
  · rw [h] at hfire
    exact Bool.false_ne_true hfire
  · rw [h] at hmv
    simp at hmv

/-- The movement relaxation keeps EMPTY_RELOAD. -/
theorem updateMovement_emptyReload (s : GunAnimationController) (inp : GunInput)
    (h : s.currentState = EMPTY_RELOAD) :
    (updateMovement s inp).currentState = EMPTY_RELOAD := by
  unfold updateMovement
  simp [h]

/-- An update that does not complete a reload reaches decision time with the ammo it
started with. -/
theorem updateBegin_ammo_of_not_completes (s : GunAnimationController) (inp : GunInput)
    (h : completesReload s inp = false) :
    (updateBegin s inp).currentMagazine = s.currentMagazine ∧
    (updateBegin s inp).reserveAmmo = s.reserveAmmo := by
  have hb := updateBegin_spec s inp
  rw [hb.2.2.2.2.2.2.2.2.2.2.2.1, hb.2.2.2.2.2.2.2.2.2.2.2.2, h]
  simp

/-- The update in which the empty reload is entered. -/
theorem update_enter_empty (s : GunAnimationController) (inp : GunInput) (h : s.Live)
    (hkey : inp.keyR = true) (hprev : s.prevKeyR = false)
    (hnc : completesReload s inp = false) (hmag : s.currentMagazine = 0)
    (hres : 0 < s.reserveAmmo) (hcap : 0 < s.magazineCapacity) :
    (update s inp).currentState = EMPTY_RELOAD ∧ (update s inp).currentMagazine = 0 ∧
    (update s inp).reserveAmmo = s.reserveAmmo := by
  rw [update_of_live s inp h]
  have hb := updateBegin_spec s inp
  have hba := updateBegin_ammo_of_not_completes s inp hnc
  have hrj : (inp.keyR && !s.prevKeyR) = true := by rw [hkey, hprev]; rfl
  rw [hrj]
  have hd := updateDecide_enter_empty (updateBegin s inp) inp (inp.mouseRight && !s.prevMouseRight)
    (by rw [hba.1, hmag]) (by rw [hba.2]; exact hres) (by rw [hb.2.1]; exact hcap)
  have hdf := updateDecide_frame (updateBegin s inp) inp true (inp.mouseRight && !s.prevMouseRight)
  have hs := updateStartFire_skip (updateDecide (updateBegin s inp) inp true
    (inp.mouseRight && !s.prevMouseRight)) inp (Or.inr hd.1)
  have hm := updateMovement_frame (updateDecide (updateBegin s inp) inp true
    (inp.mouseRight && !s.prevMouseRight)) inp
  rw [hs]
  exact ⟨updateMovement_emptyReload _ inp hd.1, by rw [hm.1, hd.2], by rw [hm.2.1, hdf.1, hba.2]⟩

/-- One update during the empty reload: animation still running, no melee started. -/
theorem update_reloading (s : GunAnimationController) (inp : GunInput) (h : s.Live)
    (hst : s.currentState = EMPTY_RELOAD) (hmag : s.currentMagazine = 0)
    (hfin : inp.animationFinished = false) (hnm : (update s inp).hasMeleed = false) :
    (update s inp).currentState = EMPTY_RELOAD ∧ (update s inp).currentMagazine = 0 ∧
    (update s inp).reserveAmmo = s.reserveAmmo := by
  unfold hasMeleed at hnm
  rw [update_of_live s inp h] at hnm ⊢
  have hb := updateBegin_spec s inp
  have hnc : completesReload s inp = false := by
    unfold completesReload
    rw [hfin]
    simp
  have hba := updateBegin_ammo_of_not_completes s inp hnc
  have hd := updateDecide_reloading (updateBegin s inp) inp (inp.keyR && !s.prevKeyR)
    (inp.mouseRight && !s.prevMouseRight) (by rw [hb.1, hst]) (by rw [hba.1, hmag]) hfin
    hb.2.2.2.2.2.2.2.1
  have hdf := updateDecide_frame (updateBegin s inp) inp (inp.keyR && !s.prevKeyR)
    (inp.mouseRight && !s.prevMouseRight)
  have hsf := updateStartFire_frame (updateDecide (updateBegin s inp) inp (inp.keyR && !s.prevKeyR)
    (inp.mouseRight && !s.prevMouseRight)) inp
  have hm := updateMovement_frame (updateStartFire (updateDecide (updateBegin s inp) inp
    (inp.keyR && !s.prevKeyR) (inp.mouseRight && !s.prevMouseRight)) inp) inp
  rw [hm.2.2.2.2.2.2.2.2.1, hsf.2.2.2.2.2.2.2.1] at hnm
  rcases hd with hmel | ⟨hst2, hmag2⟩
  · rw [hmel] at hnm
    exact absurd hnm (by decide)
  · have hs := updateStartFire_skip (updateDecide (updateBegin s inp) inp (inp.keyR && !s.prevKeyR)
      (inp.mouseRight && !s.prevMouseRight)) inp (Or.inr hst2)
    rw [hs] at hm ⊢
    exact ⟨updateMovement_emptyReload _ inp hst2, by rw [hm.1, hmag2],
      by rw [hm.2.1, hdf.1, hba.2]⟩

/-- The run of updates during the empty reload. -/
theorem run_reloading (mid : List GunInput) :
    ∀ s : GunAnimationController, s.Live → s.currentState = EMPTY_RELOAD →
      s.currentMagazine = 0 → (∀ i ∈ mid, i.animationFinished = false) →
      noMelee s mid = true →
      (run s mid).Live ∧ (run s mid).currentState = EMPTY_RELOAD ∧
      (run s mid).currentMagazine = 0 ∧ (run s mid).reserveAmmo = s.reserveAmmo ∧
      (run s mid).magazineCapacity = s.magazineCapacity := by
  induction mid with
  | nil =>
    intro s h hst hmag _ _
    exact ⟨h, hst, hmag, rfl, rfl⟩
  | cons inp rest ih =>
    intro s h hst hmag hfin hnm
    simp only [noMelee, Bool.and_eq_true, Bool.not_eq_true'] at hnm
    have h1 := update_reloading s inp h hst hmag (hfin inp (List.mem_cons_self inp rest)) hnm.1
    have h2 := ih (update s inp) (update_live s inp h) h1.1 h1.2.1
      (fun i hi => hfin i (List.mem_cons_of_mem inp hi)) hnm.2
    simp only [run]
    exact ⟨h2.1, h2.2.1, h2.2.2.1, by rw [h2.2.2.2.1, h1.2.2],
      by rw [h2.2.2.2.2, (update_frame s inp).2.1]⟩

/-- The update in which the empty reload completes, fire not held. -/
theorem update_complete_empty (s : GunAnimationController) (inp : GunInput) (h : s.Live)
    (hst : s.currentState = EMPTY_RELOAD) (hmag : s.currentMagazine = 0)
    (hres : s.magazineCapacity - 1 ≤ s.reserveAmmo) (hpos : 0 < s.reserveAmmo)
    (hfin : inp.animationFinished = true) (hfire : inp.mouseLeft = false) :
    (update s inp).currentMagazine = s.magazineCapacity - 1 ∧
    (update s inp).reserveAmmo = s.reserveAmmo - (s.magazineCapacity - 1) := by
  rw [update_of_live s inp h]
  have hb := updateBegin_spec s inp
  have hc : completesReload s inp = true := by
    unfold completesReload
    rw [hst, hfin]
    simp
  have hpr : (performReload s).currentMagazine = s.magazineCapacity - 1 ∧
      (performReload s).reserveAmmo = s.reserveAmmo - (s.magazineCapacity - 1) := by
    unfold performReload
    rw [if_neg (not_le.mpr hpos)]
    simp only [hmag, if_true, ge_iff_le, if_pos hres]
    exact ⟨zero_add _, trivial⟩
  have hd := updateDecide_no_fire (updateBegin s inp) inp (inp.keyR && !s.prevKeyR)
    (inp.mouseRight && !s.prevMouseRight) hfire
  have hdf := updateDecide_frame (updateBegin s inp) inp (inp.keyR && !s.prevKeyR)
    (inp.mouseRight && !s.prevMouseRight)
  have hs := updateStartFire_skip (updateDecide (updateBegin s inp) inp (inp.keyR && !s.prevKeyR)
    (inp.mouseRight && !s.prevMouseRight)) inp (Or.inl hfire)
  have hm := updateMovement_frame (updateDecide (updateBegin s inp) inp (inp.keyR && !s.prevKeyR)
    (inp.mouseRight && !s.prevMouseRight)) inp
  rw [hs, hm.1, hm.2.1, hd, hdf.1, hb.2.2.2.2.2.2.2.2.2.2.2.1, hb.2.2.2.2.2.2.2.2.2.2.2.2, hc]
  simpa using hpr

set_option maxRecDepth 100000 in
/-- C9 as stated fails: after 31 shots from the initial state the magazine is 0 and the
reserve 186; the reload key is pressed (EMPTY_RELOAD) and released; it is pressed again
in the very update in which the empty-reload animation has finished. That update
starts with magazine 0, reserve 186 and a new key press, but the finished reload is
performed first (30 / 156), so the weapon enters RELOAD, not EMPTY_RELOAD, and when
that reload animation finishes the ammo is 31 / 155, not 30 / 156. -/
theorem empty_reload_repress_counterexample :
    (run (init new true true) (thirtyOneShots ++ [reloadInput, idleInput])).Live ∧
    (run (init new true true) (thirtyOneShots ++ [reloadInput, idleInput])).getMagazine = 0 ∧
    (run (init new true true) (thirtyOneShots ++ [reloadInput, idleInput])).getReserve = 186 ∧
    (run (init new true true) (thirtyOneShots ++ [reloadInput, idleInput])).magazineCapacity
      = 31 ∧
    (run (init new true true) (thirtyOneShots ++ [reloadInput, idleInput])).prevKeyR = false ∧
    reloadFinishedInput.keyR = true ∧
    (update (run (init new true true) (thirtyOneShots ++ [reloadInput, idleInput]))
        reloadFinishedInput).currentState = RELOAD ∧
    ¬ (update (run (init new true true) (thirtyOneShots ++ [reloadInput, idleInput]))
        reloadFinishedInput).currentState = EMPTY_RELOAD ∧
    finishedInput.animationFinished = true ∧ finishedInput.mouseLeft = false ∧
    (update (update (run (init new true true) (thirtyOneShots ++ [reloadInput, idleInput]))
        reloadFinishedInput) finishedInput).getMagazine = 31 ∧
    (update (update (run (init new true true) (thirtyOneShots ++ [reloadInput, idleInput]))
        reloadFinishedInput) finishedInput).getReserve = 155 ∧
    ¬ ((update (update (run (init new true true) (thirtyOneShots ++ [reloadInput, idleInput]))
          reloadFinishedInput) finishedInput).getMagazine = 31 - 1 ∧
        (update (update (run (init new true true) (thirtyOneShots ++ [reloadInput, idleInput]))
          reloadFinishedInput) finishedInput).getReserve = 186 - (31 - 1)) := by
  decide

set_option maxRecDepth 100000 in
/-- C9, amended: if the reload key is newly pressed in an update of an initialised
controller that does not itself complete a reload, with magazine 0 and reserve
`R ≥ capacity - 1` (capacity at least 2), the weapon enters EMPTY_RELOAD; it stays there
through every later update in which the animation has not finished and no melee starts,
and after the first update in which the animation has finished, with fire not held,
the ammo is magazine `capacity - 1` and reserve `R - (capacity - 1)`. From magazine 31
and reserve 186, 31 shots give magazine 0, the next fire attempt (at the end of the
fire animation) is DRYFIRE with reserve still 186, and the reload gives 30 / 156. -/
theorem empty_reload_ammo :
    (∀ (s : GunAnimationController) (inp : GunInput) (mid : List GunInput) (fin : GunInput)
        (R : Int),
      s.Live → inp.keyR = true → s.prevKeyR = false → completesReload s inp = false →
      s.getMagazine = 0 → s.getReserve = R → s.magazineCapacity - 1 ≤ R →
      2 ≤ s.magazineCapacity →
      (∀ i ∈ mid, i.animationFinished = false) → noMelee (update s inp) mid = true →
      fin.animationFinished = true → fin.mouseLeft = false →
      (update s inp).currentState = EMPTY_RELOAD ∧
      (run (update s inp) mid).currentState = EMPTY_RELOAD ∧
      (update (run (update s inp) mid) fin).getMagazine = s.magazineCapacity - 1 ∧
      (update (run (update s inp) mid) fin).getReserve = R - (s.magazineCapacity - 1)) ∧
    ((init new true true).getMagazine = 31 ∧ (init new true true).getReserve = 186 ∧
      firedCount (init new true true) thirtyOneShots = 31 ∧
      (run (init new true true) thirtyOneShots).getMagazine = 0 ∧
      emptiedGun.currentState = DRYFIRE ∧ emptiedGun.hasDryfired = true ∧
      emptiedGun.getMagazine = 0 ∧ emptiedGun.getReserve = 186 ∧
      (update emptiedGun reloadInput).currentState = EMPTY_RELOAD ∧
      (run emptiedGun [reloadInput, idleInput, finishedInput]).getMagazine = 30 ∧
      (run emptiedGun [reloadInput, idleInput, finishedInput]).getReserve = 156) := by
  refine ⟨?_, by decide⟩
  intro s inp mid fin R hl hkey hprev hnc hmag hres hR hcap hmid hnm hfin hfire
  unfold getMagazine at hmag
  unfold getReserve at hres
  unfold getMagazine getReserve
  have hpos : 0 < s.reserveAmmo := by omega
  have h1 := update_enter_empty s inp hl hkey hprev hnc hmag hpos (by omega)
  have h2 := run_reloading mid (update s inp) (update_live s inp hl) h1.1 h1.2.1 hmid hnm
  have hcapeq : (run (update s inp) mid).magazineCapacity = s.magazineCapacity := by
    rw [h2.2.2.2.2, (update_frame s inp).2.1]
  have hreseq : (run (update s inp) mid).reserveAmmo = R := by
    rw [h2.2.2.2.1, h1.2.2, hres]
  have h3 := update_complete_empty (run (update s inp) mid) fin h2.1 h2.2.1 h2.2.2.1
    (by rw [hcapeq, hreseq]; exact hR) (by rw [hreseq, ← hres]; exact hpos) hfin hfire
  rw [hcapeq, hreseq] at h3
  exact ⟨h1.1, h2.2.1, h3.1, h3.2⟩

set_option maxRecDepth 100000 in
/-- C9 amended, at a concrete input: the emptied weapon (magazine 0, reserve 186, in
DRYFIRE), the reload key pressed, one idle update, then the end of the animation. -/
theorem empty_reload_ammo_witness :
    (update emptiedGun reloadInput).currentState = EMPTY_RELOAD ∧
    (run (update emptiedGun reloadInput) [idleInput]).currentState = EMPTY_RELOAD ∧
    (update (run (update emptiedGun reloadInput) [idleInput]) finishedInput).getMagazine
      = emptiedGun.magazineCapacity - 1 ∧
    (update (run (update emptiedGun reloadInput) [idleInput]) finishedInput).getReserve
      = 186 - (emptiedGun.magazineCapacity - 1) :=
  empty_reload_ammo.1 emptiedGun reloadInput [idleInput] finishedInput 186
    (by decide) (by decide) (by decide) (by decide) (by decide) (by decide) (by decide)
    (by decide) (by decide) (by decide) (by decide) (by decide)

end GunAnimationController

/-! ## Weapon state machine: reload priority -/

namespace GunAnimationController

open GunAnimState

/-- The reload branch of the decision chain: taken whenever the reload key is newly
pressed with a non-empty reserve and a magazine that is not full. -/
theorem updateDecide_reload (s : GunAnimationController) (inp : GunInput) (rm : Bool)
    (hres : 0 < s.reserveAmmo) (hmag : s.currentMagazine < s.magazineCapacity) :
    (updateDecide s inp true rm).currentState
        = (if s.currentMagazine = 0 then EMPTY_RELOAD else RELOAD) ∧
    (updateDecide s inp true rm).reloadedThisFrame = true ∧
    (updateDecide s inp true rm).firedThisFrame = s.firedThisFrame ∧
    (updateDecide s inp true rm).meleedThisFrame = s.meleedThisFrame ∧
    (updateDecide s inp true rm).currentMagazine = s.currentMagazine := by
  unfold updateDecide
  rw [if_pos ⟨rfl, hres, hmag⟩]
  exact ⟨rfl, rfl, rfl, rfl, rfl⟩

/-- Without a new press of the reload key the chain does not set the reload pulse. -/
theorem updateDecide_no_reload (s : GunAnimationController) (inp : GunInput) (rm : Bool) :
    (updateDecide s inp false rm).reloadedThisFrame = s.reloadedThisFrame := by
  unfold updateDecide
  rw [if_neg (fun hh => Bool.false_ne_true hh.1)]
  split_ifs <;> rfl

/-- In RELOAD and EMPTY_RELOAD the last two parts of `update` change neither the state
nor the pulse flags. -/
theorem updateTail_reloading (s : GunAnimationController) (inp : GunInput)
    (h : s.currentState = RELOAD ∨ s.currentState = EMPTY_RELOAD) :
    (updateMovement (updateStartFire s inp) inp).currentState = s.currentState ∧
    (updateMovement (updateStartFire s inp) inp).firedThisFrame = s.firedThisFrame ∧
    (updateMovement (updateStartFire s inp) inp).meleedThisFrame = s.meleedThisFrame ∧
    (updateMovement (updateStartFire s inp) inp).reloadedThisFrame = s.reloadedThisFrame := by
  have hs : updateStartFire s inp = s := by
    unfold updateStartFire
    rw [if_neg]
    rintro ⟨hmv, _⟩
    rcases h with h | h <;> rw [h] at hmv <;> simp at hmv
  rw [hs]
  have hm := updateMovement_frame s inp
  refine ⟨?_, hm.2.2.2.2.2.2.1, hm.2.2.2.2.2.2.2.2.1, hm.2.2.2.2.2.2.2.2.2.1⟩
  unfold updateMovement
  rcases h with h | h <;> simp [h]

/-- After an update with the reload key held, the next update sees no new key press:
its reload pulse is false. -/
theorem update_key_held (s : GunAnimationController) (inp : GunInput) (h : s.Live)
    (hprev : s.prevKeyR = true) :
    (update s inp).hasReloaded = false ∧ (update s inp).prevKeyR = inp.keyR := by
  unfold hasReloaded
  rw [update_of_live s inp h]
  have hb := updateBegin_spec s inp
  have hrj : (inp.keyR && !s.prevKeyR) = false := by rw [hprev]; simp
  rw [hrj]
  have hd := updateDecide_no_reload (updateBegin s inp) inp (inp.mouseRight && !s.prevMouseRight)
  have hdf := updateDecide_frame (updateBegin s inp) inp false
    (inp.mouseRight && !s.prevMouseRight)
  have hsf := updateStartFire_frame (updateDecide (updateBegin s inp) inp false
    (inp.mouseRight && !s.prevMouseRight)) inp
  have hm := updateMovement_frame (updateStartFire (updateDecide (updateBegin s inp) inp false
    (inp.mouseRight && !s.prevMouseRight)) inp) inp
  exact ⟨by rw [hm.2.2.2.2.2.2.2.2.2.1, hsf.2.2.2.2.2.2.2.2, hd, hb.2.2.2.2.2.2.2.2.1],
    by rw [hm.2.2.2.2.2.2.2.2.2.2.1, hsf.2.2.2.2.2.1, hdf.2.2.2.2.2.1, hb.2.2.2.2.2.2.2.2.2.1]⟩

/-- While the reload key stays held, no update of the run triggers a reload. -/
theorem run_key_held (inps : List GunInput) :
    ∀ s : GunAnimationController, s.Live → s.prevKeyR = true →
      (∀ i ∈ inps, i.keyR = true) → inps ≠ [] → (run s inps).hasReloaded = false := by
  induction inps with
  | nil =>
    intro s _ _ _ hne
    exact absurd rfl hne
  | cons inp rest ih =>
    intro s h hprev hall _
    have h1 := update_key_held s inp h hprev
    simp only [run]
    cases rest with
    | nil => exact h1.1
    | cons inp2 rest2 =>
      exact ih (update s inp) (update_live s inp h)
        (by rw [h1.2]; exact hall inp (List.mem_cons_self inp _))
        (fun i hi => hall i (List.mem_cons_of_mem inp hi)) (List.cons_ne_nil inp2 rest2)

/-- C11: in any update of an initialised controller where the reload key is newly
pressed (held now, not held at the previous update) and, at decision time (after a
finished reload has been performed), reserve > 0 and magazine < capacity, the state
after the update is EMPTY_RELOAD if the magazine is exactly 0 and RELOAD otherwise,
`hasReloaded()` is true, no round is fired and no melee is started, whatever the
melee, fire and movement inputs and the current state are; and while the key stays
held on the following updates no new reload is triggered. -/
theorem reload_preempts (s : GunAnimationController) (inp : GunInput) (h : s.Live)
    (hkey : inp.keyR = true) (hprev : s.prevKeyR = false)
    (hres : 0 < (updateBegin s inp).getReserve)
    (hmag : (updateBegin s inp).getMagazine < (updateBegin s inp).magazineCapacity) :
    (update s inp).currentState
        = (if (updateBegin s inp).getMagazine = 0 then EMPTY_RELOAD else RELOAD) ∧
    (update s inp).hasReloaded = true ∧
    (update s inp).hasFired = false ∧
    (update s inp).hasMeleed = false ∧
    (update s inp).getMagazine = (updateBegin s inp).getMagazine ∧
    (∀ inps : List GunInput, (∀ i ∈ inps, i.keyR = true) → inps ≠ [] →
      (run (update s inp) inps).hasReloaded = false) := by
  unfold getReserve at hres
  unfold getMagazine at hmag
  unfold getMagazine
  have hb := updateBegin_spec s inp
  have hrj : (inp.keyR && !s.prevKeyR) = true := by rw [hkey, hprev]; rfl
  have hd := updateDecide_reload (updateBegin s inp) inp (inp.mouseRight && !s.prevMouseRight)
    hres hmag
  have hst : (updateDecide (updateBegin s inp) inp true
      (inp.mouseRight && !s.prevMouseRight)).currentState = RELOAD ∨
      (updateDecide (updateBegin s inp) inp true
        (inp.mouseRight && !s.prevMouseRight)).currentState = EMPTY_RELOAD := by
    rw [hd.1]
    split_ifs
    · exact Or.inr rfl
    · exact Or.inl rfl
  have ht := updateTail_reloading (updateDecide (updateBegin s inp) inp true
    (inp.mouseRight && !s.prevMouseRight)) inp hst
  have hsf := updateStartFire_frame (updateDecide (updateBegin s inp) inp true
    (inp.mouseRight && !s.prevMouseRight)) inp
  have hsk := updateStartFire_fire (updateDecide (updateBegin s inp) inp true
    (inp.mouseRight && !s.prevMouseRight)) inp
  have hm := updateMovement_frame (updateStartFire (updateDecide (updateBegin s inp) inp true
    (inp.mouseRight && !s.prevMouseRight)) inp) inp
  have hdf := updateDecide_frame (updateBegin s inp) inp true
    (inp.mouseRight && !s.prevMouseRight)
  have hupd := update_of_live s inp h
  rw [hrj] at hupd
  have hprev2 : (update s inp).prevKeyR = true := by
    rw [hupd, hm.2.2.2.2.2.2.2.2.2.2.1, hsf.2.2.2.2.2.1, hdf.2.2.2.2.2.1,
      hb.2.2.2.2.2.2.2.2.2.1, hkey]
  have hmag2 : (update s inp).currentMagazine = (updateBegin s inp).currentMagazine := by
    rw [hupd, hm.1]
    rcases hsk with ⟨hmv, _⟩ | ⟨_, hmg⟩
    · rcases hst with h1 | h1 <;> rw [h1] at hmv <;> simp at hmv
    · rw [hmg, hd.2.2.2.2]
  refine ⟨?_, ?_, ?_, ?_, hmag2, ?_⟩
  · rw [hupd, ht.1, hd.1]
  · unfold hasReloaded
    rw [hupd, ht.2.2.2, hd.2.1]
  · unfold hasFired
    rw [hupd, ht.2.1, hd.2.2.1, hb.2.2.2.2.2.1]
  · unfold hasMeleed
    rw [hupd, ht.2.2.1, hd.2.2.2.1, hb.2.2.2.2.2.2.2.1]
  · intro inps hall hne
    exact run_key_held inps (update s inp) (update_live s inp h) hprev2 hall hne

/-- C11, at a concrete input: the initial weapon after one shot (30 / 186), with the
reload key, the fire button, the melee button and the sprint keys all pressed at once:
the update enters RELOAD, and holding the key on the next update triggers nothing. -/
theorem reload_preempts_witness :
    (update (update (init new true true) fireInput)
        { idleInput with keyR := true, mouseLeft := true, mouseRight := true, keyW := true,
                         keyShift := true }).currentState = RELOAD ∧
    (update (update (init new true true) fireInput)
        { idleInput with keyR := true, mouseLeft := true, mouseRight := true, keyW := true,
                         keyShift := true }).hasReloaded = true ∧
    (update (update (init new true true) fireInput)
        { idleInput with keyR := true, mouseLeft := true, mouseRight := true, keyW := true,
                         keyShift := true }).hasFired = false ∧
    (update (update (init new true true) fireInput)
        { idleInput with keyR := true, mouseLeft := true, mouseRight := true, keyW := true,
                         keyShift := true }).hasMeleed = false ∧
    (run (update (update (init new true true) fireInput)
        { idleInput with keyR := true, mouseLeft := true, mouseRight := true, keyW := true,
                         keyShift := true }) [reloadInput]).hasReloaded = false :=
  ⟨(reload_preempts (update (init new true true) fireInput)
      { idleInput with keyR := true, mouseLeft := true, mouseRight := true, keyW := true,
                       keyShift := true } (by decide) (by decide) (by decide) (by decide)
      (by decide)).1,
   (reload_preempts (update (init new true true) fireInput)
      { idleInput with keyR := true, mouseLeft := true, mouseRight := true, keyW := true,
                       keyShift := true } (by decide) (by decide) (by decide) (by decide)
      (by decide)).2.1,
   (reload_preempts (update (init new true true) fireInput)
      { idleInput with keyR := true, mouseLeft := true, mouseRight := true, keyW := true,
                       keyShift := true } (by decide) (by decide) (by decide) (by decide)
      (by decide)).2.2.1,
   (reload_preempts (update (init new true true) fireInput)
      { idleInput with keyR := true, mouseLeft := true, mouseRight := true, keyW := true,
                       keyShift := true } (by decide) (by decide) (by decide) (by decide)
      (by decide)).2.2.2.1,
   (reload_preempts (update (init new true true) fireInput)
      { idleInput with keyR := true, mouseLeft := true, mouseRight := true, keyW := true,
                       keyShift := true } (by decide) (by decide) (by decide) (by decide)
      (by decide)).2.2.2.2.2 [reloadInput] (by decide) (by decide)⟩

end GunAnimationController

/-! ## Bounding-volume catalog: properties -/

section CatalogProofs

/-- A successful lookup returns an entry of the table. -/
theorem mem_of_lookup {β : Type} (name : String) (b : β) :
    ∀ l : List (String × β), l.lookup name = some b → (name, b) ∈ l := by
  intro l
  induction l with
  | nil => intro h; simp at h
  | cons x rest ih =>
    intro h
    obtain ⟨k, v⟩ := x
    by_cases hk : name = k
    · subst hk
      simp at h
      subst h
      exact List.mem_cons_self _ _
    · have hk2 : (name == k) = false := by simpa using hk
      rw [List.lookup_cons, hk2] at h
      exact List.mem_cons_of_mem _ (ih h)

/-- Every half-extent of the static catalog is non-negative. -/
theorem StaticModelBounds_nonneg (name : String) (b : ModelBounds)
    (h : StaticModelBounds.lookup name = some b) :
    0 ≤ b.halfExtentX ∧ 0 ≤ b.halfExtentY ∧ 0 ≤ b.halfExtentZ := by
  have hm := mem_of_lookup name b StaticModelBounds h
  simp only [StaticModelBounds, List.mem_cons, Prod.mk.injEq, List.mem_singleton,
    List.not_mem_nil, or_false] at hm
  rcases hm with hm | hm | hm | hm | hm | hm | hm | hm | hm | hm | hm | hm | hm | hm | hm | hm |
    hm | hm | hm | hm | hm | hm | hm | hm | hm | hm | hm | hm | hm | hm | hm | hm | hm | hm |
    hm | hm <;> (rw [hm.2]; norm_num)

/-- Every half-extent of the animated catalog is non-negative. -/
theorem AnimatedModelBounds_nonneg (name : String) (b : ModelBounds)
    (h : AnimatedModelBounds.lookup name = some b) :
    0 ≤ b.halfExtentX ∧ 0 ≤ b.halfExtentY ∧ 0 ≤ b.halfExtentZ := by
  have hm := mem_of_lookup name b AnimatedModelBounds h
  simp only [AnimatedModelBounds, List.mem_cons, Prod.mk.injEq, List.mem_singleton,
    List.not_mem_nil, or_false] at hm
  rcases hm with hm | hm | hm | hm <;> (rw [hm.2]; norm_num)

/-- With floats taken as exact numbers: for every identifier absent from the catalog and
every position `p`, `getStaticModelAABB` and `getAnimatedModelAABB` return the generic
box with `min = (p.x - 0.5, p.y, p.z - 0.5)` and `max = (p.x + 0.5, p.y + 2, p.z + 0.5)`;
for every identifier present the returned box is valid, its size is twice the
catalogued half-extents on each axis, and `min.y` is `p.y` plus the y of the optional
centre offset (there is none for animated models). -/
theorem catalog_boxes_exact :
    (∀ (name : String) (p : Vec3), StaticModelBounds.lookup name = none →
      getStaticModelAABB name p
        = ⟨⟨p.x - 0.5, p.y, p.z - 0.5⟩, ⟨p.x + 0.5, p.y + 2, p.z + 0.5⟩⟩) ∧
    (∀ (name : String) (p : Vec3), AnimatedModelBounds.lookup name = none →
      getAnimatedModelAABB name p
        = ⟨⟨p.x - 0.5, p.y, p.z - 0.5⟩, ⟨p.x + 0.5, p.y + 2, p.z + 0.5⟩⟩) ∧
    (∀ (name : String) (b : ModelBounds) (p : Vec3), StaticModelBounds.lookup name = some b →
      (getStaticModelAABB name p).Valid ∧
      (getStaticModelAABB name p).max.x - (getStaticModelAABB name p).min.x
        = 2 * b.halfExtentX ∧
      (getStaticModelAABB name p).max.y - (getStaticModelAABB name p).min.y
        = 2 * b.halfExtentY ∧
      (getStaticModelAABB name p).max.z - (getStaticModelAABB name p).min.z
        = 2 * b.halfExtentZ ∧
      (getStaticModelAABB name p).min.y = p.y + staticOffsetY name) ∧
    (∀ (name : String) (b : ModelBounds) (p : Vec3), AnimatedModelBounds.lookup name = some b →
      (getAnimatedModelAABB name p).Valid ∧
      (getAnimatedModelAABB name p).max.x - (getAnimatedModelAABB name p).min.x
        = 2 * b.halfExtentX ∧
      (getAnimatedModelAABB name p).max.y - (getAnimatedModelAABB name p).min.y
        = 2 * b.halfExtentY ∧
      (getAnimatedModelAABB name p).max.z - (getAnimatedModelAABB name p).min.z
        = 2 * b.halfExtentZ ∧
      (getAnimatedModelAABB name p).min.y = p.y) := by
  refine ⟨?_, ?_, ?_, ?_⟩
  · intro name p h
    unfold getStaticModelAABB
    rw [h]
    simp only [AABB.fromCenterExtent, Vec3.add, Vec3.sub, AABB.mk.injEq, Vec3.mk.injEq]
    norm_num
    ring
  · intro name p h
    unfold getAnimatedModelAABB
    rw [h]
    simp only [AABB.fromCenterExtent, Vec3.add, Vec3.sub, AABB.mk.injEq, Vec3.mk.injEq]
    norm_num
    ring
  · intro name b p h
    obtain ⟨hx, hy, hz⟩ := StaticModelBounds_nonneg name b h
    unfold getStaticModelAABB staticOffsetY
    rw [h]
    cases hoff : StaticModelOffsets.lookup name with
    | none =>
      simp only [AABB.fromCenterExtent, AABB.Valid, Vec3.add, Vec3.sub, ModelBounds.toVec3]
      refine ⟨⟨?_, ?_, ?_⟩, ?_, ?_, ?_, ?_⟩ <;> linarith
    | some off =>
      simp only [AABB.fromCenterExtent, AABB.Valid, Vec3.add, Vec3.sub, ModelBounds.toVec3]
      refine ⟨⟨?_, ?_, ?_⟩, ?_, ?_, ?_, ?_⟩ <;> linarith
  · intro name b p h
    obtain ⟨hx, hy, hz⟩ := AnimatedModelBounds_nonneg name b h
    unfold getAnimatedModelAABB
    rw [h]
    simp only [AABB.fromCenterExtent, AABB.Valid, Vec3.add, Vec3.sub, ModelBounds.toVec3]
    refine ⟨⟨?_, ?_, ?_⟩, ?_, ?_, ?_, ?_⟩ <;> linarith

end CatalogProofs

/-! ## Binary32 rounding: order -/

namespace Binary32

/-- The power of 2 as computed is the integer power of the field. -/
theorem pow2_eq (e : Int) : pow2 e = (2 : ℚ) ^ e := by
  unfold pow2
  split_ifs with h
  · have he : e = ((e.toNat : Nat) : Int) := (Int.toNat_of_nonneg h).symm
    conv_rhs => rw [he]
    rw [zpow_natCast]
    push_cast
    rfl
  · have h' : 0 ≤ -e := by omega
    have he : e = -(((-e).toNat : Nat) : Int) := by rw [Int.toNat_of_nonneg h']; ring
    conv_rhs => rw [he]
    rw [zpow_neg, zpow_natCast]
    push_cast
    rw [one_div]

/-- Powers of 2 are positive. -/
theorem pow2_pos (e : Int) : 0 < pow2 e := by
  rw [pow2_eq]
  positivity

/-- Powers of 2 grow with the exponent. -/
theorem pow2_le_pow2 {a b : Int} (h : a ≤ b) : pow2 a ≤ pow2 b := by
  rw [pow2_eq, pow2_eq]
  exact zpow_le_zpow_right₀ (by norm_num) h

/-- The power of a sum of exponents. -/
theorem pow2_add (a b : Int) : pow2 (a + b) = pow2 a * pow2 b := by
  rw [pow2_eq, pow2_eq, pow2_eq, zpow_add₀ (by norm_num)]

/-- Halving 0 gives no digits. -/
theorem bitsAux_zero (fuel : Nat) : bitsAux fuel 0 = 0 := by
  cases fuel <;> simp [bitsAux]

/-- With enough fuel, a number other than 0 lies between the two powers of 2 that its
number of digits names. -/
theorem bitsAux_spec : ∀ (fuel n : Nat), n ≤ fuel → n ≠ 0 →
    ∃ b : Nat, bitsAux fuel n = b + 1 ∧ 2 ^ b ≤ n ∧ n < 2 ^ (b + 1) := by
  intro fuel
  induction fuel with
  | zero =>
    intro n hn h0
    omega
  | succ fuel ih =>
    intro n hn h0
    simp only [bitsAux, if_neg h0]
    by_cases h2 : n / 2 = 0
    · refine ⟨0, by rw [h2, bitsAux_zero], ?_, ?_⟩
      · simp; omega
      · simp; omega
    · obtain ⟨b, hb, hlo, hhi⟩ := ih (n / 2) (by omega) h2
      refine ⟨b + 1, by rw [hb], ?_, ?_⟩
      · rw [pow_succ]
        omega
      · rw [pow_succ]
        omega

/-- A number other than 0 lies between the two powers of 2 that its number of digits
names. -/
theorem bits_spec (n : Nat) (h0 : n ≠ 0) :
    ∃ b : Nat, bits n = b + 1 ∧ 2 ^ b ≤ n ∧ n < 2 ^ (b + 1) :=
  bitsAux_spec n n (le_refl n) h0

/-- The exponent of a rational other than 0 brackets its absolute value. -/
theorem exponent_spec (q : ℚ) (hq : q ≠ 0) :
    pow2 (exponent q) ≤ |q| ∧ |q| < pow2 (exponent q + 1) := by
  have hn0 : q.num.natAbs ≠ 0 := by
    rw [Int.natAbs_ne_zero]
    exact Rat.num_ne_zero.mpr hq
  obtain ⟨a, ha, halo, hahi⟩ := bits_spec q.num.natAbs hn0
  obtain ⟨b, hb, hblo, hbhi⟩ := bits_spec q.den q.den_nz
  have habs : |q| = (q.num.natAbs : ℚ) / (q.den : ℚ) := by
    conv_lhs => rw [← Rat.num_div_den q]
    rw [abs_div, Nat.abs_cast, Nat.cast_natAbs, Int.cast_abs]
  have hd : (0 : ℚ) < (q.den : ℚ) := by exact_mod_cast q.den_pos
  have hA : (0 : ℚ) < (2 : ℚ) ^ a := by positivity
  have hB : (0 : ℚ) < (2 : ℚ) ^ b := by positivity
  have h1 : ((2 : ℚ) ^ a) ≤ (q.num.natAbs : ℚ) := by exact_mod_cast halo
  have h2 : (q.num.natAbs : ℚ) < 2 * (2 : ℚ) ^ a := by
    have : (q.num.natAbs : ℚ) < (2 : ℚ) ^ (a + 1) := by exact_mod_cast hahi
    rw [pow_succ] at this
    linarith
  have h3 : ((2 : ℚ) ^ b) ≤ (q.den : ℚ) := by exact_mod_cast hblo
  have h4 : (q.den : ℚ) < 2 * (2 : ℚ) ^ b := by
    have : (q.den : ℚ) < (2 : ℚ) ^ (b + 1) := by exact_mod_cast hbhi
    rw [pow_succ] at this
    linarith
  have he0 : ((bits q.num.natAbs : Int) - (bits q.den : Int)) = (a : Int) - (b : Int) := by
    rw [ha, hb]
    push_cast
    ring
  have hp0 : pow2 ((a : Int) - (b : Int)) = (2 : ℚ) ^ a / (2 : ℚ) ^ b := by
    rw [pow2_eq, zpow_sub₀ (by norm_num), zpow_natCast, zpow_natCast]
  have hp1 : pow2 ((a : Int) - (b : Int) + 1) = 2 * (2 : ℚ) ^ a / (2 : ℚ) ^ b := by
    rw [pow2_add, hp0, pow2_eq]
    norm_num
    ring
  have hpm : pow2 ((a : Int) - (b : Int) - 1) = (2 : ℚ) ^ a / (2 * (2 : ℚ) ^ b) := by
    have : (a : Int) - (b : Int) - 1 = ((a : Int) - (b : Int)) + (-1) := by ring
    rw [this, pow2_add, hp0, pow2_eq]
    norm_num
    field_simp
    ring
  have hup : |q| < pow2 ((a : Int) - (b : Int) + 1) := by
    rw [habs, hp1, div_lt_div_iff₀ hd hB]
    nlinarith
  have hlow : pow2 ((a : Int) - (b : Int) - 1) ≤ |q| := by
    rw [habs, hpm, div_le_div_iff₀ (by positivity) hd]
    nlinarith
  unfold exponent
  rw [he0]
  split_ifs with hc
  · exact ⟨hc, hup⟩
  · refine ⟨hlow, ?_⟩
    have : (a : Int) - (b : Int) - 1 + 1 = (a : Int) - (b : Int) := by ring
    rw [this]
    exact not_le.mp hc

/-- Rounding to an integer does not go below the floor. -/
theorem floor_le_roundEven (k : ℚ) : ⌊k⌋ ≤ roundEven k := by
  unfold roundEven
  split_ifs <;> omega

/-- Rounding to an integer does not go above the floor plus 1. -/
theorem roundEven_le_floor_succ (k : ℚ) : roundEven k ≤ ⌊k⌋ + 1 := by
  unfold roundEven
  split_ifs <;> omega

/-- An integer rounds to itself. -/
theorem roundEven_intCast (n : Int) : roundEven (n : ℚ) = n := by
  unfold roundEven
  rw [Int.floor_intCast]
  norm_num

/-- Rounding to an integer keeps the order. -/
theorem roundEven_mono {a b : ℚ} (h : a ≤ b) : roundEven a ≤ roundEven b := by
  have hf : ⌊a⌋ ≤ ⌊b⌋ := Int.floor_mono h
  rcases lt_or_eq_of_le hf with hlt | heq
  · calc roundEven a ≤ ⌊a⌋ + 1 := roundEven_le_floor_succ a
      _ ≤ ⌊b⌋ := hlt
      _ ≤ roundEven b := floor_le_roundEven b
  · unfold roundEven
    rw [← heq]
    split_ifs <;> first | omega | (exfalso; linarith)

/-- An integer at most `k` is at most the rounded `k`. -/
theorem le_roundEven {n : Int} {k : ℚ} (h : (n : ℚ) ≤ k) : n ≤ roundEven k := by
  have := roundEven_mono h
  rwa [roundEven_intCast] at this

/-- An integer at least `k` is at least the rounded `k`. -/
theorem roundEven_le {n : Int} {k : ℚ} (h : k ≤ (n : ℚ)) : roundEven k ≤ n := by
  have := roundEven_mono h
  rwa [roundEven_intCast] at this

/-- Rounding to an integer commutes with negation (ties go to the even integer on both
sides). -/
theorem roundEven_neg (k : ℚ) : roundEven (-k) = -roundEven k := by
  by_cases hint : (⌊k⌋ : ℚ) = k
  · have h1 : roundEven k = ⌊k⌋ := by
      rw [← hint, roundEven_intCast, Int.floor_intCast]
    have h2 : -k = ((-⌊k⌋ : Int) : ℚ) := by
      push_cast
      rw [hint]
    rw [h2, roundEven_intCast, h1]
  · have hlt : (⌊k⌋ : ℚ) < k := lt_of_le_of_ne (Int.floor_le k) hint
    have hfl : ⌊-k⌋ = -⌊k⌋ - 1 := by
      rw [Int.floor_eq_iff]
      push_cast
      constructor
      · have := Int.lt_floor_add_one k
        linarith
      · linarith
    unfold roundEven
    rw [hfl]
    push_cast
    have hup := Int.lt_floor_add_one k
    split_ifs <;> first | omega | (exfalso; linarith)

/-- The spacing is positive. -/
theorem ulp_pos (q : ℚ) : 0 < ulp q := pow2_pos _

/-- The exponent does not depend on the sign. -/
theorem exponent_neg (q : ℚ) : exponent (-q) = exponent q := by
  unfold exponent
  rw [Rat.num_neg_eq_neg_num, Int.natAbs_neg, Rat.den_neg_eq_den, abs_neg]

/-- The spacing does not depend on the sign. -/
theorem ulp_neg (q : ℚ) : ulp (-q) = ulp q := by
  unfold ulp
  rw [exponent_neg]

/-- The rounding commutes with negation. -/
theorem round_neg (q : ℚ) : round (-q) = -round q := by
  unfold round
  by_cases h : q = 0
  · rw [h]
    simp
  · rw [if_neg (neg_ne_zero.mpr h), if_neg h, ulp_neg, neg_div, roundEven_neg]
    push_cast
    ring

/-- A number that is not negative rounds to a number that is not negative. -/
theorem round_nonneg {q : ℚ} (h : 0 ≤ q) : 0 ≤ round q := by
  unfold round
  split_ifs with h0
  · exact le_refl 0
  · have hk : ((0 : Int) : ℚ) ≤ q / ulp q := by
      push_cast
      exact div_nonneg h (ulp_pos q).le
    have := le_roundEven hk
    exact mul_nonneg (by exact_mod_cast this) (ulp_pos q).le

/-- The rounding keeps the order of positive numbers. -/
theorem round_mono_pos {a b : ℚ} (ha : 0 < a) (hab : a ≤ b) : round a ≤ round b := by
  have hb : 0 < b := lt_of_lt_of_le ha hab
  have sa := exponent_spec a ha.ne'
  have sb := exponent_spec b hb.ne'
  rw [abs_of_pos ha] at sa
  rw [abs_of_pos hb] at sb
  have hexp : exponent a ≤ exponent b := by
    by_contra hcon
    have h1 : exponent b + 1 ≤ exponent a := by omega
    have := pow2_le_pow2 h1
    linarith [sa.1, sb.2]
  unfold round
  rw [if_neg ha.ne', if_neg hb.ne']
  by_cases heq : max (exponent a) (-126) = max (exponent b) (-126)
  · have hu : ulp a = ulp b := by
      unfold ulp
      rw [heq]
    rw [hu]
    have hk : a / ulp b ≤ b / ulp b := div_le_div_of_nonneg_right hab (ulp_pos b).le
    have := roundEven_mono hk
    exact mul_le_mul_of_nonneg_right (by exact_mod_cast this) (ulp_pos b).le
  · have hlt : max (exponent a) (-126) + 1 ≤ max (exponent b) (-126) := by
      have : max (exponent a) (-126) ≤ max (exponent b) (-126) := max_le_max hexp (le_refl _)
      omega
    have hEb : max (exponent b) (-126) = exponent b := by
      rcases le_total (exponent b) (-126) with h | h
      · exfalso
        rw [max_eq_right h] at hlt
        have := le_max_right (exponent a) (-126)
        omega
      · exact max_eq_left h
    have hEa : exponent a ≤ max (exponent a) (-126) := le_max_left _ _
    have hua : ulp a = pow2 (max (exponent a) (-126) - 23) := rfl
    have hub : ulp b = pow2 (exponent b - 23) := by
      unfold ulp
      rw [hEb]
    have h24 : pow2 (max (exponent a) (-126) + 1)
        = ((16777216 : Int) : ℚ) * pow2 (max (exponent a) (-126) - 23) := by
      have : max (exponent a) (-126) + 1 = 24 + (max (exponent a) (-126) - 23) := by ring
      rw [this, pow2_add, pow2_eq 24]
      norm_num
    have h23 : pow2 (exponent b)
        = ((8388608 : Int) : ℚ) * pow2 (exponent b - 23) := by
      have : exponent b = 23 + (exponent b - 23) := by ring
      conv_lhs => rw [this]
      rw [pow2_add, pow2_eq 23]
      norm_num
    have hra : (roundEven (a / ulp a) : ℚ) * ulp a ≤ pow2 (max (exponent a) (-126) + 1) := by
      have hk : a / ulp a ≤ ((16777216 : Int) : ℚ) := by
        rw [div_le_iff₀ (ulp_pos a), hua, ← h24]
        exact le_trans sa.2.le (pow2_le_pow2 (by omega))
      have := roundEven_le hk
      rw [h24, ← hua]
      exact mul_le_mul_of_nonneg_right (by exact_mod_cast this) (ulp_pos a).le
    have hrb : pow2 (exponent b) ≤ (roundEven (b / ulp b) : ℚ) * ulp b := by
      have hk : ((8388608 : Int) : ℚ) ≤ b / ulp b := by
        rw [le_div_iff₀ (ulp_pos b), hub, ← h23]
        exact sb.1
      have := le_roundEven hk
      rw [h23, ← hub]
      exact mul_le_mul_of_nonneg_right (by exact_mod_cast this) (ulp_pos b).le
    calc (roundEven (a / ulp a) : ℚ) * ulp a
        ≤ pow2 (max (exponent a) (-126) + 1) := hra
      _ ≤ pow2 (exponent b) := pow2_le_pow2 (by omega)
      _ ≤ (roundEven (b / ulp b) : ℚ) * ulp b := hrb

/-- The binary32 rounding keeps the order: `a ≤ b` gives `round a ≤ round b`. -/
theorem round_monotone : Monotone round := by
  intro a b hab
  rcases lt_trichotomy a 0 with ha | ha | ha
  · rcases lt_or_le b 0 with hb | hb
    · have h := round_mono_pos (neg_pos.mpr hb) (neg_le_neg hab)
      rw [round_neg, round_neg] at h
      linarith
    · have h1 := round_nonneg (neg_pos.mpr ha).le
      rw [round_neg] at h1
      have h2 := round_nonneg hb
      linarith
  · rw [ha]
    rw [ha] at hab
    have h0 : round 0 = 0 := by simp [round]
    rw [h0]
    exact round_nonneg hab
  · exact round_mono_pos ha hab

/-- Zero rounds to zero. -/
theorem round_zero : round 0 = 0 := by
  simp [round]

/-- Rounding to an integer moves a number by at most one half. -/
theorem roundEven_error (k : ℚ) : |(roundEven k : ℚ) - k| ≤ 1 / 2 := by
  have h1 := Int.floor_le k
  have h2 := Int.lt_floor_add_one k
  unfold roundEven
  split_ifs <;> (push_cast; rw [abs_le]; constructor <;> linarith)

/-- The rounding moves a number by at most half the spacing of the binary32 values
around it. -/
theorem round_error (q : ℚ) : |round q - q| ≤ ulp q / 2 := by
  have hu := ulp_pos q
  unfold round
  split_ifs with h
  · rw [h]
    simp
    exact (half_pos (ulp_pos 0)).le
  · have hk := roundEven_error (q / ulp q)
    have e : (roundEven (q / ulp q) : ℚ) * ulp q - q
        = ((roundEven (q / ulp q) : ℚ) - q / ulp q) * ulp q := by
      field_simp
    rw [e, abs_mul, abs_of_pos hu]
    calc |(roundEven (q / ulp q) : ℚ) - q / ulp q| * ulp q
        ≤ 1 / 2 * ulp q := mul_le_mul_of_nonneg_right hk hu.le
      _ = ulp q / 2 := by ring

/-- The rounding at sample values: the binary32 values of `1/60`, `0.1`, `0.0001`,
`1.7` and `-5/3`, the two ties above `2^24` (to the even significand, down and up), a
value that binary32 holds exactly, and a subnormal value. -/
theorem round_samples :
    round (1 / 60) = 8947849 / 536870912 ∧
    round 0.1 = 13421773 / 134217728 ∧
    round 0.0001 = 13743895 / 137438953472 ∧
    round 1.7 = 7130317 / 4194304 ∧
    round (-5 / 3) = -13981013 / 8388608 ∧
    round 16777217 = 16777216 ∧
    round 16777219 = 16777220 ∧
    round (1 / 2) = 1 / 2 ∧
    round (1 / 10 ^ 40) = 35681 / 2 ^ 148 := by
  decide!

end Binary32

/-! ## Bounding-volume catalog with rounded arithmetic -/

section RoundedCatalogProofs

/-- With the identity as rounding, the rounded static lookup is the exact one. -/
theorem rounded_getStaticModelAABB_id (name : String) (p : Vec3) :
    Rounded.getStaticModelAABB id name p = getStaticModelAABB name p := by
  unfold Rounded.getStaticModelAABB getStaticModelAABB
  cases StaticModelBounds.lookup name with
  | none => rfl
  | some b =>
    simp only []
    cases StaticModelOffsets.lookup name <;> rfl

/-- With the identity as rounding, the rounded animated lookup is the exact one. -/
theorem rounded_getAnimatedModelAABB_id (name : String) (p : Vec3) :
    Rounded.getAnimatedModelAABB id name p = getAnimatedModelAABB name p := by
  unfold Rounded.getAnimatedModelAABB getAnimatedModelAABB
  cases AnimatedModelBounds.lookup name <;> rfl

/-- A box built from a centre and half-extents that are not negative is valid under a
rounding that keeps the order. -/
theorem rounded_fromCenterExtent_valid (fl : ℚ → ℚ) (hmono : Monotone fl) (c e : Vec3)
    (hx : 0 ≤ e.x) (hy : 0 ≤ e.y) (hz : 0 ≤ e.z) :
    (Rounded.AABB.fromCenterExtent fl c e).Valid := by
  unfold Rounded.AABB.fromCenterExtent Rounded.Vec3.sub Rounded.Vec3.add AABB.Valid
  exact ⟨hmono (by linarith), hmono (by linarith), hmono (by linarith)⟩

/-- C18 fails as stated on the machine (binary32 rounding), at the height `1.7f` and at
the height `0.1f`. The box of the catalogued wall does not rest on the position: its
`min.y` is 1782579/1048576 (1.6999998), below `1.7f`. The box of the catalogued barrel
is not twice its half-extent `0.43f` high. The box of the catalogued goat does not rest
on the position either. And the generic box of an unknown name at the height `0.1f`
does not have `min.y = p.y`. -/
theorem catalog_box_rounding_counterexample :
    (StaticModelBounds.lookup "Wall_003" = some ⟨2.0, 3.0, 0.1⟩ ∧
      (Rounded.getStaticModelAABB Binary32.round "Wall_003" ⟨0, Binary32.round 1.7, 0⟩).min.y
        = 1782579 / 1048576 ∧
      (Rounded.getStaticModelAABB Binary32.round "Wall_003" ⟨0, Binary32.round 1.7, 0⟩).min.y
        ≠ Binary32.round 1.7 + staticOffsetY "Wall_003") ∧
    (StaticModelBounds.lookup "barrel_003" = some ⟨0.31, 0.43, 0.31⟩ ∧
      (Rounded.getStaticModelAABB Binary32.round "barrel_003" ⟨0, Binary32.round 1.7, 0⟩).max.y
        - (Rounded.getStaticModelAABB Binary32.round "barrel_003"
            ⟨0, Binary32.round 1.7, 0⟩).min.y
        ≠ 2 * Binary32.round 0.43) ∧
    (AnimatedModelBounds.lookup "Goat-01" = some ⟨0.55, 0.65, 0.68⟩ ∧
      (Rounded.getAnimatedModelAABB Binary32.round "Goat-01" ⟨0, Binary32.round 1.7, 0⟩).min.y
        ≠ Binary32.round 1.7) ∧
    (StaticModelBounds.lookup "no_such_model" = none ∧
      (Rounded.getStaticModelAABB Binary32.round "no_such_model"
          ⟨0, Binary32.round 0.1, 0⟩).min.y
        ≠ Binary32.round 0.1) := by
  decide!

/-- C18, amended. Catalog lookup never fails. For every rounding `fl` of the float
results that keeps the order and keeps 0 (`Binary32.round` on the machine), every
identifier absent from the catalog and every position `p`, `getStaticModelAABB` and
`getAnimatedModelAABB` both return the valid generic box
`fromCenterExtent(p + (0, 1, 0), (0.5, 1, 0.5))`, whose `min` is
`(p.x - 0.5, (p.y + 1) - 1, p.z - 0.5)` and whose `max` is
`(p.x + 0.5, (p.y + 1) + 1, p.z + 0.5)` with every sum and difference rounded; and for
every identifier present in the catalog the returned box is valid. With floats taken as
exact numbers (`fl = id`) the generic box has `min = (p.x - 0.5, p.y, p.z - 0.5)` and
`max = (p.x + 0.5, p.y + 2, p.z + 0.5)`, and the box of an identifier present in the
catalog has size twice the catalogued half-extents on each axis and rests on the
position: `min.y` is `p.y` plus the y of the optional centre offset (there is none for
animated models). -/
theorem catalog_lookup_total (fl : ℚ → ℚ) (hmono : Monotone fl) (h0 : fl 0 = 0) :
    (∀ (name : String) (p : Vec3), StaticModelBounds.lookup name = none →
      Rounded.getStaticModelAABB fl name p
        = ⟨⟨fl (fl (p.x + 0) - 0.5), fl (fl (p.y + 1) - 1), fl (fl (p.z + 0) - 0.5)⟩,
           ⟨fl (fl (p.x + 0) + 0.5), fl (fl (p.y + 1) + 1), fl (fl (p.z + 0) + 0.5)⟩⟩ ∧
      (Rounded.getStaticModelAABB fl name p).Valid) ∧
    (∀ (name : String) (p : Vec3), AnimatedModelBounds.lookup name = none →
      Rounded.getAnimatedModelAABB fl name p
        = ⟨⟨fl (fl (p.x + 0) - 0.5), fl (fl (p.y + 1) - 1), fl (fl (p.z + 0) - 0.5)⟩,
           ⟨fl (fl (p.x + 0) + 0.5), fl (fl (p.y + 1) + 1), fl (fl (p.z + 0) + 0.5)⟩⟩ ∧
      (Rounded.getAnimatedModelAABB fl name p).Valid) ∧
    (∀ (name : String) (b : ModelBounds) (p : Vec3), StaticModelBounds.lookup name = some b →
      (Rounded.getStaticModelAABB fl name p).Valid) ∧
    (∀ (name : String) (b : ModelBounds) (p : Vec3), AnimatedModelBounds.lookup name = some b →
      (Rounded.getAnimatedModelAABB fl name p).Valid) ∧
    (∀ (name : String) (p : Vec3), StaticModelBounds.lookup name = none →
      Rounded.getStaticModelAABB id name p
        = ⟨⟨p.x - 0.5, p.y, p.z - 0.5⟩, ⟨p.x + 0.5, p.y + 2, p.z + 0.5⟩⟩) ∧
    (∀ (name : String) (p : Vec3), AnimatedModelBounds.lookup name = none →
      Rounded.getAnimatedModelAABB id name p
        = ⟨⟨p.x - 0.5, p.y, p.z - 0.5⟩, ⟨p.x + 0.5, p.y + 2, p.z + 0.5⟩⟩) ∧
    (∀ (name : String) (b : ModelBounds) (p : Vec3), StaticModelBounds.lookup name = some b →
      (Rounded.getStaticModelAABB id name p).max.x - (Rounded.getStaticModelAABB id name p).min.x
        = 2 * b.halfExtentX ∧
      (Rounded.getStaticModelAABB id name p).max.y - (Rounded.getStaticModelAABB id name p).min.y
        = 2 * b.halfExtentY ∧
      (Rounded.getStaticModelAABB id name p).max.z - (Rounded.getStaticModelAABB id name p).min.z
        = 2 * b.halfExtentZ ∧
      (Rounded.getStaticModelAABB id name p).min.y = p.y + staticOffsetY name) ∧
    (∀ (name : String) (b : ModelBounds) (p : Vec3), AnimatedModelBounds.lookup name = some b →
      (Rounded.getAnimatedModelAABB id name p).max.x
          - (Rounded.getAnimatedModelAABB id name p).min.x
        = 2 * b.halfExtentX ∧
      (Rounded.getAnimatedModelAABB id name p).max.y
          - (Rounded.getAnimatedModelAABB id name p).min.y
        = 2 * b.halfExtentY ∧
      (Rounded.getAnimatedModelAABB id name p).max.z
          - (Rounded.getAnimatedModelAABB id name p).min.z
        = 2 * b.halfExtentZ ∧
      (Rounded.getAnimatedModelAABB id name p).min.y = p.y) := by
  have hnn : ∀ q : ℚ, 0 ≤ q → 0 ≤ fl q := fun q hq => h0 ▸ hmono hq
  have e10 : (1.0 : ℚ) = 1 := by norm_num
  have hgen : ∀ p : Vec3,
      Rounded.AABB.fromCenterExtent fl (Rounded.Vec3.add fl p ⟨0, 1.0, 0⟩) ⟨0.5, 1.0, 0.5⟩
        = ⟨⟨fl (fl (p.x + 0) - 0.5), fl (fl (p.y + 1) - 1), fl (fl (p.z + 0) - 0.5)⟩,
           ⟨fl (fl (p.x + 0) + 0.5), fl (fl (p.y + 1) + 1), fl (fl (p.z + 0) + 0.5)⟩⟩ := by
    intro p
    simp only [Rounded.AABB.fromCenterExtent, Rounded.Vec3.add, Rounded.Vec3.sub, e10]
  have hgenv : ∀ p : Vec3,
      (Rounded.AABB.fromCenterExtent fl (Rounded.Vec3.add fl p ⟨0, 1.0, 0⟩)
        ⟨0.5, 1.0, 0.5⟩).Valid := by
    intro p
    exact rounded_fromCenterExtent_valid fl hmono _ _ (by norm_num) (by norm_num) (by norm_num)
  refine ⟨?_, ?_, ?_, ?_, ?_, ?_, ?_, ?_⟩
  · intro name p h
    unfold Rounded.getStaticModelAABB
    rw [h]
    exact ⟨hgen p, hgenv p⟩
  · intro name p h
    unfold Rounded.getAnimatedModelAABB
    rw [h]
    exact ⟨hgen p, hgenv p⟩
  · intro name b p h
    obtain ⟨hx, hy, hz⟩ := StaticModelBounds_nonneg name b h
    unfold Rounded.getStaticModelAABB
    rw [h]
    exact rounded_fromCenterExtent_valid fl hmono _ _ (hnn _ hx) (hnn _ hy) (hnn _ hz)
  · intro name b p h
    obtain ⟨hx, hy, hz⟩ := AnimatedModelBounds_nonneg name b h
    unfold Rounded.getAnimatedModelAABB
    rw [h]
    exact rounded_fromCenterExtent_valid fl hmono _ _ (hnn _ hx) (hnn _ hy) (hnn _ hz)
  · intro name p h
    rw [rounded_getStaticModelAABB_id]
    exact catalog_boxes_exact.1 name p h
  · intro name p h
    rw [rounded_getAnimatedModelAABB_id]
    exact catalog_boxes_exact.2.1 name p h
  · intro name b p h
    rw [rounded_getStaticModelAABB_id]
    exact (catalog_boxes_exact.2.2.1 name b p h).2
  · intro name b p h
    rw [rounded_getAnimatedModelAABB_id]
    exact (catalog_boxes_exact.2.2.2 name b p h).2

/-- C18 amended, at concrete identifiers on the machine (`fl` the binary32 rounding,
which keeps the order and keeps 0): an unknown name at `(1, 2, 3)` gives the generic box
from `(0.5, 2, 2.5)` to `(1.5, 4, 3.5)`, and the boxes of the platform (the one model
with a centre offset) and of the goat at the height `1.7f` are valid. -/
theorem catalog_lookup_total_witness :
    Rounded.getStaticModelAABB Binary32.round "no_such_model" ⟨1, 2, 3⟩
      = ⟨⟨1 / 2, 2, 5 / 2⟩, ⟨3 / 2, 4, 7 / 2⟩⟩ ∧
    (Rounded.getStaticModelAABB Binary32.round "helicopter_platform_001"
      ⟨1, Binary32.round 1.7, 3⟩).Valid ∧
    (Rounded.getAnimatedModelAABB Binary32.round "Goat-01" ⟨1, Binary32.round 1.7, 3⟩).Valid :=
  ⟨((catalog_lookup_total Binary32.round Binary32.round_monotone Binary32.round_zero).1
      "no_such_model" ⟨1, 2, 3⟩ (by decide!)).1.trans (by decide!),
   (catalog_lookup_total Binary32.round Binary32.round_monotone Binary32.round_zero).2.2.1
      "helicopter_platform_001" ⟨5.27, 0.81, 6.15⟩ ⟨1, Binary32.round 1.7, 3⟩ (by decide!),
   (catalog_lookup_total Binary32.round Binary32.round_monotone Binary32.round_zero).2.2.2.1
      "Goat-01" ⟨0.55, 0.65, 0.68⟩ ⟨1, Binary32.round 1.7, 3⟩ (by decide!)⟩

end RoundedCatalogProofs

/-! ## Player controller: properties -/

namespace Camera

/-- After the first frame, `update` is the composition of its parts. -/
theorem update_of_not_first (m : MathOps) (c : Camera) (inp : CameraInput)
    (h : c.firstFrame = false) :
    update m c inp = updateFailSafe (updateGravity (beforeVertical m c inp) inp) := by
  unfold update beforeVertical
  rw [h]
  rfl

/-- Looking around changes neither the position nor the jump state. -/
theorem updateLook_frame (c : Camera) (inp : CameraInput) :
    (updateLook c inp).position = c.position ∧ (updateLook c inp).isJumping = c.isJumping ∧
    (updateLook c inp).currentGroundY = c.currentGroundY ∧
    (updateLook c inp).velocityY = c.velocityY := by
  unfold updateLook
  simp only []
  split_ifs <;> exact ⟨rfl, rfl, rfl, rfl⟩

/-- Moving changes only the position. -/
theorem updateMove_frame (m : MathOps) (c : Camera) (inp : CameraInput) :
    (updateMove m c inp).isJumping = c.isJumping ∧
    (updateMove m c inp).currentGroundY = c.currentGroundY ∧
    (updateMove m c inp).velocityY = c.velocityY :=
  ⟨rfl, rfl, rfl⟩

/-- With planar vector functions the movement keeps the height. -/
theorem updateMove_y (m : MathOps) (hm : m.Planar) (c : Camera) (inp : CameraInput) :
    (updateMove m c inp).position.y = c.position.y := by
  have hf : (m.normalize ⟨m.sinf c.yaw, 0, m.cosf c.yaw⟩).y = 0 := hm.1 _ rfl
  have hr : (m.normalize (m.cross ⟨0, 1, 0⟩ (m.normalize ⟨m.sinf c.yaw, 0, m.cosf c.yaw⟩))).y
      = 0 := hm.1 _ (hm.2 _ hf)
  unfold updateMove
  simp only []
  split_ifs <;> simp [Vec3.add, Vec3.sub, Vec3.scale, hf, hr]

/-- The sprint pulse changes neither the position nor the jump state. -/
theorem updateSprint_frame (c : Camera) (inp : CameraInput) :
    (updateSprint c inp).position = c.position ∧ (updateSprint c inp).isJumping = c.isJumping ∧
    (updateSprint c inp).currentGroundY = c.currentGroundY ∧
    (updateSprint c inp).velocityY = c.velocityY ∧
    (updateSprint c inp).jumpedThisFrame = c.jumpedThisFrame := by
  unfold updateSprint
  simp only []
  split_ifs <;> exact ⟨rfl, rfl, rfl, rfl, rfl⟩

/-- The vertical integration and the fail-safe leave the jump pulse and the ground
height alone. -/
theorem vertical_frame (c : Camera) (inp : CameraInput) :
    (updateFailSafe (updateGravity c inp)).jumpedThisFrame = c.jumpedThisFrame ∧
    (updateFailSafe (updateGravity c inp)).currentGroundY = c.currentGroundY ∧
    (updateGravity c inp).currentGroundY = c.currentGroundY := by
  unfold updateFailSafe updateGravity
  simp only []
  split_ifs <;> exact ⟨rfl, rfl, rfl⟩

/-- The jump decision. -/
theorem updateJump_spec (m : MathOps) (c : Camera) (inp : CameraInput) :
    ((updateJump m c inp).jumpedThisFrame = true ↔
      inp.keySpace = true ∧ c.isJumping = false ∧ c.position.y ≤ c.currentGroundY + 0.1) ∧
    ((updateJump m c inp).jumpedThisFrame = true →
      (updateJump m c inp).velocityY = m.sqrtf (2 * gravity * jumpHeight) ∧
      (updateJump m c inp).isJumping = true) ∧
    (updateJump m c inp).position = c.position ∧
    (updateJump m c inp).currentGroundY = c.currentGroundY := by
  unfold updateJump
  simp only []
  split_ifs with h
  · refine ⟨⟨fun _ => ⟨h.1, by simpa using h.2.1, h.2.2⟩, fun _ => rfl⟩, fun _ => ⟨?_, rfl⟩,
      rfl, rfl⟩
    norm_num
  · refine ⟨⟨fun hj => by simp at hj, fun hh => ?_⟩, fun hj => by simp at hj, rfl, rfl⟩
    exact absurd ⟨hh.1, by simp [hh.2.1], hh.2.2⟩ h

/-- C19: in every `Camera::update` after the first, `hasJumped()` is true afterwards
if and only if the jump key is held, `isJumping` was false before the update and
`position.y` before the vertical integration (that is, after the movement of this
update) is at most `currentGroundY + 0.1`; no jump starts while `isJumping` is true;
and when a jump starts, the vertical velocity that enters this frame's gravity
integration is `sqrt(2 * gravity * jumpHeight)`. With planar vector functions the
height tested is the height before the update. -/
theorem jump_gating (m : MathOps) (c : Camera) (inp : CameraInput)
    (h : c.firstFrame = false) :
    ((update m c inp).hasJumped = true ↔
      inp.keySpace = true ∧ c.isJumping = false ∧
        (updateMove m (updateLook c inp) inp).position.y ≤ c.currentGroundY + 0.1) ∧
    (c.isJumping = true → (update m c inp).hasJumped = false) ∧
    ((update m c inp).hasJumped = true →
      update m c inp = updateFailSafe (updateGravity (beforeVertical m c inp) inp) ∧
      (beforeVertical m c inp).velocityY = m.sqrtf (2 * gravity * jumpHeight) ∧
      (beforeVertical m c inp).isJumping = true) ∧
    (m.Planar → (updateMove m (updateLook c inp) inp).position.y = c.position.y) := by
  have hu := update_of_not_first m c inp h
  have hl := updateLook_frame c inp
  have hmv := updateMove_frame m (updateLook c inp) inp
  have hj := updateJump_spec m (updateMove m (updateLook c inp) inp) inp
  have hs := updateSprint_frame (updateJump m (updateMove m (updateLook c inp) inp) inp) inp
  have hv := vertical_frame (beforeVertical m c inp) inp
  have hflag : (update m c inp).hasJumped
      = (updateJump m (updateMove m (updateLook c inp) inp) inp).jumpedThisFrame := by
    unfold hasJumped
    rw [hu, hv.1]
    exact hs.2.2.2.2
  rw [hmv.1, hl.2.1, hmv.2.1, hl.2.2.1] at hj
  refine ⟨?_, ?_, ?_, ?_⟩
  · rw [hflag]
    exact hj.1
  · intro hjump
    rw [hflag]
    cases hc : (updateJump m (updateMove m (updateLook c inp) inp) inp).jumpedThisFrame with
    | false => rfl
    | true =>
      have := (hj.1.mp hc).2.1
      rw [hjump] at this
      exact absurd this (by decide)
  · intro hjumped
    rw [hflag] at hjumped
    have h2 := hj.2.1 hjumped
    refine ⟨hu, ?_, ?_⟩
    · unfold beforeVertical
      rw [hs.2.2.2.1]
      exact h2.1
    · unfold beforeVertical
      rw [hs.2.1]
      exact h2.2
  · intro hp
    rw [updateMove_y m hp, hl.1]

/-- C19, at a concrete input: the camera after its first frame, standing on the ground
(y = 1.8), with the jump key pressed. -/
theorem jump_gating_witness :
    (update MathOps.sample (update MathOps.sample new idleInput)
      { idleInput with keySpace := true }).hasJumped = true :=
  (jump_gating MathOps.sample (update MathOps.sample new idleInput)
    { idleInput with keySpace := true } rfl).1.mpr
    ⟨rfl, rfl, by
      norm_num [update, new, updateMove, updateLook, idleInput,
        show Int.tdiv 1024 2 = 512 from rfl, show Int.tdiv 768 2 = 384 from rfl]⟩

/-- C20: in every `Camera::update` after the first, if after the gravity integration
and the ground clamping `position.y` is below -10, the player is put back at the
default ground height (`position.y = 1.8`) with `velocityY = 0` and
`isJumping = false`; so after every such update `position.y ≥ -10`, and
`position.y ≥ currentGroundY` unless the fail-safe fired. -/
theorem vertical_fail_safe (m : MathOps) (c : Camera) (inp : CameraInput)
    (h : c.firstFrame = false) :
    ((updateGravity (beforeVertical m c inp) inp).position.y < -10 →
      (update m c inp).position.y = 1.8 ∧ (update m c inp).velocityY = 0 ∧
      (update m c inp).isJumping = false) ∧
    -10 ≤ (update m c inp).position.y ∧
    (¬ (updateGravity (beforeVertical m c inp) inp).position.y < -10 →
      (update m c inp).currentGroundY ≤ (update m c inp).position.y) := by
  rw [update_of_not_first m c inp h]
  generalize beforeVertical m c inp = b
  have hg : (updateGravity b inp).currentGroundY ≤ (updateGravity b inp).position.y := by
    unfold updateGravity
    simp only []
    split_ifs with hc
    · exact le_refl _
    · exact le_of_lt (not_le.mp hc)
  generalize updateGravity b inp = g at hg
  unfold updateFailSafe
  refine ⟨?_, ?_, ?_⟩
  · intro hlow
    have hlow2 : g.position.y < -10.0 := by norm_num; exact hlow
    rw [if_pos hlow2]
    simp only [defaultGroundY]
    norm_num
  · split_ifs with hc
    · simp only [defaultGroundY]
      norm_num
    · have := not_lt.mp hc
      norm_num at this
      exact this
  · intro hnot
    have hnot2 : ¬ g.position.y < -10.0 := by norm_num; exact not_lt.mp hnot
    rw [if_neg hnot2]
    exact hg

/-- C20, at a concrete input: a camera that has fallen to `y = -50` over a ground
height of -100 is put back at 1.8. -/
theorem vertical_fail_safe_witness :
    (update MathOps.sample
      { new with firstFrame := false, position := ⟨0, -50, 0⟩, currentGroundY := -100 }
      idleInput).position.y = 1.8 :=
  ((vertical_fail_safe MathOps.sample
      { new with firstFrame := false, position := ⟨0, -50, 0⟩, currentGroundY := -100 }
      idleInput rfl).1
    (by
      norm_num [updateGravity, beforeVertical, updateSprint, updateJump, updateMove,
        updateLook, new, idleInput, gravity,
        show Int.tdiv 1024 2 = 512 from rfl, show Int.tdiv 768 2 = 384 from rfl])).1

end Camera

/-! ## Enemy AI: damage and death -/

namespace EnemyController

open EnemyState

/-- Gravity and landing touch only the height, the vertical velocity and the jump flag. -/
theorem updatePhysics_frame (s : EnemyController) (inp : EnemyInput) (g : ℚ) :
    (updatePhysics s inp g).currentState = s.currentState ∧
    (updatePhysics s inp g).data = s.data ∧
    (updatePhysics s inp g).hasData = s.hasData ∧
    (updatePhysics s inp g).hasInstance = s.hasInstance ∧
    (updatePhysics s inp g).initialized = s.initialized ∧
    (updatePhysics s inp g).deathTimer = s.deathTimer ∧
    (updatePhysics s inp g).hitReactTimer = s.hitReactTimer ∧
    (updatePhysics s inp g).shouldRemove = s.shouldRemove := by
  unfold updatePhysics
  simp only []
  split_ifs <;> exact ⟨rfl, rfl, rfl, rfl, rfl, rfl, rfl, rfl⟩

/-- An update of a live controller that is not REMOVED runs the physics and then the
state switch. -/
theorem enemy_update_of_live (m : MathOps) (s : EnemyController) (inp : EnemyInput) (o : Int)
    (h : s.Live) (hst : s.currentState ≠ REMOVED) :
    update m s inp o
      = { ctrl := (updateState m (updatePhysics s inp (groundHeight s.position inp.staticColliders))
            inp (view m s inp)).1
          playerDamageOut := (updateState m
            (updatePhysics s inp (groundHeight s.position inp.staticColliders)) inp
            (view m s inp)).2
          alive := (updateState m
            (updatePhysics s inp (groundHeight s.position inp.staticColliders)) inp
            (view m s inp)).1.data.isAlive } := by
  unfold update
  rw [h.1, h.2.1, h.2.2, if_neg (by simp), if_neg hst]

/-- The DEATH branch. -/
theorem updateDeath_spec (p : EnemyController) (inp : EnemyInput) :
    (updateDeath p inp).deathTimer = p.deathTimer + inp.dt ∧
    (updateDeath p inp).currentState
      = (if p.deathTimer + inp.dt ≥ deathDuration then REMOVED else p.currentState) ∧
    (updateDeath p inp).shouldRemove
      = (if p.deathTimer + inp.dt ≥ deathDuration then true else p.shouldRemove) ∧
    (updateDeath p inp).data = p.data ∧
    (updateDeath p inp).hasInstance = p.hasInstance ∧
    (updateDeath p inp).hasData = p.hasData ∧
    (updateDeath p inp).initialized = p.initialized := by
  unfold updateDeath deathDuration
  simp only []
  split_ifs with hc
  · exact ⟨rfl, rfl, rfl, rfl, rfl, rfl, rfl⟩
  · exact ⟨rfl, rfl, rfl, rfl, rfl, rfl, rfl⟩

/-- One update in DEATH: the death timer advances by `dt`, and the state becomes REMOVED
with the removal flag set exactly when the timer has reached the death duration. -/
theorem update_death (m : MathOps) (s : EnemyController) (inp : EnemyInput) (o : Int)
    (h : s.Live) (hst : s.currentState = DEATH) :
    (update m s inp o).ctrl.deathTimer = s.deathTimer + inp.dt ∧
    (update m s inp o).ctrl.currentState
      = (if s.deathTimer + inp.dt ≥ deathDuration then REMOVED else DEATH) ∧
    (update m s inp o).ctrl.shouldRemove
      = (if s.deathTimer + inp.dt ≥ deathDuration then true else s.shouldRemove) ∧
    (update m s inp o).alive = s.data.isAlive ∧
    (update m s inp o).ctrl.Live ∧
    (update m s inp o).ctrl.data = s.data := by
  rw [enemy_update_of_live m s inp o h (by rw [hst]; decide)]
  have hp := updatePhysics_frame s inp (groundHeight s.position inp.staticColliders)
  generalize updatePhysics s inp (groundHeight s.position inp.staticColliders) = p at hp
  have hus : updateState m p inp (view m s inp) = (updateDeath p inp, 0) := by
    unfold updateState
    rw [hp.1, hst]
  simp only [hus]
  have hd := updateDeath_spec p inp
  rw [hp.2.2.2.2.2.1, hp.1, hst, hp.2.2.2.2.2.2.2, hp.2.1, hp.2.2.2.1, hp.2.2.1,
    hp.2.2.2.2.1] at hd
  obtain ⟨h1, h2, h3⟩ := h
  exact ⟨hd.1, hd.2.1, hd.2.2.1, by rw [hd.2.2.2.1], ⟨by rw [hd.2.2.2.2.1, h1],
    by rw [hd.2.2.2.2.2.1, h2], by rw [hd.2.2.2.2.2.2, h3]⟩, hd.2.2.2.1⟩

/-- Life data are kept along two steps. -/
theorem SameLife.trans {a b c : EnemyController} (h1 : SameLife a b) (h2 : SameLife b c) :
    SameLife a c :=
  ⟨h2.1.trans h1.1, h2.2.1.trans h1.2.1, h2.2.2.1.trans h1.2.2.1,
    h2.2.2.2.1.trans h1.2.2.2.1, h2.2.2.2.2.trans h1.2.2.2.2⟩

/-- Life data are kept by doing nothing. -/
theorem SameLife.refl (a : EnemyController) : SameLife a a := ⟨rfl, rfl, rfl, rfl, rfl⟩

/-- Collision resolution moves the enemy and changes nothing else. -/
theorem resolveIfAny_sameLife (m : MathOps) (s : EnemyController) (inp : EnemyInput) :
    SameLife s (resolveIfAny m s inp) ∧
    (resolveIfAny m s inp).currentState = s.currentState := by
  unfold resolveIfAny resolveStaticCollisions SameLife
  cases inp.staticColliders with
  | none => exact ⟨⟨rfl, rfl, rfl, rfl, rfl⟩, rfl⟩
  | some walls =>
    simp only []
    split_ifs <;> exact ⟨⟨rfl, rfl, rfl, rfl, rfl⟩, rfl⟩

/-- ENTERING keeps the life data. -/
theorem updateEntering_sameLife (m : MathOps) (s : EnemyController) (inp : EnemyInput) :
    SameLife s (updateEntering m s inp) := by
  unfold updateEntering SameLife
  simp only []
  split_ifs <;> exact ⟨rfl, rfl, rfl, rfl, rfl⟩

/-- Stuck detection keeps the life data and the state. -/
theorem chaseStuck_sameLife (m : MathOps) (s : EnemyController) (inp : EnemyInput) :
    SameLife s (chaseStuck m s inp) ∧ (chaseStuck m s inp).currentState = s.currentState := by
  unfold chaseStuck SameLife
  simp only []
  split_ifs <;> exact ⟨⟨rfl, rfl, rfl, rfl, rfl⟩, rfl⟩

/-- Collision resolution keeps every field but the position. -/
theorem resolveIfAny_fields (m : MathOps) (s : EnemyController) (inp : EnemyInput) :
    (resolveIfAny m s inp).data = s.data ∧ (resolveIfAny m s inp).hasData = s.hasData ∧
    (resolveIfAny m s inp).hasInstance = s.hasInstance ∧
    (resolveIfAny m s inp).initialized = s.initialized ∧
    (resolveIfAny m s inp).currentState = s.currentState := by
  unfold resolveIfAny resolveStaticCollisions
  cases inp.staticColliders with
  | none => exact ⟨rfl, rfl, rfl, rfl, rfl⟩
  | some walls =>
    simp only []
    split_ifs <;> exact ⟨rfl, rfl, rfl, rfl, rfl⟩

/-- The movement of CHASE keeps the life data and the state. -/
theorem chaseMove_sameLife (m : MathOps) (s : EnemyController) (inp : EnemyInput) (v : View) :
    SameLife s (chaseMove m s inp v) ∧ (chaseMove m s inp v).currentState = s.currentState := by
  unfold chaseMove SameLife
  simp only []
  split_ifs <;>
    simp only [(resolveIfAny_fields m _ inp).1, (resolveIfAny_fields m _ inp).2.1,
      (resolveIfAny_fields m _ inp).2.2.1, (resolveIfAny_fields m _ inp).2.2.2.1,
      (resolveIfAny_fields m _ inp).2.2.2.2, and_self]

/-- The end of CHASE keeps the life data; the state stays CHASE or becomes ATTACK. -/
theorem chaseFinish_sameLife (m : MathOps) (s : EnemyController) (inp : EnemyInput) (v : View) :
    SameLife s (chaseFinish m s inp v) ∧
    ((chaseFinish m s inp v).currentState = s.currentState ∨
      (chaseFinish m s inp v).currentState = ATTACK) := by
  unfold chaseFinish SameLife
  simp only []
  split_ifs <;> simp

/-- ATTACK keeps the life data; the state stays ATTACK or becomes CHASE. -/
theorem updateAttack_sameLife (s : EnemyController) (inp : EnemyInput) (v : View) (o : Int) :
    SameLife s (updateAttack s inp v o).1 ∧
    ((updateAttack s inp v o).1.currentState = s.currentState ∨
      (updateAttack s inp v o).1.currentState = CHASE) := by
  unfold updateAttack SameLife
  simp only []
  split_ifs <;> simp

/-- HIT_REACT keeps the life data; the state stays HIT_REACT or becomes CHASE. -/
theorem updateHitReact_sameLife (s : EnemyController) (inp : EnemyInput) :
    SameLife s (updateHitReact s inp) ∧
    ((updateHitReact s inp).currentState = s.currentState ∨
      (updateHitReact s inp).currentState = CHASE) := by
  unfold updateHitReact SameLife
  simp only []
  split_ifs <;> simp

/-- The state switch keeps the life data. -/
theorem updateState_sameLife (m : MathOps) (p : EnemyController) (inp : EnemyInput) (v : View) :
    SameLife p (updateState m p inp v).1 := by
  unfold updateState
  split
  · exact ⟨rfl, rfl, rfl, rfl, rfl⟩
  · exact updateEntering_sameLife m p inp
  · exact ((chaseStuck_sameLife m p inp).1.trans (chaseMove_sameLife m _ inp v).1).trans
      (chaseFinish_sameLife m _ inp v).1
  · exact ⟨rfl, rfl, rfl, rfl, rfl⟩
  · exact ⟨rfl, rfl, rfl, rfl, rfl⟩
  · exact (updateAttack_sameLife p inp v 0).1
  · exact (updateHitReact_sameLife p inp).1
  · have hd := updateDeath_spec p inp
    exact ⟨by rw [hd.2.2.2.1], by rw [hd.2.2.2.1], hd.2.2.2.2.2.1, hd.2.2.2.2.1, hd.2.2.2.2.2.2⟩
  · exact ⟨rfl, rfl, rfl, rfl, rfl⟩

/-- Every update keeps the life data: `update` never writes `isAlive` or `health`. -/
theorem update_sameLife (m : MathOps) (s : EnemyController) (inp : EnemyInput) (o : Int) :
    SameLife s (update m s inp o).ctrl := by
  by_cases h : s.Live
  · by_cases hst : s.currentState = REMOVED
    · have hg : ¬ (!s.hasInstance || !s.hasData || !s.initialized) = true := by
        simp [h.1, h.2.1, h.2.2]
      unfold update
      rw [if_neg hg, if_pos hst]
      exact ⟨rfl, rfl, rfl, rfl, rfl⟩
    · rw [enemy_update_of_live m s inp o h hst]
      have hp := updatePhysics_frame s inp (groundHeight s.position inp.staticColliders)
      have h1 : SameLife s (updatePhysics s inp (groundHeight s.position inp.staticColliders)) :=
        ⟨by rw [hp.2.1], by rw [hp.2.1], hp.2.2.1, hp.2.2.2.1, hp.2.2.2.2.1⟩
      exact h1.trans (updateState_sameLife m _ inp (view m s inp))
  · unfold update
    rw [if_pos]
    · exact ⟨rfl, rfl, rfl, rfl, rfl⟩
    · unfold Live at h
      cases h1 : s.hasInstance <;> cases h2 : s.hasData <;> cases h3 : s.initialized <;> simp_all

/-- `takeDamage` on an enemy that is not alive changes nothing. -/
theorem takeDamage_of_dead (m : MathOps) (s : EnemyController) (damage : Int) (dir : Vec3)
    (h : s.data.isAlive = false) : takeDamage m s damage dir = s := by
  unfold takeDamage
  rw [if_pos]
  rw [h]
  simp

/-- `takeDamage` keeps the pointers, and an enemy that is not alive stays so. -/
theorem takeDamage_keeps_dead (m : MathOps) (s : EnemyController) (damage : Int) (dir : Vec3)
    (h : s.data.isAlive = false) : (takeDamage m s damage dir).data.isAlive = false := by
  rw [takeDamage_of_dead m s damage dir h]
  exact h

/-- Along any sequence of `update` and `takeDamage` calls an enemy that is not alive
stays not alive. -/
theorem runCalls_keeps_dead (m : MathOps) (calls : List Call) :
    ∀ s : EnemyController, s.data.isAlive = false → (runCalls m s calls).data.isAlive = false := by
  induction calls with
  | nil => intro s h; exact h
  | cons c rest ih =>
    intro s h
    simp only [runCalls]
    apply ih
    cases c with
    | update inp =>
      simp only [call]
      rw [(update_sameLife m s inp 0).1]
      exact h
    | takeDamage d dir =>
      simp only [call]
      exact takeDamage_keeps_dead m s d dir h

/-- A lethal hit, written out: only the health, `isAlive`, the state and the death timer
change. -/
theorem takeDamage_lethal_eq (m : MathOps) (s : EnemyController) (d : Int) (dir : Vec3)
    (hdata : s.hasData = true) (halive : s.data.isAlive = true)
    (hst : s.currentState ≠ DEATH) (hd : s.data.health ≤ d) :
    takeDamage m s d dir
      = { s with data := { s.data with health := 0, isAlive := false }, currentState := DEATH,
                 deathTimer := 0.0 } := by
  have hle : s.data.health - d ≤ 0 := by omega
  unfold takeDamage AnimalData.takeDamage
  rw [hdata, halive, if_neg (by simpa using hst)]
  simp only []
  rw [if_pos hle]
  simp

/-- The goat of the scenario after damage 80. -/
theorem killedGoat_eq :
    takeDamage MathOps.sample sampleGoat 80 ⟨0, 0, 0⟩
      = { sampleGoat with data := { sampleGoat.data with health := 0, isAlive := false },
                          currentState := DEATH, deathTimer := 0.0 } :=
  takeDamage_lethal_eq MathOps.sample sampleGoat 80 ⟨0, 0, 0⟩ rfl rfl (by decide) (by decide)

/-- C12: for every living enemy not in DEATH with health `h > 0` and every damage
`d ≥ h`, `takeDamage(d, dir)` sets the health to 0, `isAlive` to false and the state to
DEATH (with the death timer at 0); and every later `takeDamage` call, after any
sequence of further `update` and `takeDamage` calls, changes nothing at all, in
particular not the health, `isAlive`, the state, the position or the death timer. -/
theorem lethal_damage (m : MathOps) (s : EnemyController) (d : Int) (dir : Vec3)
    (hdata : s.hasData = true) (halive : s.data.isAlive = true)
    (hst : s.currentState ≠ DEATH) (hd : s.data.health ≤ d) :
    (takeDamage m s d dir).getHealth = 0 ∧
    (takeDamage m s d dir).isAlive = false ∧
    (takeDamage m s d dir).currentState = DEATH ∧
    (takeDamage m s d dir).deathTimer = 0 ∧
    (∀ (calls : List Call) (d2 : Int) (dir2 : Vec3),
      takeDamage m (runCalls m (takeDamage m s d dir) calls) d2 dir2
        = runCalls m (takeDamage m s d dir) calls) := by
  have key := takeDamage_lethal_eq m s d dir hdata halive hst hd
  have hdead : (takeDamage m s d dir).data.isAlive = false := by rw [key]
  refine ⟨?_, ?_, ?_, ?_, ?_⟩
  · rw [key]
    unfold getHealth
    simp [hdata]
  · rw [key]
    unfold isAlive
    simp
  · rw [key]
  · rw [key]
    norm_num
  · intro calls d2 dir2
    exact takeDamage_of_dead m _ d2 dir2 (runCalls_keeps_dead m calls _ hdead)

/-- C12, at the spec's scenario: a goat with health 70 takes damage 80; a later hit of
damage 5, after an update, changes nothing. -/
theorem lethal_damage_witness :
    (takeDamage MathOps.sample sampleGoat 80 ⟨0, 0, 0⟩).getHealth = 0 ∧
    (takeDamage MathOps.sample sampleGoat 80 ⟨0, 0, 0⟩).isAlive = false ∧
    (takeDamage MathOps.sample sampleGoat 80 ⟨0, 0, 0⟩).currentState = DEATH ∧
    takeDamage MathOps.sample
        (runCalls MathOps.sample (takeDamage MathOps.sample sampleGoat 80 ⟨0, 0, 0⟩)
          [Call.update halfSecond]) 5 ⟨1, 0, 0⟩
      = runCalls MathOps.sample (takeDamage MathOps.sample sampleGoat 80 ⟨0, 0, 0⟩)
          [Call.update halfSecond] :=
  ⟨(lethal_damage MathOps.sample sampleGoat 80 ⟨0, 0, 0⟩ rfl rfl (by decide)
      (by decide)).1,
   (lethal_damage MathOps.sample sampleGoat 80 ⟨0, 0, 0⟩ rfl rfl (by decide)
      (by decide)).2.1,
   (lethal_damage MathOps.sample sampleGoat 80 ⟨0, 0, 0⟩ rfl rfl (by decide)
      (by decide)).2.2.1,
   (lethal_damage MathOps.sample sampleGoat 80 ⟨0, 0, 0⟩ rfl rfl (by decide)
      (by decide)).2.2.2.2 [Call.update halfSecond] 5 ⟨1, 0, 0⟩⟩

/-- The time accumulated over a first frame and the frames after it. -/
theorem dtSum_cons (inp : EnemyInput) (rest : List EnemyInput) :
    dtSum (inp :: rest) = inp.dt + dtSum rest := by
  unfold dtSum
  simp

end EnemyController

/-! ## Enemy AI: the timers of DEATH and HIT_REACT with rounded sums -/

namespace EnemyController

open EnemyState

/-- With the identity as rounding, the rounded state switch is the exact one. -/
theorem rounded_updateState_id (m : MathOps) (s : EnemyController) (inp : EnemyInput) (v : View) :
    Rounded.EnemyController.updateState id m s inp v = updateState m s inp v := by
  unfold Rounded.EnemyController.updateState updateState
  cases s.currentState <;> rfl

/-- With the identity as rounding, the rounded update is the exact one. -/
theorem rounded_update_id (m : MathOps) (s : EnemyController) (inp : EnemyInput) (o : Int) :
    Rounded.EnemyController.update id m s inp o = update m s inp o := by
  unfold Rounded.EnemyController.update update
  simp only [rounded_updateState_id]

/-- With the identity as rounding, the timer is the start value plus the sum of the frame
times. -/
theorem timer_id (inps : List EnemyInput) :
    ∀ t : ℚ, Rounded.EnemyController.timer id t inps = t + dtSum inps := by
  induction inps with
  | nil => intro t; simp [Rounded.EnemyController.timer, dtSum]
  | cons inp rest ih =>
    intro t
    simp only [Rounded.EnemyController.timer, dtSum_cons, ih, id]
    ring

/-- An update of a live controller that is not REMOVED runs the physics and then the
state switch. -/
theorem rounded_update_of_live (fl : ℚ → ℚ) (m : MathOps) (s : EnemyController)
    (inp : EnemyInput) (o : Int) (h : s.Live) (hst : s.currentState ≠ REMOVED) :
    Rounded.EnemyController.update fl m s inp o
      = { ctrl := (Rounded.EnemyController.updateState fl m
            (updatePhysics s inp (groundHeight s.position inp.staticColliders))
            inp (view m s inp)).1
          playerDamageOut := (Rounded.EnemyController.updateState fl m
            (updatePhysics s inp (groundHeight s.position inp.staticColliders)) inp
            (view m s inp)).2
          alive := (Rounded.EnemyController.updateState fl m
            (updatePhysics s inp (groundHeight s.position inp.staticColliders)) inp
            (view m s inp)).1.data.isAlive } := by
  unfold Rounded.EnemyController.update
  rw [h.1, h.2.1, h.2.2, if_neg (by simp), if_neg hst]

/-- One update in DEATH: the death timer becomes the rounded sum `deathTimer + dt`, and
the state becomes REMOVED with the removal flag set exactly when the new timer has
reached 1.0. -/
theorem rounded_update_death (fl : ℚ → ℚ) (m : MathOps) (s : EnemyController)
    (inp : EnemyInput) (o : Int) (h : s.Live) (hst : s.currentState = DEATH) :
    (Rounded.EnemyController.update fl m s inp o).ctrl.deathTimer = fl (s.deathTimer + inp.dt) ∧
    (Rounded.EnemyController.update fl m s inp o).ctrl.currentState
      = (if fl (s.deathTimer + inp.dt) ≥ 1 then REMOVED else DEATH) ∧
    (Rounded.EnemyController.update fl m s inp o).ctrl.shouldRemove
      = (if fl (s.deathTimer + inp.dt) ≥ 1 then true else s.shouldRemove) ∧
    (Rounded.EnemyController.update fl m s inp o).alive = s.data.isAlive ∧
    (Rounded.EnemyController.update fl m s inp o).ctrl.Live ∧
    (Rounded.EnemyController.update fl m s inp o).ctrl.data = s.data := by
  rw [rounded_update_of_live fl m s inp o h (by rw [hst]; decide)]
  have hp := updatePhysics_frame s inp (groundHeight s.position inp.staticColliders)
  generalize updatePhysics s inp (groundHeight s.position inp.staticColliders) = p at hp
  have hus : Rounded.EnemyController.updateState fl m p inp (view m s inp)
      = (Rounded.EnemyController.updateDeath fl p inp, 0) := by
    unfold Rounded.EnemyController.updateState
    rw [hp.1, hst]
  simp only [hus]
  obtain ⟨h1, h2, h3⟩ := h
  unfold Rounded.EnemyController.updateDeath Live
  simp only [hp.2.2.2.2.2.1]
  have h10 : (1.0 : ℚ) = 1 := by norm_num
  rw [h10]
  split_ifs with hc
  · exact ⟨rfl, rfl, rfl, hp.2.1 ▸ rfl, ⟨by rw [← h1, ← hp.2.2.2.1], by rw [← h2, ← hp.2.2.1],
      by rw [← h3, ← hp.2.2.2.2.1]⟩, hp.2.1⟩
  · exact ⟨rfl, by rw [← hst, ← hp.1], hp.2.2.2.2.2.2.2, hp.2.1 ▸ rfl,
      ⟨by rw [← h1, ← hp.2.2.2.1], by rw [← h2, ← hp.2.2.1], by rw [← h3, ← hp.2.2.2.2.1]⟩,
      hp.2.1⟩

/-- While the rounded death timer stays below 1.0, a run of updates keeps the enemy in
DEATH and only advances the timer. -/
theorem rounded_run_death (fl : ℚ → ℚ) (m : MathOps) (inps : List EnemyInput) :
    ∀ s : EnemyController, s.Live → s.currentState = DEATH →
      (∀ k, k < inps.length →
        Rounded.EnemyController.timer fl s.deathTimer (inps.take (k + 1)) < 1) →
      (Rounded.EnemyController.run fl m s inps).Live ∧
      (Rounded.EnemyController.run fl m s inps).currentState = DEATH ∧
      (Rounded.EnemyController.run fl m s inps).deathTimer
        = Rounded.EnemyController.timer fl s.deathTimer inps ∧
      (Rounded.EnemyController.run fl m s inps).shouldRemove = s.shouldRemove ∧
      (Rounded.EnemyController.run fl m s inps).data = s.data := by
  induction inps with
  | nil =>
    intro s h hst _
    exact ⟨h, hst, rfl, rfl, rfl⟩
  | cons inp rest ih =>
    intro s h hst hlt
    have hu := rounded_update_death fl m s inp 0 h hst
    have h0 : fl (s.deathTimer + inp.dt) < 1 := by
      have := hlt 0 (by simp)
      simpa [Rounded.EnemyController.timer] using this
    have hnot : ¬ fl (s.deathTimer + inp.dt) ≥ 1 := not_le.mpr h0
    rw [if_neg hnot] at hu
    rw [if_neg hnot] at hu
    have hrest := ih (Rounded.EnemyController.update fl m s inp 0).ctrl hu.2.2.2.2.1 hu.2.1 (by
      intro k hk
      have := hlt (k + 1) (by simpa using hk)
      rw [hu.1]
      simpa [Rounded.EnemyController.timer] using this)
    simp only [Rounded.EnemyController.run, Rounded.EnemyController.timer]
    exact ⟨hrest.1, hrest.2.1, by rw [hrest.2.2.1, hu.1], by rw [hrest.2.2.2.1, hu.2.2.1],
      by rw [hrest.2.2.2.2, hu.2.2.2.2.2]⟩

/-- C13 fails as stated: a goat killed by damage 80 and updated at 60 frames per second
(`dt` the binary32 value nearest to 1/60). The `dt` accumulated since death is below
1.0 after 59 updates and has reached 1.0 at the 60th, but after the 60th update the
enemy is still in DEATH and `shouldRemove` is false: the death timer, a binary32 sum, is
16777211/16777216 (0.9999997). The state becomes REMOVED one update later. -/
theorem death_timer_lags :
    Rounded.EnemyController.sixtieth.dt = 8947849 / 536870912 ∧
    dtSum (List.replicate 59 Rounded.EnemyController.sixtieth) < 1 ∧
    1 ≤ dtSum (List.replicate 60 Rounded.EnemyController.sixtieth) ∧
    (Rounded.EnemyController.run Binary32.round MathOps.sample
      (takeDamage MathOps.sample sampleGoat 80 ⟨0, 0, 0⟩)
      (List.replicate 60 Rounded.EnemyController.sixtieth)).currentState = DEATH ∧
    (Rounded.EnemyController.run Binary32.round MathOps.sample
      (takeDamage MathOps.sample sampleGoat 80 ⟨0, 0, 0⟩)
      (List.replicate 60 Rounded.EnemyController.sixtieth)).shouldRemove = false ∧
    (Rounded.EnemyController.run Binary32.round MathOps.sample
      (takeDamage MathOps.sample sampleGoat 80 ⟨0, 0, 0⟩)
      (List.replicate 60 Rounded.EnemyController.sixtieth)).deathTimer = 16777211 / 16777216 ∧
    (Rounded.EnemyController.run Binary32.round MathOps.sample
      (takeDamage MathOps.sample sampleGoat 80 ⟨0, 0, 0⟩)
      (List.replicate 61 Rounded.EnemyController.sixtieth)).currentState = REMOVED := by
  decide!

/-- C13, amended: an enemy that has entered DEATH (live controller, not alive, death
timer 0) stays in DEATH through every update while the death timer, the sum of the
frame times with every addition rounded (`fl` is any rounding, `Binary32.round` on the
machine), is below 1.0, and the first update at which the timer reaches 1.0 makes the
state REMOVED and `shouldRemove` true; `update` returns false throughout. A goat with
health 70 that takes damage 80 has health 0, is not alive and is in DEATH, is still in
DEATH after half a second, and is REMOVED with `shouldRemove = true` after a second. -/
theorem death_lifecycle :
    (∀ (fl : ℚ → ℚ) (m : MathOps) (s : EnemyController) (inps : List EnemyInput)
        (last : EnemyInput) (o : Int),
      s.Live → s.currentState = DEATH → s.deathTimer = 0 → s.data.isAlive = false →
      (∀ k, k < inps.length → Rounded.EnemyController.timer fl 0 (inps.take (k + 1)) < 1) →
      ((Rounded.EnemyController.run fl m s inps).currentState = DEATH ∧
        (Rounded.EnemyController.run fl m s inps).shouldRemove = s.shouldRemove ∧
        (Rounded.EnemyController.run fl m s inps).deathTimer
          = Rounded.EnemyController.timer fl 0 inps ∧
        (∀ (k : Nat) (inp : EnemyInput), k ≤ inps.length →
          (Rounded.EnemyController.update fl m
            (Rounded.EnemyController.run fl m s (inps.take k)) inp o).alive = false) ∧
        (1 ≤ fl (Rounded.EnemyController.timer fl 0 inps + last.dt) →
          (Rounded.EnemyController.update fl m
            (Rounded.EnemyController.run fl m s inps) last o).ctrl.currentState = REMOVED ∧
          (Rounded.EnemyController.update fl m
            (Rounded.EnemyController.run fl m s inps) last o).ctrl.shouldRemove = true ∧
          (Rounded.EnemyController.update fl m
            (Rounded.EnemyController.run fl m s inps) last o).alive = false))) ∧
    ((takeDamage MathOps.sample sampleGoat 80 ⟨0, 0, 0⟩).getHealth = 0 ∧
      (takeDamage MathOps.sample sampleGoat 80 ⟨0, 0, 0⟩).isAlive = false ∧
      (takeDamage MathOps.sample sampleGoat 80 ⟨0, 0, 0⟩).currentState = DEATH ∧
      (Rounded.EnemyController.run Binary32.round MathOps.sample
        (takeDamage MathOps.sample sampleGoat 80 ⟨0, 0, 0⟩) [halfSecond]).currentState = DEATH ∧
      (Rounded.EnemyController.run Binary32.round MathOps.sample
        (takeDamage MathOps.sample sampleGoat 80 ⟨0, 0, 0⟩)
        [halfSecond, halfSecond]).currentState = REMOVED ∧
      (Rounded.EnemyController.run Binary32.round MathOps.sample
        (takeDamage MathOps.sample sampleGoat 80 ⟨0, 0, 0⟩)
        [halfSecond, halfSecond]).shouldRemove = true) := by
  refine ⟨?_, by decide!⟩
  intro fl m s inps last o h hst ht hdead hlt
  have hlt2 : ∀ k, k < inps.length →
      Rounded.EnemyController.timer fl s.deathTimer (inps.take (k + 1)) < 1 := by
    intro k hk
    rw [ht]
    exact hlt k hk
  have hr := rounded_run_death fl m inps s h hst hlt2
  refine ⟨hr.2.1, hr.2.2.2.1, by rw [hr.2.2.1, ht], ?_, ?_⟩
  · intro k inp hk
    have hr2 := rounded_run_death fl m (inps.take k) s h hst (by
      intro j hj
      have hj2 : j < k := by
        rw [List.length_take] at hj
        exact lt_of_lt_of_le hj (min_le_left _ _)
      have := hlt2 j (lt_of_lt_of_le hj2 hk)
      rw [List.take_take, min_eq_left (by omega)]
      exact this)
    have hu := rounded_update_death fl m (Rounded.EnemyController.run fl m s (inps.take k)) inp o
      hr2.1 hr2.2.1
    rw [hu.2.2.2.1, hr2.2.2.2.2, hdead]
  · intro hge
    have hu := rounded_update_death fl m (Rounded.EnemyController.run fl m s inps) last o
      hr.1 hr.2.1
    have hc : fl ((Rounded.EnemyController.run fl m s inps).deathTimer + last.dt) ≥ 1 := by
      rw [hr.2.2.1, ht]
      exact hge
    rw [if_pos hc] at hu
    rw [if_pos hc] at hu
    exact ⟨hu.2.1, hu.2.2.1, by rw [hu.2.2.2.1, hr.2.2.2.2, hdead]⟩

/-- C13 amended, at a concrete run on the machine (`fl` the binary32 rounding): the goat
killed by damage 80 and updated at 60 frames per second is in DEATH after 60 updates,
its death timer still below 1.0 after each of them, and REMOVED by the 61st, which
brings the timer to 1.0. -/
theorem death_lifecycle_witness :
    (Rounded.EnemyController.run Binary32.round MathOps.sample
      (takeDamage MathOps.sample sampleGoat 80 ⟨0, 0, 0⟩)
      (List.replicate 60 Rounded.EnemyController.sixtieth)).currentState = DEATH ∧
    (Rounded.EnemyController.update Binary32.round MathOps.sample
      (Rounded.EnemyController.run Binary32.round MathOps.sample
        (takeDamage MathOps.sample sampleGoat 80 ⟨0, 0, 0⟩)
        (List.replicate 60 Rounded.EnemyController.sixtieth))
      Rounded.EnemyController.sixtieth 0).ctrl.currentState = REMOVED :=
  ⟨(death_lifecycle.1 Binary32.round MathOps.sample
      (takeDamage MathOps.sample sampleGoat 80 ⟨0, 0, 0⟩)
      (List.replicate 60 Rounded.EnemyController.sixtieth) Rounded.EnemyController.sixtieth 0
      (by decide!) (by decide!) (by decide!) (by decide!) (by decide!)).1,
   ((death_lifecycle.1 Binary32.round MathOps.sample
      (takeDamage MathOps.sample sampleGoat 80 ⟨0, 0, 0⟩)
      (List.replicate 60 Rounded.EnemyController.sixtieth) Rounded.EnemyController.sixtieth 0
      (by decide!) (by decide!) (by decide!) (by decide!) (by decide!)).2.2.2.2
        (by decide!)).1⟩

end EnemyController

namespace EnemyController

open EnemyState

/-- One update in HIT_REACT: the reaction timer becomes the rounded sum
`hitReactTimer + dt`, and the state becomes CHASE exactly when the animation has
finished or the new timer is above 1.0. -/
theorem rounded_update_hitReact (fl : ℚ → ℚ) (m : MathOps) (s : EnemyController)
    (inp : EnemyInput) (o : Int) (h : s.Live) (hst : s.currentState = HIT_REACT) :
    (Rounded.EnemyController.update fl m s inp o).ctrl.hitReactTimer
      = fl (s.hitReactTimer + inp.dt) ∧
    (Rounded.EnemyController.update fl m s inp o).ctrl.currentState
      = (if inp.animationFinished = true ∨ fl (s.hitReactTimer + inp.dt) > 1 then CHASE
          else HIT_REACT) ∧
    (Rounded.EnemyController.update fl m s inp o).ctrl.Live := by
  rw [rounded_update_of_live fl m s inp o h (by rw [hst]; decide)]
  have hp := updatePhysics_frame s inp (groundHeight s.position inp.staticColliders)
  generalize updatePhysics s inp (groundHeight s.position inp.staticColliders) = p at hp
  have hus : Rounded.EnemyController.updateState fl m p inp (view m s inp)
      = (Rounded.EnemyController.updateHitReact fl p inp, 0) := by
    unfold Rounded.EnemyController.updateState
    rw [hp.1, hst]
  simp only [hus]
  obtain ⟨h1, h2, h3⟩ := h
  unfold Rounded.EnemyController.updateHitReact Live
  simp only [hp.2.2.2.2.2.2.1]
  have h10 : (1.0 : ℚ) = 1 := by norm_num
  rw [h10]
  split_ifs with hc
  · exact ⟨rfl, rfl, by rw [← h1, ← hp.2.2.2.1], by rw [← h2, ← hp.2.2.1],
      by rw [← h3, ← hp.2.2.2.2.1]⟩
  · exact ⟨rfl, by rw [← hst, ← hp.1], by rw [← h1, ← hp.2.2.2.1], by rw [← h2, ← hp.2.2.1],
      by rw [← h3, ← hp.2.2.2.2.1]⟩

/-- While the animation runs and the rounded reaction timer stays at or below 1.0, a run
of updates keeps the enemy in HIT_REACT and only advances the timer. -/
theorem rounded_run_hitReact (fl : ℚ → ℚ) (m : MathOps) (inps : List EnemyInput) :
    ∀ s : EnemyController, s.Live → s.currentState = HIT_REACT →
      (∀ i ∈ inps, i.animationFinished = false) →
      (∀ k, k < inps.length →
        Rounded.EnemyController.timer fl s.hitReactTimer (inps.take (k + 1)) ≤ 1) →
      (Rounded.EnemyController.run fl m s inps).Live ∧
      (Rounded.EnemyController.run fl m s inps).currentState = HIT_REACT ∧
      (Rounded.EnemyController.run fl m s inps).hitReactTimer
        = Rounded.EnemyController.timer fl s.hitReactTimer inps := by
  induction inps with
  | nil =>
    intro s h hst _ _
    exact ⟨h, hst, rfl⟩
  | cons inp rest ih =>
    intro s h hst hfin hle
    have hu := rounded_update_hitReact fl m s inp 0 h hst
    have h0 : fl (s.hitReactTimer + inp.dt) ≤ 1 := by
      have := hle 0 (by simp)
      simpa [Rounded.EnemyController.timer] using this
    have hnot : ¬ (inp.animationFinished = true ∨ fl (s.hitReactTimer + inp.dt) > 1) := by
      rw [hfin inp (List.mem_cons_self inp rest)]
      simp
      exact h0
    rw [if_neg hnot] at hu
    have hrest := ih (Rounded.EnemyController.update fl m s inp 0).ctrl hu.2.2 hu.2.1
      (fun i hi => hfin i (List.mem_cons_of_mem inp hi)) (by
        intro k hk
        have := hle (k + 1) (by simpa using hk)
        rw [hu.1]
        simpa [Rounded.EnemyController.timer] using this)
    simp only [Rounded.EnemyController.run, Rounded.EnemyController.timer]
    exact ⟨hrest.1, hrest.2.1, by rw [hrest.2.2, hu.1]⟩

/-- C14 fails as stated in its timeout: a goat hit for 10 and updated at 60 frames per
second (`dt` the binary32 value nearest to 1/60) with the animation still running. More
than 1.0 s has accumulated with the 60th update, but after it the enemy is still in
HIT_REACT: the reaction timer, a binary32 sum, is 16777211/16777216 (0.9999997). It
returns to CHASE one update later. -/
theorem hit_react_timer_lags :
    Rounded.EnemyController.sixtieth.dt = 8947849 / 536870912 ∧
    Rounded.EnemyController.sixtieth.animationFinished = false ∧
    1 < dtSum (List.replicate 60 Rounded.EnemyController.sixtieth) ∧
    (takeDamage MathOps.sample sampleGoat 10 ⟨0, 0, 0⟩).currentState = HIT_REACT ∧
    (Rounded.EnemyController.run Binary32.round MathOps.sample
      (takeDamage MathOps.sample sampleGoat 10 ⟨0, 0, 0⟩)
      (List.replicate 60 Rounded.EnemyController.sixtieth)).currentState = HIT_REACT ∧
    (Rounded.EnemyController.run Binary32.round MathOps.sample
      (takeDamage MathOps.sample sampleGoat 10 ⟨0, 0, 0⟩)
      (List.replicate 60 Rounded.EnemyController.sixtieth)).hitReactTimer
        = 16777211 / 16777216 ∧
    (Rounded.EnemyController.run Binary32.round MathOps.sample
      (takeDamage MathOps.sample sampleGoat 10 ⟨0, 0, 0⟩)
      (List.replicate 61 Rounded.EnemyController.sixtieth)).currentState = CHASE := by
  decide!

/-- C14, amended: for every living enemy not in DEATH with health `h` and every damage
`d` with `0 ≤ d < h`, `takeDamage(d, dir)` leaves the enemy alive with health `h - d`
in state HIT_REACT with the reaction timer at 0; when the flattened direction (`dir`
with `y = 0`) is longer than 0.01 the position moves by 3 times the normalised
flattened direction, otherwise (as for the zero direction of bullet hits, when its
length is at most 0.01) the position is unchanged; `position.y` is unchanged when
normalising keeps `y = 0`. From HIT_REACT the enemy stays there while the animation
runs and the reaction timer, the sum of the frame times with every addition rounded
(`fl` is any rounding, `Binary32.round` on the machine), is at most 1.0, and returns to
CHASE at the first update at which the animation has finished or the timer is above
1.0. -/
theorem non_lethal_damage (m : MathOps) (s : EnemyController) (d : Int) (dir : Vec3)
    (hdata : s.hasData = true) (halive : s.data.isAlive = true)
    (hst : s.currentState ≠ DEATH) (_hd0 : 0 ≤ d) (hd : d < s.data.health) :
    (takeDamage m s d dir).isAlive = true ∧
    (takeDamage m s d dir).getHealth = s.getHealth - d ∧
    (takeDamage m s d dir).currentState = HIT_REACT ∧
    (takeDamage m s d dir).hitReactTimer = 0 ∧
    (m.length { dir with y := 0 } > 0.01 →
      (takeDamage m s d dir).position
        = s.position.add ((m.normalize { dir with y := 0 }).scale 3)) ∧
    (¬ m.length { dir with y := 0 } > 0.01 → (takeDamage m s d dir).position = s.position) ∧
    (m.length ⟨0, 0, 0⟩ ≤ 0.01 → (takeDamage m s d ⟨0, 0, 0⟩).position = s.position) ∧
    ((∀ v : Vec3, v.y = 0 → (m.normalize v).y = 0) →
      (takeDamage m s d dir).position.y = s.position.y) ∧
    (∀ (fl : ℚ → ℚ) (inps : List EnemyInput) (last : EnemyInput) (o : Int),
      (takeDamage m s d dir).Live →
      (∀ i ∈ inps, i.animationFinished = false) →
      (∀ k, k < inps.length → Rounded.EnemyController.timer fl 0 (inps.take (k + 1)) ≤ 1) →
      (Rounded.EnemyController.run fl m (takeDamage m s d dir) inps).currentState = HIT_REACT ∧
      (Rounded.EnemyController.run fl m (takeDamage m s d dir) inps).hitReactTimer
        = Rounded.EnemyController.timer fl 0 inps ∧
      (last.animationFinished = true ∨
          fl (Rounded.EnemyController.timer fl 0 inps + last.dt) > 1 →
        (Rounded.EnemyController.update fl m
          (Rounded.EnemyController.run fl m (takeDamage m s d dir) inps) last o).ctrl.currentState
            = CHASE)) := by
  have hgt : ¬ s.data.health - d ≤ 0 := by omega
  have key : ∀ dir : Vec3, takeDamage m s d dir
      = (if m.length { dir with y := 0 } > 0.01 then
          { s with data := { s.data with health := s.data.health - d },
                   currentState := HIT_REACT, hitReactTimer := 0.0,
                   position := s.position.add ((m.normalize { dir with y := 0 }).scale 3.0) }
        else
          { s with data := { s.data with health := s.data.health - d },
                   currentState := HIT_REACT, hitReactTimer := 0.0 }) := by
    intro dir
    have hguard : ¬ (!s.hasData || !s.data.isAlive || decide (s.currentState = DEATH)) = true := by
      simp [hdata, halive, hst]
    have hA : s.data.takeDamage d = { s.data with health := s.data.health - d } := by
      unfold AnimalData.takeDamage
      simp only []
      rw [if_neg hgt]
    unfold takeDamage
    rw [if_neg hguard]
    simp only [hA]
    rw [if_neg hgt]
  have h30 : (3.0 : ℚ) = 3 := by norm_num
  refine ⟨?_, ?_, ?_, ?_, ?_, ?_, ?_, ?_, ?_⟩
  · rw [key]
    unfold isAlive
    split_ifs <;> simp [hdata, halive]
  · rw [key]
    unfold getHealth
    split_ifs <;> simp [hdata]
  · rw [key]
    split_ifs <;> rfl
  · rw [key]
    split_ifs <;> norm_num
  · intro hlen
    rw [key, if_pos hlen, h30]
  · intro hlen
    rw [key, if_neg hlen]
  · intro hlen
    rw [key, if_neg (not_lt.mpr hlen)]
  · intro hn
    rw [key]
    split_ifs
    · simp [Vec3.add, Vec3.scale, hn { dir with y := 0 } rfl]
    · rfl
  · intro fl inps last o hlive hfin hle
    have hs : (takeDamage m s d dir).currentState = HIT_REACT := by
      rw [key]
      split_ifs <;> rfl
    have ht : (takeDamage m s d dir).hitReactTimer = 0 := by
      rw [key]
      split_ifs <;> norm_num
    have hr := rounded_run_hitReact fl m inps (takeDamage m s d dir) hlive hs hfin (by
      intro k hk
      rw [ht]
      exact hle k hk)
    refine ⟨hr.2.1, by rw [hr.2.2, ht], ?_⟩
    intro hlast
    have hu := rounded_update_hitReact fl m
      (Rounded.EnemyController.run fl m (takeDamage m s d dir) inps) last o hr.1 hr.2.1
    rw [hu.2.1, if_pos]
    rw [hr.2.2, ht]
    exact hlast

/-- C14 amended, at a concrete input: the goat (health 70) hit for 10 along `(2, 5, 0)`
keeps 60 health, is in HIT_REACT and is pushed 3 units along `+x` at the same height;
updated on the machine at 60 frames per second with the animation running, it is still
in HIT_REACT after 60 updates and back in CHASE with the 61st, the first to bring the
reaction timer above 1.0. -/
theorem non_lethal_damage_witness :
    (takeDamage MathOps.sample sampleGoat 10 ⟨2, 5, 0⟩).getHealth = sampleGoat.getHealth - 10 ∧
    (takeDamage MathOps.sample sampleGoat 10 ⟨2, 5, 0⟩).currentState = HIT_REACT ∧
    (takeDamage MathOps.sample sampleGoat 10 ⟨2, 5, 0⟩).position
      = sampleGoat.position.add
          ((MathOps.sample.normalize { (⟨2, 5, 0⟩ : Vec3) with y := 0 }).scale 3) ∧
    (takeDamage MathOps.sample sampleGoat 10 ⟨2, 5, 0⟩).position.y = sampleGoat.position.y ∧
    (Rounded.EnemyController.run Binary32.round MathOps.sample
      (takeDamage MathOps.sample sampleGoat 10 ⟨2, 5, 0⟩)
      (List.replicate 60 Rounded.EnemyController.sixtieth)).currentState = HIT_REACT ∧
    (Rounded.EnemyController.update Binary32.round MathOps.sample
      (Rounded.EnemyController.run Binary32.round MathOps.sample
        (takeDamage MathOps.sample sampleGoat 10 ⟨2, 5, 0⟩)
        (List.replicate 60 Rounded.EnemyController.sixtieth))
      Rounded.EnemyController.sixtieth 0).ctrl.currentState = CHASE :=
  ⟨(non_lethal_damage MathOps.sample sampleGoat 10 ⟨2, 5, 0⟩ rfl rfl (by decide) (by decide)
      (by decide)).2.1,
   (non_lethal_damage MathOps.sample sampleGoat 10 ⟨2, 5, 0⟩ rfl rfl (by decide) (by decide)
      (by decide)).2.2.1,
   (non_lethal_damage MathOps.sample sampleGoat 10 ⟨2, 5, 0⟩ rfl rfl (by decide) (by decide)
      (by decide)).2.2.2.2.1 (by norm_num [MathOps.sample]),
   (non_lethal_damage MathOps.sample sampleGoat 10 ⟨2, 5, 0⟩ rfl rfl (by decide) (by decide)
      (by decide)).2.2.2.2.2.2.2.1 (by
        intro v hv
        simp [MathOps.sample, Vec3.scale, hv]),
   ((non_lethal_damage MathOps.sample sampleGoat 10 ⟨2, 5, 0⟩ rfl rfl (by decide) (by decide)
      (by decide)).2.2.2.2.2.2.2.2 Binary32.round
        (List.replicate 60 Rounded.EnemyController.sixtieth) Rounded.EnemyController.sixtieth 0
        (by decide!) (by decide!) (by decide!)).1,
   ((non_lethal_damage MathOps.sample sampleGoat 10 ⟨2, 5, 0⟩ rfl rfl (by decide) (by decide)
      (by decide)).2.2.2.2.2.2.2.2 Binary32.round
        (List.replicate 60 Rounded.EnemyController.sixtieth) Rounded.EnemyController.sixtieth 0
        (by decide!) (by decide!) (by decide!)).2.2 (Or.inr (by decide!))⟩

end EnemyController

/-! ## Bullet hits: properties -/

namespace BulletSystem

open CollisionSystem

/-- When the bullet misses every enemy the walk returns NONE and changes nothing. -/
theorem checkHitLoop_all_missed (m : MathOps) (o d : Vec3) (dmg : Int) :
    ∀ (enemies : List EnemyController) (colliders : List AABB),
      (∀ p ∈ enemies.zip colliders, missed o d p.1 p.2 = true) →
      checkHitLoop m o d dmg enemies colliders = (HitResult.NONE, enemies) := by
  intro enemies
  induction enemies with
  | nil => intro colliders _; cases colliders <;> rfl
  | cons e es ih =>
    intro colliders hall
    cases colliders with
    | nil => rfl
    | cons c cs =>
      have he := hall (e, c) (by simp)
      have hrest := ih cs (fun p hp => hall p (by simp [hp]))
      unfold checkHitLoop
      unfold missed at he
      simp only [Bool.or_eq_true, Bool.not_eq_true'] at he
      rw [hrest]
      rcases he with he | he
      · rw [if_pos he]
      · by_cases hr : e.shouldRemove = true
        · rw [if_pos hr]
        · rw [if_neg hr, if_neg (by rw [he]; decide)]

/-- The walk stops at the first enemy that the bullet does not miss: that enemy takes
the damage, every other enemy is unchanged, and the result is KILL or HIT. -/
theorem checkHitLoop_first_hit (m : MathOps) (o d : Vec3) (dmg : Int) :
    ∀ (pre : List EnemyController) (cpre : List AABB) (e : EnemyController)
      (post : List EnemyController) (c : AABB) (cpost : List AABB),
      cpre.length = pre.length →
      (∀ p ∈ pre.zip cpre, missed o d p.1 p.2 = true) → missed o d e c = false →
      checkHitLoop m o d dmg (pre ++ e :: post) (cpre ++ c :: cpost)
        = (if e.getHealth > 0 ∧ (e.takeDamage m dmg ⟨0, 0, 0⟩).getHealth ≤ 0 then HitResult.KILL
            else HitResult.HIT,
          pre ++ e.takeDamage m dmg ⟨0, 0, 0⟩ :: post) := by
  intro pre
  induction pre with
  | nil =>
    intro cpre e post c cpost hlen _ hhit
    have hc : cpre = [] := List.length_eq_zero.mp hlen
    subst hc
    unfold missed at hhit
    simp only [Bool.or_eq_false_iff, Bool.not_eq_false'] at hhit
    simp only [List.nil_append]
    unfold checkHitLoop
    rw [if_neg (by rw [hhit.1]; decide), if_pos hhit.2]
  | cons x xs ih =>
    intro cpre e post c cpost hlen hall hhit
    cases cpre with
    | nil => simp at hlen
    | cons y ys =>
      have hx := hall (x, y) (by simp)
      have hrest := ih ys e post c cpost (by simpa using hlen)
        (fun p hp => hall p (by simp [hp])) hhit
      simp only [List.cons_append]
      unfold checkHitLoop
      unfold missed at hx
      simp only [Bool.or_eq_true, Bool.not_eq_true'] at hx
      rw [hrest]
      rcases hx with hx | hx
      · rw [if_pos hx]
      · by_cases hr : x.shouldRemove = true
        · rw [if_pos hr]
        · rw [if_neg hr, if_neg (by rw [hx]; decide)]

/-- Either the bullet misses every enemy, or there is a first enemy it does not miss. -/
theorem first_hit_or_all_missed (o d : Vec3) :
    ∀ (enemies : List EnemyController) (colliders : List AABB),
      enemies.length = colliders.length →
      (∀ p ∈ enemies.zip colliders, missed o d p.1 p.2 = true) ∨
      (∃ pre cpre e post c cpost, enemies = pre ++ e :: post ∧ colliders = cpre ++ c :: cpost ∧
        cpre.length = pre.length ∧ (∀ p ∈ pre.zip cpre, missed o d p.1 p.2 = true) ∧
        missed o d e c = false) := by
  intro enemies
  induction enemies with
  | nil => intro colliders _; left; intro p hp; simp at hp
  | cons e es ih =>
    intro colliders hlen
    cases colliders with
    | nil => simp at hlen
    | cons c cs =>
      cases hm : missed o d e c with
      | false =>
        right
        exact ⟨[], [], e, es, c, cs, rfl, rfl, rfl, by intro p hp; simp at hp, hm⟩
      | true =>
        rcases ih cs (by simpa using hlen) with hall | ⟨pre, cpre, e2, post, c2, cpost, h1, h2,
          h3, h4, h5⟩
        · left
          intro p hp
          simp only [List.zip_cons_cons, List.mem_cons] at hp
          rcases hp with hp | hp
          · rw [hp]; exact hm
          · exact hall p hp
        · right
          refine ⟨e :: pre, c :: cpre, e2, post, c2, cpost, by rw [h1]; rfl, by rw [h2]; rfl,
            by simp [h3], ?_, h5⟩
          intro p hp
          simp only [List.zip_cons_cons, List.mem_cons] at hp
          rcases hp with hp | hp
          · rw [hp]; exact hm
          · exact h4 p hp

/-- A ray that starts strictly inside a box intersects it. -/
theorem rayIntersects_of_inside (o d : Vec3) (box : AABB) (maxDist : ℚ) (hm : 0 ≤ maxDist)
    (hx : box.min.x < o.x ∧ o.x < box.max.x) (hy : box.min.y < o.y ∧ o.y < box.max.y)
    (hz : box.min.z < o.z ∧ o.z < box.max.z) :
    rayIntersectsAABB o d box maxDist = true := by
  unfold rayIntersectsAABB
  obtain ⟨tx, hsx, hx1, hx2⟩ :=
    slab_of_inside o.x d.x box.min.x box.max.x (0, maxDist) hx.1 hx.2 rfl hm
  obtain ⟨ty, hsy, hy1, hy2⟩ := slab_of_inside o.y d.y box.min.y box.max.y tx hy.1 hy.2 hx1 hx2
  obtain ⟨tz, hsz, _, _⟩ := slab_of_inside o.z d.z box.min.z box.max.z ty hz.1 hz.2 hy1 hy2
  simp only [hsx, hsy, hsz]

/-- C15: `checkHit` walks the enemies in list order with the normalised ray, skips those
flagged `shouldRemove`, and stops at the first one whose collider the ray intersects
(whatever its distance): exactly that enemy receives `takeDamage(damage, 0)` and every
other enemy is unchanged; the result is KILL iff that enemy's health was > 0 before and
is ≤ 0 after, and HIT otherwise; the result is NONE iff no enemy that is not flagged
has its collider intersected, and then no enemy is changed. -/
theorem checkHit_first_intersection (m : MathOps) (o d : Vec3) (enemies : List EnemyController)
    (colliders scene : List AABB) (dmg : Int) (hlen : enemies.length = colliders.length) :
    ((checkHit m o d enemies colliders scene dmg).1 = HitResult.NONE ↔
      ∀ p ∈ enemies.zip colliders, missed o (m.normalize d) p.1 p.2 = true) ∧
    ((checkHit m o d enemies colliders scene dmg).1 = HitResult.NONE →
      (checkHit m o d enemies colliders scene dmg).2 = enemies) ∧
    (∀ (pre : List EnemyController) (cpre : List AABB) (e : EnemyController)
        (post : List EnemyController) (c : AABB) (cpost : List AABB),
      enemies = pre ++ e :: post → colliders = cpre ++ c :: cpost → cpre.length = pre.length →
      (∀ p ∈ pre.zip cpre, missed o (m.normalize d) p.1 p.2 = true) →
      missed o (m.normalize d) e c = false →
      (checkHit m o d enemies colliders scene dmg).2
        = pre ++ e.takeDamage m dmg ⟨0, 0, 0⟩ :: post ∧
      ((checkHit m o d enemies colliders scene dmg).1 = HitResult.KILL ↔
        e.getHealth > 0 ∧ (e.takeDamage m dmg ⟨0, 0, 0⟩).getHealth ≤ 0) ∧
      ((checkHit m o d enemies colliders scene dmg).1 = HitResult.HIT ↔
        ¬ (e.getHealth > 0 ∧ (e.takeDamage m dmg ⟨0, 0, 0⟩).getHealth ≤ 0))) := by
  have hit : ∀ (pre : List EnemyController) (cpre : List AABB) (e : EnemyController)
      (post : List EnemyController) (c : AABB) (cpost : List AABB),
      enemies = pre ++ e :: post → colliders = cpre ++ c :: cpost → cpre.length = pre.length →
      (∀ p ∈ pre.zip cpre, missed o (m.normalize d) p.1 p.2 = true) →
      missed o (m.normalize d) e c = false →
      checkHit m o d enemies colliders scene dmg
        = (if e.getHealth > 0 ∧ (e.takeDamage m dmg ⟨0, 0, 0⟩).getHealth ≤ 0 then HitResult.KILL
            else HitResult.HIT,
          pre ++ e.takeDamage m dmg ⟨0, 0, 0⟩ :: post) := by
    intro pre cpre e post c cpost h1 h2 h3 h4 h5
    unfold checkHit
    rw [h1, h2]
    exact checkHitLoop_first_hit m o (m.normalize d) dmg pre cpre e post c cpost h3 h4 h5
  have none_of : (∀ p ∈ enemies.zip colliders, missed o (m.normalize d) p.1 p.2 = true) →
      checkHit m o d enemies colliders scene dmg = (HitResult.NONE, enemies) := by
    intro hall
    unfold checkHit
    exact checkHitLoop_all_missed m o (m.normalize d) dmg enemies colliders hall
  have of_none : (checkHit m o d enemies colliders scene dmg).1 = HitResult.NONE →
      ∀ p ∈ enemies.zip colliders, missed o (m.normalize d) p.1 p.2 = true := by
    intro hn
    rcases first_hit_or_all_missed o (m.normalize d) enemies colliders hlen with hall |
      ⟨pre, cpre, e, post, c, cpost, h1, h2, h3, h4, h5⟩
    · exact hall
    · rw [hit pre cpre e post c cpost h1 h2 h3 h4 h5] at hn
      simp only at hn
      split_ifs at hn
  refine ⟨⟨of_none, fun hall => by rw [none_of hall]⟩, fun hn => by rw [none_of (of_none hn)],
    ?_⟩
  intro pre cpre e post c cpost h1 h2 h3 h4 h5
  rw [hit pre cpre e post c cpost h1 h2 h3 h4 h5]
  refine ⟨rfl, ?_, ?_⟩
  · simp only
    split_ifs with hc
    · exact ⟨fun _ => hc, fun _ => rfl⟩
    · exact ⟨fun hh => by simp at hh, fun hh => absurd hh hc⟩
  · simp only
    split_ifs with hc
    · exact ⟨fun hh => by simp at hh, fun hh => absurd hc hh⟩
    · exact ⟨fun _ => hc, fun _ => rfl⟩

/-- C15, at a concrete input: two goats stand in the same box around the ray origin;
the first is flagged `shouldRemove`, so the second one takes the damage (30, it keeps
40 of its 70 health) and the result is HIT. -/
theorem checkHit_first_intersection_witness :
    (checkHit MathOps.sample ⟨0, 1, 0⟩ ⟨0, 0, 1⟩
        [{ EnemyController.sampleGoat with shouldRemove := true }, EnemyController.sampleGoat]
        [⟨⟨-1, 0, -1⟩, ⟨1, 2, 1⟩⟩, ⟨⟨-1, 0, -1⟩, ⟨1, 2, 1⟩⟩] [] 30).2
      = [{ EnemyController.sampleGoat with shouldRemove := true }]
          ++ EnemyController.sampleGoat.takeDamage MathOps.sample 30 ⟨0, 0, 0⟩ :: [] :=
  ((checkHit_first_intersection MathOps.sample ⟨0, 1, 0⟩ ⟨0, 0, 1⟩
      [{ EnemyController.sampleGoat with shouldRemove := true }, EnemyController.sampleGoat]
      [⟨⟨-1, 0, -1⟩, ⟨1, 2, 1⟩⟩, ⟨⟨-1, 0, -1⟩, ⟨1, 2, 1⟩⟩] [] 30 rfl).2.2
    [{ EnemyController.sampleGoat with shouldRemove := true }] [⟨⟨-1, 0, -1⟩, ⟨1, 2, 1⟩⟩]
    EnemyController.sampleGoat [] ⟨⟨-1, 0, -1⟩, ⟨1, 2, 1⟩⟩ [] rfl rfl rfl
    (by
      intro p hp
      simp only [List.zip_cons_cons, List.zip_nil_right, List.mem_singleton] at hp
      rw [hp]
      rfl)
    (by
      unfold missed
      rw [rayIntersects_of_inside _ _ _ _ (by norm_num) (by norm_num) (by norm_num)
        (by norm_num)]
      rfl)).1

end BulletSystem

/-! ## Entity pools: properties -/

namespace EnemyPools

/-- One spawn into a species pool: the index grows by one, the pool sizes are kept, and
only the slot at the old index is written. -/
theorem SpeciesPool_spawn_spec (p : SpeciesPool) (stats : AnimalData) (pos : Vec3)
    (isDuck : Bool) (target : Vec3) :
    (p.spawn stats pos isDuck target).nextIdx = p.nextIdx + 1 ∧
    (p.spawn stats pos isDuck target).posPool.length = p.posPool.length ∧
    (p.spawn stats pos isDuck target).aiPool.length = p.aiPool.length ∧
    (p.spawn stats pos isDuck target).activePool.length = p.activePool.length ∧
    (∀ i : Nat, i ≠ p.nextIdx.toNat → p.SameSlot (p.spawn stats pos isDuck target) i) := by
  unfold SpeciesPool.spawn SpeciesPool.SameSlot
  refine ⟨rfl, by simp, by simp, by simp, ?_⟩
  intro i hi
  simp only [List.getElem?_set]
  refine ⟨?_, ?_, ?_⟩ <;> rw [if_neg (fun h => hi h.symm)]

/-- Every slot is the same in a pool and itself. -/
theorem SpeciesPool_sameSlot_refl (p : SpeciesPool) (i : Nat) : p.SameSlot p i :=
  ⟨rfl, rfl, rfl⟩

/-- A spawn below the capacity leaves every slot at or past the capacity alone. -/
theorem SpeciesPool_spawn_high (p : SpeciesPool) (stats : AnimalData) (pos : Vec3)
    (isDuck : Bool) (target : Vec3) (h : p.nextIdx < MAX_ENEMIES) (i : Nat) (hi : 50 ≤ i) :
    p.SameSlot (p.spawn stats pos isDuck target) i := by
  apply (SpeciesPool_spawn_spec p stats pos isDuck target).2.2.2.2
  unfold MAX_ENEMIES at h
  omega

/-- C17: `spawnEnemy` for an unknown species name, or for a species whose next-slot index
is already at the capacity (50, or above it), changes nothing: the pools are equal to
what they were, with every position, data, AI and active slot and all four next-slot
indices; every spawn keeps each index at most 50 when it was so before; and no slot at
or past the capacity is ever written. -/
theorem spawnEnemy_pool_exhaustion :
    (∀ (pools : EnemyPools) (type : String) (pos target : Vec3),
      nextIdxOf pools type = none → spawnEnemy pools type pos target = pools) ∧
    (∀ (pools : EnemyPools) (type : String) (pos target : Vec3) (n : Int),
      nextIdxOf pools type = some n → MAX_ENEMIES ≤ n →
      spawnEnemy pools type pos target = pools) ∧
    (∀ (pools : EnemyPools) (type : String) (pos target : Vec3),
      pools.IndicesInRange → (spawnEnemy pools type pos target).IndicesInRange) ∧
    (∀ (pools : EnemyPools) (type : String) (pos target : Vec3) (i : Nat), 50 ≤ i →
      pools.SameSlot (spawnEnemy pools type pos target) i) := by
  refine ⟨?_, ?_, ?_, ?_⟩
  · intro pools type pos target h
    unfold nextIdxOf at h
    unfold spawnEnemy
    split_ifs at h with h1 h2 h3 h4
    rw [if_neg (fun hh => h1 hh.1), if_neg (fun hh => h2 hh.1), if_neg (fun hh => h3 hh.1),
      if_neg (fun hh => h4 hh.1)]
  · intro pools type pos target n h hn
    unfold nextIdxOf at h
    unfold spawnEnemy
    split_ifs at h with h1 h2 h3 h4
    · have hd : ¬ pools.duck.nextIdx < MAX_ENEMIES := by
        simp only [Option.some.injEq] at h
        omega
      have hg : ¬ type = "goat" := by rw [h1]; decide
      have hp : ¬ type = "pig" := by rw [h1]; decide
      have hb : ¬ type = "bull" := by rw [h1]; decide
      rw [if_neg (fun hh => hd hh.2), if_neg (fun hh => hg hh.1), if_neg (fun hh => hp hh.1),
        if_neg (fun hh => hb hh.1)]
    · have hd : ¬ pools.goat.nextIdx < MAX_ENEMIES := by
        simp only [Option.some.injEq] at h
        omega
      have hp : ¬ type = "pig" := by rw [h2]; decide
      have hb : ¬ type = "bull" := by rw [h2]; decide
      rw [if_neg (fun hh => h1 hh.1), if_neg (fun hh => hd hh.2), if_neg (fun hh => hp hh.1),
        if_neg (fun hh => hb hh.1)]
    · have hd : ¬ pools.pig.nextIdx < MAX_ENEMIES := by
        simp only [Option.some.injEq] at h
        omega
      have hb : ¬ type = "bull" := by rw [h3]; decide
      rw [if_neg (fun hh => h1 hh.1), if_neg (fun hh => h2 hh.1), if_neg (fun hh => hd hh.2),
        if_neg (fun hh => hb hh.1)]
    · have hd : ¬ pools.bull.nextIdx < MAX_ENEMIES := by
        simp only [Option.some.injEq] at h
        omega
      rw [if_neg (fun hh => h1 hh.1), if_neg (fun hh => h2 hh.1), if_neg (fun hh => h3 hh.1),
        if_neg (fun hh => hd hh.2)]
  · intro pools type pos target h
    unfold IndicesInRange at *
    unfold spawnEnemy
    split_ifs with h1 h2 h3 h4
    · have := h1.2
      simp only [SpeciesPool.spawn]
      omega
    · have := h2.2
      simp only [SpeciesPool.spawn]
      omega
    · have := h3.2
      simp only [SpeciesPool.spawn]
      omega
    · have := h4.2
      simp only [SpeciesPool.spawn]
      omega
    · exact h
  · intro pools type pos target i hi
    unfold EnemyPools.SameSlot
    unfold spawnEnemy
    split_ifs with h1 h2 h3 h4
    · exact ⟨SpeciesPool_sameSlot_refl _ i, SpeciesPool_sameSlot_refl _ i,
        SpeciesPool_sameSlot_refl _ i, SpeciesPool_spawn_high _ _ _ _ _ h1.2 i hi⟩
    · exact ⟨SpeciesPool_spawn_high _ _ _ _ _ h2.2 i hi, SpeciesPool_sameSlot_refl _ i,
        SpeciesPool_sameSlot_refl _ i, SpeciesPool_sameSlot_refl _ i⟩
    · exact ⟨SpeciesPool_sameSlot_refl _ i, SpeciesPool_spawn_high _ _ _ _ _ h3.2 i hi,
        SpeciesPool_sameSlot_refl _ i, SpeciesPool_sameSlot_refl _ i⟩
    · exact ⟨SpeciesPool_sameSlot_refl _ i, SpeciesPool_sameSlot_refl _ i,
        SpeciesPool_spawn_high _ _ _ _ _ h4.2 i hi, SpeciesPool_sameSlot_refl _ i⟩
    · exact ⟨SpeciesPool_sameSlot_refl _ i, SpeciesPool_sameSlot_refl _ i,
        SpeciesPool_sameSlot_refl _ i, SpeciesPool_sameSlot_refl _ i⟩

/-- C17, at concrete pools: with the goat index at 50 a goat spawn changes nothing, an
unknown name changes nothing, and a first duck spawn keeps the indices in range. -/
theorem spawnEnemy_pool_exhaustion_witness :
    spawnEnemy { new with goat := { SpeciesPool.new with nextIdx := 50 } } "goat" ⟨1, 0, 1⟩
        ⟨18, 0, 18⟩
      = { new with goat := { SpeciesPool.new with nextIdx := 50 } } ∧
    spawnEnemy new "cow" ⟨1, 0, 1⟩ ⟨18, 0, 18⟩ = new ∧
    (spawnEnemy new "duck" ⟨1, 0, 1⟩ ⟨18, 0, 18⟩).IndicesInRange :=
  ⟨spawnEnemy_pool_exhaustion.2.1 { new with goat := { SpeciesPool.new with nextIdx := 50 } }
      "goat" ⟨1, 0, 1⟩ ⟨18, 0, 18⟩ 50 (by decide) (by decide),
   spawnEnemy_pool_exhaustion.1 new "cow" ⟨1, 0, 1⟩ ⟨18, 0, 18⟩ (by decide),
   spawnEnemy_pool_exhaustion.2.2.1 new "duck" ⟨1, 0, 1⟩ ⟨18, 0, 18⟩ (by decide)⟩

end EnemyPools

/-! ## Explosive barrels: properties -/

namespace Barrels

/-- The enemy that `damageEnemy` leaves does not depend on the flags: it took
`takeDamage(60, ...)` when it is not flagged and horizontally closer than 5. -/
theorem damageEnemy_fst (m : MathOps) (bp : Vec3) (ai : EnemyController) (pos : Vec3)
    (f : SplashFlags) :
    (damageEnemy m bp ai pos f).1
      = if ai.shouldRemove = false ∧ m.length { pos.sub bp with y := 0 } < 5 then
          ai.takeDamage m 60 (m.normalize { pos.sub bp with y := 0 })
        else ai := by
  unfold damageEnemy explosionRadius explosionDamage
  have e5 : (5.0 : ℚ) = 5 := by norm_num
  simp only [e5]
  cases hr : ai.shouldRemove
  · by_cases hd : m.length { pos.sub bp with y := 0 } < 5
    · simp only [Bool.false_eq_true, if_false, true_and]
      rw [if_pos hd, if_pos hd]
    · simp only [Bool.false_eq_true, if_false, true_and]
      rw [if_neg hd, if_neg hd]
  · simp

/-- The loop over the first `n` slots of a species: every slot below `n` whose active
flag is set went through `damageEnemy` once, all other slots are as before. -/
theorem splashLoop_spec (m : MathOps) (bp : Vec3) (p : SpeciesPool) (f : SplashFlags) (n : Nat)
    (i : Nat) :
    ((List.range n).foldl (splashStep m bp p) (p.aiPool, f)).1[i]?
      = (p.aiPool[i]?).map (fun old =>
          if i < n ∧ p.activePool.getD i false = true then
            (damageEnemy m bp old (p.posPool.getD i ⟨0, 0, 0⟩) f).1
          else old) := by
  induction n with
  | zero => simp
  | succ n ih =>
    rw [List.range_succ, List.foldl_append, List.foldl_cons, List.foldl_nil]
    generalize hr : (List.range n).foldl (splashStep m bp p) (p.aiPool, f) = r at ih
    unfold splashStep
    cases hact : p.activePool.getD n false
    · simp only [Bool.false_eq_true, if_false]
      rw [ih]
      congr 1
      funext old
      by_cases hin : i = n
      · subst hin
        simp only [hact, Bool.false_eq_true, and_false, if_false]
      · have hlt : i < n + 1 ↔ i < n := by omega
        simp only [hlt]
    · simp only [if_true]
      rw [List.getElem?_set]
      by_cases hin : n = i
      · subst hin
        rw [if_pos rfl]
        have ihn := ih
        simp only [lt_irrefl, false_and, if_false] at ihn
        have ihn2 : r.1[n]? = p.aiPool[n]? := by
          rw [ihn]
          cases p.aiPool[n]? <;> rfl
        have hlen : n < r.1.length ↔ n < p.aiPool.length := by
          have h1 : r.1[n]? = none ↔ r.1.length ≤ n := List.getElem?_eq_none_iff
          have h2 : p.aiPool[n]? = none ↔ p.aiPool.length ≤ n := List.getElem?_eq_none_iff
          rw [← not_le, ← not_le, ← h1, ← h2, ihn2]
        by_cases hn : n < p.aiPool.length
        · rw [if_pos (hlen.2 hn)]
          have hget : r.1.getD n EnemyController.new = p.aiPool[n] := by
            rw [List.getD_eq_getElem?_getD, ihn2, List.getElem?_eq_getElem hn]
            rfl
          rw [hget, List.getElem?_eq_getElem hn]
          simp only [Option.map_some', Nat.lt_succ_self, hact, and_self, if_true]
          rw [damageEnemy_fst, damageEnemy_fst]
        · rw [if_neg (fun h => hn (hlen.1 h))]
          rw [List.getElem?_eq_none (by omega)]
          rfl
      · rw [if_neg hin, ih]
        congr 1
        funext old
        have hlt : i < n + 1 ↔ i < n := by omega
        simp only [hlt]

/-- The splash on one species: slot `i` of the AI pool is `splashed` once, and the
position pool, the active flags and the next index are kept. -/
theorem splashSpecies_spec (m : MathOps) (bp : Vec3) (p : SpeciesPool) (f : SplashFlags) :
    (∀ i : Nat, (splashSpecies m bp p f).1.aiPool[i]? = (p.aiPool[i]?).map (splashed m bp p i)) ∧
    (splashSpecies m bp p f).1.posPool = p.posPool ∧
    (splashSpecies m bp p f).1.activePool = p.activePool ∧
    (splashSpecies m bp p f).1.nextIdx = p.nextIdx := by
  refine ⟨?_, rfl, rfl, rfl⟩
  intro i
  unfold splashSpecies
  simp only []
  rw [splashLoop_spec]
  congr 1
  funext old
  unfold splashed
  rw [damageEnemy_fst]
  have hlt : i < p.nextIdx.toNat ↔ (i : Int) < p.nextIdx := by omega
  by_cases h1 : (i : Int) < p.nextIdx
  · by_cases h2 : p.activePool.getD i false = true
    · rw [if_pos ⟨hlt.2 h1, h2⟩]
      by_cases h3 : old.shouldRemove = false ∧
          m.length { (p.posPool.getD i ⟨0, 0, 0⟩).sub bp with y := 0 } < 5
      · rw [if_pos h3, if_pos ⟨h1, h2, h3.1, h3.2⟩]
      · rw [if_neg h3, if_neg (fun h => h3 ⟨h.2.2.1, h.2.2.2⟩)]
    · rw [if_neg (fun h => h2 h.2), if_neg (fun h => h2 h.2.1)]
  · rw [if_neg (fun h => h1 (hlt.1 h.1)), if_neg (fun h => h1 h.1)]

/-- The pools after an explosion are the pools after the four species loops. -/
theorem explode_pools (m : MathOps) (a : Arena) (bp : Vec3) :
    ∃ f1 f2 f3 f4 : SplashFlags,
      (explode m a bp).pools =
        { goat := (splashSpecies m bp a.pools.goat f1).1
          pig := (splashSpecies m bp a.pools.pig f2).1
          bull := (splashSpecies m bp a.pools.bull f3).1
          duck := (splashSpecies m bp a.pools.duck f4).1 } := by
  refine ⟨⟨false, false⟩, (splashSpecies m bp a.pools.goat ⟨false, false⟩).2,
    (splashSpecies m bp a.pools.pig (splashSpecies m bp a.pools.goat ⟨false, false⟩).2).2,
    (splashSpecies m bp a.pools.bull (splashSpecies m bp a.pools.pig
      (splashSpecies m bp a.pools.goat ⟨false, false⟩).2).2).2, ?_⟩
  unfold explode
  simp only []
  split_ifs <;> rfl

/-- What a shot does when `b` is the first active barrel that the ray hits. -/
theorem shootBarrels_first_hit (m : MathOps) (fwd : Vec3) (dmg : Int) (a : Arena)
    (pre : List ExplosiveBarrel) (b : ExplosiveBarrel) (post : List ExplosiveBarrel)
    (hpre : ∀ x ∈ pre, x.isActive = false ∨ barrelRayHit a.cameraPosition fwd x.collider = false)
    (hact : b.isActive = true) (hhit : barrelRayHit a.cameraPosition fwd b.collider = true) :
    shootBarrels m fwd dmg a (pre ++ b :: post)
      = (pre ++ (hitBarrel m dmg a b).1 :: post, (hitBarrel m dmg a b).2) := by
  induction pre with
  | nil => simp [shootBarrels, hact, hhit]
  | cons x xs ih =>
    have ih2 := ih (fun y hy => hpre y (List.mem_cons_of_mem _ hy))
    rcases hpre x (List.mem_cons_self _ _) with hx | hx
    · simp [shootBarrels, hx, ih2]
    · cases hxa : x.isActive <;> simp [shootBarrels, hx, hxa, ih2]

/-- A shot that hits no active barrel changes nothing. -/
theorem shootBarrels_none (m : MathOps) (fwd : Vec3) (dmg : Int) (a : Arena)
    (bs : List ExplosiveBarrel)
    (h : ∀ x ∈ bs, x.isActive = false ∨ barrelRayHit a.cameraPosition fwd x.collider = false) :
    shootBarrels m fwd dmg a bs = (bs, a) := by
  induction bs with
  | nil => rfl
  | cons x xs ih =>
    have ih2 := ih (fun y hy => h y (List.mem_cons_of_mem _ hy))
    rcases h x (List.mem_cons_self _ _) with hx | hx
    · simp [shootBarrels, hx, ih2]
    · cases hxa : x.isActive <;> simp [shootBarrels, hx, hxa, ih2]

/-- A melee swing that reaches no active barrel changes nothing. -/
theorem meleeBarrels_none (m : MathOps) (fwd : Vec3) (dmg : Int) (a : Arena)
    (bs : List ExplosiveBarrel)
    (h : ∀ x ∈ bs, x.isActive = false ∨ barrelMeleeHit m a.cameraPosition fwd x = false) :
    meleeBarrels m fwd dmg a bs = (bs, a) := by
  induction bs with
  | nil => rfl
  | cons x xs ih =>
    have ih2 := ih (fun y hy => h y (List.mem_cons_of_mem _ hy))
    rcases h x (List.mem_cons_self _ _) with hx | hx
    · simp [meleeBarrels, hx, ih2]
    · cases hxa : x.isActive <;> simp [meleeBarrels, hx, hxa, ih2]

/-- A shot keeps the number of barrels and every inactive barrel. -/
theorem shootBarrels_inactive (m : MathOps) (fwd : Vec3) (dmg : Int) (a : Arena)
    (bs : List ExplosiveBarrel) (i : Nat) (x : ExplosiveBarrel)
    (hx : bs[i]? = some x) (hin : x.isActive = false) :
    (shootBarrels m fwd dmg a bs).1[i]? = some x := by
  induction bs generalizing i with
  | nil => simp at hx
  | cons y ys ih =>
    unfold shootBarrels
    cases i with
    | zero =>
      simp only [List.getElem?_cons_zero, Option.some.injEq] at hx
      subst hx
      simp [hin]
    | succ j =>
      simp only [List.getElem?_cons_succ] at hx
      split_ifs
      · simpa using ih j hx
      · simpa using hx
      · simpa using ih j hx

/-- A melee swing keeps every inactive barrel. -/
theorem meleeBarrels_inactive (m : MathOps) (fwd : Vec3) (dmg : Int) (a : Arena)
    (bs : List ExplosiveBarrel) (i : Nat) (x : ExplosiveBarrel)
    (hx : bs[i]? = some x) (hin : x.isActive = false) :
    (meleeBarrels m fwd dmg a bs).1[i]? = some x := by
  induction bs generalizing i with
  | nil => simp at hx
  | cons y ys ih =>
    unfold meleeBarrels
    cases i with
    | zero =>
      simp only [List.getElem?_cons_zero, Option.some.injEq] at hx
      subst hx
      simp [hin]
    | succ j =>
      simp only [List.getElem?_cons_succ] at hx
      split_ifs
      · simpa using ih j hx
      · simpa using hx
      · simpa using ih j hx

/-- The state after a shot is the old one unless an active barrel exploded. -/
theorem shootBarrels_arena (m : MathOps) (fwd : Vec3) (dmg : Int) (a : Arena)
    (bs : List ExplosiveBarrel) :
    (shootBarrels m fwd dmg a bs).2 = a ∨
      ∃ x ∈ bs, x.isActive = true ∧ (shootBarrels m fwd dmg a bs).2 = explode m a x.position := by
  induction bs with
  | nil => exact Or.inl rfl
  | cons y ys ih =>
    have lift : ((shootBarrels m fwd dmg a ys).2 = a ∨ ∃ x ∈ y :: ys, x.isActive = true ∧
        (shootBarrels m fwd dmg a ys).2 = explode m a x.position) := by
      rcases ih with h | ⟨x, hx, hxa, he⟩
      · exact Or.inl h
      · exact Or.inr ⟨x, List.mem_cons_of_mem _ hx, hxa, he⟩
    unfold shootBarrels
    split_ifs with h1 h2
    · exact lift
    · unfold hitBarrel
      simp only []
      split_ifs
      · refine Or.inr ⟨y, List.mem_cons_self _ _, ?_, rfl⟩
        cases hy : y.isActive
        · simp [hy] at h1
        · rfl
      · exact Or.inl rfl
    · exact lift

/-- The state after a melee swing is the old one unless an active barrel exploded. -/
theorem meleeBarrels_arena (m : MathOps) (fwd : Vec3) (dmg : Int) (a : Arena)
    (bs : List ExplosiveBarrel) :
    (meleeBarrels m fwd dmg a bs).2 = a ∨
      ∃ x ∈ bs, x.isActive = true ∧ (meleeBarrels m fwd dmg a bs).2 = explode m a x.position := by
  induction bs with
  | nil => exact Or.inl rfl
  | cons y ys ih =>
    have lift : ((meleeBarrels m fwd dmg a ys).2 = a ∨ ∃ x ∈ y :: ys, x.isActive = true ∧
        (meleeBarrels m fwd dmg a ys).2 = explode m a x.position) := by
      rcases ih with h | ⟨x, hx, hxa, he⟩
      · exact Or.inl h
      · exact Or.inr ⟨x, List.mem_cons_of_mem _ hx, hxa, he⟩
    unfold meleeBarrels
    split_ifs with h1 h2
    · exact lift
    · unfold hitBarrel
      simp only []
      split_ifs
      · refine Or.inr ⟨y, List.mem_cons_self _ _, ?_, rfl⟩
        cases hy : y.isActive
        · simp [hy] at h1
        · rfl
      · exact Or.inl rfl
    · exact lift

/-- The ray from 5 units in front of the sample barrel hits its collider. -/
theorem sample_shot_hits :
    barrelRayHit ⟨0, 1, -5⟩ ⟨0, 0, 1⟩ ⟨⟨-1, 0, -1⟩, ⟨1, 2, 1⟩⟩ = true := by
  have hx : barrelSlab 0 0 (-1) 1 (0.0, 1000.0) = some (0, 1000) := by
    unfold barrelSlab
    rw [if_pos (by norm_num), if_neg (by norm_num)]
    norm_num
  have hy : barrelSlab 1 0 0 2 (0, 1000) = some (0, 1000) := by
    unfold barrelSlab
    rw [if_pos (by norm_num), if_neg (by norm_num)]
  have hz : barrelSlab (-5) 1 (-1) 1 (0, 1000) = some (4, 6) := by
    unfold barrelSlab
    rw [if_neg (by norm_num)]
    norm_num
  unfold barrelRayHit
  simp only [hx, hy, hz]
  norm_num

/-- C16: a barrel of health 60 that is the first active barrel hit by two shots of
damage 30 is active with health 30 after the first shot and inactive (health 0) after
the second, which runs the explosion once; in the explosion every pool slot of every
species that is in use and active, not flagged `shouldRemove`, and horizontally closer
than 5 to the barrel went through `takeDamage(60, ...)` exactly once, and every other
slot is unchanged. Afterwards a shot or a melee swing that reaches no other active
barrel changes neither the barrels nor the rest of the state; in general a shot or a
melee swing never changes an inactive barrel, and it changes the rest of the state
only by the explosion of a barrel that was active. -/
theorem barrel_destruction (m : MathOps) (pre post : List ExplosiveBarrel) (b : ExplosiveBarrel)
    (fwd1 fwd2 : Vec3) (a1 a2 : Arena) (hb : b.health = 60) (hact : b.isActive = true)
    (hpre1 : ∀ x ∈ pre,
      x.isActive = false ∨ barrelRayHit a1.cameraPosition fwd1 x.collider = false)
    (hhit1 : barrelRayHit a1.cameraPosition fwd1 b.collider = true)
    (hpre2 : ∀ x ∈ pre,
      x.isActive = false ∨ barrelRayHit a2.cameraPosition fwd2 x.collider = false)
    (hhit2 : barrelRayHit a2.cameraPosition fwd2 b.collider = true) :
    shootBarrels m fwd1 30 a1 (pre ++ b :: post)
      = (pre ++ { b with health := 30 } :: post, a1) ∧
    shootBarrels m fwd2 30 a2 (pre ++ { b with health := 30 } :: post)
      = (pre ++ { b with health := 0, isActive := false } :: post,
          explode m a2 b.position) ∧
    (∀ sel ∈ [EnemyPools.goat, EnemyPools.pig, EnemyPools.bull, EnemyPools.duck], ∀ i : Nat,
      (sel (explode m a2 b.position).pools).aiPool[i]?
        = ((sel a2.pools).aiPool[i]?).map (splashed m b.position (sel a2.pools) i)) ∧
    (∀ (fwd3 : Vec3) (dmg : Int) (a3 : Arena),
      (∀ x ∈ pre ++ post,
        x.isActive = false ∨ barrelRayHit a3.cameraPosition fwd3 x.collider = false) →
      shootBarrels m fwd3 dmg a3 (pre ++ { b with health := 0, isActive := false } :: post)
        = (pre ++ { b with health := 0, isActive := false } :: post, a3)) ∧
    (∀ (fwd3 : Vec3) (dmg : Int) (a3 : Arena),
      (∀ x ∈ pre ++ post,
        x.isActive = false ∨ barrelMeleeHit m a3.cameraPosition fwd3 x = false) →
      meleeBarrels m fwd3 dmg a3 (pre ++ { b with health := 0, isActive := false } :: post)
        = (pre ++ { b with health := 0, isActive := false } :: post, a3)) ∧
    (∀ (bs : List ExplosiveBarrel) (fwd : Vec3) (dmg : Int) (a : Arena) (i : Nat)
        (x : ExplosiveBarrel), bs[i]? = some x → x.isActive = false →
      (shootBarrels m fwd dmg a bs).1[i]? = some x ∧
      (meleeBarrels m fwd dmg a bs).1[i]? = some x) ∧
    (∀ (bs : List ExplosiveBarrel) (fwd : Vec3) (dmg : Int) (a : Arena),
      ((shootBarrels m fwd dmg a bs).2 = a ∨ ∃ x ∈ bs, x.isActive = true ∧
        (shootBarrels m fwd dmg a bs).2 = explode m a x.position) ∧
      ((meleeBarrels m fwd dmg a bs).2 = a ∨ ∃ x ∈ bs, x.isActive = true ∧
        (meleeBarrels m fwd dmg a bs).2 = explode m a x.position)) := by
  refine ⟨?_, ?_, ?_, ?_, ?_, ?_, ?_⟩
  · rw [shootBarrels_first_hit m fwd1 30 a1 pre b post hpre1 hact hhit1]
    unfold hitBarrel
    simp only [hb]
    rw [if_neg (by decide)]
    rfl
  · rw [shootBarrels_first_hit m fwd2 30 a2 pre { b with health := 30 } post hpre2 hact hhit2]
    unfold hitBarrel
    simp only []
    rw [if_pos (by decide)]
    rfl
  · intro sel hsel i
    obtain ⟨f1, f2, f3, f4, hp⟩ := explode_pools m a2 b.position
    rw [hp]
    simp only [List.mem_cons, List.mem_singleton, List.not_mem_nil, or_false] at hsel
    rcases hsel with h | h | h | h <;> subst h
    · exact (splashSpecies_spec m b.position a2.pools.goat f1).1 i
    · exact (splashSpecies_spec m b.position a2.pools.pig f2).1 i
    · exact (splashSpecies_spec m b.position a2.pools.bull f3).1 i
    · exact (splashSpecies_spec m b.position a2.pools.duck f4).1 i
  · intro fwd3 dmg a3 h
    apply shootBarrels_none
    intro x hx
    rcases List.mem_append.1 hx with hx | hx
    · exact h x (List.mem_append.2 (Or.inl hx))
    · rcases List.mem_cons.1 hx with hx | hx
      · exact Or.inl (by rw [hx])
      · exact h x (List.mem_append.2 (Or.inr hx))
  · intro fwd3 dmg a3 h
    apply meleeBarrels_none
    intro x hx
    rcases List.mem_append.1 hx with hx | hx
    · exact h x (List.mem_append.2 (Or.inl hx))
    · rcases List.mem_cons.1 hx with hx | hx
      · exact Or.inl (by rw [hx])
      · exact h x (List.mem_append.2 (Or.inr hx))
  · intro bs fwd dmg a i x hx hin
    exact ⟨shootBarrels_inactive m fwd dmg a bs i x hx hin,
      meleeBarrels_inactive m fwd dmg a bs i x hx hin⟩
  · intro bs fwd dmg a
    exact ⟨shootBarrels_arena m fwd dmg a bs, meleeBarrels_arena m fwd dmg a bs⟩

/-- C16, at a concrete input: a lone barrel of health 60 in the box around the origin,
shot twice from 5 units in front of it with one goat spawned beside it; the first shot
leaves it active with health 30, the second makes it inactive and runs the explosion. -/
theorem barrel_destruction_witness :
    shootBarrels MathOps.sample ⟨0, 0, 1⟩ 30 sampleArena ([] ++ sampleBarrel :: [])
      = ([] ++ { sampleBarrel with health := 30 } :: [], sampleArena) ∧
    shootBarrels MathOps.sample ⟨0, 0, 1⟩ 30 sampleArena
        ([] ++ { sampleBarrel with health := 30 } :: [])
      = ([] ++ { sampleBarrel with health := 0, isActive := false } :: [],
          explode MathOps.sample sampleArena sampleBarrel.position) ∧
    (explode MathOps.sample sampleArena sampleBarrel.position).pools.goat.aiPool[0]?
      = (sampleArena.pools.goat.aiPool[0]?).map
          (splashed MathOps.sample sampleBarrel.position sampleArena.pools.goat 0) :=
  ⟨(barrel_destruction MathOps.sample [] [] sampleBarrel ⟨0, 0, 1⟩ ⟨0, 0, 1⟩ sampleArena
      sampleArena rfl rfl (fun _ h => absurd h (List.not_mem_nil _)) sample_shot_hits
      (fun _ h => absurd h (List.not_mem_nil _)) sample_shot_hits).1,
    (barrel_destruction MathOps.sample [] [] sampleBarrel ⟨0, 0, 1⟩ ⟨0, 0, 1⟩ sampleArena
      sampleArena rfl rfl (fun _ h => absurd h (List.not_mem_nil _)) sample_shot_hits
      (fun _ h => absurd h (List.not_mem_nil _)) sample_shot_hits).2.1,
    (barrel_destruction MathOps.sample [] [] sampleBarrel ⟨0, 0, 1⟩ ⟨0, 0, 1⟩ sampleArena
      sampleArena rfl rfl (fun _ h => absurd h (List.not_mem_nil _)) sample_shot_hits
      (fun _ h => absurd h (List.not_mem_nil _)) sample_shot_hits).2.2.1
      EnemyPools.goat (List.mem_cons_self _ _) 0⟩

end Barrels

/-! ## Ray test: the slab test against the geometric definition -/

section RayProofs

open CollisionSystem

/-- For a direction component that is not zero, the interval the axis block computes is
the set of parameters at which the ray is inside the slab of a valid box. -/
theorem axis_interval (o d bmin bmax s : ℚ) (hd : d ≠ 0) (hb : bmin ≤ bmax) :
    ((if (bmin - o) * (1 / d) > (bmax - o) * (1 / d) then (bmax - o) * (1 / d)
        else (bmin - o) * (1 / d)) ≤ s ∧
      s ≤ (if (bmin - o) * (1 / d) > (bmax - o) * (1 / d) then (bmin - o) * (1 / d)
        else (bmax - o) * (1 / d))) ↔
    (bmin ≤ o + d * s ∧ o + d * s ≤ bmax) := by
  have e1 : (bmin - o) * (1 / d) = (bmin - o) / d := by ring
  have e2 : (bmax - o) * (1 / d) = (bmax - o) / d := by ring
  rw [e1, e2]
  rcases lt_or_gt_of_ne hd with hneg | hpos
  · have h12 : (bmax - o) / d ≤ (bmin - o) / d :=
      div_le_div_of_nonpos_of_le hneg.le (by linarith)
    have ha : (bmin ≤ o + d * s) ↔ s ≤ (bmin - o) / d := by
      rw [le_div_iff_of_neg hneg]
      constructor <;> intro h <;> linarith
    have hc : (o + d * s ≤ bmax) ↔ (bmax - o) / d ≤ s := by
      rw [div_le_iff_of_neg hneg]
      constructor <;> intro h <;> linarith
    rw [ha, hc]
    split_ifs with hgt
    · exact and_comm
    · have heq : (bmin - o) / d = (bmax - o) / d := le_antisymm (not_lt.mp hgt) h12
      rw [heq]
      exact and_comm
  · have h12 : (bmin - o) / d ≤ (bmax - o) / d :=
      div_le_div_of_nonneg_right (by linarith) hpos.le
    have ha : (bmin ≤ o + d * s) ↔ (bmin - o) / d ≤ s := by
      rw [div_le_iff₀ hpos]
      constructor <;> intro h <;> linarith
    have hc : (o + d * s ≤ bmax) ↔ s ≤ (bmax - o) / d := by
      rw [le_div_iff₀ hpos]
      constructor <;> intro h <;> linarith
    rw [ha, hc, if_neg (not_lt.mpr h12), if_neg (not_lt.mpr h12)]

/-- Cutting the running interval `t` with an interval `[lo, hi]` that describes a
property `P` of parameters: rejection means no parameter of `t` has `P`, and otherwise
the result holds exactly the parameters of `t` that have `P`. -/
theorem interval_step (t : ℚ × ℚ) (lo hi : ℚ) (P : ℚ → Prop)
    (hP : ∀ s : ℚ, (lo ≤ s ∧ s ≤ hi) ↔ P s) :
    ((if max t.1 lo > min t.2 hi then none else some (max t.1 lo, min t.2 hi)) = none →
      ∀ s : ℚ, t.1 ≤ s → s ≤ t.2 → ¬ P s) ∧
    (∀ r : ℚ × ℚ,
      (if max t.1 lo > min t.2 hi then none else some (max t.1 lo, min t.2 hi)) = some r →
      r.1 ≤ r.2 ∧ ∀ s : ℚ, (r.1 ≤ s ∧ s ≤ r.2) ↔ (t.1 ≤ s ∧ s ≤ t.2 ∧ P s)) := by
  by_cases hgt : max t.1 lo > min t.2 hi
  · rw [if_pos hgt]
    refine ⟨fun _ s h1 h2 hin => ?_, fun r hr => by simp at hr⟩
    have hs := (hP s).2 hin
    exact absurd (le_trans (max_le h1 hs.1) (le_min h2 hs.2)) (not_le.mpr hgt)
  · rw [if_neg hgt]
    refine ⟨fun h => by simp at h, fun r hr => ?_⟩
    have hrt := (Option.some.inj hr).symm
    subst hrt
    refine ⟨not_lt.mp hgt, fun s => ?_⟩
    simp only [max_le_iff, le_min_iff]
    rw [← hP s]
    constructor
    · rintro ⟨⟨a, b⟩, c, e⟩
      exact ⟨a, c, b, e⟩
    · rintro ⟨a, c, b, e⟩
      exact ⟨⟨a, b⟩, c, e⟩

/-- A parallel axis block rejects exactly when the origin is outside the slab, and it
leaves the running interval alone otherwise. -/
theorem slab_parallel (o d bmin bmax : ℚ) (t : ℚ × ℚ) (hd : |d| < 1 / 10000) :
    (slab o d bmin bmax t = none ↔ (o < bmin ∨ o > bmax)) ∧
    (¬ (o < bmin ∨ o > bmax) → slab o d bmin bmax t = some t) := by
  unfold slab
  rw [if_pos hd]
  by_cases h : o < bmin ∨ o > bmax
  · rw [if_pos h]
    exact ⟨⟨fun _ => h, fun _ => rfl⟩, fun hn => absurd h hn⟩
  · rw [if_neg h]
    exact ⟨⟨fun hh => by simp at hh, fun hh => absurd hh h⟩, fun _ => rfl⟩

/-- One axis block of the ray test, for a valid slab and a direction component that is
zero or at least `1e-4` in absolute value: it rejects only when no parameter of the
running interval puts the ray inside the slab, and otherwise the new interval holds
exactly the parameters of the old one at which the ray is inside the slab. -/
theorem slab_spec (o d bmin bmax : ℚ) (t : ℚ × ℚ) (hb : bmin ≤ bmax)
    (hd : d = 0 ∨ 1 / 10000 ≤ |d|) :
    (slab o d bmin bmax t = none →
      ∀ s : ℚ, t.1 ≤ s → s ≤ t.2 → ¬ (bmin ≤ o + d * s ∧ o + d * s ≤ bmax)) ∧
    (∀ r : ℚ × ℚ, slab o d bmin bmax t = some r →
      (t.1 ≤ t.2 → r.1 ≤ r.2) ∧
      ∀ s : ℚ, (r.1 ≤ s ∧ s ≤ r.2) ↔
        (t.1 ≤ s ∧ s ≤ t.2 ∧ bmin ≤ o + d * s ∧ o + d * s ≤ bmax)) := by
  rcases hd with h0 | hbig
  · have hpar : |d| < 1 / 10000 := by rw [h0, abs_zero]; norm_num
    have hp := slab_parallel o d bmin bmax t hpar
    constructor
    · intro hn s _ _ hin
      rcases hp.1.1 hn with h | h
      · rw [h0] at hin; linarith [hin.1]
      · rw [h0] at hin; linarith [hin.2]
    · intro r hr
      by_cases hout : o < bmin ∨ o > bmax
      · rw [hp.1.2 hout] at hr
        simp at hr
      · rw [hp.2 hout] at hr
        have hrt : r = t := (Option.some.inj hr).symm
        subst hrt
        push_neg at hout
        refine ⟨fun h => h, fun s => ?_⟩
        rw [h0]
        constructor
        · intro h
          exact ⟨h.1, h.2, by linarith [hout.1], by linarith [hout.2]⟩
        · intro h
          exact ⟨h.1, h.2.1⟩
  · have hnp : ¬ |d| < 1 / 10000 := not_lt.mpr hbig
    have hd0 : d ≠ 0 := by
      intro h
      rw [h, abs_zero] at hbig
      norm_num at hbig
    have hax := fun s => axis_interval o d bmin bmax s hd0 hb
    unfold slab
    rw [if_neg hnp]
    have hstep := interval_step t _ _ (fun s => bmin ≤ o + d * s ∧ o + d * s ≤ bmax) hax
    exact ⟨hstep.1, fun r hr => ⟨fun _ => (hstep.2 r hr).1, (hstep.2 r hr).2⟩⟩

/-- With floats taken as exact numbers: for every valid box (`min ≤ max` on each axis),
every `maxDist ≥ 0` and every direction each of whose components is exactly 0 or at
least `1e-4` in absolute value, `rayIntersectsAABB` returns true if and only if some
parameter `t` with `0 ≤ t ≤ maxDist` puts `origin + dir * t` in the closed box. -/
theorem exact_ray_iff_exists (rayOrigin rayDir : Vec3) (box : AABB) (maxDist : ℚ)
    (hbox : box.min.x ≤ box.max.x ∧ box.min.y ≤ box.max.y ∧ box.min.z ≤ box.max.z)
    (hmax : 0 ≤ maxDist)
    (hdir : ∀ a : Axis, rayDir.get a = 0 ∨ 1 / 10000 ≤ |rayDir.get a|) :
    rayIntersectsAABB rayOrigin rayDir box maxDist = true ↔
      ∃ t : ℚ, 0 ≤ t ∧ t ≤ maxDist ∧
        box.min.x ≤ (rayOrigin.add (rayDir.scale t)).x ∧
        (rayOrigin.add (rayDir.scale t)).x ≤ box.max.x ∧
        box.min.y ≤ (rayOrigin.add (rayDir.scale t)).y ∧
        (rayOrigin.add (rayDir.scale t)).y ≤ box.max.y ∧
        box.min.z ≤ (rayOrigin.add (rayDir.scale t)).z ∧
        (rayOrigin.add (rayDir.scale t)).z ≤ box.max.z := by
  have sx := slab_spec rayOrigin.x rayDir.x box.min.x box.max.x (0, maxDist) hbox.1
    (hdir Axis.x)
  unfold rayIntersectsAABB
  cases hx : slab rayOrigin.x rayDir.x box.min.x box.max.x (0, maxDist) with
  | none =>
    simp only [Bool.false_eq_true, false_iff, not_exists]
    intro t ht
    exact sx.1 hx t ht.1 ht.2.1 ⟨ht.2.2.1, ht.2.2.2.1⟩
  | some tx =>
    simp only []
    have hxs := sx.2 tx hx
    have sy := slab_spec rayOrigin.y rayDir.y box.min.y box.max.y tx hbox.2.1 (hdir Axis.y)
    cases hy : slab rayOrigin.y rayDir.y box.min.y box.max.y tx with
    | none =>
      simp only [Bool.false_eq_true, false_iff, not_exists]
      intro t ht
      have htx := (hxs.2 t).2 ⟨ht.1, ht.2.1, ht.2.2.1, ht.2.2.2.1⟩
      exact sy.1 hy t htx.1 htx.2 ⟨ht.2.2.2.2.1, ht.2.2.2.2.2.1⟩
    | some ty =>
      simp only []
      have hys := sy.2 ty hy
      have sz := slab_spec rayOrigin.z rayDir.z box.min.z box.max.z ty hbox.2.2
        (hdir Axis.z)
      cases hz : slab rayOrigin.z rayDir.z box.min.z box.max.z ty with
      | none =>
        simp only [Bool.false_eq_true, false_iff, not_exists]
        intro t ht
        have htx := (hxs.2 t).2 ⟨ht.1, ht.2.1, ht.2.2.1, ht.2.2.2.1⟩
        have hty := (hys.2 t).2 ⟨htx.1, htx.2, ht.2.2.2.2.1, ht.2.2.2.2.2.1⟩
        exact sz.1 hz t hty.1 hty.2 ⟨ht.2.2.2.2.2.2.1, ht.2.2.2.2.2.2.2⟩
      | some tz =>
        have hzs := sz.2 tz hz
        simp only [true_iff]
        have hne : tz.1 ≤ tz.2 := hzs.1 (hys.1 (hxs.1 hmax))
        have h3 := (hzs.2 tz.1).1 ⟨le_refl _, hne⟩
        have h2 := (hys.2 tz.1).1 ⟨h3.1, h3.2.1⟩
        have h1 := (hxs.2 tz.1).1 ⟨h2.1, h2.2.1⟩
        exact ⟨tz.1, h1.1, h1.2.1, h1.2.2.1, h1.2.2.2, h2.2.2.1, h2.2.2.2, h3.2.2.1,
          h3.2.2.2⟩

end RayProofs

/-! ## Ray test with rounded arithmetic -/

section RoundedRayProofs

open CollisionSystem

/-- With the identity as rounding, the rounded axis block is the exact one. -/
theorem rounded_slab_id (o d bmin bmax : ℚ) (t : ℚ × ℚ) :
    Rounded.CollisionSystem.slab id o d bmin bmax t = slab o d bmin bmax t := by
  unfold Rounded.CollisionSystem.slab Rounded.CollisionSystem.axisParams slab
  have e : (0.0001 : ℚ) = 1 / 10000 := by norm_num
  simp only [id, e]
  by_cases hd : |d| < 1 / 10000
  · rw [if_pos hd, if_pos hd]
  · rw [if_neg hd, if_neg hd]
    by_cases h12 : (bmin - o) * (1 / d) > (bmax - o) * (1 / d)
    · simp only [if_pos h12]
    · simp only [if_neg h12]

/-- With the identity as rounding, the rounded ray test is the exact one. -/
theorem rounded_rayIntersectsAABB_id (o d : Vec3) (box : AABB) (maxDist : ℚ) :
    Rounded.CollisionSystem.rayIntersectsAABB id o d box maxDist
      = rayIntersectsAABB o d box maxDist := by
  unfold Rounded.CollisionSystem.rayIntersectsAABB rayIntersectsAABB
  simp only [rounded_slab_id]

/-- With the identity as rounding, the interval of the rounded ray test is the exact
one. -/
theorem rounded_rayInterval_id (o d : Vec3) (box : AABB) (maxDist : ℚ) :
    Rounded.CollisionSystem.rayInterval id o d box maxDist = rayInterval o d box maxDist := by
  unfold Rounded.CollisionSystem.rayInterval rayInterval
  simp only [rounded_slab_id]

/-- A parallel axis block of the rounded ray test rejects exactly when the origin is
outside the slab, and it leaves the running interval alone otherwise. -/
theorem rounded_slab_parallel (fl : ℚ → ℚ) (o d bmin bmax : ℚ) (t : ℚ × ℚ)
    (hd : |d| < fl 0.0001) :
    (Rounded.CollisionSystem.slab fl o d bmin bmax t = none ↔ (o < bmin ∨ o > bmax)) ∧
    (¬ (o < bmin ∨ o > bmax) → Rounded.CollisionSystem.slab fl o d bmin bmax t = some t) := by
  unfold Rounded.CollisionSystem.slab
  rw [if_pos hd]
  by_cases h : o < bmin ∨ o > bmax
  · rw [if_pos h]
    exact ⟨⟨fun _ => h, fun _ => rfl⟩, fun hn => absurd h hn⟩
  · rw [if_neg h]
    exact ⟨⟨fun hh => by simp at hh, fun hh => absurd hh h⟩, fun _ => rfl⟩

/-- One axis block of the rounded ray test: it rejects only when no parameter of
the running interval passes the axis, and otherwise the new interval holds exactly the
parameters of the old one that pass the axis. -/
theorem rounded_slab_spec (fl : ℚ → ℚ) (o d bmin bmax : ℚ) (t : ℚ × ℚ) :
    (Rounded.CollisionSystem.slab fl o d bmin bmax t = none →
      ∀ s : ℚ, t.1 ≤ s → s ≤ t.2 → ¬ Rounded.CollisionSystem.Passes fl o d bmin bmax s) ∧
    (∀ r : ℚ × ℚ, Rounded.CollisionSystem.slab fl o d bmin bmax t = some r →
      (t.1 ≤ t.2 → r.1 ≤ r.2) ∧
      ∀ s : ℚ, (r.1 ≤ s ∧ s ≤ r.2) ↔
        (t.1 ≤ s ∧ s ≤ t.2 ∧ Rounded.CollisionSystem.Passes fl o d bmin bmax s)) := by
  by_cases hpar : |d| < fl 0.0001
  · have hp := rounded_slab_parallel fl o d bmin bmax t hpar
    have hA : ∀ s : ℚ, Rounded.CollisionSystem.Passes fl o d bmin bmax s
        ↔ (bmin ≤ o ∧ o ≤ bmax) := by
      intro s
      unfold Rounded.CollisionSystem.Passes
      rw [if_pos hpar]
    constructor
    · intro hn s _ _ hin
      rw [hA] at hin
      rcases hp.1.1 hn with h | h
      · linarith [hin.1]
      · linarith [hin.2]
    · intro r hr
      by_cases hout : o < bmin ∨ o > bmax
      · rw [hp.1.2 hout] at hr
        simp at hr
      · rw [hp.2 hout] at hr
        have hrt : r = t := (Option.some.inj hr).symm
        subst hrt
        push_neg at hout
        refine ⟨fun h => h, fun s => ?_⟩
        rw [hA]
        constructor
        · intro h
          exact ⟨h.1, h.2, hout.1, hout.2⟩
        · intro h
          exact ⟨h.1, h.2.1⟩
  · have hA : ∀ s : ℚ, ((Rounded.CollisionSystem.axisParams fl o d bmin bmax).1 ≤ s ∧
          s ≤ (Rounded.CollisionSystem.axisParams fl o d bmin bmax).2)
        ↔ Rounded.CollisionSystem.Passes fl o d bmin bmax s := by
      intro s
      unfold Rounded.CollisionSystem.Passes
      rw [if_neg hpar]
    unfold Rounded.CollisionSystem.slab
    rw [if_neg hpar]
    have hstep := interval_step t _ _
      (fun s => Rounded.CollisionSystem.Passes fl o d bmin bmax s) hA
    exact ⟨hstep.1, fun r hr => ⟨fun _ => (hstep.2 r hr).1, (hstep.2 r hr).2⟩⟩

/-- The rounded ray test returns true exactly when its interval exists. -/
theorem rounded_rayIntersectsAABB_eq_isSome (fl : ℚ → ℚ) (o d : Vec3) (box : AABB)
    (maxDist : ℚ) :
    Rounded.CollisionSystem.rayIntersectsAABB fl o d box maxDist
      = (Rounded.CollisionSystem.rayInterval fl o d box maxDist).isSome := by
  unfold Rounded.CollisionSystem.rayIntersectsAABB Rounded.CollisionSystem.rayInterval
  cases Rounded.CollisionSystem.slab fl o.x d.x box.min.x box.max.x (0, maxDist) with
  | none => rfl
  | some tx =>
    simp only []
    cases Rounded.CollisionSystem.slab fl o.y d.y box.min.y box.max.y tx with
    | none => rfl
    | some ty =>
      simp only []
      cases Rounded.CollisionSystem.slab fl o.z d.z box.min.z box.max.z ty with
      | none => rfl
      | some tz => rfl

/-- The rounded ray test is true exactly when some parameter of `[0, maxDist]` passes
all three axis blocks. -/
theorem rounded_ray_iff_passes (fl : ℚ → ℚ) (o d : Vec3) (box : AABB) (maxDist : ℚ)
    (hmax : 0 ≤ maxDist) :
    Rounded.CollisionSystem.rayIntersectsAABB fl o d box maxDist = true ↔
      ∃ t : ℚ, 0 ≤ t ∧ t ≤ maxDist ∧ ∀ a : Axis,
        Rounded.CollisionSystem.Passes fl (o.get a) (d.get a) (box.min.get a) (box.max.get a)
          t := by
  have hall : ∀ t : ℚ, (∀ a : Axis,
      Rounded.CollisionSystem.Passes fl (o.get a) (d.get a) (box.min.get a) (box.max.get a) t)
      ↔ (Rounded.CollisionSystem.Passes fl o.x d.x box.min.x box.max.x t ∧
         Rounded.CollisionSystem.Passes fl o.y d.y box.min.y box.max.y t ∧
         Rounded.CollisionSystem.Passes fl o.z d.z box.min.z box.max.z t) := by
    intro t
    constructor
    · intro h
      exact ⟨h Axis.x, h Axis.y, h Axis.z⟩
    · intro h a
      cases a
      · exact h.1
      · exact h.2.1
      · exact h.2.2
  simp only [hall]
  have sx := rounded_slab_spec fl o.x d.x box.min.x box.max.x (0, maxDist)
  unfold Rounded.CollisionSystem.rayIntersectsAABB
  cases hx : Rounded.CollisionSystem.slab fl o.x d.x box.min.x box.max.x (0, maxDist) with
  | none =>
    simp only [Bool.false_eq_true, false_iff, not_exists]
    intro t ht
    exact sx.1 hx t ht.1 ht.2.1 ht.2.2.1
  | some tx =>
    simp only []
    have hxs := sx.2 tx hx
    have sy := rounded_slab_spec fl o.y d.y box.min.y box.max.y tx
    cases hy : Rounded.CollisionSystem.slab fl o.y d.y box.min.y box.max.y tx with
    | none =>
      simp only [Bool.false_eq_true, false_iff, not_exists]
      intro t ht
      have htx := (hxs.2 t).2 ⟨ht.1, ht.2.1, ht.2.2.1⟩
      exact sy.1 hy t htx.1 htx.2 ht.2.2.2.1
    | some ty =>
      simp only []
      have hys := sy.2 ty hy
      have sz := rounded_slab_spec fl o.z d.z box.min.z box.max.z ty
      cases hz : Rounded.CollisionSystem.slab fl o.z d.z box.min.z box.max.z ty with
      | none =>
        simp only [Bool.false_eq_true, false_iff, not_exists]
        intro t ht
        have htx := (hxs.2 t).2 ⟨ht.1, ht.2.1, ht.2.2.1⟩
        have hty := (hys.2 t).2 ⟨htx.1, htx.2, ht.2.2.2.1⟩
        exact sz.1 hz t hty.1 hty.2 ht.2.2.2.2
      | some tz =>
        have hzs := sz.2 tz hz
        simp only [true_iff]
        have hne : tz.1 ≤ tz.2 := hzs.1 (hys.1 (hxs.1 hmax))
        have h3 := (hzs.2 tz.1).1 ⟨le_refl _, hne⟩
        have h2 := (hys.2 tz.1).1 ⟨h3.1, h3.2.1⟩
        have h1 := (hxs.2 tz.1).1 ⟨h2.1, h2.2.1⟩
        exact ⟨tz.1, h1.1, h1.2.1, h1.2.2, h2.2.2, h3.2.2⟩

/-- C21 fails as stated on the machine (binary32 rounding), in both directions and in
its threshold. The ray from the origin along `(7, 1, 0)` touches the valid box
`[21, 22] x [2, 3] x [-1, 1]` at its edge, at the parameter 3 (the point `(21, 3, 0)`),
but `rayIntersectsAABB` returns false: the rounded reciprocal of 7 lies above 1/7, so
the entry parameter computed for `x` lies above the exit parameter 3 of `y`. The ray
from the origin along `(25, 1, 0)` misses the valid box whose `x` range starts at the
binary32 value just above 25 and whose `y` range ends at 1, but `rayIntersectsAABB`
returns true: the rounded reciprocal of 25 lies below 1/25. And the direction component
`0.0001f`, the binary32 value nearest to `1e-4`, is below `1e-4` but is not treated as
parallel: with the origin outside the slab of that axis the ray is not rejected. -/
theorem ray_test_rounding_counterexample :
    ((⟨⟨21, 2, -1⟩, ⟨22, 3, 1⟩⟩ : AABB).Valid ∧
      (∀ a : Axis, (⟨7, 1, 0⟩ : Vec3).get a = 0 ∨ 1 / 10000 ≤ |(⟨7, 1, 0⟩ : Vec3).get a|) ∧
      Rounded.CollisionSystem.rayIntersectsAABB Binary32.round ⟨0, 0, 0⟩ ⟨7, 1, 0⟩
        ⟨⟨21, 2, -1⟩, ⟨22, 3, 1⟩⟩ 1000 = false ∧
      ∃ t : ℚ, 0 ≤ t ∧ t ≤ 1000 ∧
        (21 : ℚ) ≤ ((⟨0, 0, 0⟩ : Vec3).add ((⟨7, 1, 0⟩ : Vec3).scale t)).x ∧
        ((⟨0, 0, 0⟩ : Vec3).add ((⟨7, 1, 0⟩ : Vec3).scale t)).x ≤ 22 ∧
        (2 : ℚ) ≤ ((⟨0, 0, 0⟩ : Vec3).add ((⟨7, 1, 0⟩ : Vec3).scale t)).y ∧
        ((⟨0, 0, 0⟩ : Vec3).add ((⟨7, 1, 0⟩ : Vec3).scale t)).y ≤ 3 ∧
        (-1 : ℚ) ≤ ((⟨0, 0, 0⟩ : Vec3).add ((⟨7, 1, 0⟩ : Vec3).scale t)).z ∧
        ((⟨0, 0, 0⟩ : Vec3).add ((⟨7, 1, 0⟩ : Vec3).scale t)).z ≤ 1) ∧
    (Binary32.round (13107201 / 524288) = 13107201 / 524288 ∧
      (⟨⟨13107201 / 524288, 0, -1⟩, ⟨26, 1, 1⟩⟩ : AABB).Valid ∧
      (∀ a : Axis, (⟨25, 1, 0⟩ : Vec3).get a = 0 ∨ 1 / 10000 ≤ |(⟨25, 1, 0⟩ : Vec3).get a|) ∧
      Rounded.CollisionSystem.rayIntersectsAABB Binary32.round ⟨0, 0, 0⟩ ⟨25, 1, 0⟩
        ⟨⟨13107201 / 524288, 0, -1⟩, ⟨26, 1, 1⟩⟩ 1000 = true ∧
      ¬ ∃ t : ℚ, 0 ≤ t ∧ t ≤ 1000 ∧
        (13107201 / 524288 : ℚ) ≤ ((⟨0, 0, 0⟩ : Vec3).add ((⟨25, 1, 0⟩ : Vec3).scale t)).x ∧
        ((⟨0, 0, 0⟩ : Vec3).add ((⟨25, 1, 0⟩ : Vec3).scale t)).x ≤ 26 ∧
        (0 : ℚ) ≤ ((⟨0, 0, 0⟩ : Vec3).add ((⟨25, 1, 0⟩ : Vec3).scale t)).y ∧
        ((⟨0, 0, 0⟩ : Vec3).add ((⟨25, 1, 0⟩ : Vec3).scale t)).y ≤ 1 ∧
        (-1 : ℚ) ≤ ((⟨0, 0, 0⟩ : Vec3).add ((⟨25, 1, 0⟩ : Vec3).scale t)).z ∧
        ((⟨0, 0, 0⟩ : Vec3).add ((⟨25, 1, 0⟩ : Vec3).scale t)).z ≤ 1) ∧
    (Binary32.round (Binary32.round 0.0001) = Binary32.round 0.0001 ∧
      |Binary32.round 0.0001| < 1 / 10000 ∧
      ((-1 / 64 : ℚ) < 0) ∧
      Rounded.CollisionSystem.rayIntersectsAABB Binary32.round ⟨-1 / 64, 0, 0⟩
        ⟨Binary32.round 0.0001, 0, 0⟩ ⟨⟨0, -1, -1⟩, ⟨1, 1, 1⟩⟩ 1000 = true) := by
  refine ⟨⟨by decide!, ?_, by decide!, 3, ?_⟩, ⟨by decide!, by decide!, ?_, by decide!, ?_⟩,
    by decide!, by decide!, by decide!, by decide!⟩
  · intro a
    cases a <;> norm_num [Vec3.get]
  · norm_num [Vec3.add, Vec3.scale]
  · intro a
    cases a <;> norm_num [Vec3.get]
  · intro h
    have hx := (exact_ray_iff_exists ⟨0, 0, 0⟩ ⟨25, 1, 0⟩
      ⟨⟨13107201 / 524288, 0, -1⟩, ⟨26, 1, 1⟩⟩ 1000 (by norm_num) (by norm_num)
      (fun a => by cases a <;> norm_num [Vec3.get])).2 h
    exact absurd hx (by decide!)

/-- C21, amended. For every rounding `fl` of the float results (`Binary32.round` on the
machine) and every `maxDist ≥ 0`, `rayIntersectsAABB` returns true if and only if some
parameter `t` with `0 ≤ t ≤ maxDist` passes all three axis blocks: on an axis
whose direction component is below `0.0001f` in absolute value the origin is inside the
slab, and on any other axis `t` lies between the two parameters the block computes
(the rounded products of the rounded differences with the rounded reciprocal). With
floats taken as exact numbers (`fl = id`), for a valid box and a direction each of
whose components is 0 or at least `1e-4` in absolute value, these are the parameters
that put `origin + dir * t` in the closed box, so the test is true if and only if such
a `t` exists. For any box and direction, an axis whose component is below `0.0001f` is
treated as parallel: its block rejects exactly when the origin is outside the slab of
that axis, and then the whole test returns false. -/
theorem rayIntersectsAABB_iff_passes (fl : ℚ → ℚ) (rayOrigin rayDir : Vec3) (box : AABB)
    (maxDist : ℚ) (hmax : 0 ≤ maxDist) :
    (Rounded.CollisionSystem.rayIntersectsAABB fl rayOrigin rayDir box maxDist = true ↔
      ∃ t : ℚ, 0 ≤ t ∧ t ≤ maxDist ∧ ∀ a : Axis,
        Rounded.CollisionSystem.Passes fl (rayOrigin.get a) (rayDir.get a) (box.min.get a)
          (box.max.get a) t) ∧
    (box.min.x ≤ box.max.x ∧ box.min.y ≤ box.max.y ∧ box.min.z ≤ box.max.z →
      (∀ a : Axis, rayDir.get a = 0 ∨ 1 / 10000 ≤ |rayDir.get a|) →
      (∀ (t : ℚ) (a : Axis),
        Rounded.CollisionSystem.Passes id (rayOrigin.get a) (rayDir.get a) (box.min.get a)
          (box.max.get a) t ↔
        (box.min.get a ≤ (rayOrigin.add (rayDir.scale t)).get a ∧
          (rayOrigin.add (rayDir.scale t)).get a ≤ box.max.get a)) ∧
      (Rounded.CollisionSystem.rayIntersectsAABB id rayOrigin rayDir box maxDist = true ↔
        ∃ t : ℚ, 0 ≤ t ∧ t ≤ maxDist ∧
          box.min.x ≤ (rayOrigin.add (rayDir.scale t)).x ∧
          (rayOrigin.add (rayDir.scale t)).x ≤ box.max.x ∧
          box.min.y ≤ (rayOrigin.add (rayDir.scale t)).y ∧
          (rayOrigin.add (rayDir.scale t)).y ≤ box.max.y ∧
          box.min.z ≤ (rayOrigin.add (rayDir.scale t)).z ∧
          (rayOrigin.add (rayDir.scale t)).z ≤ box.max.z)) ∧
    (∀ a : Axis, |rayDir.get a| < fl 0.0001 →
      (∀ t : ℚ × ℚ,
        Rounded.CollisionSystem.slab fl (rayOrigin.get a) (rayDir.get a) (box.min.get a)
          (box.max.get a) t = none ↔
        (rayOrigin.get a < box.min.get a ∨ rayOrigin.get a > box.max.get a)) ∧
      ((rayOrigin.get a < box.min.get a ∨ rayOrigin.get a > box.max.get a) →
        Rounded.CollisionSystem.rayIntersectsAABB fl rayOrigin rayDir box maxDist = false)) := by
  refine ⟨rounded_ray_iff_passes fl rayOrigin rayDir box maxDist hmax, ?_, ?_⟩
  · intro hbox hdir
    refine ⟨?_, ?_⟩
    · intro t a
      have hb : box.min.get a ≤ box.max.get a := by
        cases a
        · exact hbox.1
        · exact hbox.2.1
        · exact hbox.2.2
      have hg : (rayOrigin.add (rayDir.scale t)).get a = rayOrigin.get a + rayDir.get a * t := by
        cases a <;> simp [Vec3.get, Vec3.add, Vec3.scale]
      rw [hg]
      unfold Rounded.CollisionSystem.Passes Rounded.CollisionSystem.axisParams
      have e : (0.0001 : ℚ) = 1 / 10000 := by norm_num
      simp only [id, e]
      rcases hdir a with h0 | hbig
      · have hpar : |rayDir.get a| < 1 / 10000 := by rw [h0, abs_zero]; norm_num
        rw [if_pos hpar, h0]
        simp
      · have hnp : ¬ |rayDir.get a| < 1 / 10000 := not_lt.mpr hbig
        have hd0 : rayDir.get a ≠ 0 := by
          intro h
          rw [h, abs_zero] at hbig
          norm_num at hbig
        rw [if_neg hnp]
        have hax := axis_interval (rayOrigin.get a) (rayDir.get a) (box.min.get a)
          (box.max.get a) t hd0 hb
        rw [← hax]
        by_cases h12 : (box.min.get a - rayOrigin.get a) * (1 / rayDir.get a)
            > (box.max.get a - rayOrigin.get a) * (1 / rayDir.get a)
        · simp only [if_pos h12]
        · simp only [if_neg h12]
    · rw [rounded_rayIntersectsAABB_id]
      exact exact_ray_iff_exists rayOrigin rayDir box maxDist hbox hmax hdir
  · intro a ha
    refine ⟨fun t => (rounded_slab_parallel fl _ _ _ _ t ha).1, fun hout => ?_⟩
    unfold Rounded.CollisionSystem.rayIntersectsAABB
    cases a with
    | x =>
      rw [((rounded_slab_parallel fl rayOrigin.x rayDir.x box.min.x box.max.x (0, maxDist)
        ha).1).2 hout]
    | y =>
      cases hx : Rounded.CollisionSystem.slab fl rayOrigin.x rayDir.x box.min.x box.max.x
          (0, maxDist) with
      | none => rfl
      | some tx =>
        simp only []
        rw [((rounded_slab_parallel fl rayOrigin.y rayDir.y box.min.y box.max.y tx ha).1).2 hout]
    | z =>
      cases hx : Rounded.CollisionSystem.slab fl rayOrigin.x rayDir.x box.min.x box.max.x
          (0, maxDist) with
      | none => rfl
      | some tx =>
        simp only []
        cases hy : Rounded.CollisionSystem.slab fl rayOrigin.y rayDir.y box.min.y box.max.y
            tx with
        | none => rfl
        | some ty =>
          simp only []
          rw [((rounded_slab_parallel fl rayOrigin.z rayDir.z box.min.z box.max.z ty ha).1).2
            hout]

/-- C21 amended, at concrete inputs on the machine (`fl` the binary32 rounding): the ray
from `(0, 1, -5)` along `+z` reaches the box around the origin within distance 10, at
the parameter 4, which passes all three axis blocks; and with floats taken as exact numbers the same ray reaches
it because the parameter 4 puts the ray inside the box. -/
theorem rayIntersectsAABB_iff_passes_witness :
    Rounded.CollisionSystem.rayIntersectsAABB Binary32.round ⟨0, 1, -5⟩ ⟨0, 0, 1⟩
      ⟨⟨-1, 0, -1⟩, ⟨1, 2, 1⟩⟩ 10 = true ∧
    Rounded.CollisionSystem.rayIntersectsAABB id ⟨0, 1, -5⟩ ⟨0, 0, 1⟩
      ⟨⟨-1, 0, -1⟩, ⟨1, 2, 1⟩⟩ 10 = true :=
  ⟨((rayIntersectsAABB_iff_passes Binary32.round ⟨0, 1, -5⟩ ⟨0, 0, 1⟩
      ⟨⟨-1, 0, -1⟩, ⟨1, 2, 1⟩⟩ 10 (by norm_num)).1).2
      ⟨4, by norm_num, by norm_num, fun a => by cases a <;> decide!⟩,
   (((rayIntersectsAABB_iff_passes id ⟨0, 1, -5⟩ ⟨0, 0, 1⟩
      ⟨⟨-1, 0, -1⟩, ⟨1, 2, 1⟩⟩ 10 (by norm_num)).2.1
      ⟨by norm_num, by norm_num, by norm_num⟩
      (fun a => by cases a <;> norm_num [Vec3.get])).2).2
    ⟨4, by norm_num, by norm_num, by norm_num [Vec3.add, Vec3.scale],
      by norm_num [Vec3.add, Vec3.scale], by norm_num [Vec3.add, Vec3.scale],
      by norm_num [Vec3.add, Vec3.scale], by norm_num [Vec3.add, Vec3.scale],
      by norm_num [Vec3.add, Vec3.scale]⟩⟩

end RoundedRayProofs

/-! ## Barrel ray test against the shared ray test, with rounded arithmetic -/

namespace Barrels

open CollisionSystem

/-- With the identity as rounding, the rounded barrel test is the exact one. -/
theorem rounded_barrelRayHit_id (o d : Vec3) (box : AABB) :
    Rounded.Barrels.barrelRayHit id o d box = barrelRayHit o d box := by
  have hs : ∀ (a b c e : ℚ) (t : ℚ × ℚ),
      Rounded.Barrels.barrelSlab id a b c e t = barrelSlab a b c e t := by
    intro a b c e t
    unfold Rounded.Barrels.barrelSlab barrelSlab
    simp only [id]
  unfold Rounded.Barrels.barrelRayHit barrelRayHit
  simp only [hs]

/-- On an axis that is taken as parallel, or whose direction component has an exact
reciprocal (`fl (1 / d) = 1 / d`), the axis block written out in the barrel loop, which
divides by the component, computes what the axis block of `rayIntersectsAABB`, which
multiplies by the rounded reciprocal, computes. -/
theorem rounded_barrelSlab_eq_slab (fl : ℚ → ℚ) (o d bmin bmax : ℚ) (t : ℚ × ℚ)
    (hd : |d| < fl 0.0001 ∨ fl (1 / d) = 1 / d) :
    Rounded.Barrels.barrelSlab fl o d bmin bmax t
      = Rounded.CollisionSystem.slab fl o d bmin bmax t := by
  unfold Rounded.Barrels.barrelSlab Rounded.CollisionSystem.slab
    Rounded.CollisionSystem.axisParams
  by_cases hpar : |d| < fl 0.0001
  · rw [if_pos hpar, if_pos hpar]
  · rw [if_neg hpar, if_neg hpar]
    have hrec : fl (1 / d) = 1 / d := hd.resolve_left hpar
    have e1 : fl (bmin - o) / d = fl (bmin - o) * (1 / d) := by ring
    have e2 : fl (bmax - o) / d = fl (bmax - o) * (1 / d) := by ring
    simp only [hrec, e1, e2]
    generalize fl (fl (bmin - o) * (1 / d)) = t1
    generalize fl (fl (bmax - o) * (1 / d)) = t2
    have hmax : ∀ a b : ℚ, (if b > a then b else a) = max a b := by
      intro a b
      by_cases h : b > a
      · rw [if_pos h, max_eq_right h.le]
      · rw [if_neg h, max_eq_left (not_lt.mp h)]
    have hmin : ∀ a b : ℚ, (if b < a then b else a) = min a b := by
      intro a b
      by_cases h : b < a
      · rw [if_pos h, min_eq_right h.le]
      · rw [if_neg h, min_eq_left (not_lt.mp h)]
    by_cases h12 : t1 > t2
    · simp only [if_pos h12]
      rw [hmax t.1 t2, hmin t.2 t1]
    · simp only [if_neg h12]
      rw [hmax t.1 t1, hmin t.2 t2]

/-- C22 fails as stated, with floats taken as exact numbers and on the machine. A barrel
199 units down the ray is intersected by `rayIntersectsAABB` with `maxDist = 1000`, but
the barrel loop does not count it as hit (its entry parameter 199 is not below 100);
and a barrel whose collider holds the ray origin is intersected as well, but not
counted as hit (its entry parameter is 0). On the machine (binary32 rounding) the far
barrel is likewise intersected and not counted, and the other direction fails too: the
shot from the origin along `(7, 1, 0)` that touches the box `[42, 43] x [5, 6] x
[-1, 1]` at its edge is counted as hit by the barrel loop, which divides 42 by 7, while
`rayIntersectsAABB`, which multiplies 42 by the rounded reciprocal of 7, rejects it. -/
theorem barrel_test_differs :
    (rayIntersectsAABB ⟨0, 1, -200⟩ ⟨0, 0, 1⟩ ⟨⟨-1, 0, -1⟩, ⟨1, 2, 1⟩⟩ 1000 = true ∧
      barrelRayHit ⟨0, 1, -200⟩ ⟨0, 0, 1⟩ ⟨⟨-1, 0, -1⟩, ⟨1, 2, 1⟩⟩ = false) ∧
    (rayIntersectsAABB ⟨0, 1, 0⟩ ⟨0, 0, 1⟩ ⟨⟨-1, 0, -1⟩, ⟨1, 2, 1⟩⟩ 1000 = true ∧
      barrelRayHit ⟨0, 1, 0⟩ ⟨0, 0, 1⟩ ⟨⟨-1, 0, -1⟩, ⟨1, 2, 1⟩⟩ = false) ∧
    (Rounded.CollisionSystem.rayIntersectsAABB Binary32.round ⟨0, 1, -200⟩ ⟨0, 0, 1⟩
        ⟨⟨-1, 0, -1⟩, ⟨1, 2, 1⟩⟩ 1000 = true ∧
      Rounded.Barrels.barrelRayHit Binary32.round ⟨0, 1, -200⟩ ⟨0, 0, 1⟩
        ⟨⟨-1, 0, -1⟩, ⟨1, 2, 1⟩⟩ = false) ∧
    (Rounded.Barrels.barrelRayHit Binary32.round ⟨0, 0, 0⟩ ⟨7, 1, 0⟩
        ⟨⟨42, 5, -1⟩, ⟨43, 6, 1⟩⟩ = true ∧
      Rounded.CollisionSystem.rayIntersectsAABB Binary32.round ⟨0, 0, 0⟩ ⟨7, 1, 0⟩
        ⟨⟨42, 5, -1⟩, ⟨43, 6, 1⟩⟩ 1000 = false) := by
  decide!

/-- C22, amended. The barrel loop runs its own copy of the slab loop, which divides by
the direction component where `rayIntersectsAABB` multiplies by the rounded reciprocal,
and adds a range gate. For every rounding `fl` of the float results (`Binary32.round`
on the machine) and every direction each of whose components is taken as parallel or
has an exact reciprocal, the loop counts a shot as hitting an active barrel exactly
when the slab test of `rayIntersectsAABB(origin, direction, barrel.collider, 1000)`
succeeds and the entry parameter `tmin` it ends with lies strictly between 0 and 100,
so a shot counted as hit is intersected by `rayIntersectsAABB`. With floats taken as
exact numbers (`fl = id`) every reciprocal is exact, and this holds for every
direction. -/
theorem barrel_test_amended (fl : ℚ → ℚ) (o d : Vec3) (box : AABB)
    (hrec : ∀ a : Axis, |d.get a| < fl 0.0001 ∨ fl (1 / d.get a) = 1 / d.get a) :
    (Rounded.Barrels.barrelRayHit fl o d box = true ↔
      ∃ t : ℚ × ℚ, Rounded.CollisionSystem.rayInterval fl o d box 1000 = some t ∧
        0 < t.1 ∧ t.1 < 100) ∧
    (Rounded.CollisionSystem.rayIntersectsAABB fl o d box 1000 = true ↔
      ∃ t : ℚ × ℚ, Rounded.CollisionSystem.rayInterval fl o d box 1000 = some t) ∧
    (Rounded.Barrels.barrelRayHit fl o d box = true →
      Rounded.CollisionSystem.rayIntersectsAABB fl o d box 1000 = true) ∧
    (∀ (o2 d2 : Vec3) (box2 : AABB),
      (Rounded.Barrels.barrelRayHit id o2 d2 box2 = true ↔
        ∃ t : ℚ × ℚ, Rounded.CollisionSystem.rayInterval id o2 d2 box2 1000 = some t ∧
          0 < t.1 ∧ t.1 < 100) ∧
      (Rounded.Barrels.barrelRayHit id o2 d2 box2 = true →
        Rounded.CollisionSystem.rayIntersectsAABB id o2 d2 box2 1000 = true)) := by
  have general : ∀ (fl : ℚ → ℚ) (o d : Vec3) (box : AABB),
      (∀ a : Axis, |d.get a| < fl 0.0001 ∨ fl (1 / d.get a) = 1 / d.get a) →
      (Rounded.Barrels.barrelRayHit fl o d box = true ↔
        ∃ t : ℚ × ℚ, Rounded.CollisionSystem.rayInterval fl o d box 1000 = some t ∧
          0 < t.1 ∧ t.1 < 100) ∧
      (Rounded.CollisionSystem.rayIntersectsAABB fl o d box 1000 = true ↔
        ∃ t : ℚ × ℚ, Rounded.CollisionSystem.rayInterval fl o d box 1000 = some t) ∧
      (Rounded.Barrels.barrelRayHit fl o d box = true →
        Rounded.CollisionSystem.rayIntersectsAABB fl o d box 1000 = true) := by
    intro fl o d box hrec
    have e1000 : ((0.0 : ℚ), (1000.0 : ℚ)) = (0, 1000) := by norm_num
    have key : Rounded.Barrels.barrelRayHit fl o d box = true ↔
        ∃ t : ℚ × ℚ, Rounded.CollisionSystem.rayInterval fl o d box 1000 = some t ∧
          0 < t.1 ∧ t.1 < 100 := by
      unfold Rounded.Barrels.barrelRayHit Rounded.CollisionSystem.rayInterval
      simp only [rounded_barrelSlab_eq_slab fl o.x d.x _ _ _ (hrec Axis.x),
        rounded_barrelSlab_eq_slab fl o.y d.y _ _ _ (hrec Axis.y),
        rounded_barrelSlab_eq_slab fl o.z d.z _ _ _ (hrec Axis.z), e1000]
      cases Rounded.CollisionSystem.slab fl o.x d.x box.min.x box.max.x (0, 1000) with
      | none => simp
      | some tx =>
        simp only []
        cases Rounded.CollisionSystem.slab fl o.y d.y box.min.y box.max.y tx with
        | none => simp
        | some ty =>
          simp only []
          cases Rounded.CollisionSystem.slab fl o.z d.z box.min.z box.max.z ty with
          | none => simp
          | some tz =>
            have e100 : (100.0 : ℚ) = 100 := by norm_num
            simp [e100]
    have key2 : Rounded.CollisionSystem.rayIntersectsAABB fl o d box 1000 = true ↔
        ∃ t : ℚ × ℚ, Rounded.CollisionSystem.rayInterval fl o d box 1000 = some t := by
      rw [rounded_rayIntersectsAABB_eq_isSome, Option.isSome_iff_exists]
    refine ⟨key, key2, fun h => ?_⟩
    obtain ⟨t, ht, _, _⟩ := key.1 h
    exact key2.2 ⟨t, ht⟩
  obtain ⟨h1, h2, h3⟩ := general fl o d box hrec
  refine ⟨h1, h2, h3, fun o2 d2 box2 => ?_⟩
  obtain ⟨g1, _, g3⟩ := general id o2 d2 box2 (fun a => Or.inr rfl)
  exact ⟨g1, g3⟩

/-- C22 amended, at a concrete input on the machine (`fl` the binary32 rounding): the
shot from 5 units in front of the sample barrel along `+z`, a direction whose
components are 0 or 1, is counted as hit, so `rayIntersectsAABB` intersects it as
well. -/
theorem barrel_test_amended_witness :
    Rounded.Barrels.barrelRayHit Binary32.round ⟨0, 1, -5⟩ ⟨0, 0, 1⟩
      ⟨⟨-1, 0, -1⟩, ⟨1, 2, 1⟩⟩ = true ∧
    Rounded.CollisionSystem.rayIntersectsAABB Binary32.round ⟨0, 1, -5⟩ ⟨0, 0, 1⟩
      ⟨⟨-1, 0, -1⟩, ⟨1, 2, 1⟩⟩ 1000 = true :=
  ⟨by decide!,
   (barrel_test_amended Binary32.round ⟨0, 1, -5⟩ ⟨0, 0, 1⟩ ⟨⟨-1, 0, -1⟩, ⟨1, 2, 1⟩⟩
      (fun a => by cases a <;> decide!)).2.2.1 (by decide!)⟩

end Barrels

/-! ## Bullets and static geometry -/

namespace BulletSystem

/-- C30: `checkHit` does not read `sceneColliders`: two calls that differ only in that
argument return the same `HitResult` and leave the same enemies (the same enemy damaged
by the same amount). -/
theorem checkHit_ignores_scene (m : MathOps) (rayOrigin rayDir : Vec3)
    (enemies : List EnemyController) (colliders scene1 scene2 : List AABB) (damage : Int) :
    checkHit m rayOrigin rayDir enemies colliders scene1 damage
      = checkHit m rayOrigin rayDir enemies colliders scene2 damage := by
  unfold checkHit
  rfl

/-- C30, at a concrete input: a shot at a goat with no scene colliders and with a wall
between the player and the goat among the scene colliders. -/
theorem checkHit_ignores_scene_witness :
    checkHit MathOps.sample ⟨0, 1, -5⟩ ⟨0, 0, 1⟩ [EnemyController.sampleGoat]
        [⟨⟨-1, 0, -1⟩, ⟨1, 2, 1⟩⟩] [] 30
      = checkHit MathOps.sample ⟨0, 1, -5⟩ ⟨0, 0, 1⟩ [EnemyController.sampleGoat]
        [⟨⟨-1, 0, -1⟩, ⟨1, 2, 1⟩⟩] [⟨⟨-10, 0, -3⟩, ⟨10, 5, -2⟩⟩] 30 :=
  checkHit_ignores_scene MathOps.sample ⟨0, 1, -5⟩ ⟨0, 0, 1⟩ [EnemyController.sampleGoat]
    [⟨⟨-1, 0, -1⟩, ⟨1, 2, 1⟩⟩] [] [⟨⟨-10, 0, -3⟩, ⟨10, 5, -2⟩⟩] 30

end BulletSystem

/-! ## Player ground height -/

namespace Camera

/-- The running ground height never decreases in a step, it reaches the surface of a
box the feet stand over, and it is the old value or that surface. -/
theorem groundStep_spec (feet : Vec3) (g : ℚ) (wall : AABB) :
    g ≤ groundStep feet g wall ∧
    (StandsOver feet wall → wall.max.y + 1.5 ≤ groundStep feet g wall) ∧
    (groundStep feet g wall = g ∨
      (StandsOver feet wall ∧ groundStep feet g wall = wall.max.y + 1.5)) := by
  unfold groundStep StandsOver
  by_cases h1 : feet.x ≥ wall.min.x ∧ feet.x ≤ wall.max.x ∧
      feet.z ≥ wall.min.z ∧ feet.z ≤ wall.max.z
  · rw [if_pos h1]
    by_cases h2 : feet.y ≥ wall.max.y - 0.5
    · rw [if_pos h2]
      simp only []
      by_cases h3 : wall.max.y + 1.5 > g
      · rw [if_pos h3]
        exact ⟨h3.le, fun _ => le_refl _, Or.inr ⟨⟨h1, h2⟩, rfl⟩⟩
      · rw [if_neg h3]
        exact ⟨le_refl _, fun _ => not_lt.mp h3, Or.inl rfl⟩
    · rw [if_neg h2]
      exact ⟨le_refl _, fun h => absurd h.2 h2, Or.inl rfl⟩
  · rw [if_neg h1]
    exact ⟨le_refl _, fun h => absurd h.1 h1, Or.inl rfl⟩

/-- The loop from any starting value: the result is at least the start and at least
every surface the feet stand over, and it is the start or one of those surfaces. -/
theorem groundLoop_spec (feet : Vec3) (walls : List AABB) :
    ∀ g : ℚ,
      g ≤ walls.foldl (groundStep feet) g ∧
      (∀ w ∈ walls, StandsOver feet w → w.max.y + 1.5 ≤ walls.foldl (groundStep feet) g) ∧
      (walls.foldl (groundStep feet) g = g ∨
        ∃ w ∈ walls, StandsOver feet w ∧ walls.foldl (groundStep feet) g = w.max.y + 1.5) := by
  induction walls with
  | nil =>
    intro g
    exact ⟨le_refl _, fun w hw => absurd hw (List.not_mem_nil _), Or.inl rfl⟩
  | cons wall rest ih =>
    intro g
    have hs := groundStep_spec feet g wall
    have hr := ih (groundStep feet g wall)
    simp only [List.foldl_cons]
    refine ⟨le_trans hs.1 hr.1, ?_, ?_⟩
    · intro w hw hover
      rcases List.mem_cons.1 hw with hw | hw
      · subst hw
        exact le_trans (hs.2.1 hover) hr.1
      · exact hr.2.1 w hw hover
    · rcases hr.2.2 with h | ⟨w, hw, hover, h⟩
      · rcases hs.2.2 with h2 | ⟨hover, h2⟩
        · exact Or.inl (h.trans h2)
        · exact Or.inr ⟨wall, List.mem_cons_self _ _, hover, h.trans h2⟩
      · exact Or.inr ⟨w, List.mem_cons_of_mem _ hw, hover, h⟩

/-- C25 fails as stated: with the feet at height 0 over a floor box whose top is at
height 0, a box under the feet exists and its top plus the eye height is 1.5, but the
value pushed into the camera is the default 1.8. -/
theorem ground_height_floor_counterexample :
    StandsOver ⟨0, 0, 0⟩ ⟨⟨-1, -1, -1⟩, ⟨1, 0, 1⟩⟩ ∧
    (pushGroundHeight Camera.new ⟨0, 0, 0⟩ [⟨⟨-1, -1, -1⟩, ⟨1, 0, 1⟩⟩]).currentGroundY = 1.8 ∧
    (pushGroundHeight Camera.new ⟨0, 0, 0⟩ [⟨⟨-1, -1, -1⟩, ⟨1, 0, 1⟩⟩]).currentGroundY
      ≠ (0 : ℚ) + 1.5 := by
  have hval : (pushGroundHeight Camera.new ⟨0, 0, 0⟩
      [⟨⟨-1, -1, -1⟩, ⟨1, 0, 1⟩⟩]).currentGroundY = 1.8 := by
    unfold pushGroundHeight setGroundHeight detectGroundHeight
    simp only [List.foldl_cons, List.foldl_nil]
    unfold groundStep defaultGroundY
    norm_num
  refine ⟨?_, hval, ?_⟩
  · unfold StandsOver
    norm_num
  · rw [hval]
    norm_num

/-- C25, amended: the value pushed into the camera is the larger of the default ground
height 1.8 and the highest `max.y + 1.5` over the static boxes whose X/Z extent holds
the feet and whose top is at most 0.5 above the feet. It is at least 1.8, at least
`max.y + 1.5` of every such box, and equal to 1.8 or to `max.y + 1.5` of one of them;
so it is the highest top plus 1.5 whenever that exceeds 1.8, and 1.8 otherwise (when no
such box exists in particular). -/
theorem ground_height_pushed (c : Camera) (feet : Vec3) (walls : List AABB) :
    1.8 ≤ (pushGroundHeight c feet walls).currentGroundY ∧
    (∀ w ∈ walls, StandsOver feet w →
      w.max.y + 1.5 ≤ (pushGroundHeight c feet walls).currentGroundY) ∧
    ((pushGroundHeight c feet walls).currentGroundY = 1.8 ∨
      ∃ w ∈ walls, StandsOver feet w ∧
        (pushGroundHeight c feet walls).currentGroundY = w.max.y + 1.5) ∧
    ((∀ w ∈ walls, ¬ StandsOver feet w) →
      (pushGroundHeight c feet walls).currentGroundY = 1.8) ∧
    (∀ w ∈ walls, StandsOver feet w → 1.8 ≤ w.max.y + 1.5 →
      ∃ top ∈ walls, StandsOver feet top ∧ (∀ w2 ∈ walls, StandsOver feet w2 →
          w2.max.y ≤ top.max.y) ∧
        (pushGroundHeight c feet walls).currentGroundY = top.max.y + 1.5) := by
  have hl := groundLoop_spec feet walls defaultGroundY
  have hd : defaultGroundY = 1.8 := rfl
  have hcur : (pushGroundHeight c feet walls).currentGroundY
      = walls.foldl (groundStep feet) defaultGroundY := rfl
  rw [hcur]
  rw [hd] at hl ⊢
  refine ⟨hl.1, hl.2.1, hl.2.2, ?_, ?_⟩
  · intro hnone
    rcases hl.2.2 with h | ⟨w, hw, hover, _⟩
    · exact h
    · exact absurd hover (hnone w hw)
  · intro w hw hover hge
    rcases hl.2.2 with h | ⟨top, htop, hover2, h⟩
    · refine ⟨w, hw, hover, ?_, ?_⟩
      · intro w2 hw2 hover2
        have := hl.2.1 w2 hw2 hover2
        rw [h] at this
        linarith
      · have := hl.2.1 w hw hover
        rw [h] at this ⊢
        linarith
    · refine ⟨top, htop, hover2, ?_, h⟩
      intro w2 hw2 hover3
      have := hl.2.1 w2 hw2 hover3
      rw [h] at this
      linarith

/-- C25 amended, at a concrete input: over the floor box with top 0 the pushed value
is at least the default 1.8. -/
theorem ground_height_pushed_witness :
    1.8 ≤ (pushGroundHeight Camera.new ⟨0, 0, 0⟩ [⟨⟨-1, -1, -1⟩, ⟨1, 0, 1⟩⟩]).currentGroundY :=
  (ground_height_pushed Camera.new ⟨0, 0, 0⟩ [⟨⟨-1, -1, -1⟩, ⟨1, 0, 1⟩⟩]).1

end Camera

/-! ## Enemy AI: DEATH and REMOVED are absorbing -/

namespace EnemyController

open EnemyState

/-- An update of a controller that fails the guard changes nothing and returns false. -/
theorem enemy_update_of_not_live (m : MathOps) (s : EnemyController) (inp : EnemyInput)
    (o : Int) (h : ¬ s.Live) :
    update m s inp o = { ctrl := s, playerDamageOut := o, alive := false } := by
  unfold update
  rw [if_pos]
  unfold Live at h
  cases h1 : s.hasInstance <;> cases h2 : s.hasData <;> cases h3 : s.initialized <;> simp_all

/-- An update of a live controller in REMOVED sets `shouldRemove` and `playerDamageOut = 0`
and returns false. -/
theorem update_of_removed (m : MathOps) (s : EnemyController) (inp : EnemyInput) (o : Int)
    (h : s.Live) (hst : s.currentState = REMOVED) :
    update m s inp o
      = { ctrl := { s with shouldRemove := true }, playerDamageOut := 0, alive := false } := by
  have hg : ¬ (!s.hasInstance || !s.hasData || !s.initialized) = true := by
    simp [h.1, h.2.1, h.2.2]
  unfold update
  rw [if_neg hg, if_pos hst]

/-- The state switch never enters DEATH: from a state other than DEATH it gives a state
other than DEATH. -/
theorem updateState_not_death (m : MathOps) (p : EnemyController) (inp : EnemyInput) (v : View)
    (hst : p.currentState ≠ DEATH) : (updateState m p inp v).1.currentState ≠ DEATH := by
  unfold updateState
  split
  · simp
  · next h =>
    unfold updateEntering
    simp only []
    split_ifs
    · simp
    · simp [h]
  · next h =>
    have h1 := (chaseStuck_sameLife m p inp).2
    have h2 := (chaseMove_sameLife m (chaseStuck m p inp) inp v).2
    rcases (chaseFinish_sameLife m (chaseMove m (chaseStuck m p inp) inp v) inp v).2 with h3 | h3
    · rw [h3, h2, h1, h]; decide
    · rw [h3]; decide
  · simp
  · simp
  · next h =>
    rcases (updateAttack_sameLife p inp v 0).2 with h3 | h3
    · rw [h3, h]; decide
    · rw [h3]; decide
  · next h =>
    rcases (updateHitReact_sameLife p inp).2 with h3 | h3
    · rw [h3, h]; decide
    · rw [h3]; decide
  · next h => exact absurd h hst
  · next h => simp [h]

/-- No update enters DEATH. -/
theorem update_not_death (m : MathOps) (s : EnemyController) (inp : EnemyInput) (o : Int)
    (hst : s.currentState ≠ DEATH) : (update m s inp o).ctrl.currentState ≠ DEATH := by
  by_cases h : s.Live
  · by_cases hr : s.currentState = REMOVED
    · rw [update_of_removed m s inp o h hr]
      exact hst
    · rw [enemy_update_of_live m s inp o h hr]
      apply updateState_not_death
      rw [(updatePhysics_frame s inp _).1]
      exact hst
  · rw [enemy_update_of_not_live m s inp o h]
    exact hst

/-- The only way into DEATH: a `takeDamage` that enters DEATH leaves the enemy not alive
with health 0. -/
theorem takeDamage_enters_death (m : MathOps) (s : EnemyController) (d : Int) (dir : Vec3)
    (hst : s.currentState ≠ DEATH) (hnew : (takeDamage m s d dir).currentState = DEATH) :
    (takeDamage m s d dir).data.isAlive = false ∧ (takeDamage m s d dir).data.health = 0 := by
  unfold takeDamage at hnew ⊢
  by_cases hg : (!s.hasData || !s.data.isAlive || decide (s.currentState = DEATH)) = true
  · rw [if_pos hg] at hnew
    exact absurd hnew hst
  · rw [if_neg hg] at hnew ⊢
    simp only [] at hnew ⊢
    by_cases hle : (s.data.takeDamage d).health ≤ 0
    · rw [if_pos hle]
      simp only []
      unfold AnimalData.takeDamage at hle ⊢
      simp only [] at hle ⊢
      split_ifs at hle ⊢ with h1
      · exact ⟨rfl, rfl⟩
      · exact absurd hle h1
    · rw [if_neg hle] at hnew
      split_ifs at hnew

/-- One call keeps an enemy that is in DEATH or REMOVED, not alive and at health 0,
in DEATH or REMOVED, not alive and at health 0. -/
theorem call_keeps_gone (m : MathOps) (s : EnemyController) (c : Call)
    (hst : s.currentState = DEATH ∨ s.currentState = REMOVED)
    (hdead : s.data.isAlive = false) (hh : s.data.health = 0) :
    ((call m s c).currentState = DEATH ∨ (call m s c).currentState = REMOVED) ∧
    (call m s c).data.isAlive = false ∧ (call m s c).data.health = 0 := by
  cases c with
  | update inp =>
    simp only [call]
    have hl := update_sameLife m s inp 0
    refine ⟨?_, by rw [hl.1]; exact hdead, by rw [hl.2.1]; exact hh⟩
    by_cases h : s.Live
    · rcases hst with hd | hr
      · rw [(update_death m s inp 0 h hd).2.1]
        split_ifs
        · exact Or.inr rfl
        · exact Or.inl rfl
      · rw [update_of_removed m s inp 0 h hr]
        exact Or.inr hr
    · rw [enemy_update_of_not_live m s inp 0 h]
      exact hst
  | takeDamage d dir =>
    simp only [call]
    rw [takeDamage_of_dead m s d dir hdead]
    exact ⟨hst, hdead, hh⟩

/-- Any sequence of calls keeps such an enemy so. -/
theorem runCalls_keeps_gone (m : MathOps) (calls : List Call) :
    ∀ s : EnemyController, (s.currentState = DEATH ∨ s.currentState = REMOVED) →
      s.data.isAlive = false → s.data.health = 0 →
      ((runCalls m s calls).currentState = DEATH ∨ (runCalls m s calls).currentState = REMOVED) ∧
      (runCalls m s calls).data.isAlive = false ∧ (runCalls m s calls).data.health = 0 := by
  induction calls with
  | nil => intro s h1 h2 h3; exact ⟨h1, h2, h3⟩
  | cons c rest ih =>
    intro s h1 h2 h3
    have hc := call_keeps_gone m s c h1 h2 h3
    simp only [runCalls]
    exact ih (call m s c) hc.1 hc.2.1 hc.2.2

/-- C26: an enemy whose state is DEATH (entered by a `takeDamage` that left it not alive
with health 0, the only way in) stays in DEATH or REMOVED through every sequence of
`update` and `takeDamage` calls, with `isAlive()` false and health 0 throughout; once a
live controller is REMOVED, `update` changes nothing but `shouldRemove = true`, sets
`playerDamageOut = 0` and returns false. No `update` and no `init` enters DEATH, and a
`takeDamage` that enters DEATH leaves the enemy not alive with health 0. -/
theorem death_removed_absorbing (m : MathOps) (s : EnemyController)
    (hst : s.currentState = DEATH) (hdead : s.data.isAlive = false) (hh : s.data.health = 0) :
    (∀ calls : List Call,
      ((runCalls m s calls).currentState = DEATH ∨ (runCalls m s calls).currentState = REMOVED) ∧
      (runCalls m s calls).isAlive = false ∧ (runCalls m s calls).getHealth = 0 ∧
      (runCalls m s calls).data.health = 0) ∧
    (∀ (r : EnemyController) (inp : EnemyInput) (o : Int),
      r.Live → r.currentState = REMOVED →
      update m r inp o
        = { ctrl := { r with shouldRemove := true }, playerDamageOut := 0, alive := false }) ∧
    (∀ (r : EnemyController) (inp : EnemyInput) (o : Int),
      r.currentState ≠ DEATH → (update m r inp o).ctrl.currentState ≠ DEATH) ∧
    (∀ (r : EnemyController) (i : Bool) (data : Option AnimalData) (p : Vec3) (duck : Bool)
        (target : Vec3), (r.init i data p duck target).currentState ≠ DEATH) ∧
    (∀ (r : EnemyController) (d : Int) (dir : Vec3),
      r.currentState ≠ DEATH → (takeDamage m r d dir).currentState = DEATH →
      (takeDamage m r d dir).data.isAlive = false ∧ (takeDamage m r d dir).data.health = 0) := by
  refine ⟨fun calls => ?_, fun r inp o h hr => update_of_removed m r inp o h hr,
    fun r inp o h => update_not_death m r inp o h, ?_,
    fun r d dir h1 h2 => takeDamage_enters_death m r d dir h1 h2⟩
  · have hk := runCalls_keeps_gone m calls s (Or.inl hst) hdead hh
    refine ⟨hk.1, ?_, ?_, hk.2.2⟩
    · unfold isAlive
      rw [hk.2.1]
      simp
    · unfold getHealth
      split_ifs
      · exact hk.2.2
      · rfl
  · intro r i data p duck target
    unfold init
    simp only []
    split_ifs <;> decide

/-- C26, at a concrete run: the goat killed by damage 80 is updated for half a second,
hit again, and updated for another half second; it ends in DEATH or REMOVED, not alive
and with health 0. -/
theorem death_removed_absorbing_witness :
    ((runCalls MathOps.sample (takeDamage MathOps.sample sampleGoat 80 ⟨0, 0, 0⟩)
        [Call.update halfSecond, Call.takeDamage 10 ⟨1, 0, 0⟩,
          Call.update halfSecond]).currentState = DEATH ∨
      (runCalls MathOps.sample (takeDamage MathOps.sample sampleGoat 80 ⟨0, 0, 0⟩)
        [Call.update halfSecond, Call.takeDamage 10 ⟨1, 0, 0⟩,
          Call.update halfSecond]).currentState = REMOVED) ∧
    (runCalls MathOps.sample (takeDamage MathOps.sample sampleGoat 80 ⟨0, 0, 0⟩)
      [Call.update halfSecond, Call.takeDamage 10 ⟨1, 0, 0⟩, Call.update halfSecond]).isAlive
      = false :=
  ⟨((death_removed_absorbing MathOps.sample (takeDamage MathOps.sample sampleGoat 80 ⟨0, 0, 0⟩)
      (by rw [killedGoat_eq]) (by rw [killedGoat_eq]) (by rw [killedGoat_eq])).1
      [Call.update halfSecond, Call.takeDamage 10 ⟨1, 0, 0⟩, Call.update halfSecond]).1,
   ((death_removed_absorbing MathOps.sample (takeDamage MathOps.sample sampleGoat 80 ⟨0, 0, 0⟩)
      (by rw [killedGoat_eq]) (by rw [killedGoat_eq]) (by rw [killedGoat_eq])).1
      [Call.update halfSecond, Call.takeDamage 10 ⟨1, 0, 0⟩, Call.update halfSecond]).2.1⟩

end EnemyController

/-! ## Enemy AI: the avoidance direction flip -/

namespace EnemyController

open EnemyState

end EnemyController

/-! ## Enemy AI: the attack timer across interruptions and slot reuse -/

namespace EnemyController

open EnemyState

/-- The first loop of `getAngleToTarget` leaves an angle at or below 3.14159 alone. -/
theorem wrapDown_of_le (a : ℚ) (h : a ≤ 3.14159) : wrapDown a = a := by
  rw [wrapDown, if_neg (not_lt.mpr h)]

/-- The second loop of `getAngleToTarget` leaves an angle at or above -3.14159 alone. -/
theorem wrapUp_of_ge (a : ℚ) (h : -3.14159 ≤ a) : wrapUp a = a := by
  rw [wrapUp, if_neg (not_lt.mpr h)]

/-- The angle 0 is not wrapped down. -/
theorem wrapDown_zero : wrapDown 0 = 0 := wrapDown_of_le 0 (by norm_num)

/-- The angle 0 is not wrapped up. -/
theorem wrapUp_zero : wrapUp 0 = 0 := wrapUp_of_ge 0 (by norm_num)

set_option maxHeartbeats 1000000 in
/-- The first frame next to the player takes the goat into ATTACK. -/
theorem update_sampleGoat_near :
    (update MathOps.sample sampleGoat nearFrame 0).ctrl = goatAttacking := by
  simp [update, view, getAngleToTarget, wrapDown_zero, wrapUp_zero, sampleGoat, init, new,
    nearFrame, abs_div, groundHeight, updatePhysics,
    updateState, chaseStuck, chaseMove, chaseFinish, resolveIfAny, MathOps.sample,
    Vec3.sub, Vec3.add, Vec3.scale, AnimalData.create, defaultGroundY, playerEyeHeight,
    heightTolerance, stuckThreshold, goatAttacking]
  norm_num [abs_div, wrapDown_zero, wrapUp_zero]

set_option maxHeartbeats 1000000 in
/-- After 0.4 s of attack no damage has been dealt. -/
theorem update_goatAttacking :
    update MathOps.sample goatAttacking { nearFrame with dt := 2 / 5 } 0
      = { ctrl := goatMidAttack, playerDamageOut := 0, alive := true } := by
  simp [update, view, getAngleToTarget, wrapDown_zero, wrapUp_zero, sampleGoat, init, new,
    nearFrame, abs_div, groundHeight, updatePhysics,
    updateState, updateAttack, MathOps.sample,
    Vec3.sub, Vec3.add, Vec3.scale, AnimalData.create, defaultGroundY, playerEyeHeight,
    heightTolerance, attackHitTime, goatAttacking, goatMidAttack]
  norm_num [abs_div, wrapDown_zero, wrapUp_zero]

/-- The hit in the middle of the attack. -/
theorem takeDamage_goatMidAttack :
    takeDamage MathOps.sample goatMidAttack 10 ⟨0, 0, 0⟩ = goatHit := by
  simp [takeDamage, AnimalData.takeDamage, sampleGoat, init, new, MathOps.sample,
    AnimalData.create, goatAttacking, goatMidAttack, goatHit]
  norm_num [Vec3.add, Vec3.scale]

set_option maxHeartbeats 1000000 in
/-- The end of the reaction. -/
theorem update_goatHit :
    (update MathOps.sample goatHit { nearFrame with animationFinished := true } 0).ctrl
      = goatRecovered := by
  simp [update, view, getAngleToTarget, wrapDown_zero, wrapUp_zero, sampleGoat, init, new,
    nearFrame, abs_div, groundHeight, updatePhysics,
    updateState, updateHitReact, MathOps.sample,
    Vec3.sub, Vec3.add, Vec3.scale, AnimalData.create, defaultGroundY, playerEyeHeight,
    heightTolerance, goatAttacking, goatMidAttack, goatHit, goatRecovered]
  norm_num [abs_div, wrapDown_zero, wrapUp_zero]

set_option maxHeartbeats 1000000 in
/-- The frame in which the recovered goat enters ATTACK again. -/
theorem update_goatRecovered :
    (update MathOps.sample goatRecovered nearFrame 0).ctrl = goatReattacking := by
  simp [update, view, getAngleToTarget, wrapDown_zero, wrapUp_zero, sampleGoat, init, new,
    nearFrame, abs_div, groundHeight, updatePhysics,
    updateState, chaseStuck, chaseMove, chaseFinish, resolveIfAny, MathOps.sample,
    Vec3.sub, Vec3.add, Vec3.scale, AnimalData.create, defaultGroundY, playerEyeHeight,
    heightTolerance, stuckThreshold, goatAttacking, goatMidAttack, goatHit, goatRecovered,
    goatReattacking]
  norm_num [abs_div, wrapDown_zero, wrapUp_zero]

set_option maxHeartbeats 1000000 in
/-- The first frame of the second attack deals the damage. -/
theorem update_goatReattacking :
    (update MathOps.sample goatReattacking nearFrame 0).playerDamageOut = 10 := by
  simp [update, view, getAngleToTarget, wrapDown_zero, wrapUp_zero, sampleGoat, init, new,
    nearFrame, abs_div, groundHeight, updatePhysics,
    updateState, updateAttack, MathOps.sample,
    Vec3.sub, Vec3.add, Vec3.scale, AnimalData.create, defaultGroundY, playerEyeHeight,
    heightTolerance, attackHitTime, goatAttacking, goatMidAttack, goatHit, goatRecovered,
    goatReattacking]
  norm_num [abs_div, wrapDown_zero, wrapUp_zero]

/-- The interrupted attack leaves the goat recovered, in CHASE. -/
theorem runCalls_interruptedAttack :
    runCalls MathOps.sample sampleGoat interruptedAttack = goatRecovered := by
  simp only [interruptedAttack, runCalls, call]
  rw [update_sampleGoat_near, update_goatAttacking, takeDamage_goatMidAttack, update_goatHit]

/-- C23, evaluated at the failing input: a goat enters ATTACK, attacks for 0.4 s, is hit
for 10 damage (HIT_REACT) and recovers into CHASE; in the next frame it enters ATTACK
again, and the first update of this new attack cycle, 0.1 s after the cycle began and
so before the hit time of 0.5 s, already reports the attack damage 10 in
`playerDamageOut`. -/
theorem attack_damage_early_after_hit :
    (runCalls MathOps.sample sampleGoat interruptedAttack).currentState = CHASE ∧
    (update MathOps.sample (runCalls MathOps.sample sampleGoat interruptedAttack)
      nearFrame 0).ctrl.currentState = ATTACK ∧
    (update MathOps.sample (runCalls MathOps.sample sampleGoat interruptedAttack)
      nearFrame 0).playerDamageOut = 0 ∧
    (update MathOps.sample
      (update MathOps.sample (runCalls MathOps.sample sampleGoat interruptedAttack)
        nearFrame 0).ctrl nearFrame 0).playerDamageOut = 10 ∧
    nearFrame.dt < attackHitTime := by
  rw [runCalls_interruptedAttack, update_goatRecovered]
  refine ⟨rfl, rfl, ?_, update_goatReattacking, ?_⟩
  · rw [enemy_update_of_live MathOps.sample goatRecovered nearFrame 0 (by decide) (by decide)]
    have hp := updatePhysics_frame goatRecovered nearFrame
      (groundHeight goatRecovered.position nearFrame.staticColliders)
    have hst : (updatePhysics goatRecovered nearFrame
        (groundHeight goatRecovered.position nearFrame.staticColliders)).currentState
        = CHASE := hp.1
    simp only [updateState, hst]
  · norm_num [nearFrame, attackHitTime]

end EnemyController

/-! ## Enemy AI: slot reuse -/

namespace EnemyController

open EnemyState

set_option maxHeartbeats 1000000 in
/-- Half a second of attack by a goat in its first attack deals the damage. -/
theorem update_goatAttacking_half :
    update MathOps.sample goatAttacking { nearFrame with dt := 1 / 2 } 0
      = { ctrl := goatDealt, playerDamageOut := 10, alive := true } := by
  simp [update, view, getAngleToTarget, wrapDown_zero, wrapUp_zero, sampleGoat, init, new,
    nearFrame, abs_div, groundHeight, updatePhysics,
    updateState, updateAttack, MathOps.sample,
    Vec3.sub, Vec3.add, Vec3.scale, AnimalData.create, defaultGroundY, playerEyeHeight,
    heightTolerance, attackHitTime, goatAttacking, goatDealt]
  norm_num [abs_div, wrapDown_zero, wrapUp_zero]

/-- The kill after the attack. -/
theorem takeDamage_goatDealt :
    takeDamage MathOps.sample goatDealt 80 ⟨0, 0, 0⟩ = goatDealtKilled := by
  simp [takeDamage, AnimalData.takeDamage, sampleGoat, init, new, MathOps.sample,
    AnimalData.create, goatAttacking, goatDealt, goatDealtKilled]

/-- The used controller is the goat that dealt its damage and was killed. -/
theorem veteran_eq : veteran = goatDealtKilled := by
  simp only [veteran, runCalls, call]
  rw [update_sampleGoat_near, update_goatAttacking_half, takeDamage_goatDealt]

/-- The `init` of slot reuse keeps the attack timer and the damage flag. -/
theorem init_veteran :
    init veteran true (some (AnimalData.create 70 10 3.0 8.0)) ⟨0, 0, 0⟩ false ⟨0, 0, 0⟩
      = reusedGoat := by
  rw [veteran_eq]
  simp [init, goatDealtKilled, goatDealt, goatAttacking, sampleGoat, reusedGoat, new,
    AnimalData.create]

set_option maxHeartbeats 1000000 in
/-- The first frame of the reused controller next to the player. -/
theorem update_reusedGoat_near :
    (update MathOps.sample reusedGoat nearFrame 0).ctrl = goatDealt := by
  simp [update, view, getAngleToTarget, wrapDown_zero, wrapUp_zero, sampleGoat, init, new,
    nearFrame, abs_div, groundHeight, updatePhysics,
    updateState, chaseStuck, chaseMove, chaseFinish, resolveIfAny, MathOps.sample,
    Vec3.sub, Vec3.add, Vec3.scale, AnimalData.create, defaultGroundY, playerEyeHeight,
    heightTolerance, stuckThreshold, goatAttacking, goatDealt, reusedGoat]
  norm_num [abs_div, wrapDown_zero, wrapUp_zero]

set_option maxHeartbeats 1000000 in
/-- Half a second of attack by the reused controller deals no damage. -/
theorem update_goatDealt_half :
    (update MathOps.sample goatDealt { nearFrame with dt := 1 / 2 } 0).playerDamageOut = 0 := by
  simp [update, view, getAngleToTarget, wrapDown_zero, wrapUp_zero, sampleGoat, init, new,
    nearFrame, abs_div, groundHeight, updatePhysics,
    updateState, updateAttack, MathOps.sample,
    Vec3.sub, Vec3.add, Vec3.scale, AnimalData.create, defaultGroundY, playerEyeHeight,
    heightTolerance, attackHitTime, goatAttacking, goatDealt]
  norm_num [abs_div, wrapDown_zero, wrapUp_zero]

/-- C27, evaluated at the failing input: a fresh controller and a used one (a goat that
attacked for half a second, dealt its damage and was killed) are both given `init` with
the arguments of a goat spawn at the origin; `init` leaves the attack timer 0.5 and the
damage flag of the used one in place, so after the same two updates (one frame next to
the player, then half a second of attack) the fresh controller reports the attack
damage 10 and the used one reports 0. -/
theorem init_keeps_attack_history :
    (init veteran true (some (AnimalData.create 70 10 3.0 8.0)) ⟨0, 0, 0⟩ false
        ⟨0, 0, 0⟩).attackTimer = 1 / 2 ∧
    (init veteran true (some (AnimalData.create 70 10 3.0 8.0)) ⟨0, 0, 0⟩ false
        ⟨0, 0, 0⟩).hasDealtDamage = true ∧
    (init new true (some (AnimalData.create 70 10 3.0 8.0)) ⟨0, 0, 0⟩ false
        ⟨0, 0, 0⟩).hasDealtDamage = false ∧
    (update MathOps.sample
      (update MathOps.sample
        (init new true (some (AnimalData.create 70 10 3.0 8.0)) ⟨0, 0, 0⟩ false ⟨0, 0, 0⟩)
        nearFrame 0).ctrl
      { nearFrame with dt := 1 / 2 } 0).playerDamageOut = 10 ∧
    (update MathOps.sample
      (update MathOps.sample
        (init veteran true (some (AnimalData.create 70 10 3.0 8.0)) ⟨0, 0, 0⟩ false ⟨0, 0, 0⟩)
        nearFrame 0).ctrl
      { nearFrame with dt := 1 / 2 } 0).playerDamageOut = 0 := by
  have hfresh : init new true (some (AnimalData.create 70 10 3.0 8.0)) ⟨0, 0, 0⟩ false
      ⟨0, 0, 0⟩ = sampleGoat := rfl
  rw [init_veteran, hfresh, update_sampleGoat_near, update_goatAttacking_half,
    update_reusedGoat_near]
  exact ⟨rfl, rfl, rfl, rfl, update_goatDealt_half⟩

end EnemyController

/-! ## Saving and loading: properties -/

namespace SpeciesPool

open EnemyState

/-- Loading the line saved from a slot: the health and the participation (active and
not flagged for removal) are those of the slot at save time, and the loaded data are
alive whatever they were. -/
theorem loadSlot_saveSlot (stats : AnimalData) (isDuck : Bool) (text : ℚ → ℚ)
    (p q : SpeciesPool) (i : Nat) (hi : i < q.aiPool.length) (ha : i < q.activePool.length)
    (hstats : stats.isAlive = true) :
    ((loadSlot stats isDuck q i (saveSlot text p i)).aiPool.getD i EnemyController.new).data.health
      = (p.aiPool.getD i EnemyController.new).data.health ∧
    ((loadSlot stats isDuck q i (saveSlot text p i)).aiPool.getD i
      EnemyController.new).data.isAlive = true ∧
    (((loadSlot stats isDuck q i (saveSlot text p i)).activePool.getD i false = true ∧
        ((loadSlot stats isDuck q i (saveSlot text p i)).aiPool.getD i
          EnemyController.new).shouldRemove = false) ↔
      (p.activePool.getD i false = true ∧
        (p.aiPool.getD i EnemyController.new).shouldRemove = false)) := by
  unfold loadSlot saveSlot
  cases hr : (p.aiPool.getD i EnemyController.new).shouldRemove <;>
    cases hact : p.activePool.getD i false <;>
    simp [hi, ha, hstats, EnemyController.init]

end SpeciesPool

namespace SpeciesPool

open EnemyState

/-- The dying goat of slot 0: the goat spawned at `(1, 0, 1)`, with health 0, not alive,
in DEATH. -/
theorem dyingPool_slot :
    dyingPool.aiPool.getD 0 EnemyController.new
      = { (EnemyController.new.init true (some (AnimalData.create 70 10 3.0 8.0)) ⟨1, 0, 1⟩
            false ⟨0, 0, 0⟩) with
          data := { AnimalData.create 70 10 3.0 8.0 with health := 0, isAlive := false }
          currentState := DEATH
          deathTimer := 0.0 } := by
  simp [dyingPool, SpeciesPool.spawn, SpeciesPool.new, EnemyController.takeDamage,
    AnimalData.takeDamage, EnemyController.init, EnemyController.new, AnimalData.create]

/-- The cleared active flags of the dying pool. -/
theorem dyingPool_cleared :
    (List.range MAX_ENEMIES.toNat).foldl (fun l i => l.set i false) dyingPool.activePool
      = List.replicate 50 false := by
  decide

set_option maxHeartbeats 1000000 in
/-- C28, evaluated at the failing input: a goat pool is saved while the goat of slot 0
is dying (active, not flagged for removal, health 0, not alive, in DEATH) and the file
is loaded again; the slot comes back with health 0, active and not flagged, but alive
and in CHASE. -/
theorem load_revives_dying :
    (dyingPool.activePool.getD 0 false = true ∧
      (dyingPool.aiPool.getD 0 EnemyController.new).shouldRemove = false ∧
      (dyingPool.aiPool.getD 0 EnemyController.new).getHealth = 0 ∧
      (dyingPool.aiPool.getD 0 EnemyController.new).currentState = DEATH ∧
      (dyingPool.aiPool.getD 0 EnemyController.new).isAlive = false) ∧
    (((load (AnimalData.create 70 10 3.0 8.0) false dyingPool dyingPool.nextIdx
        (dyingPool.save (fun v => v))).activePool.getD 0 false = true) ∧
      ((load (AnimalData.create 70 10 3.0 8.0) false dyingPool dyingPool.nextIdx
        (dyingPool.save (fun v => v))).aiPool.getD 0 EnemyController.new).shouldRemove = false ∧
      ((load (AnimalData.create 70 10 3.0 8.0) false dyingPool dyingPool.nextIdx
        (dyingPool.save (fun v => v))).aiPool.getD 0 EnemyController.new).getHealth = 0 ∧
      ((load (AnimalData.create 70 10 3.0 8.0) false dyingPool dyingPool.nextIdx
        (dyingPool.save (fun v => v))).aiPool.getD 0 EnemyController.new).currentState = CHASE ∧
      ((load (AnimalData.create 70 10 3.0 8.0) false dyingPool dyingPool.nextIdx
        (dyingPool.save (fun v => v))).aiPool.getD 0 EnemyController.new).isAlive = true) := by
  have hn : dyingPool.nextIdx = 1 := rfl
  have hact : dyingPool.activePool.getD 0 false = true := by
    simp [dyingPool, SpeciesPool.spawn, SpeciesPool.new]
  have hsave : dyingPool.save (fun v => v) = [saveSlot (fun v => v) dyingPool 0] := by
    unfold save
    rw [hn]
    rfl
  have hlen : 0 < dyingPool.aiPool.length := by
    simp [dyingPool, SpeciesPool.spawn, SpeciesPool.new]
  constructor
  · rw [dyingPool_slot]
    exact ⟨hact, rfl, rfl, rfl, rfl⟩
  · rw [hsave, hn]
    unfold load
    rw [dyingPool_cleared]
    simp only [Int.toNat_one, List.take_succ_cons, List.take_zero, loadLines]
    unfold loadSlot saveSlot
    simp only [hact, dyingPool_slot]
    simp [hlen, EnemyController.init, EnemyController.isAlive, EnemyController.getHealth,
      AnimalData.create, EnemyController.new]

end SpeciesPool

/-! ## Kills per area event -/

section AreaEvents

/-- A loop over the first `n` slots of a species in which slot `i`, when its active flag
is set, is replaced by `g` of its enemy, and the kill flag is raised when that enemy was
alive and is not alive afterwards: every slot below `n` with its active flag set went
through `g` once, all other slots are as before, and the kill flag is raised at the end
exactly when it was raised before or one of those enemies was killed. -/
theorem areaLoop_spec {φ : Type} (active : List Bool) (pos : List Vec3)
    (g : EnemyController → Vec3 → EnemyController) (F : φ → EnemyController → Vec3 → φ)
    (kill : φ → Bool) (step : List EnemyController × φ → Nat → List EnemyController × φ)
    (hstep : ∀ (acc : List EnemyController × φ) (i : Nat),
      step acc i = if active.getD i false = true then
        (acc.1.set i (g (acc.1.getD i EnemyController.new) (pos.getD i ⟨0, 0, 0⟩)),
          F acc.2 (acc.1.getD i EnemyController.new) (pos.getD i ⟨0, 0, 0⟩))
      else acc)
    (hF : ∀ (f : φ) (ai : EnemyController) (p : Vec3),
      kill (F f ai p) = (kill f || (ai.isAlive && !(g ai p).isAlive)))
    (ais : List EnemyController) (f : φ) (n : Nat) :
    (∀ i : Nat, ((List.range n).foldl step (ais, f)).1[i]?
      = (ais[i]?).map (fun old =>
          if i < n ∧ active.getD i false = true then g old (pos.getD i ⟨0, 0, 0⟩) else old)) ∧
    (kill ((List.range n).foldl step (ais, f)).2 = true ↔
      (kill f = true ∨ ∃ i : Nat, i < n ∧ active.getD i false = true ∧
        (ais.getD i EnemyController.new).isAlive = true ∧
        (g (ais.getD i EnemyController.new) (pos.getD i ⟨0, 0, 0⟩)).isAlive = false)) := by
  induction n with
  | zero =>
    constructor
    · intro i
      simp
    · simp
  | succ n ih =>
    rw [List.range_succ, List.foldl_append, List.foldl_cons, List.foldl_nil]
    generalize hr : (List.range n).foldl step (ais, f) = r at ih
    obtain ⟨ih1, ih2⟩ := ih
    have hget : r.1[n]? = ais[n]? := by
      rw [ih1 n]
      simp only [lt_irrefl, false_and, if_false]
      cases ais[n]? <;> rfl
    have hgetD : r.1.getD n EnemyController.new = ais.getD n EnemyController.new := by
      rw [List.getD_eq_getElem?_getD, List.getD_eq_getElem?_getD, hget]
    rw [hstep]
    cases hact : active.getD n false
    · simp only [Bool.false_eq_true, if_false]
      constructor
      · intro i
        rw [ih1 i]
        congr 1
        funext old
        by_cases hin : i = n
        · subst hin
          simp only [hact, Bool.false_eq_true, and_false, if_false]
        · have hlt : i < n + 1 ↔ i < n := by omega
          simp only [hlt]
      · rw [ih2]
        constructor
        · rintro (h | ⟨i, hi, h1, h2⟩)
          · exact Or.inl h
          · exact Or.inr ⟨i, by omega, h1, h2⟩
        · rintro (h | ⟨i, hi, h1, h2⟩)
          · exact Or.inl h
          · by_cases hin : i = n
            · subst hin
              rw [hact] at h1
              exact absurd h1 Bool.false_ne_true
            · exact Or.inr ⟨i, by omega, h1, h2⟩
    · simp only [if_true]
      constructor
      · intro i
        rw [List.getElem?_set]
        by_cases hin : n = i
        · subst hin
          rw [if_pos rfl]
          have hlen : n < r.1.length ↔ n < ais.length := by
            have h1 : r.1[n]? = none ↔ r.1.length ≤ n := List.getElem?_eq_none_iff
            have h2 : ais[n]? = none ↔ ais.length ≤ n := List.getElem?_eq_none_iff
            rw [← not_le, ← not_le, ← h1, ← h2, hget]
          by_cases hn : n < ais.length
          · rw [if_pos (hlen.2 hn), hgetD]
            rw [List.getD_eq_getElem?_getD, List.getElem?_eq_getElem hn]
            simp only [Option.map_some', Nat.lt_succ_self, hact, and_self, if_true,
              Option.getD_some]
          · rw [if_neg (fun h => hn (hlen.1 h))]
            rw [List.getElem?_eq_none (by omega)]
            rfl
        · rw [if_neg hin, ih1 i]
          congr 1
          funext old
          have hlt : i < n + 1 ↔ i < n := by omega
          simp only [hlt]
      · rw [hF, Bool.or_eq_true, ih2, hgetD, Bool.and_eq_true, Bool.not_eq_true']
        constructor
        · rintro ((h | ⟨i, hi, h1, h2⟩) | ⟨h1, h2⟩)
          · exact Or.inl h
          · exact Or.inr ⟨i, by omega, h1, h2⟩
          · exact Or.inr ⟨n, by omega, hact, h1, h2⟩
        · rintro (h | ⟨i, hi, h1, h2⟩)
          · exact Or.inl (Or.inl h)
          · by_cases hin : i = n
            · subst hin
              exact Or.inr h2
            · exact Or.inl (Or.inr ⟨i, by omega, h1, h2⟩)

/-- After such a loop the kill flag is raised exactly when it was raised before or the
loop killed at least one enemy of the species. -/
theorem areaLoop_kills {φ : Type} (active : List Bool) (pos : List Vec3)
    (g : EnemyController → Vec3 → EnemyController) (F : φ → EnemyController → Vec3 → φ)
    (kill : φ → Bool) (step : List EnemyController × φ → Nat → List EnemyController × φ)
    (hstep : ∀ (acc : List EnemyController × φ) (i : Nat),
      step acc i = if active.getD i false = true then
        (acc.1.set i (g (acc.1.getD i EnemyController.new) (pos.getD i ⟨0, 0, 0⟩)),
          F acc.2 (acc.1.getD i EnemyController.new) (pos.getD i ⟨0, 0, 0⟩))
      else acc)
    (hF : ∀ (f : φ) (ai : EnemyController) (p : Vec3),
      kill (F f ai p) = (kill f || (ai.isAlive && !(g ai p).isAlive)))
    (ais : List EnemyController) (f : φ) (n : Nat) :
    (kill ((List.range n).foldl step (ais, f)).2 = true ↔
      (kill f = true ∨
        0 < (ais.zip ((List.range n).foldl step (ais, f)).1).countP
          (fun s => s.1.isAlive && !s.2.isAlive))) := by
  obtain ⟨h1, h2⟩ := areaLoop_spec active pos g F kill step hstep hF ais f n
  rw [h2, List.countP_pos_iff]
  constructor
  · rintro (h | ⟨i, hi, hact, ha, hd⟩)
    · exact Or.inl h
    · right
      have hlen : i < ais.length := by
        by_contra hc
        rw [List.getD_eq_getElem?_getD, List.getElem?_eq_none (by omega)] at ha
        simp [EnemyController.isAlive, EnemyController.new] at ha
      have hold : ais.getD i EnemyController.new = ais[i] := by
        rw [List.getD_eq_getElem?_getD, List.getElem?_eq_getElem hlen]
        rfl
      rw [hold] at ha hd
      refine ⟨(ais[i], g ais[i] (pos.getD i ⟨0, 0, 0⟩)), ?_, ?_⟩
      · rw [List.mem_iff_getElem?]
        refine ⟨i, ?_⟩
        rw [List.getElem?_zip_eq_some]
        refine ⟨List.getElem?_eq_getElem hlen, ?_⟩
        rw [h1 i, List.getElem?_eq_getElem hlen]
        simp only [Option.map_some', hi, hact, and_self, if_true]
      · simp only [ha, hd, Bool.not_false, Bool.and_self]
  · rintro (h | ⟨s, hs, hk⟩)
    · exact Or.inl h
    · right
      rw [List.mem_iff_getElem?] at hs
      obtain ⟨i, hi⟩ := hs
      rw [List.getElem?_zip_eq_some] at hi
      obtain ⟨ho, hn⟩ := hi
      rw [h1 i, ho] at hn
      simp only [Option.map_some', Option.some.injEq] at hn
      simp only [Bool.and_eq_true, Bool.not_eq_true'] at hk
      have hold : ais.getD i EnemyController.new = s.1 := by
        rw [List.getD_eq_getElem?_getD, ho]
        rfl
      by_cases hc : i < n ∧ active.getD i false = true
      · rw [if_pos hc] at hn
        exact ⟨i, hc.1, hc.2, by rw [hold]; exact hk.1, by rw [hold, hn]; exact hk.2⟩
      · rw [if_neg hc] at hn
        rw [← hn, hk.1] at hk
        exact absurd hk.2 (by simp)

end AreaEvents

namespace Barrels

open EnemyState

/-- The kill flag after `damageEnemy`: raised before, or the enemy was alive and is not
alive after the call. -/
theorem damageEnemy_kill (m : MathOps) (bp : Vec3) (ai : EnemyController) (pos : Vec3)
    (f : SplashFlags) :
    (damageEnemy m bp ai pos f).2.explosionKill
      = (f.explosionKill ||
          (ai.isAlive && !(damageEnemy m bp ai pos ⟨false, false⟩).1.isAlive)) := by
  unfold damageEnemy
  cases hr : ai.shouldRemove
  · simp only [Bool.false_eq_true, if_false]
    split_ifs <;> simp_all
  · simp

/-- The splash loop of one species raises the kill flag exactly when it was raised
before or the loop killed an enemy of the species. -/
theorem splashSpecies_kill (m : MathOps) (bp : Vec3) (p : SpeciesPool) (f : SplashFlags) :
    (splashSpecies m bp p f).2.explosionKill = true ↔
      (f.explosionKill = true ∨ 0 < p.kills (splashSpecies m bp p f).1) := by
  unfold splashSpecies SpeciesPool.kills
  simp only []
  exact areaLoop_kills p.activePool p.posPool
    (fun ai pos => (damageEnemy m bp ai pos ⟨false, false⟩).1)
    (fun f ai pos => (damageEnemy m bp ai pos f).2) SplashFlags.explosionKill
    (splashStep m bp p)
    (by
      intro acc i
      unfold splashStep
      simp only []
      rw [damageEnemy_fst m bp _ _ acc.2, damageEnemy_fst m bp _ _ ⟨false, false⟩])
    (fun f ai pos => damageEnemy_kill m bp ai pos f) p.aiPool f p.nextIdx.toNat

/-- The four splash loops raise the kill flag exactly when they killed an enemy. -/
theorem splashAll_kill (m : MathOps) (bp : Vec3) (pools : EnemyPools) :
    (splashAll m bp pools).2.explosionKill = true ↔ 0 < pools.kills (splashAll m bp pools).1 := by
  unfold splashAll EnemyPools.kills
  simp only []
  rw [splashSpecies_kill, splashSpecies_kill, splashSpecies_kill, splashSpecies_kill]
  simp only [Bool.false_eq_true, false_or]
  omega

/-- An explosion: the pools are those after the four splash loops, the kill counter
goes up by one exactly when the kill flag is raised, and the task progress is written
only then and only in Task 1. -/
theorem explode_count (m : MathOps) (a : Arena) (bp : Vec3) :
    (explode m a bp).pools = (splashAll m bp a.pools).1 ∧
    (explode m a bp).killCount
      = a.killCount + (if (splashAll m bp a.pools).2.explosionKill = true then 1 else 0) ∧
    ((splashAll m bp a.pools).2.explosionKill = true → a.currentTask = TaskMode.TASK_1 →
      (explode m a bp).taskProgress = min 1 (((a.killCount + 1 : Int) : ℚ) / 40)) ∧
    ((splashAll m bp a.pools).2.explosionKill = true → a.currentTask ≠ TaskMode.TASK_1 →
      (explode m a bp).taskProgress = a.taskProgress) ∧
    ((splashAll m bp a.pools).2.explosionKill = false →
      (explode m a bp).taskProgress = a.taskProgress) := by
  have hk : (splashAll m bp a.pools).2.explosionKill
      = (splashSpecies m bp a.pools.duck (splashSpecies m bp a.pools.bull
          (splashSpecies m bp a.pools.pig (splashSpecies m bp a.pools.goat
            ⟨false, false⟩).2).2).2).2.explosionKill := rfl
  rw [hk]
  unfold explode
  simp only []
  cases hflag : (splashSpecies m bp a.pools.duck (splashSpecies m bp a.pools.bull
      (splashSpecies m bp a.pools.pig (splashSpecies m bp a.pools.goat
        ⟨false, false⟩).2).2).2).2.explosionKill
  · simp only [Bool.false_eq_true, if_false]
    split_ifs <;> exact ⟨rfl, by simp, fun h => absurd h (by simp), fun h => absurd h (by simp),
      fun _ => rfl⟩
  · simp only [if_true]
    have e40 : (40.0 : ℚ) = 40 := by norm_num
    have e1 : (1.0 : ℚ) = 1 := by norm_num
    simp only [e40, e1]
    split_ifs
    all_goals first
      | exact ⟨rfl, rfl, fun _ _ => (min_eq_left (le_of_lt (by assumption))).symm,
          fun _ hne => absurd (by assumption) hne, fun h => absurd h (by simp)⟩
      | exact ⟨rfl, rfl, fun _ _ => (min_eq_right (not_lt.mp (by assumption))).symm,
          fun _ hne => absurd (by assumption) hne, fun h => absurd h (by simp)⟩
      | exact ⟨rfl, rfl, fun _ ht => absurd ht (by assumption), fun _ _ => rfl,
          fun h => absurd h (by simp)⟩

end Barrels

namespace Melee

open EnemyState

/-- The enemy that `handleMelee` leaves does not depend on the flags. -/
theorem handleMelee_fst (m : MathOps) (cam fwd : Vec3) (dmg : Int) (ai : EnemyController)
    (pos : Vec3) (f : MeleeFlags) :
    (handleMelee m cam fwd dmg ai pos f).1 = (handleMelee m cam fwd dmg ai pos ⟨false, false⟩).1 := by
  unfold handleMelee
  simp only []
  split_ifs <;> rfl

/-- The kill flag after `handleMelee`: raised before, or the enemy was alive and is not
alive after the call. -/
theorem handleMelee_kill (m : MathOps) (cam fwd : Vec3) (dmg : Int) (ai : EnemyController)
    (pos : Vec3) (f : MeleeFlags) :
    (handleMelee m cam fwd dmg ai pos f).2.meleeKill
      = (f.meleeKill ||
          (ai.isAlive && !(handleMelee m cam fwd dmg ai pos ⟨false, false⟩).1.isAlive)) := by
  unfold handleMelee
  cases hr : ai.shouldRemove
  · simp only [Bool.false_eq_true, if_false]
    split_ifs <;> simp_all
  · simp

/-- The melee loop of one species raises the kill flag exactly when it was raised before
or the loop killed an enemy of the species. -/
theorem meleeSpecies_kill (m : MathOps) (cam fwd : Vec3) (dmg : Int) (p : SpeciesPool)
    (f : MeleeFlags) :
    (meleeSpecies m cam fwd dmg p f).2.meleeKill = true ↔
      (f.meleeKill = true ∨ 0 < p.kills (meleeSpecies m cam fwd dmg p f).1) := by
  unfold meleeSpecies SpeciesPool.kills
  simp only []
  exact areaLoop_kills p.activePool p.posPool
    (fun ai pos => (handleMelee m cam fwd dmg ai pos ⟨false, false⟩).1)
    (fun f ai pos => (handleMelee m cam fwd dmg ai pos f).2) MeleeFlags.meleeKill
    (meleeStep m cam fwd dmg p)
    (by
      intro acc i
      unfold meleeStep
      simp only []
      rw [handleMelee_fst m cam fwd dmg _ _ acc.2])
    (fun f ai pos => handleMelee_kill m cam fwd dmg ai pos f) p.aiPool f p.nextIdx.toNat

/-- The four melee loops raise the kill flag exactly when they killed an enemy. -/
theorem meleeAll_kill (m : MathOps) (cam fwd : Vec3) (dmg : Int) (pools : EnemyPools) :
    (meleeAll m cam fwd dmg pools).2.meleeKill = true ↔
      0 < pools.kills (meleeAll m cam fwd dmg pools).1 := by
  unfold meleeAll EnemyPools.kills
  simp only []
  rw [meleeSpecies_kill, meleeSpecies_kill, meleeSpecies_kill, meleeSpecies_kill]
  simp only [Bool.false_eq_true, false_or]
  omega

/-- A melee swing at the enemies: the pools are those after the four loops, the kill
counter goes up by one exactly when the kill flag is raised, and the task progress is
written only then and only in Task 1. -/
theorem meleeEnemies_count (m : MathOps) (a : Arena) (fwd : Vec3) (dmg : Int) :
    (meleeEnemies m a fwd dmg).pools = (meleeAll m a.cameraPosition fwd dmg a.pools).1 ∧
    (meleeEnemies m a fwd dmg).killCount
      = a.killCount +
        (if (meleeAll m a.cameraPosition fwd dmg a.pools).2.meleeKill = true then 1 else 0) ∧
    ((meleeAll m a.cameraPosition fwd dmg a.pools).2.meleeKill = true →
      a.currentTask = TaskMode.TASK_1 →
      (meleeEnemies m a fwd dmg).taskProgress = min 1 (((a.killCount + 1 : Int) : ℚ) / 40)) ∧
    ((meleeAll m a.cameraPosition fwd dmg a.pools).2.meleeKill = true →
      a.currentTask ≠ TaskMode.TASK_1 →
      (meleeEnemies m a fwd dmg).taskProgress = a.taskProgress) ∧
    ((meleeAll m a.cameraPosition fwd dmg a.pools).2.meleeKill = false →
      (meleeEnemies m a fwd dmg).taskProgress = a.taskProgress) := by
  unfold meleeEnemies
  simp only []
  cases hflag : (meleeAll m a.cameraPosition fwd dmg a.pools).2.meleeKill
  · simp
  · simp only [if_true]
    have e40 : (40.0 : ℚ) = 40 := by norm_num
    have e1 : (1.0 : ℚ) = 1 := by norm_num
    simp only [e40, e1]
    split_ifs
    all_goals first
      | exact ⟨rfl, rfl, fun _ _ => (min_eq_left (le_of_lt (by assumption))).symm,
          fun _ hne => absurd (by assumption) hne, fun h => absurd h (by simp)⟩
      | exact ⟨rfl, rfl, fun _ _ => (min_eq_right (not_lt.mp (by assumption))).symm,
          fun _ hne => absurd (by assumption) hne, fun h => absurd h (by simp)⟩
      | exact ⟨rfl, rfl, fun _ ht => absurd ht (by assumption), fun _ _ => rfl,
          fun h => absurd h (by simp)⟩

end Melee

/-! ## Kills per area event: the claim -/

namespace Barrels

/-- C29: one barrel explosion, and one melee swing at the enemies, add exactly 1 to
`killCount` when the event killed at least one enemy (however many: `kills` counts the
enemies that were alive before the event and are not alive after it) and add 0 when it
killed none; in Task 1 the progress after an event that killed is
`min(1, killCount / 40)` of the new count, and an event that killed nobody leaves the
progress as it was. A shot or a melee swing at the barrels runs at most one such
explosion. -/
theorem kill_count_per_event (m : MathOps) (a : Arena) :
    (∀ bp : Vec3,
      (explode m a bp).killCount
        = a.killCount + (if 1 ≤ a.pools.kills (explode m a bp).pools then 1 else 0) ∧
      (1 ≤ a.pools.kills (explode m a bp).pools → a.currentTask = TaskMode.TASK_1 →
        (explode m a bp).taskProgress = min 1 (((explode m a bp).killCount : ℚ) / 40)) ∧
      (a.pools.kills (explode m a bp).pools = 0 →
        (explode m a bp).taskProgress = a.taskProgress)) ∧
    (∀ (fwd : Vec3) (dmg : Int),
      (Melee.meleeEnemies m a fwd dmg).killCount
        = a.killCount +
          (if 1 ≤ a.pools.kills (Melee.meleeEnemies m a fwd dmg).pools then 1 else 0) ∧
      (1 ≤ a.pools.kills (Melee.meleeEnemies m a fwd dmg).pools →
        a.currentTask = TaskMode.TASK_1 →
        (Melee.meleeEnemies m a fwd dmg).taskProgress
          = min 1 (((Melee.meleeEnemies m a fwd dmg).killCount : ℚ) / 40)) ∧
      (a.pools.kills (Melee.meleeEnemies m a fwd dmg).pools = 0 →
        (Melee.meleeEnemies m a fwd dmg).taskProgress = a.taskProgress)) ∧
    (∀ (fwd : Vec3) (dmg : Int) (bs : List ExplosiveBarrel),
      ((shootBarrels m fwd dmg a bs).2 = a ∨
        ∃ x ∈ bs, (shootBarrels m fwd dmg a bs).2 = explode m a x.position) ∧
      ((meleeBarrels m fwd dmg a bs).2 = a ∨
        ∃ x ∈ bs, (meleeBarrels m fwd dmg a bs).2 = explode m a x.position)) := by
  refine ⟨?_, ?_, ?_⟩
  · intro bp
    have hc := explode_count m a bp
    have hk := splashAll_kill m bp a.pools
    rw [← hc.1] at hk
    by_cases hpos : 1 ≤ a.pools.kills (explode m a bp).pools
    · have hflag := hk.2 hpos
      rw [hflag] at hc
      simp only [if_true] at hc
      refine ⟨by rw [if_pos hpos]; exact hc.2.1, fun _ ht => ?_, fun h0 => by omega⟩
      rw [hc.2.2.1 trivial ht, hc.2.1]
    · have hflag : (splashAll m bp a.pools).2.explosionKill = false := by
        cases h : (splashAll m bp a.pools).2.explosionKill
        · rfl
        · exact absurd (hk.1 h) hpos
      rw [hflag] at hc
      simp only [Bool.false_eq_true, if_false] at hc
      exact ⟨by rw [if_neg hpos]; exact hc.2.1, fun h => absurd h hpos,
        fun _ => hc.2.2.2.2 trivial⟩
  · intro fwd dmg
    have hc := Melee.meleeEnemies_count m a fwd dmg
    have hk := Melee.meleeAll_kill m a.cameraPosition fwd dmg a.pools
    rw [← hc.1] at hk
    by_cases hpos : 1 ≤ a.pools.kills (Melee.meleeEnemies m a fwd dmg).pools
    · have hflag := hk.2 hpos
      rw [hflag] at hc
      simp only [if_true] at hc
      refine ⟨by rw [if_pos hpos]; exact hc.2.1, fun _ ht => ?_, fun h0 => by omega⟩
      rw [hc.2.2.1 trivial ht, hc.2.1]
    · have hflag : (Melee.meleeAll m a.cameraPosition fwd dmg a.pools).2.meleeKill = false := by
        cases h : (Melee.meleeAll m a.cameraPosition fwd dmg a.pools).2.meleeKill
        · rfl
        · exact absurd (hk.1 h) hpos
      rw [hflag] at hc
      simp only [Bool.false_eq_true, if_false] at hc
      exact ⟨by rw [if_neg hpos]; exact hc.2.1, fun h => absurd h hpos,
        fun _ => hc.2.2.2.2 trivial⟩
  · intro fwd dmg bs
    constructor
    · rcases shootBarrels_arena m fwd dmg a bs with h | ⟨x, hx, _, h⟩
      · exact Or.inl h
      · exact Or.inr ⟨x, hx, h⟩
    · rcases meleeBarrels_arena m fwd dmg a bs with h | ⟨x, hx, _, h⟩
      · exact Or.inl h
      · exact Or.inr ⟨x, hx, h⟩

/-- The explosion of a barrel at the origin kills both ducks of `twoDucks`. -/
theorem twoDucks_explode_kills :
    twoDucks.pools.kills (explode MathOps.sample twoDucks ⟨0, 0, 0⟩).pools = 2 := by
  decide!

/-- A melee swing of damage 50 straight ahead kills both ducks of `twoDucks`. -/
theorem twoDucks_melee_kills :
    twoDucks.pools.kills (Melee.meleeEnemies MathOps.sample twoDucks ⟨0, 0, 1⟩ 50).pools = 2 := by
  decide!

/-- C29, at a concrete input with two kills in one event: in Task 1 with no kill counted
yet, the explosion of a barrel between two ducks kills both and counts 1, and so does a
melee swing that kills both; the progress is 1/40 after either. -/
theorem kill_count_per_event_witness :
    (twoDucks.pools.kills (explode MathOps.sample twoDucks ⟨0, 0, 0⟩).pools = 2 ∧
      (explode MathOps.sample twoDucks ⟨0, 0, 0⟩).killCount = twoDucks.killCount + 1 ∧
      (explode MathOps.sample twoDucks ⟨0, 0, 0⟩).killCount = 1 ∧
      (explode MathOps.sample twoDucks ⟨0, 0, 0⟩).taskProgress = 1 / 40) ∧
    (twoDucks.pools.kills (Melee.meleeEnemies MathOps.sample twoDucks ⟨0, 0, 1⟩ 50).pools = 2 ∧
      (Melee.meleeEnemies MathOps.sample twoDucks ⟨0, 0, 1⟩ 50).killCount
        = twoDucks.killCount + 1 ∧
      (Melee.meleeEnemies MathOps.sample twoDucks ⟨0, 0, 1⟩ 50).killCount = 1 ∧
      (Melee.meleeEnemies MathOps.sample twoDucks ⟨0, 0, 1⟩ 50).taskProgress = 1 / 40) := by
  have he := (kill_count_per_event MathOps.sample twoDucks).1 ⟨0, 0, 0⟩
  have hm := (kill_count_per_event MathOps.sample twoDucks).2.1 ⟨0, 0, 1⟩ 50
  have ke := twoDucks_explode_kills
  have km := twoDucks_melee_kills
  have he1 : (explode MathOps.sample twoDucks ⟨0, 0, 0⟩).killCount = twoDucks.killCount + 1 := by
    rw [he.1, ke]; rfl
  have hm1 : (Melee.meleeEnemies MathOps.sample twoDucks ⟨0, 0, 1⟩ 50).killCount
      = twoDucks.killCount + 1 := by
    rw [hm.1, km]; rfl
  have z : twoDucks.killCount = 0 := rfl
  refine ⟨⟨ke, he1, by rw [he1, z]; rfl, ?_⟩, ⟨km, hm1, by rw [hm1, z]; rfl, ?_⟩⟩
  · rw [he.2.1 (by rw [ke]; decide) rfl, he1, z]; norm_num
  · rw [hm.2.1 (by rw [km]; decide) rfl, hm1, z]; norm_num

end Barrels
